import Mathlib

/-!
# osgCompute / osgCuda: the texture memory synchronisation engine

A shallow embedding of `src/osgCompute/Memory.cpp` (the buffer descriptor
`osgCompute::Memory`) and of `src/osgCuda/Texture.cpp` (`TextureObject`,
`TextureMemory::init/map/unmap/reset/setup/alloc/sync/computePitch`).

Conventions.
* `unsigned int` values are natural numbers; products that can overflow are
  reduced with `u32`.
* A pointer or handle is an `Option Nat`; `none` is `NULL`.
* A method that mutates `*this` and returns a value is a function from the
  state to the new state paired with the value: the mutations made before an
  early `return` are kept, as in the source.
* Every call of an external primitive (CUDA runtime, OpenGL interop, libc
  allocation, the load/subload hook) is appended to the `trace` of the state.
  Whether a fallible primitive succeeds, and which handle it returns, is read
  from the environment `Env`, one answer for each call made.
* The bytes of a representation are a function from byte offsets to byte
  values.  Bytes written by collaborators (the caller through a returned
  pointer, a load/subload hook) are changes of these functions made after the
  operation; the operations themselves change them only through the copy and
  fill primitives.
-/

namespace osgCompute

/-- Wrap-around of `unsigned int` arithmetic. -/
def u32 (n : Nat) : Nat := n % 2 ^ 32

/-- The value `UINT_MAX`. -/
def UINT_MAX : Nat := 2 ^ 32 - 1

/-- The enumerators of `osgCompute::Mapping`, `osgCompute::SyncOperation` and of
the usage flags.  They are declared in the header `osgCompute/Memory`, and the
code below only refers to them by name, so they are parameters of the model. -/
structure Header where
  UNMAP : Nat
  MAP_HOST : Nat
  MAP_HOST_SOURCE : Nat
  MAP_HOST_TARGET : Nat
  MAP_DEVICE : Nat
  MAP_DEVICE_SOURCE : Nat
  MAP_DEVICE_TARGET : Nat
  MAP_DEVICE_ARRAY : Nat
  MAP_DEVICE_ARRAY_TARGET : Nat
  NO_SYNC : Nat
  SYNC_DEVICE : Nat
  SYNC_HOST : Nat
  SYNC_ARRAY : Nat
  GL_TARGET : Nat
  GL_SOURCE_COMPUTE_SOURCE : Nat

/-- The C test `if( x & c )`. -/
def hasFlag (x c : Nat) : Bool := (x &&& c) != 0

/-- The C test `if( (x & c) == c )`. -/
def hasAll (x c : Nat) : Bool := (x &&& c) == c

/-- The bytes of one representation, by byte offset. -/
abbrev Bytes := Nat → Nat

/-- The call sites of external primitives in `Texture.cpp`. -/
inductive Site where
  | mapCompileGLObjects
  | mapRegisterImage
  | mapMapResources
  | mapGetMappedArray
  | unmapUnmapResources
  | resetMemsetHost
  | resetMemset3D
  | resetMemset2D
  | resetMemset
  | setupUnmapResources
  | setupUnregisterResource
  | setupApply
  | setupRegisterImage
  | setupDeviceMemcpy3D
  | setupDeviceMemcpy
  | setupHostMemcpy
  | allocMalloc
  | allocCompileGLObjects
  | allocRegisterImage
  | allocMalloc3D
  | allocMallocPitch
  | allocCudaMalloc
  | syncArrayFromHostToArray
  | syncArrayFromHost2DToArray
  | syncArrayFromHostMemcpy3D
  | syncArrayFromDeviceToArray
  | syncArrayFromDevice2DToArray
  | syncArrayFromDeviceMemcpy3D
  | syncDeviceRegisterImage
  | syncDeviceMapResources
  | syncDeviceGetMappedArray
  | syncDeviceFromArray
  | syncDevice2DFromArray
  | syncDeviceMemcpy3D
  | syncDeviceFromHostMemcpy
  | syncHostRegisterImage
  | syncHostMapResources
  | syncHostGetMappedArray
  | syncHostFromArray
  | syncHost2DFromArray
  | syncHostFromArrayMemcpy3D
  | syncHostFromDeviceMemcpy3D
  | syncHostFromDeviceMemcpy2D
  | syncHostFromDeviceMemcpy
  deriving DecidableEq, Repr

/-- The call sites that copy bytes into a representation of the buffer. -/
def Site.isCopy : Site → Bool
  | .setupApply => true
  | .setupDeviceMemcpy3D => true
  | .setupDeviceMemcpy => true
  | .setupHostMemcpy => true
  | .syncArrayFromHostToArray => true
  | .syncArrayFromHost2DToArray => true
  | .syncArrayFromHostMemcpy3D => true
  | .syncArrayFromDeviceToArray => true
  | .syncArrayFromDevice2DToArray => true
  | .syncArrayFromDeviceMemcpy3D => true
  | .syncDeviceFromArray => true
  | .syncDevice2DFromArray => true
  | .syncDeviceMemcpy3D => true
  | .syncDeviceFromHostMemcpy => true
  | .syncHostFromArray => true
  | .syncHost2DFromArray => true
  | .syncHostFromArrayMemcpy3D => true
  | .syncHostFromDeviceMemcpy3D => true
  | .syncHostFromDeviceMemcpy2D => true
  | .syncHostFromDeviceMemcpy => true
  | _ => false

/-- The call sites inside `setup` and `sync`. -/
def Site.isSetupOrSync : Site → Bool
  | .setupUnmapResources => true
  | .setupUnregisterResource => true
  | .setupApply => true
  | .setupRegisterImage => true
  | .setupDeviceMemcpy3D => true
  | .setupDeviceMemcpy => true
  | .setupHostMemcpy => true
  | .syncArrayFromHostToArray => true
  | .syncArrayFromHost2DToArray => true
  | .syncArrayFromHostMemcpy3D => true
  | .syncArrayFromDeviceToArray => true
  | .syncArrayFromDevice2DToArray => true
  | .syncArrayFromDeviceMemcpy3D => true
  | .syncDeviceRegisterImage => true
  | .syncDeviceMapResources => true
  | .syncDeviceGetMappedArray => true
  | .syncDeviceFromArray => true
  | .syncDevice2DFromArray => true
  | .syncDeviceMemcpy3D => true
  | .syncDeviceFromHostMemcpy => true
  | .syncHostRegisterImage => true
  | .syncHostMapResources => true
  | .syncHostGetMappedArray => true
  | .syncHostFromArray => true
  | .syncHost2DFromArray => true
  | .syncHostFromArrayMemcpy3D => true
  | .syncHostFromDeviceMemcpy3D => true
  | .syncHostFromDeviceMemcpy2D => true
  | .syncHostFromDeviceMemcpy => true
  | _ => false

/-- The three representations of the buffer. -/
inductive Representation where
  | host
  | device
  | array
  deriving DecidableEq, Repr

/-- The sync flag (dirty bit) of a representation. -/
def Representation.flag (K : Header) : Representation → Nat
  | .host => K.SYNC_HOST
  | .device => K.SYNC_DEVICE
  | .array => K.SYNC_ARRAY

/-- The representation into which the primitive of a call site copies. -/
def Site.copiesInto : Site → Option Representation
  | .setupApply => some .array
  | .setupDeviceMemcpy3D => some .device
  | .setupDeviceMemcpy => some .device
  | .setupHostMemcpy => some .host
  | .syncArrayFromHostToArray => some .array
  | .syncArrayFromHost2DToArray => some .array
  | .syncArrayFromHostMemcpy3D => some .array
  | .syncArrayFromDeviceToArray => some .array
  | .syncArrayFromDevice2DToArray => some .array
  | .syncArrayFromDeviceMemcpy3D => some .array
  | .syncDeviceFromArray => some .device
  | .syncDevice2DFromArray => some .device
  | .syncDeviceMemcpy3D => some .device
  | .syncDeviceFromHostMemcpy => some .device
  | .syncHostFromArray => some .host
  | .syncHost2DFromArray => some .host
  | .syncHostFromArrayMemcpy3D => some .host
  | .syncHostFromDeviceMemcpy3D => some .host
  | .syncHostFromDeviceMemcpy2D => some .host
  | .syncHostFromDeviceMemcpy => some .host
  | _ => none

/-- What is recorded in the trace. -/
inductive Event where
  /-- an external primitive was called at `site` and reported `ok` -/
  | call (site : Site) (ok : Bool)
  /-- call of `SubloadCallback::load( ptr, mapping, offset, *this )` -/
  | load (ptr mapping offset : Nat)
  /-- call of `SubloadCallback::subload( ptr, mapping, offset, *this )` -/
  | subload (ptr mapping offset : Nat)
  /-- an evaluation of `computePitch()` -/
  | computePitch
  deriving DecidableEq, Repr

/-- The event is a call of the load/subload hook. -/
def Event.isHook : Event → Bool
  | .load _ _ _ => true
  | .subload _ _ _ => true
  | _ => false

/-- The event is a call of a primitive inside `setup` or `sync`. -/
def Event.isSetupOrSync : Event → Bool
  | .call site _ => site.isSetupOrSync
  | _ => false

/-- The event is a call of a copy primitive, with any result. -/
def Event.isCopy : Event → Bool
  | .call site _ => site.isCopy
  | _ => false

/-- The event is a call of a primitive that copies into the representation
`rep` and has succeeded. -/
def Event.copiesInto (rep : Representation) : Event → Bool
  | .call site true => Site.copiesInto site == some rep
  | _ => false

/-- Among the events is a successful copy into the representation `rep`. -/
def copiedInto (rep : Representation) (t : List Event) : Bool :=
  t.any (Event.copiesInto rep)

/-- The representation from which the primitive of a call site of `sync`
copies; the primitives of `setup` copy from the image. -/
def Site.copiesFrom : Site → Option Representation
  | .syncArrayFromHostToArray => some .host
  | .syncArrayFromHost2DToArray => some .host
  | .syncArrayFromHostMemcpy3D => some .host
  | .syncArrayFromDeviceToArray => some .device
  | .syncArrayFromDevice2DToArray => some .device
  | .syncArrayFromDeviceMemcpy3D => some .device
  | .syncDeviceFromArray => some .array
  | .syncDevice2DFromArray => some .array
  | .syncDeviceMemcpy3D => some .array
  | .syncDeviceFromHostMemcpy => some .host
  | .syncHostFromArray => some .array
  | .syncHost2DFromArray => some .array
  | .syncHostFromArrayMemcpy3D => some .array
  | .syncHostFromDeviceMemcpy3D => some .device
  | .syncHostFromDeviceMemcpy2D => some .device
  | .syncHostFromDeviceMemcpy => some .device
  | _ => none

/-- The event is a call, with any result, of a primitive that copies from the
representation `rep`. -/
def Event.copiesFrom (rep : Representation) : Event → Bool
  | .call site _ => Site.copiesFrom site == some rep
  | _ => false

/-- The image `_texref->getImage(0)` as the code observes it. -/
structure Image where
  /-- extents `s()`, `t()`, `r()` -/
  s : Nat
  t : Nat
  r : Nat
  /-- result of `computePixelSizeInBits( getPixelFormat(), getDataType() )` -/
  pixelSizeInBits : Nat
  /-- result of `getModifiedCount()` -/
  modifiedCount : Nat
  /-- the address of the image object -/
  address : Nat
  /-- result of `data()`, `none` when it is `NULL` -/
  data : Option Bytes

/-- The collaborators of one call: the texture `_texref` refers to, and the
answers of the external primitives. -/
structure Env where
  /-- result of `_texref.valid()` -/
  texrefValid : Bool
  /-- result of `_texref->getImage(0)` -/
  image : Option Image
  /-- results of `getTextureWidth()`, `getTextureHeight()`, `getTextureDepth()` -/
  textureWidth : Nat
  textureHeight : Nat
  textureDepth : Nat
  /-- the pixel size in bits computed from `getInternalFormat()` -/
  internalFormatSizeInBits : Nat
  /-- whether `_texref->getTextureObject( contextID )` is not `NULL` -/
  textureObject : Bool
  /-- a registered graphics context with the context id of the memory exists -/
  stateFound : Bool
  /-- whether the primitive called at a site succeeds, for the call that is
  made when the trace holds `n` events -/
  ok : Nat → Site → Bool
  /-- the pointer or handle that call returns when it succeeds -/
  handle : Nat → Site → Nat
  /-- the bytes found in the memory that call allocates -/
  uninit : Nat → Bytes
  /-- the value found behind the local array `dim` of `initDimension` -/
  pastDim : Nat
  /-- the pitch chosen by `cudaMalloc3D` / `cudaMallocPitch` -/
  devicePitch : Nat
  /-- value of `cudaDeviceProp::textureAlignment` -/
  textureAlignment : Nat

end osgCompute

namespace osgCuda
open osgCompute

/-- The class `TextureObject` (with the members of its base
`osgCompute::MemoryObject`), and the bytes its allocations hold. -/
structure TextureObject where
  mapping : Nat
  allocHint : Nat
  syncOp : Nat
  pitch : Nat
  hostPtr : Option Nat
  devPtr : Option Nat
  graphicsArray : Option Nat
  graphicsResource : Option Nat
  lastModifiedCount : Nat
  lastModifiedAddress : Option Nat
  /-- the bytes behind `_hostPtr`, dense -/
  hostMem : Bytes
  /-- the bytes behind `_devPtr`, rows `_pitch` apart for rank 2 and 3 -/
  devMem : Bytes
  /-- the texels of the texture behind `_graphicsArray`, dense -/
  arrayMem : Bytes

/-- The class `TextureMemory` with the members of its bases `GLMemory`,
`Memory` and `Resource`. -/
structure TextureMemory where
  /-- value of `Resource::isClear()` -/
  isClear : Bool
  dimensions : List Nat
  numElements : Nat
  elementSize : Nat
  allocHint : Nat
  /-- a subload callback is installed -/
  subloadCallback : Bool
  pitch : Nat
  _object : Option TextureObject
  usage : Nat
  trace : List Event

end osgCuda

namespace osgCompute
open osgCuda

/-! ## The external copy and fill primitives

The CUDA runtime is not part of the repository.  The functions below state
what a successful copy leaves in the destination, following the CUDA runtime
documentation: a pitched pointer addresses row `y` of slice `z` at byte
`(z * ysize + y) * pitch`; an array is addressed by texel and is modelled as
the dense pitched memory whose pitch is its row size in bytes. -/

/-- Flat copy of `count` bytes: `cudaMemcpy`, `cudaMemcpyToArray`,
`cudaMemcpyFromArray` at offset 0. -/
def memcpyFlat (dst src : Bytes) (count : Nat) : Bytes :=
  fun i => if i < count then src i else dst i

/-- Copy of `height` rows of `width` bytes between memories whose rows are
`dpitch` and `spitch` bytes apart: `cudaMemcpy2D`, `cudaMemcpy2DToArray`,
`cudaMemcpy2DFromArray`. -/
def memcpy2D (dst : Bytes) (dpitch : Nat) (src : Bytes) (spitch width height : Nat) : Bytes :=
  fun i => if i % dpitch < width ∧ i / dpitch < height
    then src (i / dpitch * spitch + i % dpitch) else dst i

/-- Copy of `depth` slices of `height` rows of `width` bytes between two pitched
pointers, `cudaMemcpy3D`; `dysize` and `sysize` are the `ysize` members of the
two pitched pointers. -/
def memcpy3D (dst : Bytes) (dpitch dysize : Nat) (src : Bytes) (spitch sysize : Nat)
    (width height depth : Nat) : Bytes :=
  fun i => if i % dpitch < width ∧ i / dpitch % dysize < height ∧ i / dpitch / dysize < depth
    then src ((i / dpitch / dysize * sysize + i / dpitch % dysize) * spitch + i % dpitch)
    else dst i

/-- Fill of `count` bytes with zero: `memset`, `cudaMemset`. -/
def memsetFlat (dst : Bytes) (count : Nat) : Bytes :=
  fun i => if i < count then 0 else dst i

/-- Fill of `height` rows of `width` bytes with zero: `cudaMemset2D`. -/
def memset2D (dst : Bytes) (pitch width height : Nat) : Bytes :=
  fun i => if i % pitch < width ∧ i / pitch < height then 0 else dst i

/-- Fill of `depth` slices of `height` rows of `width` bytes with zero:
`cudaMemset3D`; `ysize` is the `ysize` member of the pitched pointer. -/
def memset3D (dst : Bytes) (pitch ysize width height depth : Nat) : Bytes :=
  fun i => if i % pitch < width ∧ i / pitch % ysize < height ∧ i / pitch / ysize < depth
    then 0 else dst i

/-! ## `Resource` (its source file is not part of `src/`) -/

namespace Resource

/-- Modelled from the spec: `Resource::init()`, which is declared in a file
that is missing here; per the lifecycle of the descriptor ("`init()` validates
and computes `numElements` and transitions to initialized") it leaves the
resource not clear and reports success. -/
def init (s : TextureMemory) : TextureMemory × Bool :=
  ({ s with isClear := false }, true)

/-- Modelled from the spec: `Resource::clear()`, which is declared in a file
that is missing here; per the lifecycle of the descriptor ("an explicit
`clear()`, which also drops the owned BufferObject") and the comment in
`Memory::clearLocal` ("clearObject() is called implicitly by
Resource::clear()") it drops the object and leaves the resource clear. -/
def clear (s : TextureMemory) : TextureMemory :=
  { s with _object := none, isClear := true }

end Resource

/-! ## `osgCompute::Memory` (`src/osgCompute/Memory.cpp`) -/

namespace Memory

/-- The method `Memory::clearLocal`. -/
def clearLocal (s : TextureMemory) : TextureMemory :=
  { s with dimensions := [], numElements := 0, elementSize := 0, allocHint := 0,
           subloadCallback := false, pitch := 0 }

/-- The method `Memory::clear`. -/
def clear (s : TextureMemory) : TextureMemory :=
  clearLocal (Resource.clear s)

/-- The loop of `Memory::init` that multiplies the extents into `_numElements`. -/
def computeNumElements (dimensions : List Nat) : Nat :=
  dimensions.foldl (fun n d => u32 (n * d)) 1

/-- The method `Memory::init`. -/
def init (s : TextureMemory) : TextureMemory × Bool :=
  if !s.isClear then (s, true)
  else if s.dimensions.isEmpty then (s, false)
  else if s.elementSize == 0 then (s, false)
  else Resource.init { s with numElements := computeNumElements s.dimensions }

/-- The method `Memory::setElementSize`. -/
def setElementSize (s : TextureMemory) (elementSize : Nat) : TextureMemory :=
  if !s.isClear then s else { s with elementSize := elementSize }

/-- The method `Memory::getElementSize`. -/
def getElementSize (s : TextureMemory) : Nat := s.elementSize

/-- The method `Memory::getNumElements`. -/
def getNumElements (s : TextureMemory) : Nat := s.numElements

/-- The method `Memory::getByteSize`. -/
def getByteSize (s : TextureMemory) : Nat :=
  u32 (getElementSize s * getNumElements s)

/-- The effect of `_dimensions.resize( n, 0 )`: a longer list is cut to its
first `n` entries, a shorter one is filled up with zeros. -/
def resize (dimensions : List Nat) (n : Nat) : List Nat :=
  dimensions.take n ++ List.replicate (n - dimensions.length) 0

/-- The list `_dimensions` of `Memory::setDimension` after its statement
`if (_dimensions.size()<=dimIdx) _dimensions.resize(dimIdx+1,0);`, where
`dimIdx+1` is computed in `unsigned int`. -/
def setDimensionResize (dimensions : List Nat) (dimIdx : Nat) : List Nat :=
  if dimensions.length ≤ dimIdx then resize dimensions (u32 (dimIdx + 1)) else dimensions

/-- The method `Memory::setDimension`, with the write of `_dimensions[dimIdx]`
made explicit: `none` is a write outside the list, whose effect is
undefined. -/
def setDimension? (s : TextureMemory) (dimIdx dimSize : Nat) : Option TextureMemory :=
  if !s.isClear then some s
  else if dimIdx < (setDimensionResize s.dimensions dimIdx).length then
    some { s with dimensions := (setDimensionResize s.dimensions dimIdx).set dimIdx dimSize }
  else none

/-- The method `Memory::setDimension` where the write is inside the list; a
write outside the list is given no effect here, see `setDimension?`. -/
def setDimension (s : TextureMemory) (dimIdx dimSize : Nat) : TextureMemory :=
  if !s.isClear then s
  else { s with dimensions := (setDimensionResize s.dimensions dimIdx).set dimIdx dimSize }

/-- The value of `_dimensions.size()-1` in `size_t` arithmetic (64 bits). -/
def sizeMinusOne (dimensions : List Nat) : Nat :=
  (dimensions.length + 2 ^ 64 - 1) % 2 ^ 64

/-- The method `Memory::getDimension`, with the read of `_dimensions[dimIdx]`
made explicit: `none` is a read outside the list, whose value is undefined. -/
def getDimension? (s : TextureMemory) (dimIdx : Nat) : Option Nat :=
  if dimIdx > sizeMinusOne s.dimensions then some 0
  else s.dimensions.get? dimIdx

/-- The method `Memory::getDimension` where the read is inside the list; a
read outside the list is given the value 0 here, see `getDimension?`. -/
def getDimension (s : TextureMemory) (dimIdx : Nat) : Nat :=
  (getDimension? s dimIdx).getD 0

/-- The method `Memory::getNumDimensions`. -/
def getNumDimensions (s : TextureMemory) : Nat := s.dimensions.length

/-- The method `Memory::setAllocHint`. -/
def setAllocHint (s : TextureMemory) (allocHint : Nat) : TextureMemory :=
  if !s.isClear then s else { s with allocHint := s.allocHint ||| allocHint }

/-- The method `Memory::setSubloadCallback`; the state records whether the
callback is not `NULL`. -/
def setSubloadCallback (s : TextureMemory) (sc : Bool) : TextureMemory :=
  { s with subloadCallback := sc }

/-- The method `Memory::getAllocHint`. -/
def getAllocHint (s : TextureMemory) : Nat := s.allocHint

/-- The method `Memory::getMapping`. -/
def getMapping (K : Header) (s : TextureMemory) : Nat :=
  if s.isClear then K.UNMAP
  else match s._object with
    | some memory => memory.mapping
    | none => K.UNMAP

end Memory
end osgCompute

namespace osgCuda
open osgCompute osgCompute.Memory

/-- The constructor `TextureObject::TextureObject` after
`MemoryObject::MemoryObject`. -/
def TextureObject.create (K : Header) : TextureObject :=
  { mapping := K.UNMAP, allocHint := 0, syncOp := K.NO_SYNC, pitch := 0,
    hostPtr := none, devPtr := none, graphicsArray := none, graphicsResource := none,
    lastModifiedCount := UINT_MAX, lastModifiedAddress := none,
    hostMem := fun _ => 0, devMem := fun _ => 0, arrayMem := fun _ => 0 }

namespace TextureMemory

/-- Append an event to the trace. -/
def emit (s : TextureMemory) (e : Event) : TextureMemory :=
  { s with trace := s.trace ++ [e] }

/-- Call the external primitive of a call site: the call is recorded, and the
result is the handle it returns, or `none` when it fails. -/
def call (E : Env) (s : TextureMemory) (site : Site) : TextureMemory × Option Nat :=
  (emit s (.call site (E.ok s.trace.length site)),
   if E.ok s.trace.length site then some (E.handle s.trace.length site) else none)

/-- Call an external primitive that reports no error (`compileGLObjects`,
the upload of `apply`, `memset`): the call is recorded. -/
def callVoid (s : TextureMemory) (site : Site) : TextureMemory :=
  emit s (.call site true)

/-- Write the members of the object back: the local `memory` of the source is
a reference to the object. -/
def setObject (s : TextureMemory) (memory : TextureObject) : TextureMemory :=
  { s with _object := some memory }

/-- The object the local reference `memory` of the source refers to, once
`object()` has returned it. -/
def memory (K : Header) (s : TextureMemory) : TextureObject :=
  s._object.getD (TextureObject.create K)

/-- An assignment to members of the object through the reference `memory`. -/
def modify (K : Header) (s : TextureMemory) (u : TextureObject → TextureObject) :
    TextureMemory :=
  setObject s (u (memory K s))

/-- The method `Memory::object` with `TextureMemory::createObject`. -/
def object (K : Header) (s : TextureMemory) : TextureMemory × Option TextureObject :=
  if s.isClear then (s, none)
  else match s._object with
    | some memory => (s, some memory)
    | none =>
      let newObject : TextureObject :=
        { TextureObject.create K with mapping := K.UNMAP, allocHint := getAllocHint s }
      ({ s with _object := some newObject }, some newObject)

/-- The product `getDimension(0)*getElementSize()` in `unsigned int`. -/
def rowBytes (s : TextureMemory) : Nat :=
  u32 (getDimension s 0 * getElementSize s)

/-- The method `TextureMemory::computePitch`. -/
def computePitch (E : Env) (s : TextureMemory) : Nat :=
  if getDimension s 0 == 0 || getElementSize s == 0 then 0
  else
    let remainingAlignmentBytes := rowBytes s % E.textureAlignment
    if remainingAlignmentBytes != 0 then
      u32 (rowBytes s + (E.textureAlignment - remainingAlignmentBytes))
    else rowBytes s

/-- The method `Memory::getPitch` with `TextureMemory::computePitch`. -/
def getPitch (E : Env) (s : TextureMemory) : TextureMemory × Nat :=
  if s.isClear then (s, 0)
  else if s.pitch == 0 then
    let s := emit s .computePitch
    ({ s with pitch := computePitch E s }, computePitch E s)
  else (s, s.pitch)

/-- The method `TextureMemory::clearLocal`. -/
def clearLocal (s : TextureMemory) : TextureMemory := s

/-- Modelled from the spec: `GLMemory::clear()`, whose source file is missing
here; `GLMemory` adds no member the code under `src/` reads, so it is the
`clear()` of its base `Memory`. -/
def GLMemory_clear (s : TextureMemory) : TextureMemory := Memory.clear s

/-- Modelled from the spec: `GLMemory::init()`, whose source file is missing
here; `GLMemory` adds no member the code under `src/` reads, so it is the
`init()` of its base `Memory`. -/
def GLMemory_init (s : TextureMemory) : TextureMemory × Bool := Memory.init s

/-- The method `TextureMemory::clear`. -/
def clear (s : TextureMemory) : TextureMemory :=
  clearLocal (GLMemory_clear s)

/-- The local array `dim` of `initDimension`. -/
def initDimensionDim (E : Env) : List Nat :=
  match E.image with
  | some image => [image.s, image.t, image.r]
  | none => [E.textureWidth, E.textureHeight, E.textureDepth]

/-- The loop `while( dim[d] > 1 && d < 3 )` of `initDimension`; the second
component lists the indices at which `dim` was read, in order. -/
def initDimensionLoop (E : Env) :
    Nat → Nat → TextureMemory → List Nat → TextureMemory × List Nat
  | 0, _, s, reads => (s, reads)
  | fuel + 1, d, s, reads =>
    let dimd := (initDimensionDim E).getD d E.pastDim
    if dimd > 1 && d < 3 then
      initDimensionLoop E fuel (d + 1) (setDimension s d dimd) (reads ++ [d])
    else (s, reads ++ [d])

/-- The method `TextureMemory::initDimension`. -/
def initDimension (E : Env) (s : TextureMemory) : TextureMemory × Bool :=
  if (initDimensionDim E).getD 0 E.pastDim == 0 then (s, false)
  else ((initDimensionLoop E 4 0 s []).1, true)

/-- The method `TextureMemory::initElementSize`. -/
def initElementSize (E : Env) (s : TextureMemory) : TextureMemory × Bool :=
  let elementBitSize :=
    match E.image with
    | some image => image.pixelSizeInBits
    | none => E.internalFormatSizeInBits
  let elementSize :=
    if elementBitSize % 8 == 0 then elementBitSize / 8 else elementBitSize / 8 + 1
  if elementSize == 0 then (s, false)
  else (setElementSize s elementSize, true)

/-- The method `TextureMemory::init`. -/
def init (E : Env) (s : TextureMemory) : TextureMemory × Bool :=
  if !s.isClear || !E.texrefValid then (s, true)
  else
    match initElementSize E s with
    | (s, false) => (clear s, false)
    | (s, true) =>
      match initDimension E s with
      | (s, false) => (clear s, false)
      | (s, true) => GLMemory_init s

/-- The lookup of the texture object of the context in `map` and `alloc`:
when there is none, the state of the context is searched and the texture is
compiled.  The local `state` of the source is not initialised; a search that
finds no context is taken to leave it `NULL`, which is the case the source
tests for.  The result is `false` when the caller returns. -/
def findTextureObject (E : Env) (s : TextureMemory) (compile : Site) : TextureMemory × Bool :=
  if !E.textureObject then
    if !E.stateFound then (s, false)
    else (callVoid s compile, true)
  else (s, true)

/-- The method `TextureMemory::alloc`. -/
def alloc (K : Header) (E : Env) (s : TextureMemory) (mapping : Nat) : TextureMemory × Bool :=
  match object K s with
  | (s, none) => (s, false)
  | (s, some memory) =>
    if hasFlag mapping K.MAP_HOST then
      if memory.hostPtr != none then (s, true)
      else
        let uninit := E.uninit s.trace.length
        match call E s .allocMalloc with
        | (s, none) => (s, false)
        | (s, some p) => (setObject s { memory with hostPtr := some p, hostMem := uninit }, true)
    else if hasAll mapping K.MAP_DEVICE_ARRAY then
      if memory.graphicsResource != none then (s, true)
      else
        match findTextureObject E s .allocCompileGLObjects with
        | (s, false) => (s, false)
        | (s, true) =>
          match call E s .allocRegisterImage with
          | (s, none) => (s, false)
          | (s, some r) => (setObject s { memory with graphicsResource := some r }, true)
    else if hasFlag mapping K.MAP_DEVICE then
      if memory.devPtr != none then (s, true)
      else
        let uninit := E.uninit s.trace.length
        if getNumDimensions s == 3 then
          match call E s .allocMalloc3D with
          | (s, none) => (s, false)
          | (s, some p) =>
            (setObject s { memory with pitch := u32 E.devicePitch, devPtr := some p,
                                       devMem := uninit }, true)
        else if getNumDimensions s == 2 then
          match call E s .allocMallocPitch with
          | (s, none) => (s, false)
          | (s, some p) =>
            (setObject s { memory with pitch := u32 E.devicePitch, devPtr := some p,
                                       devMem := uninit }, true)
        else
          match call E s .allocCudaMalloc with
          | (s, none) => (s, false)
          | (s, some p) =>
            (setObject s { memory with devPtr := some p, pitch := rowBytes s,
                                       devMem := uninit }, true)
    else (s, false)

/-- One copy primitive of `sync` or `setup`: the call is recorded; when it
succeeds the bytes `update memory` are left in the object, when it fails the
caller returns `false`. -/
def copyCall (E : Env) (s : TextureMemory) (site : Site)
    (update : TextureObject → TextureObject) : TextureMemory × Bool :=
  match call E s site with
  | (s, none) => (s, false)
  | (s, some _) =>
    match s._object with
    | some memory => (setObject s (update memory), true)
    | none => (s, true)

/-- The registration and mapping of the texture in `sync`, before a copy from
the array (the blocks `if( memory._graphicsResource == NULL )` and
`if( memory._graphicsArray == NULL )`). -/
def syncMapArray (E : Env) (s : TextureMemory) (memory : TextureObject)
    (registerImage mapResources getMappedArray : Site) : TextureMemory × Bool :=
  let registered : TextureMemory × Option TextureObject :=
    if memory.graphicsResource == none then
      if !E.textureObject then (s, none)
      else
        match call E s registerImage with
        | (s, none) => (s, none)
        | (s, some r) =>
          (setObject s { memory with graphicsResource := some r },
           some { memory with graphicsResource := some r })
    else (s, some memory)
  match registered with
  | (s, none) => (s, false)
  | (s, some memory) =>
    if memory.graphicsArray == none then
      match call E s mapResources with
      | (s, none) => (s, false)
      | (s, some _) =>
        match call E s getMappedArray with
        | (s, none) => (s, false)
        | (s, some a) => (setObject s { memory with graphicsArray := some a }, true)
    else (s, true)

/-- The copy into the array that the array branch of `sync` selects (lines
1123-1236): from the host memory when the device flag is set, else from the
device memory. -/
def syncArrayCopy (K : Header) (E : Env) (s : TextureMemory) (memory : TextureObject) :
    TextureMemory × Bool :=
  let d0 := getDimension s 0
  let d1 := getDimension s 1
  let d2 := getDimension s 2
  let es := getElementSize s
  if hasFlag memory.syncOp K.SYNC_DEVICE then
    -- Copy from host memory
    let first : TextureMemory × Bool :=
      if getNumDimensions s < 2 then
        copyCall E s .syncArrayFromHostToArray
          (fun m => { m with arrayMem := memcpyFlat m.arrayMem m.hostMem (getByteSize s) })
      else (s, true)
    match first with
    | (s, false) => (s, false)
    | (s, true) =>
      if getNumDimensions s == 2 then
        copyCall E s .syncArrayFromHost2DToArray
          (fun m => { m with
            arrayMem := memcpy2D m.arrayMem (rowBytes s) m.hostMem (rowBytes s) (rowBytes s) d1 })
      else
        copyCall E s .syncArrayFromHostMemcpy3D
          (fun m => { m with
            arrayMem := memcpy3D m.arrayMem (d0 * es) d1 m.hostMem (rowBytes s) d1 (d0 * es) d1 d2 })
  else
    -- Copy from device memory
    if getNumDimensions s < 2 then
      copyCall E s .syncArrayFromDeviceToArray
        (fun m => { m with arrayMem := memcpyFlat m.arrayMem m.devMem (getByteSize s) })
    else if getNumDimensions s == 2 then
      copyCall E s .syncArrayFromDevice2DToArray
        (fun m => { m with
          arrayMem := memcpy2D m.arrayMem (rowBytes s) m.devMem m.pitch (rowBytes s) d1 })
    else
      copyCall E s .syncArrayFromDeviceMemcpy3D
        (fun m => { m with
          arrayMem := memcpy3D m.arrayMem (d0 * es) d1 m.devMem m.pitch d1 (d0 * es) d1 d2 })

/-- The array branch of `TextureMemory::sync` (lines 1107-1240). -/
def syncArray (K : Header) (E : Env) (s : TextureMemory) (memory : TextureObject) :
    TextureMemory × Bool :=
  if !hasFlag memory.syncOp K.SYNC_ARRAY then (s, true)
  else if (hasFlag memory.syncOp K.SYNC_DEVICE && memory.hostPtr == none) ||
          (hasFlag memory.syncOp K.SYNC_HOST && memory.devPtr == none) ||
          (hasFlag memory.syncOp K.SYNC_DEVICE && hasFlag memory.syncOp K.SYNC_HOST) then
    (s, false)
  else
    match syncArrayCopy K E s memory with
    | (s, false) => (s, false)
    | (s, true) =>
      (modify K s (fun m => { m with syncOp := m.syncOp ^^^ K.SYNC_ARRAY }),
       true)

/-- The copy into the device memory that the device branch of `sync` selects
(lines 1256-1388): from the array when the host flag is set, else from the
host memory. -/
def syncDeviceCopy (K : Header) (E : Env) (s : TextureMemory) (memory : TextureObject) :
    TextureMemory × Bool :=
  let d0 := getDimension s 0
  let d1 := getDimension s 1
  let d2 := getDimension s 2
  let es := getElementSize s
  if hasFlag memory.syncOp K.SYNC_HOST then
    match syncMapArray E s memory .syncDeviceRegisterImage .syncDeviceMapResources
        .syncDeviceGetMappedArray with
    | (s, false) => (s, false)
    | (s, true) =>
      -- Copy from array
      if getNumDimensions s == 1 then
        copyCall E s .syncDeviceFromArray
          (fun m => { m with devMem := memcpyFlat m.devMem m.arrayMem (getByteSize s) })
      else if getNumDimensions s == 2 then
        copyCall E s .syncDevice2DFromArray
          (fun m => { m with
            devMem := memcpy2D m.devMem m.pitch m.arrayMem (rowBytes s) (rowBytes s) d1 })
      else
        copyCall E s .syncDeviceMemcpy3D
          (fun m => { m with
            devMem := memcpy3D m.devMem m.pitch d1 m.arrayMem (d0 * es) d1 (d0 * es) d1 d2 })
  else
    -- Copy from host memory
    copyCall E s .syncDeviceFromHostMemcpy
      (fun m => { m with devMem := memcpyFlat m.devMem m.hostMem (getByteSize s) })

/-- The device branch of `TextureMemory::sync` (lines 1241-1392). -/
def syncDevice (K : Header) (E : Env) (s : TextureMemory) (memory : TextureObject) :
    TextureMemory × Bool :=
  if !hasFlag memory.syncOp K.SYNC_DEVICE then (s, true)
  else if (hasFlag memory.syncOp K.SYNC_ARRAY && memory.hostPtr == none) ||
          (hasFlag memory.syncOp K.SYNC_ARRAY && hasFlag memory.syncOp K.SYNC_HOST) then
    (s, false)
  else
    match syncDeviceCopy K E s memory with
    | (s, false) => (s, false)
    | (s, true) =>
      (modify K s (fun m => { m with syncOp := m.syncOp ^^^ K.SYNC_DEVICE }),
       true)

/-- The copy into the host memory that the host branch of `sync` selects
(lines 1408-1592): from the array when the device flag is set, else from the
device memory. -/
def syncHostCopy (K : Header) (E : Env) (s : TextureMemory) (memory : TextureObject) :
    TextureMemory × Bool :=
  let d0 := getDimension s 0
  let d1 := getDimension s 1
  let d2 := getDimension s 2
  let es := getElementSize s
  if hasFlag memory.syncOp K.SYNC_DEVICE then
    match syncMapArray E s memory .syncHostRegisterImage .syncHostMapResources
        .syncHostGetMappedArray with
    | (s, false) => (s, false)
    | (s, true) =>
      -- Copy from array
      if getNumDimensions s == 1 then
        copyCall E s .syncHostFromArray
          (fun m => { m with hostMem := memcpyFlat m.hostMem m.arrayMem (getByteSize s) })
      else if getNumDimensions s == 2 then
        copyCall E s .syncHost2DFromArray
          (fun m => { m with
            hostMem := memcpy2D m.hostMem (rowBytes s) m.arrayMem (rowBytes s) (rowBytes s) d1 })
      else
        copyCall E s .syncHostFromArrayMemcpy3D
          (fun m => { m with
            hostMem := memcpy3D m.hostMem (rowBytes s) d1 m.arrayMem (d0 * es) d1 (d0 * es) d1 d2 })
  else
    -- Copy from device ptr
    if getNumDimensions s == 3 then
      copyCall E s .syncHostFromDeviceMemcpy3D
        (fun m => { m with
          hostMem := memcpy3D m.hostMem (rowBytes s) d1 m.devMem m.pitch d1 (rowBytes s) d1 d2 })
    else if getNumDimensions s == 2 then
      copyCall E s .syncHostFromDeviceMemcpy2D
        (fun m => { m with
          hostMem := memcpy2D m.hostMem (rowBytes s) m.devMem m.pitch (rowBytes s) d1 })
    else
      copyCall E s .syncHostFromDeviceMemcpy
        (fun m => { m with hostMem := memcpyFlat m.hostMem m.devMem (getByteSize s) })

/-- The host branch of `TextureMemory::sync` (lines 1393-1596). -/
def syncHost (K : Header) (E : Env) (s : TextureMemory) (memory : TextureObject) :
    TextureMemory × Bool :=
  if !hasFlag memory.syncOp K.SYNC_HOST then (s, true)
  else if (hasFlag memory.syncOp K.SYNC_ARRAY && memory.devPtr == none) ||
          (hasFlag memory.syncOp K.SYNC_ARRAY && hasFlag memory.syncOp K.SYNC_DEVICE) then
    (s, false)
  else
    match syncHostCopy K E s memory with
    | (s, false) => (s, false)
    | (s, true) =>
      (modify K s (fun m => { m with syncOp := m.syncOp ^^^ K.SYNC_HOST }),
       true)

/-- The method `TextureMemory::sync`. -/
def sync (K : Header) (E : Env) (s : TextureMemory) (mapping : Nat) : TextureMemory × Bool :=
  match object K s with
  | (s, none) => (s, false)
  | (s, some memory) =>
    if hasAll mapping K.MAP_DEVICE_ARRAY then syncArray K E s memory
    else if hasFlag mapping K.MAP_DEVICE then syncDevice K E s memory
    else if hasFlag mapping K.MAP_HOST then syncHost K E s memory
    else (s, false)

/-- The adapter method `Texture2D::apply` (and its copies in `Texture3D` and
`TextureRectangle`), to which `_texref->apply( *state )` dispatches: it calls
`_memory->unmap()` when the memory is not clear and the state is the one of
the context of the memory, which is the state `setup` has looked up, and then
the `apply` of the OSG texture, which uploads the image to the texture.
`unmap` is the method `unmap` of the memory; `none` is a call that does not
return. -/
def adapterApply (unmap : TextureMemory → Option TextureMemory)
    (s : TextureMemory) (image : Image) : Option TextureMemory :=
  match (if !s.isClear then unmap s else some s) with
  | none => none
  | some s =>
    let s := callVoid s .setupApply
    match s._object, image.data with
    | some memory, some data => some (setObject s { memory with arrayMem := data })
    | _, _ => some s

/-- The array branch of `TextureMemory::setup` (lines 762-844). -/
def setupArray (unmap : TextureMemory → Option TextureMemory) (K : Header) (E : Env)
    (s : TextureMemory) (image : Image) : Option (TextureMemory × Bool) :=
  -- UNREGISTER TEX
  let unmapped : TextureMemory × Bool :=
    if (memory K s).graphicsArray != none then
      match call E s .setupUnmapResources with
      | (s, none) => (s, false)
      | (s, some _) => (modify K s (fun m => { m with graphicsArray := none }), true)
    else (s, true)
  match unmapped with
  | (s, false) => some (s, false)
  | (s, true) =>
    let unregistered : TextureMemory × Bool :=
      if (memory K s).graphicsResource != none then
        match call E s .setupUnregisterResource with
        | (s, none) => (s, false)
        | (s, some _) => (modify K s (fun m => { m with graphicsResource := none }), true)
      else (s, true)
    match unregistered with
    | (s, false) => some (s, false)
    | (s, true) =>
      -- UPDATE TEX
      if !E.stateFound then some (s, false)
      else
        match adapterApply unmap s image with
        | none => none
        | some s =>
          -- REGISTER TEX
          match call E s .setupRegisterImage with
          | (s, none) => some (s, false)
          | (s, some r) =>
            let s := modify K s (fun m => { m with graphicsResource := some r })
            let s :=
              if hasAll (memory K s).syncOp K.SYNC_ARRAY then
                modify K s (fun m => { m with syncOp := m.syncOp ^^^ K.SYNC_ARRAY })
              else s
            let s := modify K s (fun m => { m with syncOp := m.syncOp ||| K.SYNC_DEVICE })
            let s := modify K s (fun m => { m with syncOp := m.syncOp ||| K.SYNC_HOST })
            some (modify K s (fun m => { m with
                    lastModifiedCount := image.modifiedCount,
                    lastModifiedAddress := some image.address }), true)

/-- The copy of the image into the device memory in `setup` (lines 857-887). -/
def setupDeviceCopy (E : Env) (s : TextureMemory) (data : Bytes) : TextureMemory × Bool :=
  if getNumDimensions s == 3 then
    copyCall E s .setupDeviceMemcpy3D
      (fun m => { m with
        devMem := memcpy3D m.devMem m.pitch (getDimension s 1) data m.pitch
                    (getDimension s 1) (rowBytes s) (getDimension s 1) (getDimension s 2) })
  else
    copyCall E s .setupDeviceMemcpy
      (fun m => { m with devMem := memcpyFlat m.devMem data (getByteSize s) })

/-- The device branch of `TextureMemory::setup` (lines 845-897). -/
def setupDevice (K : Header) (E : Env) (s : TextureMemory) (image : Image) :
    TextureMemory × Bool :=
  match image.data with
  | none => (s, false)
  | some data =>
    match setupDeviceCopy E s data with
    | (s, false) => (s, false)
    | (s, true) =>
      let s :=
        if hasAll (memory K s).syncOp K.SYNC_DEVICE then
          modify K s (fun m => { m with syncOp := m.syncOp ^^^ K.SYNC_DEVICE })
        else s
      -- device must be synchronized
      let s := modify K s (fun m => { m with syncOp := m.syncOp ||| K.SYNC_HOST })
      let s := modify K s (fun m => { m with syncOp := m.syncOp ||| K.SYNC_ARRAY })
      (modify K s (fun m => { m with
          lastModifiedCount := image.modifiedCount,
          lastModifiedAddress := some image.address }), true)

/-- The host branch of `TextureMemory::setup` (lines 898-930). -/
def setupHost (K : Header) (E : Env) (s : TextureMemory) (image : Image) :
    TextureMemory × Bool :=
  match image.data with
  | none => (s, false)
  | some data =>
    match copyCall E s .setupHostMemcpy
        (fun m => { m with hostMem := memcpyFlat m.hostMem data (getByteSize s) }) with
    | (s, false) => (s, false)
    | (s, true) =>
      let s :=
        if hasAll (memory K s).syncOp K.SYNC_HOST then
          modify K s (fun m => { m with syncOp := m.syncOp ^^^ K.SYNC_HOST })
        else s
      -- device must be synchronized
      let s := modify K s (fun m => { m with syncOp := m.syncOp ||| K.SYNC_DEVICE })
      let s := modify K s (fun m => { m with syncOp := m.syncOp ||| K.SYNC_ARRAY })
      (modify K s (fun m => { m with
          lastModifiedCount := image.modifiedCount,
          lastModifiedAddress := some image.address }), true)

/-- The method `TextureMemory::setup`, given the method `unmap` it reaches
through `_texref->apply`.  It dereferences `_texref->getImage(0)`; `map` calls
it only where the image is not `NULL`, and with no image the model lets it
fail.  `none` is a call that does not return. -/
def setupBody (unmap : TextureMemory → Option TextureMemory) (K : Header) (E : Env)
    (s : TextureMemory) (mapping : Nat) : Option (TextureMemory × Bool) :=
  match object K s with
  | (s, none) => some (s, false)
  | (s, some _) =>
    match E.image with
    | none => some (s, false)
    | some image =>
      if hasAll mapping K.MAP_DEVICE_ARRAY then setupArray unmap K E s image
      else if hasFlag mapping K.MAP_DEVICE then some (setupDevice K E s image)
      else if hasFlag mapping K.MAP_HOST then some (setupHost K E s image)
      else some (s, true)

/-- The render-target block of `TextureMemory::map` (lines 308-360).  The
result is `false` where the source leaves `map` with `return false`, which is
a `NULL` result. -/
def mapRenderTarget (K : Header) (E : Env) (s : TextureMemory) : TextureMemory × Bool :=
  if hasFlag s.usage K.GL_TARGET && !hasFlag (memory K s).syncOp K.SYNC_ARRAY then
    let registered : TextureMemory × Bool :=
      if (memory K s).graphicsResource == none then
        -- Initialize texture resource if it is a render target
        match findTextureObject E s .mapCompileGLObjects with
        | (s, false) => (s, false)
        | (s, true) =>
          match call E s .mapRegisterImage with
          | (s, none) => (s, false)
          | (s, some r) => (modify K s (fun m => { m with graphicsResource := some r }), true)
      else (s, true)
    match registered with
    | (s, false) => (s, false)
    | (s, true) =>
      let s := modify K s (fun m => { m with syncOp := m.syncOp ||| K.SYNC_DEVICE })
      (modify K s (fun m => { m with syncOp := m.syncOp ||| K.SYNC_HOST }), true)
  else (s, true)

/-- The test of `map` for a changed image (lines 372-377). -/
def needsSetup (K : Header) (E : Env) (s : TextureMemory) : Bool :=
  match E.image with
  | none => false
  | some image =>
    (memory K s).lastModifiedCount != image.modifiedCount ||
    (memory K s).lastModifiedAddress != some image.address

/-- The steps SETUP STREAM and SYNC STREAM that the three branches of `map`
share: `setup` when the image has changed, `sync` when the flag `syncFlag` of
the mapped representation is set.  The result is `false` where `map` returns
`NULL`. -/
def mapSetupSync (unmap : TextureMemory → Option TextureMemory) (K : Header) (E : Env)
    (s : TextureMemory) (mapping : Nat) (needsSetup : Bool) (syncFlag : Nat) :
    Option (TextureMemory × Bool) :=
  match (if needsSetup then setupBody unmap K E s mapping else some (s, true)) with
  | none => none
  | some (s, false) => some (s, false)
  | some (s, true) =>
    if hasFlag (memory K s).syncOp syncFlag then some (sync K E s mapping)
    else some (s, true)

/-- The host branch of `TextureMemory::map` (lines 379-407): the new state
and, unless `map` returns `NULL` here, the value of `ptr` and of `firstLoad`. -/
def mapHost (unmap : TextureMemory → Option TextureMemory) (K : Header) (E : Env)
    (s : TextureMemory) (mapping : Nat) (needsSetup : Bool) :
    Option (TextureMemory × Option (Option Nat × Bool)) :=
  -- ALLOCATE HOST-MEMORY
  let allocated : TextureMemory × Option Bool :=
    if (memory K s).hostPtr == none then
      match alloc K E s mapping with
      | (s, false) => (s, none)
      | (s, true) => (s, some true)
    else (s, some false)
  match allocated with
  | (s, none) => some (s, none)
  | (s, some firstLoad) =>
    match mapSetupSync unmap K E s mapping needsSetup K.SYNC_HOST with
    | none => none
    | some (s, false) => some (s, none)
    | some (s, true) => some (s, some ((memory K s).hostPtr, firstLoad))

/-- The array branch of `TextureMemory::map` (lines 408-466). -/
def mapArray (unmap : TextureMemory → Option TextureMemory) (K : Header) (E : Env)
    (s : TextureMemory) (mapping : Nat) (needsSetup : Bool) :
    Option (TextureMemory × Option (Option Nat × Bool)) :=
  -- MAP ARRAY-MEMORY
  let allocated : TextureMemory × Option Bool :=
    if (memory K s).graphicsResource == none then
      match alloc K E s mapping with
      | (s, false) => (s, none)
      | (s, true) => (s, some true)
    else (s, some false)
  match allocated with
  | (s, none) => some (s, none)
  | (s, some firstLoad) =>
    -- MAP VBO
    let mapped : TextureMemory × Bool :=
      if (memory K s).graphicsArray == none then
        match call E s .mapMapResources with
        | (s, none) => (s, false)
        | (s, some _) =>
          match call E s .mapGetMappedArray with
          | (s, none) => (s, false)
          | (s, some a) => (modify K s (fun m => { m with graphicsArray := some a }), true)
      else (s, true)
    match mapped with
    | (s, false) => some (s, none)
    | (s, true) =>
      match mapSetupSync unmap K E s mapping needsSetup K.SYNC_ARRAY with
      | none => none
      | some (s, false) => some (s, none)
      | some (s, true) => some (s, some ((memory K s).graphicsArray, firstLoad))

/-- The device branch of `TextureMemory::map` (lines 467-495). -/
def mapDevice (unmap : TextureMemory → Option TextureMemory) (K : Header) (E : Env)
    (s : TextureMemory) (mapping : Nat) (needsSetup : Bool) :
    Option (TextureMemory × Option (Option Nat × Bool)) :=
  -- ALLOCATE DEVICE-MEMORY
  let allocated : TextureMemory × Option Bool :=
    if (memory K s).devPtr == none then
      match alloc K E s mapping with
      | (s, false) => (s, none)
      | (s, true) => (s, some true)
    else (s, some false)
  match allocated with
  | (s, none) => some (s, none)
  | (s, some firstLoad) =>
    match mapSetupSync unmap K E s mapping needsSetup K.SYNC_DEVICE with
    | none => none
    | some (s, false) => some (s, none)
    | some (s, true) => some (s, some ((memory K s).devPtr, firstLoad))

/-- The part MAP DATA of `TextureMemory::map` (lines 365-504): the mapping is
recorded, the image is tested for a change, and the branch of the mapped
representation runs.  The result is that of the branch. -/
def mapData (unmap : TextureMemory → Option TextureMemory) (K : Header) (E : Env)
    (s : TextureMemory) (mapping : Nat) :
    Option (TextureMemory × Option (Option Nat × Bool)) :=
  let s := modify K s (fun m => { m with mapping := mapping })
  let needsSetup := needsSetup K E s
  if hasFlag mapping K.MAP_HOST then mapHost unmap K E s mapping needsSetup
  else if hasAll mapping K.MAP_DEVICE_ARRAY then mapArray unmap K E s mapping needsSetup
  else if hasFlag mapping K.MAP_DEVICE then mapDevice unmap K E s mapping needsSetup
  else some (s, none)

/-- The end of `TextureMemory::map` (lines 506-541), once `ptr` is not `NULL`:
the load or subload hook, the flags a write-intent mapping sets, and the
returned pointer. -/
def mapFinish (K : Header) (s : TextureMemory) (mapping offset : Nat) (ptr : Nat)
    (firstLoad : Bool) : TextureMemory × Option Nat :=
  -- LOAD/SUBLOAD
  let s :=
    if s.subloadCallback then
      if firstLoad then emit s (.load ptr mapping offset)
      else emit s (.subload ptr mapping offset)
    else s
  let s :=
    if hasAll mapping K.MAP_DEVICE_ARRAY_TARGET then
      let s := modify K s (fun m => { m with syncOp := m.syncOp ||| K.SYNC_DEVICE })
      modify K s (fun m => { m with syncOp := m.syncOp ||| K.SYNC_HOST })
    else if hasAll mapping K.MAP_DEVICE_TARGET then
      let s := modify K s (fun m => { m with syncOp := m.syncOp ||| K.SYNC_ARRAY })
      modify K s (fun m => { m with syncOp := m.syncOp ||| K.SYNC_HOST })
    else if hasAll mapping K.MAP_HOST_TARGET then
      let s := modify K s (fun m => { m with syncOp := m.syncOp ||| K.SYNC_ARRAY })
      modify K s (fun m => { m with syncOp := m.syncOp ||| K.SYNC_DEVICE })
    else s
  (s, some (ptr + offset))

/-- The part of `TextureMemory::map` that follows RECEIVE HANDLE (lines
308-541): the render-target block, the part MAP DATA and the end of `map`. -/
def mapMain (unmap : TextureMemory → Option TextureMemory) (K : Header) (E : Env)
    (s : TextureMemory) (mapping offset : Nat) : Option (TextureMemory × Option Nat) :=
  match mapRenderTarget K E s with
  | (s, false) => some (s, none)
  | (s, true) =>
    match mapData unmap K E s mapping with
    | none => none
    | some (s, none) => some (s, none)
    | some (s, some (none, _)) => some (s, none)
    | some (s, some (some ptr, firstLoad)) => some (mapFinish K s mapping offset ptr firstLoad)

/-- The method `TextureMemory::map`, given the method `unmap` it calls for the
mapping `UNMAP` and reaches through `setup`.  The result is the new state and
the returned pointer; `none` is a call that does not return. -/
def mapBody (unmap : TextureMemory → Option TextureMemory) (K : Header) (E : Env)
    (s : TextureMemory) (mapping offset : Nat) : Option (TextureMemory × Option Nat) :=
  if !E.texrefValid then some (s, none)
  else
    match (if s.isClear then init E s else (s, true)) with
    | (s, false) => some (s, none)
    | (s, true) =>
      if mapping == K.UNMAP then
        match unmap s with
        | none => none
        | some s => some (s, none)
      else
        -- RECEIVE HANDLE
        match object K s with
        | (s, none) => some (s, none)
        | (s, some _) => mapMain unmap K E s mapping offset

/-- The block of `TextureMemory::unmap` that marks the host and the device
memory when the memory is unmapped and the image has changed (lines
576-583). -/
def unmapMark (K : Header) (E : Env) (s : TextureMemory) : TextureMemory :=
  match E.image with
  | some image =>
    if (memory K s).mapping == K.UNMAP &&
       image.modifiedCount != (memory K s).lastModifiedCount then
      -- Array is initialized during rendering. Sync others.
      let s := modify K s (fun m => { m with syncOp := K.SYNC_DEVICE ||| K.SYNC_HOST })
      modify K s (fun m => { m with lastModifiedCount := image.modifiedCount })
    else s
  | none => s

/-- The end of `TextureMemory::unmap` (lines 585-602): the mapped array is
released and the mapping `UNMAP` is recorded; the result is the state in which
`unmap` returns. -/
def unmapRelease (K : Header) (E : Env) (s : TextureMemory) : TextureMemory :=
  -- Change current context to render context
  let unmapped : TextureMemory × Bool :=
    if (memory K s).graphicsArray != none then
      match call E s .unmapUnmapResources with
      | (s, none) => (s, false)
      | (s, some _) => (modify K s (fun m => { m with graphicsArray := none }), true)
    else (s, true)
  match unmapped with
  | (s, false) => s
  | (s, true) => modify K s (fun m => { m with mapping := K.UNMAP })

/-- The method `TextureMemory::unmap`, given the method `map` it calls.
`none` is a call that does not return. -/
def unmapBody (map : TextureMemory → Nat → Nat → Option (TextureMemory × Option Nat))
    (K : Header) (E : Env) (s : TextureMemory) : Option TextureMemory :=
  if !E.texrefValid then some s
  else
    match (if s.isClear then init E s else (s, true)) with
    | (s, false) => some s
    | (s, true) =>
      -- RECEIVE HANDLE
      match object K s with
      | (s, none) => some s
      | (s, some _) =>
        -- Copy current memory to texture memory
        let flushed : Option (TextureMemory × Bool) :=
          if hasFlag (memory K s).syncOp K.SYNC_ARRAY then
            match map s K.MAP_DEVICE_ARRAY 0 with
            | none => none
            | some (s, none) => some (s, false)
            | some (s, some _) => some (s, true)
          else some (s, true)
        match flushed with
        | none => none
        | some (s, false) => some s
        | some (s, true) => some (unmapRelease K E (unmapMark K E s))

/-- The method `TextureMemory::unmap`; `fuel` bounds the depth to which `unmap`
is entered again from inside itself (through `map`, `setup` and the `apply` of
the adapter), and `none` is a call that needs a greater depth. -/
def unmap (K : Header) (E : Env) : Nat → TextureMemory → Option TextureMemory
  | 0, _ => none
  | fuel + 1, s => unmapBody (fun s mapping offset => mapBody (unmap K E fuel) K E s mapping offset) K E s

/-- The method `TextureMemory::map`; the argument `hint` of the source is only
handed to `unmap`, which ignores it.  `fuel` bounds the depth to which `unmap`
is entered, and `none` is a call that needs a greater depth. -/
def map (K : Header) (E : Env) (fuel : Nat) (s : TextureMemory) (mapping offset : Nat) :
    Option (TextureMemory × Option Nat) :=
  mapBody (unmap K E fuel) K E s mapping offset

/-- The method `TextureMemory::setup`. -/
def setup (K : Header) (E : Env) (fuel : Nat) (s : TextureMemory) (mapping : Nat) :
    Option (TextureMemory × Bool) :=
  setupBody (unmap K E fuel) K E s mapping

/-- The block "Reset host memory" of `TextureMemory::reset` (lines 629-639);
`memset` returns its first argument, which is not `NULL` here, so the `return
false` of the block is not reached. -/
def resetHost (K : Header) (E : Env) (s : TextureMemory) : TextureMemory :=
  if (memory K s).hostPtr != none && E.image.isNone then
    let s := callVoid s .resetMemsetHost
    modify K s (fun m => { m with
      hostMem := memsetFlat m.hostMem (getByteSize s) })
  else s

/-- The block "clear shadow-copy memory" of `TextureMemory::reset` (lines
641-692) with the final `return true`; `fuel` is the depth granted to the
`unmap` it calls when a fill of the device memory fails. -/
def resetDevice (K : Header) (E : Env) (fuel : Nat) (s : TextureMemory) :
    Option (TextureMemory × Bool) :=
  if (memory K s).devPtr != none && E.image.isNone then
    if getNumDimensions s == 3 then
      match getPitch E s with
      | (s, pitch) =>
        match call E s .resetMemset3D with
        | (s, none) =>
          match unmap K E fuel s with
          | none => none
          | some s => some (s, false)
        | (s, some _) =>
          some (modify K s (fun m => { m with
            devMem := memset3D m.devMem m.pitch (getDimension s 1)
                        pitch (getDimension s 1) (getDimension s 2) }), true)
    else if getNumDimensions s == 2 then
      match call E s .resetMemset2D with
      | (s, none) =>
        match unmap K E fuel s with
        | none => none
        | some s => some (s, false)
      | (s, some _) =>
        some (modify K s (fun m => { m with
          devMem := memset2D m.devMem m.pitch (rowBytes s)
                      (getDimension s 1) }), true)
    else
      match call E s .resetMemset with
      | (s, none) =>
        match unmap K E fuel s with
        | none => none
        | some s => some (s, false)
      | (s, some _) =>
        some (modify K s (fun m => { m with
          devMem := memsetFlat m.devMem (getByteSize s) }), true)
  else some (s, true)

/-- The method `TextureMemory::reset`; `fuel` is the depth granted to the
`unmap` it calls when a fill of the device memory fails. -/
def reset (K : Header) (E : Env) (fuel : Nat) (s : TextureMemory) :
    Option (TextureMemory × Bool) :=
  if !E.texrefValid then some (s, false)
  else
    match (if s.isClear then init E s else (s, true)) with
    | (s, false) => some (s, false)
    | (s, true) =>
      -- RECEIVE HANDLE
      match object K s with
      | (s, none) => some (s, false)
      | (s, some _) =>
        -- Reset image data during the next mapping
        let s := modify K s (fun m => { m with lastModifiedCount := UINT_MAX })
        let s := modify K s (fun m => { m with syncOp := K.NO_SYNC })
        -- Reset host memory
        let s := resetHost K E s
        -- clear shadow-copy memory
        resetDevice K E fuel s

/-- A caller that maps with the mappings and offsets of a list in turn and
does not look at the pointers it gets; `none` is a call that does not
return. -/
def mapSeq (K : Header) (E : Env) (fuel : Nat) :
    TextureMemory → List (Nat × Nat) → Option TextureMemory
  | s, [] => some s
  | s, (mapping, offset) :: rest =>
    match map K E fuel s mapping offset with
    | none => none
    | some (s, _) => mapSeq K E fuel s rest

/-- The method `TextureMemory::supportsMapping`. -/
def supportsMapping (K : Header) (E : Env) (mapping : Nat) : Bool :=
  if !E.texrefValid then false
  else
    mapping == K.UNMAP || mapping == K.MAP_HOST || mapping == K.MAP_HOST_SOURCE ||
    mapping == K.MAP_HOST_TARGET || mapping == K.MAP_DEVICE || mapping == K.MAP_DEVICE_SOURCE ||
    mapping == K.MAP_DEVICE_TARGET || mapping == K.MAP_DEVICE_ARRAY

/-- The method `TextureMemory::setUsage`. -/
def setUsage (s : TextureMemory) (usage : Nat) : TextureMemory :=
  { s with usage := usage }

/-- The method `TextureMemory::getUsage`. -/
def getUsage (s : TextureMemory) : Nat := s.usage

/-- The constructor `TextureMemory::TextureMemory`: the state of a memory that
an adapter has just created. -/
def create (K : Header) : TextureMemory :=
  { isClear := true, dimensions := [], numElements := 0, elementSize := 0, allocHint := 0,
    subloadCallback := false, pitch := 0, _object := none,
    usage := K.GL_SOURCE_COMPUTE_SOURCE, trace := [] }

end TextureMemory
end osgCuda

/-! ## Assumptions on the header, and sample values -/

namespace osgCompute
open osgCuda


/-- The three sync flags are three different single bits. -/
def Header.SyncBits (K : Header) : Prop :=
  ∃ d h a : Nat, K.SYNC_DEVICE = 2 ^ d ∧ K.SYNC_HOST = 2 ^ h ∧ K.SYNC_ARRAY = 2 ^ a ∧
    d ≠ h ∧ d ≠ a ∧ h ≠ a

/-- The value `mapping` is handled as a mapping of the host memory wherever
`map`, `alloc`, `setup` and `sync` dispatch on it. -/
def Header.isHostMapping (K : Header) (mapping : Nat) : Prop :=
  hasFlag mapping K.MAP_HOST = true ∧ hasAll mapping K.MAP_DEVICE_ARRAY = false ∧
  hasFlag mapping K.MAP_DEVICE = false ∧ hasAll mapping K.MAP_DEVICE_ARRAY_TARGET = false ∧
  hasAll mapping K.MAP_DEVICE_TARGET = false

/-- The value `mapping` is handled as a mapping of the device memory wherever
`map`, `alloc`, `setup` and `sync` dispatch on it. -/
def Header.isDeviceMapping (K : Header) (mapping : Nat) : Prop :=
  hasFlag mapping K.MAP_HOST = false ∧ hasAll mapping K.MAP_DEVICE_ARRAY = false ∧
  hasFlag mapping K.MAP_DEVICE = true ∧ hasAll mapping K.MAP_DEVICE_ARRAY_TARGET = false ∧
  (hasAll mapping K.MAP_HOST_TARGET = true → hasAll mapping K.MAP_DEVICE_TARGET = true)

/-- The value `mapping` is handled as a mapping of the array wherever `map`,
`alloc`, `setup` and `sync` dispatch on it. -/
def Header.isArrayMapping (K : Header) (mapping : Nat) : Prop :=
  hasFlag mapping K.MAP_HOST = false ∧ hasAll mapping K.MAP_DEVICE_ARRAY = true ∧
  (hasAll mapping K.MAP_DEVICE_ARRAY_TARGET = false →
    hasAll mapping K.MAP_DEVICE_TARGET = false ∧ hasAll mapping K.MAP_HOST_TARGET = false)

/-- A host mapping with write intent. -/
def Header.isHostTarget (K : Header) (mapping : Nat) : Prop :=
  K.isHostMapping mapping ∧ hasAll mapping K.MAP_HOST_TARGET = true

/-- A device mapping with write intent. -/
def Header.isDeviceTarget (K : Header) (mapping : Nat) : Prop :=
  K.isDeviceMapping mapping ∧ hasAll mapping K.MAP_DEVICE_TARGET = true

/-- An array mapping with write intent. -/
def Header.isArrayTarget (K : Header) (mapping : Nat) : Prop :=
  K.isArrayMapping mapping ∧ hasAll mapping K.MAP_DEVICE_ARRAY_TARGET = true

/-- A mapping with read intent: none of the three tests for a write intent at
the end of `map` holds. -/
def Header.isReadIntent (K : Header) (mapping : Nat) : Prop :=
  hasAll mapping K.MAP_DEVICE_ARRAY_TARGET = false ∧ hasAll mapping K.MAP_DEVICE_TARGET = false ∧
  hasAll mapping K.MAP_HOST_TARGET = false

/-- The mappings that `supportsMapping` accepts, `UNMAP` apart, are handled as
mappings of the representation in their name. -/
def Header.Classified (K : Header) : Prop :=
  K.isHostMapping K.MAP_HOST ∧ K.isHostMapping K.MAP_HOST_SOURCE ∧
  K.isHostMapping K.MAP_HOST_TARGET ∧ K.isDeviceMapping K.MAP_DEVICE ∧
  K.isDeviceMapping K.MAP_DEVICE_SOURCE ∧ K.isDeviceMapping K.MAP_DEVICE_TARGET ∧
  K.isArrayMapping K.MAP_DEVICE_ARRAY

instance (K : Header) (m : Nat) : Decidable (K.isHostMapping m) := by
  unfold Header.isHostMapping; infer_instance

instance (K : Header) (m : Nat) : Decidable (K.isDeviceMapping m) := by
  unfold Header.isDeviceMapping; infer_instance

instance (K : Header) (m : Nat) : Decidable (K.isArrayMapping m) := by
  unfold Header.isArrayMapping; infer_instance

instance (K : Header) (m : Nat) : Decidable (K.isHostTarget m) := by
  unfold Header.isHostTarget; infer_instance

instance (K : Header) (m : Nat) : Decidable (K.isDeviceTarget m) := by
  unfold Header.isDeviceTarget; infer_instance

instance (K : Header) (m : Nat) : Decidable (K.isArrayTarget m) := by
  unfold Header.isArrayTarget; infer_instance

instance (K : Header) (m : Nat) : Decidable (K.isReadIntent m) := by
  unfold Header.isReadIntent; infer_instance

instance (K : Header) : Decidable K.Classified := by
  unfold Header.Classified; infer_instance

/-- Values for the enumerators of the header, for instances of the theorems. -/
def sampleHeader : Header :=
  { UNMAP := 0, MAP_HOST := 0x11, MAP_HOST_SOURCE := 0x01, MAP_HOST_TARGET := 0x10,
    MAP_DEVICE := 0x1100, MAP_DEVICE_SOURCE := 0x0100, MAP_DEVICE_TARGET := 0x1000,
    MAP_DEVICE_ARRAY := 0x10000, MAP_DEVICE_ARRAY_TARGET := 0x110000,
    NO_SYNC := 0, SYNC_DEVICE := 0x1, SYNC_HOST := 0x10, SYNC_ARRAY := 0x100,
    GL_TARGET := 0x10, GL_SOURCE_COMPUTE_SOURCE := 0x101 }

/-- A descriptor on which `setElementSize( 4 )` and `setDimension( 1, 5 )` were
called after its creation: `resize` has padded the dimension list with a zero. -/
def paddedDescriptor : TextureMemory :=
  Memory.setDimension (Memory.setElementSize (TextureMemory.create sampleHeader) 4) 1 5

/-- An initialised descriptor whose first extent is zero (element size 1,
`setDimension( 0, 0 )`), for which `computePitch` returns 0. -/
def zeroWidthDescriptor : TextureMemory :=
  (Memory.init (Memory.setDimension (Memory.setElementSize
    (TextureMemory.create sampleHeader) 1) 0 0)).1

/-- An initialised descriptor of 6 elements of 4 bytes in one dimension. -/
def rowDescriptor : TextureMemory :=
  (Memory.init (Memory.setDimension (Memory.setElementSize
    (TextureMemory.create sampleHeader) 4) 0 6)).1

/-- A texture of 2 x 2 texels of one byte without an image, in an environment
where every primitive succeeds. -/
def sampleEnv : Env :=
  { texrefValid := true, image := none, textureWidth := 2, textureHeight := 2, textureDepth := 1,
    internalFormatSizeInBits := 8, textureObject := true, stateFound := true,
    ok := fun _ _ => true, handle := fun n _ => 1000 + n, uninit := fun _ _ => 7,
    pastDim := 0, devicePitch := 4, textureAlignment := 4 }

/-- The memory after `map( MAP_HOST_TARGET )` of a fresh memory in `sampleEnv`:
the host memory is allocated, the device and the array flag are set. -/
def hostWritten : TextureMemory :=
  match TextureMemory.map sampleHeader sampleEnv 0 (TextureMemory.create sampleHeader) 0x10 0 with
  | some (s, _) => s
  | none => TextureMemory.create sampleHeader

/-- The environment `sampleEnv` with an image of 2 x 2 texels of one byte
attached, all of whose bytes are 5. -/
def imageEnv : Env :=
  { sampleEnv with
    image := some { s := 2, t := 2, r := 1, pixelSizeInBits := 8, modifiedCount := 1,
                    address := 1, data := some (fun _ => 5) } }

/-- The memory after `map( MAP_HOST_TARGET )` of a fresh memory in `imageEnv`:
the host memory is allocated and holds the bytes of the image. -/
def imageWritten : TextureMemory :=
  match TextureMemory.map sampleHeader imageEnv 0 (TextureMemory.create sampleHeader) 0x10 0 with
  | some (s, _) => s
  | none => TextureMemory.create sampleHeader

/-- A fresh memory with the usage `GL_TARGET`. -/
def renderTarget : TextureMemory :=
  TextureMemory.setUsage (TextureMemory.create sampleHeader) sampleHeader.GL_TARGET

/-- The memory after `map( MAP_DEVICE_TARGET )` of a fresh memory in
`sampleEnv`: the device memory is allocated with rows 4 bytes apart, the host
and the array flag are set. -/
def deviceWritten : TextureMemory :=
  match TextureMemory.map sampleHeader sampleEnv 0 (TextureMemory.create sampleHeader) 0x1000 0 with
  | some (s, _) => s
  | none => TextureMemory.create sampleHeader

/-- The memory after `map( MAP_DEVICE_ARRAY )` and then `map( MAP_HOST_TARGET )`
of a fresh memory in `sampleEnv`: the texture is registered and mapped, the
host memory is allocated, and the device and the array flag are set. -/
def arrayThenHostWritten : TextureMemory :=
  match TextureMemory.map sampleHeader sampleEnv 0 (TextureMemory.create sampleHeader) 0x10000 0 with
  | some (s, _) =>
    match TextureMemory.map sampleHeader sampleEnv 0 s 0x10 0 with
    | some (s, _) => s
    | none => s
  | none => TextureMemory.create sampleHeader

/-- The environment `imageEnv` in which two calls of primitives fail: the call
that is made when the trace holds 12 events and the one that is made when it
holds 16 events.  In `map( MAP_DEVICE_ARRAY )` of `arrayThenHostWritten` these
are the third call of `cudaGraphicsMapResources` and the fifth call of
`cudaGraphicsGLRegisterImage` since the memory was created. -/
def reentrantEnv : Env :=
  { imageEnv with ok := fun n _ => n != 12 && n != 16 }

end osgCompute

/-! ## Relations between states, for the statements and proofs below -/

namespace osgCuda.TextureMemory
open osgCompute

/-- The members of the descriptor: the state without its object and trace. -/
def descriptor (s : TextureMemory) : TextureMemory :=
  { s with _object := none, trace := [] }

/-- The object without the members that registering and mapping the texture
and copying bytes change. -/
def TextureObject.core (m : TextureObject) : TextureObject :=
  { m with graphicsArray := none, graphicsResource := none,
           hostMem := fun _ => 0, devMem := fun _ => 0, arrayMem := fun _ => 0 }

/-- The members of the object that `sync` leaves alone: those of `core`
without the sync flags. -/
def TextureObject.pinned (m : TextureObject) : TextureObject :=
  { TextureObject.core m with syncOp := 0 }

/-- The members of the object that only `alloc` and the recording of the
mapping change: those of `pinned` without the recorded version and identity of
the image. -/
def TextureObject.handles (m : TextureObject) : TextureObject :=
  { TextureObject.pinned m with lastModifiedCount := 0, lastModifiedAddress := none }

/-- The descriptor is as `init` leaves it for positive extents and a positive
element size, and its byte size fits `unsigned int`. -/
def Sized (s : TextureMemory) : Prop :=
  s.numElements = Memory.computeNumElements s.dimensions ∧ (∀ d ∈ s.dimensions, 0 < d) ∧
  0 < s.elementSize ∧ s.elementSize * s.dimensions.prod < 2 ^ 32

/-- The byte offset, in a device memory with rows `pitch` bytes apart, of the
byte that has the offset `k` in the dense layout of the buffer: rows are
pitched for rank 2 and 3. -/
def deviceOffset (s : TextureMemory) (pitch k : Nat) : Nat :=
  if Memory.getNumDimensions s = 2 ∨ Memory.getNumDimensions s = 3 then
    k / rowBytes s * pitch + k % rowBytes s
  else k

/-- The array is to be flushed while the image has changed: the memory is
configured, the array flag of its object is set, and `map` would run `setup`. -/
def Stale (K : Header) (E : Env) (s : TextureMemory) : Prop :=
  s.isClear = false ∧ (∃ m, s._object = some m) ∧
  hasFlag (memory K s).syncOp K.SYNC_ARRAY = true ∧ needsSetup K E s = true

/-- The calls of the load/subload hook in the trace, in order. -/
def hooks (s : TextureMemory) : List Event := s.trace.filter Event.isHook

/-- The calls of primitives inside `setup` and `sync` in the trace, in
order. -/
def setupSyncCalls (s : TextureMemory) : List Event := s.trace.filter Event.isSetupOrSync

/-- The calls of copy primitives in the trace, in order. -/
def copies (s : TextureMemory) : List Event := s.trace.filter Event.isCopy

/-- The sync flag of the representation on which `sync` works for a mapping. -/
def syncTarget (K : Header) (mapping : Nat) : Option Nat :=
  if hasAll mapping K.MAP_DEVICE_ARRAY then some K.SYNC_ARRAY
  else if hasFlag mapping K.MAP_DEVICE then some K.SYNC_DEVICE
  else if hasFlag mapping K.MAP_HOST then some K.SYNC_HOST
  else none

/-- The state `s'` comes after `s` in an operation that clears sync flags only
after a copy: the trace of `s` is extended, and for each representation whose
sync flag is set in `s` and clear in `s'` the extension holds a successful call
of a primitive that copies into that representation. -/
def ClearedByCopy (K : Header) (s s' : TextureMemory) : Prop :=
  ∃ t, s'.trace = s.trace ++ t ∧
    ∀ rep : Representation, hasFlag (memory K s).syncOp (rep.flag K) = true →
      hasFlag (memory K s').syncOp (rep.flag K) = false → copiedInto rep t = true

/-- The state `s'` comes after `s`: the descriptor is the same, the trace of
`s` is extended, and an object of `s` is still there and the same under `n`,
which keeps the members that have not changed. -/
def Frame {α : Type} (n : TextureObject → α) (s s' : TextureMemory) : Prop :=
  descriptor s' = descriptor s ∧ (∃ t, s'.trace = s.trace ++ t) ∧
  ∀ m, s._object = some m → ∃ m', s'._object = some m' ∧ n m' = n m

/-- Steps of an operation inside a configured memory: the descriptor is the
same, an object of `s` is still there, and sync flags are cleared only after a
copy. -/
def FlagStep (K : Header) (s s' : TextureMemory) : Prop :=
  Frame (fun _ : TextureObject => ()) s s' ∧ ClearedByCopy K s s'

/-- The three sync flags are not all set: at least one representation is not
marked stale. -/
def Coherent (K : Header) (s : TextureMemory) : Prop :=
  ¬(hasFlag (memory K s).syncOp K.SYNC_HOST = true ∧
    hasFlag (memory K s).syncOp K.SYNC_DEVICE = true ∧
    hasFlag (memory K s).syncOp K.SYNC_ARRAY = true)

/-- The device memory is allocated when its flag is clear and the flag of the
host memory or of the array is set, and the host memory is allocated when its
flag is clear and the flag of the device memory is set: the states of the flags
in which `sync` copies from the device and from the host memory without a test
of the handle. -/
def SourcesAllocated (K : Header) (s : TextureMemory) : Prop :=
  (hasFlag (memory K s).syncOp K.SYNC_DEVICE = false →
    (hasFlag (memory K s).syncOp K.SYNC_HOST = true ∨
      hasFlag (memory K s).syncOp K.SYNC_ARRAY = true) →
    (memory K s).devPtr ≠ none) ∧
  (hasFlag (memory K s).syncOp K.SYNC_HOST = false →
    hasFlag (memory K s).syncOp K.SYNC_DEVICE = true → (memory K s).hostPtr ≠ none)

/-- The flags and handles of the memory are consistent. -/
def Consistent (K : Header) (s : TextureMemory) : Prop :=
  Coherent K s ∧ SourcesAllocated K s

/-- The state `s'` comes after `s`: the trace of `s` is extended, and among the
calls of the extension each primitive that copies from the host memory is
called while `hp` holds, and each primitive that copies from the device memory
while `dp` holds. -/
def Sourced (hp dp : Prop) (s s' : TextureMemory) : Prop :=
  ∃ t, s'.trace = s.trace ++ t ∧ ∀ e ∈ t,
    (Event.copiesFrom Representation.host e = true → hp) ∧
    (Event.copiesFrom Representation.device e = true → dp)

/-- The states a caller reaches from a memory that was just created, with any
usage, by calls of `map` with mappings that `supportsMapping` accepts, of
`unmap` and of `reset`, each in an environment of its own, with any result. -/
inductive Reachable (K : Header) : TextureMemory → Prop
  | fresh (usage : Nat) : Reachable K (setUsage (create K) usage)
  | byMap (E : Env) (fuel : Nat) (s s' : TextureMemory) (mapping offset : Nat)
      (r : Option Nat) : Reachable K s → supportsMapping K E mapping = true →
      TextureMemory.map K E fuel s mapping offset = some (s', r) → Reachable K s'
  | byUnmap (E : Env) (fuel : Nat) (s s' : TextureMemory) : Reachable K s →
      TextureMemory.unmap K E fuel s = some s' → Reachable K s'
  | byReset (E : Env) (fuel : Nat) (s s' : TextureMemory) (b : Bool) : Reachable K s →
      TextureMemory.reset K E fuel s = some (s', b) → Reachable K s'

end osgCuda.TextureMemory

/-! ## Theorems -/

open osgCompute osgCuda osgCuda.TextureMemory osgCompute.Memory

namespace osgCompute

theorem memcpyFlat_of_lt (dst src : Bytes) (count k : Nat) (hk : k < count) :
    memcpyFlat dst src count k = src k := by
  simp [memcpyFlat, hk]

theorem memcpy2D_dense (dst src : Bytes) (rb pitch d1 k : Nat) (hrb : 0 < rb)
    (hk : k < rb * d1) : memcpy2D dst rb src pitch rb d1 k = src (k / rb * pitch + k % rb) := by
  have h1 : k % rb < rb := Nat.mod_lt _ hrb
  have h2 : k / rb < d1 := by
    rw [Nat.div_lt_iff_lt_mul hrb]; rw [Nat.mul_comm]; exact hk
  simp [memcpy2D, h1, h2]

theorem memcpy3D_dense (dst src : Bytes) (rb pitch d1 d2 k : Nat) (hrb : 0 < rb)
    (hd1 : 0 < d1) (hk : k < rb * d1 * d2) :
    memcpy3D dst rb d1 src pitch d1 rb d1 d2 k = src (k / rb * pitch + k % rb) := by
  have h1 : k % rb < rb := Nat.mod_lt _ hrb
  have h2 : k / rb % d1 < d1 := Nat.mod_lt _ hd1
  have h3 : k / rb / d1 < d2 := by
    rw [Nat.div_div_eq_div_mul, Nat.div_lt_iff_lt_mul (Nat.mul_pos hrb hd1)]
    rw [Nat.mul_comm]; exact hk
  have h4 : k / rb / d1 * d1 + k / rb % d1 = k / rb := Nat.div_add_mod' _ _
  simp [memcpy3D, h1, h2, h3, h4]

end osgCompute

namespace osgCuda.TextureMemory

theorem u32_of_lt (n : Nat) (h : n < 2 ^ 32) : u32 n = n := Nat.mod_eq_of_lt h

/-- The sizes of a sized descriptor of rank 1. -/
theorem Sized.rank1 (s : TextureMemory) (d0 : Nat) (hs : Sized s) (hd : s.dimensions = [d0]) :
    getNumDimensions s = 1 ∧ 0 < rowBytes s ∧ getByteSize s = rowBytes s := by
  obtain ⟨hn, hpos, hes, hlt⟩ := hs
  simp only [hd, List.prod_cons, List.prod_nil, Nat.mul_one] at hlt
  have h0 : 0 < d0 := hpos d0 (by simp [hd])
  have hd0 : d0 < 2 ^ 32 := lt_of_le_of_lt (Nat.le_mul_of_pos_left d0 hes) hlt
  have hr : rowBytes s = d0 * s.elementSize := by
    simp only [rowBytes, getDimension, getDimension?, sizeMinusOne, hd, getElementSize]
    simp only [List.length_cons, List.length_nil]
    norm_num
    rw [u32_of_lt]; rw [Nat.mul_comm]; exact hlt
  refine ⟨by simp [getNumDimensions, hd], by rw [hr]; exact Nat.mul_pos h0 hes, ?_⟩
  rw [hr]
  simp only [getByteSize, getElementSize, getNumElements, hn, hd, computeNumElements,
    List.foldl_cons, List.foldl_nil, Nat.one_mul]
  rw [u32_of_lt d0 hd0, u32_of_lt _ hlt, Nat.mul_comm]

/-- The sizes of a sized descriptor of rank 2. -/
theorem Sized.rank2 (s : TextureMemory) (d0 d1 : Nat) (hs : Sized s)
    (hd : s.dimensions = [d0, d1]) :
    getNumDimensions s = 2 ∧ 0 < rowBytes s ∧ getDimension s 1 = d1 ∧
    getByteSize s = rowBytes s * d1 := by
  obtain ⟨hn, hpos, hes, hlt⟩ := hs
  simp only [hd, List.prod_cons, List.prod_nil, Nat.mul_one] at hlt
  have h0 : 0 < d0 := hpos d0 (by simp [hd])
  have h1 : 0 < d1 := hpos d1 (by simp [hd])
  have hd01 : d0 * d1 < 2 ^ 32 := lt_of_le_of_lt (Nat.le_mul_of_pos_left _ hes) hlt
  have hd0 : d0 < 2 ^ 32 := lt_of_le_of_lt (Nat.le_mul_of_pos_right d0 h1) hd01
  have hrlt : d0 * s.elementSize < 2 ^ 32 := by
    calc d0 * s.elementSize ≤ d0 * s.elementSize * d1 := Nat.le_mul_of_pos_right _ h1
      _ = s.elementSize * (d0 * d1) := by ring
      _ < 2 ^ 32 := hlt
  have hr : rowBytes s = d0 * s.elementSize := by
    simp only [rowBytes, getDimension, getDimension?, sizeMinusOne, hd, getElementSize]
    simp only [List.length_cons, List.length_nil]
    norm_num
    rw [u32_of_lt _ hrlt]
  have hg1 : getDimension s 1 = d1 := by
    simp only [getDimension, getDimension?, sizeMinusOne, hd]
    simp only [List.length_cons, List.length_nil]
    norm_num
  refine ⟨by simp [getNumDimensions, hd], by rw [hr]; exact Nat.mul_pos h0 hes, hg1, ?_⟩
  rw [hr]
  simp only [getByteSize, getElementSize, getNumElements, hn, hd, computeNumElements,
    List.foldl_cons, List.foldl_nil, Nat.one_mul]
  rw [u32_of_lt d0 hd0, u32_of_lt _ hd01, u32_of_lt _ hlt]; ring

/-- The sizes of a sized descriptor of rank 3. -/
theorem Sized.rank3 (s : TextureMemory) (d0 d1 d2 : Nat) (hs : Sized s)
    (hd : s.dimensions = [d0, d1, d2]) :
    getNumDimensions s = 3 ∧ 0 < rowBytes s ∧ getDimension s 1 = d1 ∧ 0 < d1 ∧
    getDimension s 2 = d2 ∧ getByteSize s = rowBytes s * d1 * d2 := by
  obtain ⟨hn, hpos, hes, hlt⟩ := hs
  simp only [hd, List.prod_cons, List.prod_nil, Nat.mul_one] at hlt
  have h0 : 0 < d0 := hpos d0 (by simp [hd])
  have h1 : 0 < d1 := hpos d1 (by simp [hd])
  have h2 : 0 < d2 := hpos d2 (by simp [hd])
  have hd012 : d0 * (d1 * d2) < 2 ^ 32 := lt_of_le_of_lt (Nat.le_mul_of_pos_left _ hes) hlt
  have hd01 : d0 * d1 < 2 ^ 32 := by
    calc d0 * d1 ≤ d0 * d1 * d2 := Nat.le_mul_of_pos_right _ h2
      _ = d0 * (d1 * d2) := by ring
      _ < 2 ^ 32 := hd012
  have hd0 : d0 < 2 ^ 32 := lt_of_le_of_lt (Nat.le_mul_of_pos_right d0 h1) hd01
  have hrlt : d0 * s.elementSize < 2 ^ 32 := by
    calc d0 * s.elementSize ≤ d0 * s.elementSize * (d1 * d2) :=
          Nat.le_mul_of_pos_right _ (Nat.mul_pos h1 h2)
      _ = s.elementSize * (d0 * (d1 * d2)) := by ring
      _ < 2 ^ 32 := hlt
  have hr : rowBytes s = d0 * s.elementSize := by
    simp only [rowBytes, getDimension, getDimension?, sizeMinusOne, hd, getElementSize]
    simp only [List.length_cons, List.length_nil]
    norm_num
    rw [u32_of_lt _ hrlt]
  have hg1 : getDimension s 1 = d1 := by
    simp only [getDimension, getDimension?, sizeMinusOne, hd]
    simp only [List.length_cons, List.length_nil]
    norm_num
  have hg2 : getDimension s 2 = d2 := by
    simp only [getDimension, getDimension?, sizeMinusOne, hd]
    simp only [List.length_cons, List.length_nil]
    norm_num
  refine ⟨by simp [getNumDimensions, hd], by rw [hr]; exact Nat.mul_pos h0 hes, hg1, h1, hg2, ?_⟩
  rw [hr]
  simp only [getByteSize, getElementSize, getNumElements, hn, hd, computeNumElements,
    List.foldl_cons, List.foldl_nil, Nat.one_mul]
  rw [u32_of_lt d0 hd0, u32_of_lt _ hd01]
  have : d0 * d1 * d2 < 2 ^ 32 := by rw [Nat.mul_assoc]; exact hd012
  rw [u32_of_lt _ this, u32_of_lt _ (by rw [Nat.mul_assoc]; exact hlt)]; ring

end osgCuda.TextureMemory

/-! ### Bit tests on single-bit flags -/

namespace osgCompute

theorem hasFlag_two_pow (x a : Nat) : hasFlag x (2 ^ a) = x.testBit a := by
  unfold hasFlag
  by_cases h : x.testBit a
  · rw [h]
    have : (x &&& 2 ^ a).testBit a = true := by
      rw [Nat.testBit_and, h, Nat.testBit_two_pow_self]; rfl
    have hne : x &&& 2 ^ a ≠ 0 := by
      intro h0; rw [h0] at this; simp at this
    simpa using hne
  · have h' : x.testBit a = false := by simpa using h
    rw [h']
    have : x &&& 2 ^ a = 0 := by
      apply Nat.eq_of_testBit_eq
      intro i
      rw [Nat.testBit_and, Nat.testBit_two_pow]
      by_cases hi : a = i
      · subst hi; simp [h']
      · simp [hi]
    simp [this]

theorem hasAll_two_pow (x a : Nat) : hasAll x (2 ^ a) = x.testBit a := by
  unfold hasAll
  by_cases h : x.testBit a
  · rw [h]
    have : x &&& 2 ^ a = 2 ^ a := by
      apply Nat.eq_of_testBit_eq
      intro i
      rw [Nat.testBit_and, Nat.testBit_two_pow]
      by_cases hi : a = i
      · subst hi; simp [h]
      · simp [hi]
    simp [this]
  · have h' : x.testBit a = false := by simpa using h
    rw [h']
    have hne : x &&& 2 ^ a ≠ 2 ^ a := by
      intro h0
      have := congrArg (fun n => n.testBit a) h0
      simp [Nat.testBit_and, h', Nat.testBit_two_pow_self] at this
    simpa using hne

theorem hasFlag_or_self (x c : Nat) (hc : c ≠ 0) : hasFlag (x ||| c) c = true := by
  unfold hasFlag
  have : (x ||| c) &&& c = c := by
    apply Nat.eq_of_testBit_eq
    intro i
    simp only [Nat.testBit_and, Nat.testBit_or]
    cases x.testBit i <;> simp
  simp [this, hc]

theorem hasFlag_or_of_hasFlag (x c d : Nat) (h : hasFlag x c = true) :
    hasFlag (x ||| d) c = true := by
  unfold hasFlag at *
  simp only [bne_iff_ne, ne_eq] at *
  intro h0
  apply h
  apply Nat.eq_of_testBit_eq
  intro i
  have := congrArg (fun n => n.testBit i) h0
  simp only [Nat.testBit_and, Nat.testBit_or, Nat.zero_testBit] at this ⊢
  cases hx : x.testBit i <;> simp_all

theorem hasFlag_xor_self (x a : Nat) : hasFlag (x ^^^ 2 ^ a) (2 ^ a) = !hasFlag x (2 ^ a) := by
  simp [hasFlag_two_pow, Nat.testBit_xor, Nat.testBit_two_pow_self]

theorem hasFlag_xor_of_ne (x a b : Nat) (h : a ≠ b) :
    hasFlag (x ^^^ 2 ^ a) (2 ^ b) = hasFlag x (2 ^ b) := by
  simp [hasFlag_two_pow, Nat.testBit_xor, Nat.testBit_two_pow, h]

theorem hasFlag_or_of_ne (x a b : Nat) (h : a ≠ b) :
    hasFlag (x ||| 2 ^ a) (2 ^ b) = hasFlag x (2 ^ b) := by
  simp [hasFlag_two_pow, Nat.testBit_or, Nat.testBit_two_pow, h]

theorem hasFlag_or_two_pow_self (x a : Nat) : hasFlag (x ||| 2 ^ a) (2 ^ a) = true := by
  simp [hasFlag_two_pow, Nat.testBit_or, Nat.testBit_two_pow_self]

end osgCompute

/-! ### Frames of the steps of the engine -/

namespace osgCuda.TextureMemory

@[simp] theorem memory_setObject (K : Header) (s : TextureMemory) (m : TextureObject) :
    memory K (setObject s m) = m := rfl

@[simp] theorem memory_emit (K : Header) (s : TextureMemory) (e : Event) :
    memory K (emit s e) = memory K s := rfl

@[simp] theorem memory_modify (K : Header) (s : TextureMemory)
    (u : TextureObject → TextureObject) : memory K (modify K s u) = u (memory K s) := rfl

theorem memory_of_object (K : Header) (s : TextureMemory) (m : TextureObject)
    (h : s._object = some m) : memory K s = m := by
  simp [memory, h]

theorem Frame.refl {α : Type} (n : TextureObject → α) (s : TextureMemory) : Frame n s s :=
  ⟨rfl, ⟨[], by simp⟩, fun m hm => ⟨m, hm, rfl⟩⟩

theorem Frame.trans {α : Type} {n : TextureObject → α} {s s1 s2 : TextureMemory}
    (h1 : Frame n s s1) (h2 : Frame n s1 s2) : Frame n s s2 := by
  obtain ⟨d1, ⟨t1, ht1⟩, o1⟩ := h1
  obtain ⟨d2, ⟨t2, ht2⟩, o2⟩ := h2
  refine ⟨d2.trans d1, ⟨t1 ++ t2, by rw [ht2, ht1, List.append_assoc]⟩, ?_⟩
  intro m hm
  obtain ⟨m1, hm1, e1⟩ := o1 m hm
  obtain ⟨m2, hm2, e2⟩ := o2 m1 hm1
  exact ⟨m2, hm2, e2.trans e1⟩

theorem Frame.weaken {α β : Type} {n : TextureObject → α} {s s' : TextureMemory}
    (h : Frame n s s') (f : α → β) : Frame (fun m => f (n m)) s s' := by
  obtain ⟨d, t, o⟩ := h
  refine ⟨d, t, fun m hm => ?_⟩
  obtain ⟨m', hm', e⟩ := o m hm
  exact ⟨m', hm', congrArg f e⟩

theorem Frame.emit_right {α : Type} {n : TextureObject → α} {s s' : TextureMemory} (e : Event)
    (h : Frame n s s') : Frame n s (TextureMemory.emit s' e) := by
  obtain ⟨d, ⟨t, ht⟩, o⟩ := h
  exact ⟨d, ⟨t ++ [e], by simp [TextureMemory.emit, ht]⟩, o⟩

theorem Frame.setObject_right {α : Type} {n : TextureObject → α} {s s' : TextureMemory}
    (m' : TextureObject) (h : Frame n s s') (hn : ∀ m, s._object = some m → n m' = n m) :
    Frame n s (TextureMemory.setObject s' m') := by
  obtain ⟨d, ⟨t, ht⟩, o⟩ := h
  exact ⟨d, ⟨t, ht⟩, fun m hm => ⟨m', rfl, hn m hm⟩⟩

theorem Frame.modify_right {α : Type} {n : TextureObject → α} {s s' : TextureMemory}
    (K : Header) (u : TextureObject → TextureObject) (h : Frame n s s')
    (hn : ∀ m, s._object = some m → n (u (memory K s')) = n m) :
    Frame n s (TextureMemory.modify K s' u) :=
  Frame.setObject_right _ h hn

/-- A frame tells what `memory` reads in the later state. -/
theorem Frame.memory_eq {α : Type} {n : TextureObject → α} {s s' : TextureMemory} (K : Header)
    (m : TextureObject) (h : Frame n s s') (hm : s._object = some m) :
    n (memory K s') = n m := by
  obtain ⟨m', hm', e⟩ := h.2.2 m hm
  rw [memory_of_object K s' m' hm']; exact e

/-- An assignment that `n` does not see keeps a frame. -/
theorem Frame.modify_keep {α : Type} {n : TextureObject → α} {s s' : TextureMemory}
    (K : Header) (u : TextureObject → TextureObject) (h : Frame n s s')
    (hu : ∀ m, n (u m) = n m) : Frame n s (TextureMemory.modify K s' u) :=
  Frame.modify_right K u h (fun m hm => by rw [hu]; exact h.memory_eq K m hm)

theorem Frame.call {α : Type} (n : TextureObject → α) (E : Env) (s : TextureMemory)
    (site : Site) : Frame n s (call E s site).1 :=
  Frame.emit_right _ (Frame.refl n s)

theorem Frame.object {α : Type} (n : TextureObject → α) (K : Header) (s : TextureMemory) :
    Frame n s (object K s).1 := by
  unfold TextureMemory.object
  split_ifs
  · exact Frame.refl n s
  · split
    · exact Frame.refl n s
    · rename_i h
      exact ⟨rfl, ⟨[], by simp⟩, fun m hm => by rw [h] at hm; cases hm⟩

theorem object_some (K : Header) (s s1 : TextureMemory) (m : TextureObject)
    (h : object K s = (s1, some m)) : s1._object = some m ∧ s1.isClear = false := by
  unfold TextureMemory.object at h
  split_ifs at h with hc
  · simp at h
  · split at h
    · rename_i m0 hm0
      simp only [Prod.mk.injEq, Option.some.injEq] at h
      obtain ⟨rfl, rfl⟩ := h
      exact ⟨hm0, by simpa using hc⟩
    · simp only [Prod.mk.injEq, Option.some.injEq] at h
      obtain ⟨rfl, rfl⟩ := h
      exact ⟨rfl, by simpa using hc⟩

theorem Frame.copyCall {α : Type} (n : TextureObject → α) (E : Env) (s : TextureMemory)
    (site : Site) (u : TextureObject → TextureObject) (hu : ∀ m, n (u m) = n m) :
    Frame n s (copyCall E s site u).1 := by
  unfold TextureMemory.copyCall
  have hc := Frame.call n E s site
  rcases hcall : TextureMemory.call E s site with ⟨s1, _ | p⟩
  · rw [hcall] at hc; exact hc
  · rw [hcall] at hc
    simp only
    rcases ho : s1._object with _ | m1
    · exact hc
    · refine hc.trans ⟨rfl, ⟨[], by simp [TextureMemory.setObject]⟩, fun m hm => ?_⟩
      rw [ho] at hm; cases hm
      exact ⟨_, rfl, hu _⟩

theorem Frame.syncMapArray (E : Env) (s : TextureMemory) (m : TextureObject)
    (hm : s._object = some m) (r1 r2 r3 : Site) :
    Frame TextureObject.core s (syncMapArray E s m r1 r2 r3).1 := by
  unfold TextureMemory.syncMapArray
  simp only [TextureMemory.call]
  repeat' (first | split_ifs | dsimp only)
  all_goals
    repeat (first
      | with_reducible exact Frame.refl _ _
      | with_reducible apply Frame.emit_right
      | (with_reducible apply Frame.setObject_right
         rotate_left
         (intro m0 h0; rw [hm] at h0; cases h0; rfl)))

theorem Frame.syncHostCopy (K : Header) (E : Env) (s : TextureMemory) (m : TextureObject)
    (hm : s._object = some m) :
    Frame TextureObject.core s (syncHostCopy K E s m).1 := by
  unfold TextureMemory.syncHostCopy
  dsimp only
  split_ifs
  · have h1 := Frame.syncMapArray E s m hm .syncHostRegisterImage .syncHostMapResources
      .syncHostGetMappedArray
    rcases hsm : TextureMemory.syncMapArray E s m .syncHostRegisterImage .syncHostMapResources
      .syncHostGetMappedArray with ⟨s1, _ | _⟩
    · rw [hsm] at h1; exact h1
    · rw [hsm] at h1
      dsimp only
      split_ifs <;> exact h1.trans (Frame.copyCall _ E s1 _ _ (fun _ => rfl))
  all_goals exact Frame.copyCall _ E s _ _ (fun _ => rfl)

end osgCuda.TextureMemory

namespace osgCuda.TextureMemory

theorem Frame.syncDeviceCopy (K : Header) (E : Env) (s : TextureMemory) (m : TextureObject)
    (hm : s._object = some m) :
    Frame TextureObject.core s (syncDeviceCopy K E s m).1 := by
  unfold TextureMemory.syncDeviceCopy
  dsimp only
  split_ifs
  · have h1 := Frame.syncMapArray E s m hm .syncDeviceRegisterImage .syncDeviceMapResources
      .syncDeviceGetMappedArray
    rcases hsm : TextureMemory.syncMapArray E s m .syncDeviceRegisterImage
      .syncDeviceMapResources .syncDeviceGetMappedArray with ⟨s1, _ | _⟩
    · rw [hsm] at h1; exact h1
    · rw [hsm] at h1
      dsimp only
      split_ifs <;> exact h1.trans (Frame.copyCall _ E s1 _ _ (fun _ => rfl))
  all_goals exact Frame.copyCall _ E s _ _ (fun _ => rfl)

theorem Frame.syncArrayCopy (K : Header) (E : Env) (s : TextureMemory) (m : TextureObject) :
    Frame TextureObject.core s (syncArrayCopy K E s m).1 := by
  unfold TextureMemory.syncArrayCopy
  dsimp only
  split_ifs
  · have h1 := Frame.copyCall TextureObject.core E s .syncArrayFromHostToArray
      (fun m => { m with arrayMem := memcpyFlat m.arrayMem m.hostMem (getByteSize s) })
      (fun _ => rfl)
    rcases hc : TextureMemory.copyCall E s .syncArrayFromHostToArray
      (fun m => { m with arrayMem := memcpyFlat m.arrayMem m.hostMem (getByteSize s) })
      with ⟨s1, _ | _⟩
    · rw [hc] at h1; exact h1
    · rw [hc] at h1
      dsimp only
      split_ifs <;> exact h1.trans (Frame.copyCall _ E s1 _ _ (fun _ => rfl))
  · dsimp only
    split_ifs <;> exact Frame.copyCall _ E s _ _ (fun _ => rfl)
  all_goals exact Frame.copyCall _ E s _ _ (fun _ => rfl)

/-- What a frame under `core` says about the object of the later state. -/
theorem Frame.core_memory {s s' : TextureMemory} (K : Header) (m : TextureObject)
    (h : Frame TextureObject.core s s') (hm : s._object = some m) :
    ∃ m', s'._object = some m' ∧ memory K s' = m' ∧ m'.syncOp = m.syncOp ∧
      TextureObject.pinned m' = TextureObject.pinned m := by
  obtain ⟨m', hm', e⟩ := h.2.2 m hm
  have e1 : (TextureObject.core m').syncOp = (TextureObject.core m).syncOp :=
    congrArg TextureObject.syncOp e
  have e2 : TextureObject.pinned m' = TextureObject.pinned m := by
    simp only [TextureObject.pinned, e]
  exact ⟨m', hm', memory_of_object K s' m' hm', e1, e2⟩

theorem Frame.core_pinned {s s' : TextureMemory} (h : Frame TextureObject.core s s') :
    Frame TextureObject.pinned s s' :=
  h.weaken (fun c => { c with syncOp := 0 })

/-- The host branch of `sync`: what it leaves alone, and the sync flags after it. -/
theorem syncHost_spec (K : Header) (E : Env) (s s' : TextureMemory) (m : TextureObject)
    (b : Bool) (hm : s._object = some m) (h : syncHost K E s m = (s', b)) :
    Frame TextureObject.pinned s s' ∧
    (memory K s').syncOp =
      (if b && hasFlag m.syncOp K.SYNC_HOST then m.syncOp ^^^ K.SYNC_HOST else m.syncOp) := by
  unfold TextureMemory.syncHost at h
  split_ifs at h with h1 h2
  · simp only [Bool.not_eq_true'] at h1
    cases h
    exact ⟨Frame.refl _ _, by simp [h1, memory_of_object K s m hm]⟩
  · cases h
    exact ⟨Frame.refl _ _, by simp [memory_of_object K s m hm]⟩
  · have hf := Frame.syncHostCopy K E s m hm
    simp only [Bool.not_eq_true', Bool.not_eq_false] at h1
    rcases hc : TextureMemory.syncHostCopy K E s m with ⟨s1, _ | _⟩
    · rw [hc] at hf h
      cases h
      obtain ⟨m1, -, hmem, hso, -⟩ := hf.core_memory K m hm
      exact ⟨hf.core_pinned, by simp [hmem, hso]⟩
    · rw [hc] at hf h
      cases h
      obtain ⟨m1, hm1, hmem, hso, hp⟩ := hf.core_memory K m hm
      exact ⟨Frame.modify_keep K _ hf.core_pinned (fun _ => rfl), by simp [hmem, hso, h1]⟩

/-- The device branch of `sync`: what it leaves alone, and the sync flags after it. -/
theorem syncDevice_spec (K : Header) (E : Env) (s s' : TextureMemory) (m : TextureObject)
    (b : Bool) (hm : s._object = some m) (h : syncDevice K E s m = (s', b)) :
    Frame TextureObject.pinned s s' ∧
    (memory K s').syncOp =
      (if b && hasFlag m.syncOp K.SYNC_DEVICE then m.syncOp ^^^ K.SYNC_DEVICE else m.syncOp) := by
  unfold TextureMemory.syncDevice at h
  split_ifs at h with h1 h2
  · simp only [Bool.not_eq_true'] at h1
    cases h
    exact ⟨Frame.refl _ _, by simp [h1, memory_of_object K s m hm]⟩
  · cases h
    exact ⟨Frame.refl _ _, by simp [memory_of_object K s m hm]⟩
  · have hf := Frame.syncDeviceCopy K E s m hm
    simp only [Bool.not_eq_true', Bool.not_eq_false] at h1
    rcases hc : TextureMemory.syncDeviceCopy K E s m with ⟨s1, _ | _⟩
    · rw [hc] at hf h
      cases h
      obtain ⟨m1, -, hmem, hso, -⟩ := hf.core_memory K m hm
      exact ⟨hf.core_pinned, by simp [hmem, hso]⟩
    · rw [hc] at hf h
      cases h
      obtain ⟨m1, hm1, hmem, hso, hp⟩ := hf.core_memory K m hm
      exact ⟨Frame.modify_keep K _ hf.core_pinned (fun _ => rfl), by simp [hmem, hso, h1]⟩

/-- The array branch of `sync`: what it leaves alone, and the sync flags after it. -/
theorem syncArray_spec (K : Header) (E : Env) (s s' : TextureMemory) (m : TextureObject)
    (b : Bool) (hm : s._object = some m) (h : syncArray K E s m = (s', b)) :
    Frame TextureObject.pinned s s' ∧
    (memory K s').syncOp =
      (if b && hasFlag m.syncOp K.SYNC_ARRAY then m.syncOp ^^^ K.SYNC_ARRAY else m.syncOp) := by
  unfold TextureMemory.syncArray at h
  split_ifs at h with h1 h2
  · simp only [Bool.not_eq_true'] at h1
    cases h
    exact ⟨Frame.refl _ _, by simp [h1, memory_of_object K s m hm]⟩
  · cases h
    exact ⟨Frame.refl _ _, by simp [memory_of_object K s m hm]⟩
  · have hf := Frame.syncArrayCopy K E s m
    simp only [Bool.not_eq_true', Bool.not_eq_false] at h1
    rcases hc : TextureMemory.syncArrayCopy K E s m with ⟨s1, _ | _⟩
    · rw [hc] at hf h
      cases h
      obtain ⟨m1, -, hmem, hso, -⟩ := hf.core_memory K m hm
      exact ⟨hf.core_pinned, by simp [hmem, hso]⟩
    · rw [hc] at hf h
      cases h
      obtain ⟨m1, hm1, hmem, hso, hp⟩ := hf.core_memory K m hm
      exact ⟨Frame.modify_keep K _ hf.core_pinned (fun _ => rfl), by simp [hmem, hso, h1]⟩

/-- The object that `object()` returns is the object of the state, and the sync
flags it has are those read through `memory` before the call. -/
theorem object_spec (K : Header) (s s1 : TextureMemory) (o : Option TextureObject)
    (h : object K s = (s1, o)) :
    Frame (fun m => m) s s1 ∧
    (∀ m, o = some m → s1._object = some m ∧ s1.isClear = false ∧
      m.syncOp = (memory K s).syncOp) ∧
    (o = none → s1 = s) := by
  unfold TextureMemory.object at h
  split_ifs at h with hc
  · cases h
    exact ⟨Frame.refl _ _, fun m hm => (by cases hm), fun _ => rfl⟩
  · split at h
    · rename_i m0 hm0
      cases h
      refine ⟨Frame.refl _ _, fun m hm => ?_, fun h0 => (by cases h0)⟩
      cases hm
      exact ⟨hm0, by simpa using hc, by simp [memory, hm0]⟩
    · rename_i hn
      cases h
      refine ⟨⟨rfl, ⟨[], by simp⟩, fun m hm => by rw [hn] at hm; cases hm⟩, fun m hm => ?_,
        fun h0 => by cases h0⟩
      cases hm
      exact ⟨rfl, by simpa using hc, by simp [memory, hn, TextureObject.create]⟩

/-- The method `sync`: what it leaves alone, and the sync flags after it. -/
theorem sync_spec (K : Header) (E : Env) (s s' : TextureMemory) (mapping : Nat) (b : Bool)
    (h : sync K E s mapping = (s', b)) :
    Frame TextureObject.pinned s s' ∧
    (memory K s').syncOp =
      (match syncTarget K mapping with
       | some f =>
         if b && hasFlag (memory K s).syncOp f then (memory K s).syncOp ^^^ f
         else (memory K s).syncOp
       | none => (memory K s).syncOp) := by
  unfold TextureMemory.sync at h
  rcases ho : TextureMemory.object K s with ⟨s1, _ | m⟩
  · rw [ho] at h
    obtain ⟨-, -, h3⟩ := object_spec K s s1 none ho
    cases h
    rw [h3 rfl]
    refine ⟨Frame.refl _ _, ?_⟩
    unfold syncTarget
    split_ifs <;> simp
  · rw [ho] at h
    obtain ⟨hf, h2, -⟩ := object_spec K s s1 (some m) ho
    obtain ⟨hm, -, hso⟩ := h2 m rfl
    have hfp : Frame TextureObject.pinned s s1 := hf.weaken TextureObject.pinned
    unfold syncTarget
    dsimp only at h
    split_ifs at h with c1 c2 c3
    · obtain ⟨f1, e1⟩ := syncArray_spec K E s1 s' m b hm h
      exact ⟨hfp.trans f1, by simp only [c1, if_true]; rw [e1, hso]⟩
    · obtain ⟨f1, e1⟩ := syncDevice_spec K E s1 s' m b hm h
      exact ⟨hfp.trans f1, by simp only [c1, c2, if_true]; rw [e1, hso]; simp⟩
    · obtain ⟨f1, e1⟩ := syncHost_spec K E s1 s' m b hm h
      exact ⟨hfp.trans f1, by simp only [c1, c2, c3, if_true]; rw [e1, hso]; simp⟩
    · cases h
      refine ⟨hfp, ?_⟩
      simp only [c1, c2, c3]
      simp [memory_of_object K _ m hm, hso]

end osgCuda.TextureMemory

namespace osgCuda.TextureMemory

/-- A successful run of the part of `map` after RECEIVE HANDLE has run the part
MAP DATA to a pointer that is not `NULL` and then the end of `map`. -/
theorem mapMain_success (unmap : TextureMemory → Option TextureMemory) (K : Header) (E : Env)
    (s s' : TextureMemory) (mapping offset p : Nat)
    (h : mapMain unmap K E s mapping offset = some (s', some p)) :
    ∃ s2 s4 ptr firstLoad,
      mapRenderTarget K E s = (s2, true) ∧
      mapData unmap K E s2 mapping = some (s4, some (some ptr, firstLoad)) ∧
      mapFinish K s4 mapping offset ptr firstLoad = (s', some p) := by
  unfold mapMain at h
  split at h
  · simp at h
  · rename_i s2 hrt
    split at h
    · simp at h
    · simp at h
    · simp at h
    · rename_i s4 ptr firstLoad hd
      exact ⟨s2, s4, ptr, firstLoad, hrt, hd, by simpa using h⟩

/-- A successful `map` has initialised the descriptor if it was clear, has
received the object, and has run the part after RECEIVE HANDLE. -/
theorem mapBody_success_main (unmap : TextureMemory → Option TextureMemory) (K : Header)
    (E : Env) (s s' : TextureMemory) (mapping offset p : Nat)
    (h : mapBody unmap K E s mapping offset = some (s', some p)) :
    ∃ s0 s1 m1,
      E.texrefValid = true ∧
      (if s.isClear then init E s else (s, true)) = (s0, true) ∧
      object K s0 = (s1, some m1) ∧
      mapMain unmap K E s1 mapping offset = some (s', some p) := by
  unfold mapBody at h
  split at h
  · simp at h
  · rename_i hv
    split at h
    · simp at h
    · rename_i s0 hi
      split at h
      · split at h <;> simp at h
      · split at h
        · simp at h
        · rename_i s1 m1 ho
          exact ⟨s0, s1, m1, by simpa using hv, hi, ho, h⟩

/-- A successful `map` has run the part MAP DATA to a pointer that is not
`NULL` and then the end of `map`. -/
theorem mapBody_success (unmap : TextureMemory → Option TextureMemory) (K : Header) (E : Env)
    (s s' : TextureMemory) (mapping offset p : Nat)
    (h : mapBody unmap K E s mapping offset = some (s', some p)) :
    ∃ s2 s4 ptr firstLoad,
      mapData unmap K E s2 mapping = some (s4, some (some ptr, firstLoad)) ∧
      mapFinish K s4 mapping offset ptr firstLoad = (s', some p) := by
  obtain ⟨s0, s1, m1, -, -, -, hmain⟩ := mapBody_success_main unmap K E s s' mapping offset p h
  obtain ⟨s2, s4, ptr, firstLoad, -, hd, hf⟩ := mapMain_success unmap K E s1 s' mapping offset p hmain
  exact ⟨s2, s4, ptr, firstLoad, hd, hf⟩

/-- After the steps SETUP STREAM and SYNC STREAM have succeeded, the flag of
the representation `sync` works on is clear. -/
theorem mapSetupSync_flag (unmap : TextureMemory → Option TextureMemory) (K : Header) (E : Env)
    (s s' : TextureMemory) (mapping : Nat) (ns : Bool) (a : Nat)
    (ht : syncTarget K mapping = some (2 ^ a))
    (h : mapSetupSync unmap K E s mapping ns (2 ^ a) = some (s', true)) :
    hasFlag (memory K s').syncOp (2 ^ a) = false := by
  unfold mapSetupSync at h
  split at h
  · simp at h
  · simp at h
  · rename_i s3 _
    split_ifs at h with hf
    · simp only [Option.some.injEq] at h
      have := (sync_spec K E s3 s' mapping true h).2
      rw [ht] at this
      simp only [Bool.true_and, hf, if_true] at this
      rw [this, hasFlag_xor_self, hf]; rfl
    · simp only [Option.some.injEq, Prod.mk.injEq, and_true] at h
      subst h
      simpa using hf

theorem mapHost_flag (unmap : TextureMemory → Option TextureMemory) (K : Header) (E : Env)
    (s s' : TextureMemory) (mapping : Nat) (ns : Bool) (a : Nat) (r : Option Nat × Bool)
    (hb : K.SYNC_HOST = 2 ^ a) (ht : syncTarget K mapping = some (2 ^ a))
    (h : mapHost unmap K E s mapping ns = some (s', some r)) :
    hasFlag (memory K s').syncOp (2 ^ a) = false := by
  unfold mapHost at h
  rw [hb] at h
  dsimp only at h
  split at h
  · simp at h
  · split at h
    · simp at h
    · simp at h
    · rename_i hss
      simp only [Option.some.injEq, Prod.mk.injEq] at h
      obtain ⟨rfl, -⟩ := h
      exact mapSetupSync_flag unmap K E _ _ mapping ns a ht hss

theorem mapDevice_flag (unmap : TextureMemory → Option TextureMemory) (K : Header) (E : Env)
    (s s' : TextureMemory) (mapping : Nat) (ns : Bool) (a : Nat) (r : Option Nat × Bool)
    (hb : K.SYNC_DEVICE = 2 ^ a) (ht : syncTarget K mapping = some (2 ^ a))
    (h : mapDevice unmap K E s mapping ns = some (s', some r)) :
    hasFlag (memory K s').syncOp (2 ^ a) = false := by
  unfold mapDevice at h
  rw [hb] at h
  dsimp only at h
  split at h
  · simp at h
  · split at h
    · simp at h
    · simp at h
    · rename_i hss
      simp only [Option.some.injEq, Prod.mk.injEq] at h
      obtain ⟨rfl, -⟩ := h
      exact mapSetupSync_flag unmap K E _ _ mapping ns a ht hss

theorem mapArray_flag (unmap : TextureMemory → Option TextureMemory) (K : Header) (E : Env)
    (s s' : TextureMemory) (mapping : Nat) (ns : Bool) (a : Nat) (r : Option Nat × Bool)
    (hb : K.SYNC_ARRAY = 2 ^ a) (ht : syncTarget K mapping = some (2 ^ a))
    (h : mapArray unmap K E s mapping ns = some (s', some r)) :
    hasFlag (memory K s').syncOp (2 ^ a) = false := by
  unfold mapArray at h
  rw [hb] at h
  dsimp only at h
  split at h
  · simp at h
  · split at h
    · simp at h
    · split at h
      · simp at h
      · simp at h
      · rename_i hss
        simp only [Option.some.injEq, Prod.mk.injEq] at h
        obtain ⟨rfl, -⟩ := h
        exact mapSetupSync_flag unmap K E _ _ mapping ns a ht hss

/-- The sync flags after the end of `map`. -/
theorem mapFinish_syncOp (K : Header) (s : TextureMemory) (mapping offset ptr : Nat)
    (firstLoad : Bool) :
    (memory K (mapFinish K s mapping offset ptr firstLoad).1).syncOp =
      (if hasAll mapping K.MAP_DEVICE_ARRAY_TARGET then
        ((memory K s).syncOp ||| K.SYNC_DEVICE) ||| K.SYNC_HOST
      else if hasAll mapping K.MAP_DEVICE_TARGET then
        ((memory K s).syncOp ||| K.SYNC_ARRAY) ||| K.SYNC_HOST
      else if hasAll mapping K.MAP_HOST_TARGET then
        ((memory K s).syncOp ||| K.SYNC_ARRAY) ||| K.SYNC_DEVICE
      else (memory K s).syncOp) := by
  unfold mapFinish
  dsimp only
  split_ifs <;> simp

/-- C1: after every successful `map` with a write-intent mapping of a
representation (host, device or array target), the sync flags of both other
representations are set, whatever the flags were before the call. -/
theorem map_write_intent_sets_other_flags (K : Header) (E : Env) (fuel : Nat)
    (s s' : TextureMemory) (mapping offset p : Nat)
    (hD : K.SYNC_DEVICE ≠ 0) (hH : K.SYNC_HOST ≠ 0) (hA : K.SYNC_ARRAY ≠ 0)
    (h : map K E fuel s mapping offset = some (s', some p)) :
    (K.isHostTarget mapping →
      hasFlag (memory K s').syncOp K.SYNC_DEVICE = true ∧
      hasFlag (memory K s').syncOp K.SYNC_ARRAY = true) ∧
    (K.isDeviceTarget mapping →
      hasFlag (memory K s').syncOp K.SYNC_HOST = true ∧
      hasFlag (memory K s').syncOp K.SYNC_ARRAY = true) ∧
    (K.isArrayTarget mapping →
      hasFlag (memory K s').syncOp K.SYNC_DEVICE = true ∧
      hasFlag (memory K s').syncOp K.SYNC_HOST = true) := by
  obtain ⟨s2, s4, ptr, firstLoad, -, hfin⟩ := mapBody_success _ K E s s' mapping offset p h
  have hs' : s' = (mapFinish K s4 mapping offset ptr firstLoad).1 := by rw [hfin]
  subst hs'
  rw [mapFinish_syncOp]
  refine ⟨?_, ?_, ?_⟩
  · rintro ⟨⟨_, _, _, hAT, hDT⟩, hHT⟩
    simp [hAT, hDT, hHT, hasFlag_or_self, hasFlag_or_of_hasFlag, hD, hA]
  · rintro ⟨⟨_, _, _, hAT, _⟩, hDT⟩
    simp [hAT, hDT, hasFlag_or_self, hasFlag_or_of_hasFlag, hH, hA]
  · rintro ⟨_, hAT⟩
    simp [hAT, hasFlag_or_self, hasFlag_or_of_hasFlag, hD, hH]

/-- An instance of C1: a host-target mapping of a fresh memory. -/
theorem map_write_intent_sets_other_flags_witness :
    ∃ s', map sampleHeader sampleEnv 0 (create sampleHeader) 0x10 0 = some (s', some 1000) ∧
      hasFlag (memory sampleHeader s').syncOp sampleHeader.SYNC_DEVICE = true ∧
      hasFlag (memory sampleHeader s').syncOp sampleHeader.SYNC_ARRAY = true :=
  ⟨_, rfl, (map_write_intent_sets_other_flags sampleHeader sampleEnv 0 (create sampleHeader) _
      0x10 0 1000 (by decide) (by decide) (by decide) rfl).1 (by decide)⟩

/-- C2: after every successful `map` of a representation (host, device or
array, with read or write intent), the sync flag of that representation is
clear. -/
theorem map_clears_own_flag (K : Header) (E : Env) (fuel : Nat)
    (s s' : TextureMemory) (mapping offset p : Nat) (hK : K.SyncBits)
    (h : map K E fuel s mapping offset = some (s', some p)) :
    (K.isHostMapping mapping → hasFlag (memory K s').syncOp K.SYNC_HOST = false) ∧
    (K.isDeviceMapping mapping → hasFlag (memory K s').syncOp K.SYNC_DEVICE = false) ∧
    (K.isArrayMapping mapping → hasFlag (memory K s').syncOp K.SYNC_ARRAY = false) := by
  obtain ⟨d, hb, a, hD, hH, hA, hdh, hda, hha⟩ := hK
  obtain ⟨s2, s4, ptr, firstLoad, hdata, hfin⟩ := mapBody_success _ K E s s' mapping offset p h
  have hs' : s' = (mapFinish K s4 mapping offset ptr firstLoad).1 := by rw [hfin]
  subst hs'
  rw [mapFinish_syncOp]
  unfold mapData at hdata
  dsimp only at hdata
  refine ⟨?_, ?_, ?_⟩
  · rintro ⟨h1, h2, h3, h4, h5⟩
    have ht : syncTarget K mapping = some (2 ^ hb) := by
      simp [syncTarget, h1, h2, h3, hH]
    simp only [h1, if_true] at hdata
    have hc := mapHost_flag _ K E _ _ mapping _ hb _ hH ht hdata
    simp only [h4, h5, hD, hH, hA, Bool.false_eq_true, if_false]
    split_ifs
    · rw [hasFlag_or_of_ne _ _ _ hdh, hasFlag_or_of_ne _ _ _ (Ne.symm hha)]; exact hc
    · exact hc
  · rintro ⟨h1, h2, h3, h4, h5⟩
    have ht : syncTarget K mapping = some (2 ^ d) := by
      simp [syncTarget, h1, h2, h3, hD]
    simp only [h1, h2, h3, if_true, Bool.false_eq_true, if_false] at hdata
    have hc := mapDevice_flag _ K E _ _ mapping _ d _ hD ht hdata
    simp only [h4, hD, hH, hA, Bool.false_eq_true, if_false]
    split_ifs with c1 c2
    · rw [hasFlag_or_of_ne _ _ _ (Ne.symm hdh), hasFlag_or_of_ne _ _ _ (Ne.symm hda)]; exact hc
    · exact absurd (h5 c2) c1
    · exact hc
  · rintro ⟨h1, h2, h3⟩
    have ht : syncTarget K mapping = some (2 ^ a) := by
      simp [syncTarget, h2, hA]
    simp only [h1, h2, if_true, Bool.false_eq_true, if_false] at hdata
    have hc := mapArray_flag _ K E _ _ mapping _ a _ hA ht hdata
    simp only [hD, hH, hA]
    split_ifs with c1 c2 c3
    · rw [hasFlag_or_of_ne _ _ _ hha, hasFlag_or_of_ne _ _ _ hda]; exact hc
    · exact absurd c2 (by simpa using (h3 (by simpa using c1)).1)
    · exact absurd c3 (by simpa using (h3 (by simpa using c1)).2)
    · exact hc

/-- An instance of C2: a device-source mapping of a fresh memory. -/
theorem map_clears_own_flag_witness :
    ∃ s', map sampleHeader sampleEnv 0 (create sampleHeader) 0x100 0 = some (s', some 1000) ∧
      hasFlag (memory sampleHeader s').syncOp sampleHeader.SYNC_DEVICE = false :=
  ⟨_, rfl, (map_clears_own_flag sampleHeader sampleEnv 0 (create sampleHeader) _
      0x100 0 1000 ⟨0, 4, 8, rfl, rfl, rfl, by decide, by decide, by decide⟩ rfl).2.1
      (by decide)⟩

end osgCuda.TextureMemory

namespace osgCuda.TextureMemory

/-- The method `alloc` for a host mapping changes the host pointer and the
host bytes only. -/
theorem alloc_host_frame (K : Header) (E : Env) (s : TextureMemory) (mapping : Nat)
    (h1 : hasFlag mapping K.MAP_HOST = true) :
    Frame (fun m : TextureObject => { m with hostPtr := none, hostMem := fun _ => 0 }) s
      (alloc K E s mapping).1 := by
  unfold TextureMemory.alloc
  rcases ho : TextureMemory.object K s with ⟨s1, _ | m⟩
  · obtain ⟨hf, -, -⟩ := object_spec K s s1 none ho
    exact hf.weaken _
  · obtain ⟨hf, h2, -⟩ := object_spec K s s1 (some m) ho
    obtain ⟨hm, -, -⟩ := h2 m rfl
    refine (hf.weaken _).trans ?_
    simp only [h1, if_true, TextureMemory.call]
    repeat' (first | split_ifs | dsimp only)
    all_goals
      repeat (first
        | with_reducible exact Frame.refl _ _
        | with_reducible apply Frame.emit_right
        | (with_reducible apply Frame.setObject_right
           rotate_left
           (intro m0 h0; rw [hm] at h0; cases h0; rfl)))

/-- The method `alloc` for a device mapping changes the device pointer, the
pitch and the device bytes only. -/
theorem alloc_device_frame (K : Header) (E : Env) (s : TextureMemory) (mapping : Nat)
    (h1 : hasFlag mapping K.MAP_HOST = false) (h2 : hasAll mapping K.MAP_DEVICE_ARRAY = false) :
    Frame (fun m : TextureObject => { m with devPtr := none, pitch := 0, devMem := fun _ => 0 }) s
      (alloc K E s mapping).1 := by
  unfold TextureMemory.alloc
  rcases ho : TextureMemory.object K s with ⟨s1, _ | m⟩
  · obtain ⟨hf, -, -⟩ := object_spec K s s1 none ho
    exact hf.weaken _
  · obtain ⟨hf, h3, -⟩ := object_spec K s s1 (some m) ho
    obtain ⟨hm, -, -⟩ := h3 m rfl
    refine (hf.weaken _).trans ?_
    simp only [h1, h2, if_true, TextureMemory.call, Bool.false_eq_true, if_false]
    repeat' (first | split_ifs | dsimp only)
    all_goals
      repeat (first
        | with_reducible exact Frame.refl _ _
        | with_reducible apply Frame.emit_right
        | (with_reducible apply Frame.setObject_right
           rotate_left
           (intro m0 h0; rw [hm] at h0; cases h0; rfl)))

/-- The method `alloc` for an array mapping changes the registered resource only. -/
theorem alloc_array_frame (K : Header) (E : Env) (s : TextureMemory) (mapping : Nat)
    (h1 : hasFlag mapping K.MAP_HOST = false) (h2 : hasAll mapping K.MAP_DEVICE_ARRAY = true) :
    Frame (fun m : TextureObject => { m with graphicsResource := none }) s
      (alloc K E s mapping).1 := by
  unfold TextureMemory.alloc
  rcases ho : TextureMemory.object K s with ⟨s1, _ | m⟩
  · obtain ⟨hf, -, -⟩ := object_spec K s s1 none ho
    exact hf.weaken _
  · obtain ⟨hf, h3, -⟩ := object_spec K s s1 (some m) ho
    obtain ⟨hm, -, -⟩ := h3 m rfl
    refine (hf.weaken _).trans ?_
    simp only [h1, h2, if_true, TextureMemory.call, TextureMemory.findTextureObject,
      TextureMemory.callVoid, Bool.false_eq_true, if_false]
    repeat' (first | split_ifs | dsimp only)
    all_goals
      repeat (first
        | with_reducible exact Frame.refl _ _
        | with_reducible apply Frame.emit_right
        | (with_reducible apply Frame.setObject_right
           rotate_left
           (intro m0 h0; rw [hm] at h0; cases h0; rfl)))

end osgCuda.TextureMemory

namespace osgCuda.TextureMemory

theorem Frame.pinned_handles {s s' : TextureMemory} (h : Frame TextureObject.pinned s s') :
    Frame TextureObject.handles s s' :=
  h.weaken (fun c => { c with lastModifiedCount := 0, lastModifiedAddress := none })

theorem Frame.core_handles {s s' : TextureMemory} (h : Frame TextureObject.core s s') :
    Frame TextureObject.handles s s' :=
  h.core_pinned.pinned_handles

/-- The render-target block of `map` changes the sync flags and the registered
resource only. -/
theorem mapRenderTarget_frame (K : Header) (E : Env) (s : TextureMemory) :
    Frame (fun m : TextureObject => { m with syncOp := 0, graphicsResource := none }) s
      (mapRenderTarget K E s).1 := by
  unfold TextureMemory.mapRenderTarget
  simp only [TextureMemory.call, TextureMemory.findTextureObject, TextureMemory.callVoid]
  repeat' (first | split_ifs | dsimp only)
  all_goals
    repeat (first
      | with_reducible exact Frame.refl _ _
      | with_reducible apply Frame.emit_right
      | (with_reducible apply Frame.modify_keep
         rotate_left
         (intro _; rfl)))

/-- The render-target block of `map` does nothing when the usage lacks
`GL_TARGET` or the array flag is set. -/
theorem mapRenderTarget_skip (K : Header) (E : Env) (s : TextureMemory)
    (h : hasFlag s.usage K.GL_TARGET = false ∨ hasFlag (memory K s).syncOp K.SYNC_ARRAY = true) :
    mapRenderTarget K E s = (s, true) := by
  unfold TextureMemory.mapRenderTarget
  rcases h with h | h <;> simp [h]

theorem Frame.setupDeviceCopy (E : Env) (s : TextureMemory) (data : Bytes) :
    Frame TextureObject.core s (setupDeviceCopy E s data).1 := by
  unfold TextureMemory.setupDeviceCopy
  split_ifs <;> exact Frame.copyCall _ E s _ _ (fun _ => rfl)

/-- The device branch of `setup`: what it leaves alone, and what it records
when it succeeds. -/
theorem setupDevice_spec (K : Header) (E : Env) (s s' : TextureMemory) (m : TextureObject)
    (image : Image) (b : Bool) (hm : s._object = some m)
    (h : setupDevice K E s image = (s', b)) :
    Frame TextureObject.handles s s' ∧
    (b = false → Frame TextureObject.core s s') ∧
    (b = true →
      (memory K s').lastModifiedCount = image.modifiedCount ∧
      (memory K s').lastModifiedAddress = some image.address ∧
      (memory K s').syncOp =
        (((if hasAll m.syncOp K.SYNC_DEVICE then m.syncOp ^^^ K.SYNC_DEVICE else m.syncOp)
          ||| K.SYNC_HOST) ||| K.SYNC_ARRAY)) := by
  unfold TextureMemory.setupDevice at h
  split at h
  · cases h
    exact ⟨Frame.refl _ _, fun _ => Frame.refl _ _, fun hb => (by cases hb)⟩
  · rename_i data _
    have hf0 := Frame.setupDeviceCopy E s data
    rcases hc : TextureMemory.setupDeviceCopy E s data with ⟨s1, _ | _⟩
    · rw [hc] at h hf0
      cases h
      exact ⟨hf0.core_handles, fun _ => hf0, fun hb => (by cases hb)⟩
    · rw [hc] at h hf0
      obtain ⟨m1, hm1, hmem, hso, hp⟩ := hf0.core_memory K m hm
      have hmem' : memory K s1 = m1 := hmem
      dsimp only at h
      cases h
      refine ⟨?_, fun hb => (by cases hb), fun _ => ?_⟩
      · split_ifs
        all_goals
          repeat (first
            | with_reducible exact hf0.core_handles
            | (with_reducible apply Frame.modify_keep
               rotate_left
               (intro _; rfl)))
      · by_cases c : hasAll m.syncOp K.SYNC_DEVICE = true <;> simp [hmem', hso, c]

end osgCuda.TextureMemory

namespace osgCuda.TextureMemory

/-- The host branch of `setup`: what it leaves alone, and what it records
when it succeeds. -/
theorem setupHost_spec (K : Header) (E : Env) (s s' : TextureMemory) (m : TextureObject)
    (image : Image) (b : Bool) (hm : s._object = some m)
    (h : setupHost K E s image = (s', b)) :
    Frame TextureObject.handles s s' ∧
    (b = false → Frame TextureObject.core s s') ∧
    (b = true →
      (memory K s').lastModifiedCount = image.modifiedCount ∧
      (memory K s').lastModifiedAddress = some image.address ∧
      (memory K s').syncOp =
        (((if hasAll m.syncOp K.SYNC_HOST then m.syncOp ^^^ K.SYNC_HOST else m.syncOp)
          ||| K.SYNC_DEVICE) ||| K.SYNC_ARRAY)) := by
  unfold TextureMemory.setupHost at h
  split at h
  · cases h
    exact ⟨Frame.refl _ _, fun _ => Frame.refl _ _, fun hb => (by cases hb)⟩
  · rename_i data _
    have hf0 := Frame.copyCall TextureObject.core E s .setupHostMemcpy
      (fun m => { m with hostMem := memcpyFlat m.hostMem data (getByteSize s) }) (fun _ => rfl)
    rcases hc : TextureMemory.copyCall E s .setupHostMemcpy
      (fun m => { m with hostMem := memcpyFlat m.hostMem data (getByteSize s) }) with ⟨s1, _ | _⟩
    · rw [hc] at h hf0
      cases h
      exact ⟨hf0.core_handles, fun _ => hf0, fun hb => (by cases hb)⟩
    · rw [hc] at h hf0
      obtain ⟨m1, hm1, hmem, hso, hp⟩ := hf0.core_memory K m hm
      have hmem' : memory K s1 = m1 := hmem
      dsimp only at h
      cases h
      refine ⟨?_, fun hb => (by cases hb), fun _ => ?_⟩
      · split_ifs
        all_goals
          repeat (first
            | with_reducible exact hf0.core_handles
            | (with_reducible apply Frame.modify_keep
               rotate_left
               (intro _; rfl)))
      · by_cases c : hasAll m.syncOp K.SYNC_HOST = true <;> simp [hmem', hso, c]

/-- A copy primitive that succeeds leaves the updated object. -/
theorem copyCall_success (E : Env) (s s' : TextureMemory) (site : Site)
    (u : TextureObject → TextureObject) (m : TextureObject) (hm : s._object = some m)
    (h : copyCall E s site u = (s', true)) :
    s'._object = some (u m) ∧ s'.trace = s.trace ++ [Event.call site true] := by
  unfold TextureMemory.copyCall TextureMemory.call at h
  split at h
  · simp at h
  · rename_i s1 x hcall
    simp only [Prod.mk.injEq] at hcall
    obtain ⟨rfl, hx⟩ := hcall
    have hok : E.ok s.trace.length site = true := by
      by_contra hne
      simp [hne] at hx
    simp only [TextureMemory.emit, hm] at h
    simp only [Prod.mk.injEq, and_true] at h
    subst h
    simp [TextureMemory.setObject, hok]

/-- The state `object()` returns when the object exists. -/
theorem object_of_some (K : Header) (s : TextureMemory) (m : TextureObject)
    (hm : s._object = some m) (hc : s.isClear = false) : object K s = (s, some m) := by
  simp [TextureMemory.object, hm, hc]

/-- The bytes a successful `sync` of the host memory leaves there when the
device memory is the current one. -/
theorem sync_host_from_device (K : Header) (E : Env) (s s' : TextureMemory) (mapping : Nat)
    (m : TextureObject) (hmap : K.isHostMapping mapping)
    (hm : s._object = some m) (hc : s.isClear = false)
    (hH : hasFlag m.syncOp K.SYNC_HOST = true) (hD : hasFlag m.syncOp K.SYNC_DEVICE = false)
    (h : sync K E s mapping = (s', true)) :
    descriptor s' = descriptor s ∧
    (memory K s').hostMem =
      (if getNumDimensions s = 3 then
        memcpy3D m.hostMem (rowBytes s) (getDimension s 1) m.devMem m.pitch (getDimension s 1)
          (rowBytes s) (getDimension s 1) (getDimension s 2)
      else if getNumDimensions s = 2 then
        memcpy2D m.hostMem (rowBytes s) m.devMem m.pitch (rowBytes s) (getDimension s 1)
      else memcpyFlat m.hostMem m.devMem (getByteSize s)) := by
  obtain ⟨h1, h2, h3, -, -⟩ := hmap
  refine ⟨(sync_spec K E s s' mapping true h).1.1, ?_⟩
  unfold TextureMemory.sync at h
  rw [object_of_some K s m hm hc] at h
  simp only [h1, h2, h3, if_true, Bool.false_eq_true, if_false] at h
  unfold TextureMemory.syncHost at h
  simp only [hH, hD, Bool.not_true, Bool.false_eq_true, if_false, Bool.and_false,
    Bool.or_false] at h
  split_ifs at h with hchk
  · simp at h
  · rcases hcp : TextureMemory.syncHostCopy K E s m with ⟨s1, _ | _⟩
    · rw [hcp] at h; simp at h
    · rw [hcp] at h
      simp only [Prod.mk.injEq, and_true] at h
      subst h
      unfold TextureMemory.syncHostCopy at hcp
      simp only [hD, Bool.false_eq_true, if_false, beq_iff_eq] at hcp
      split_ifs at hcp with r3 r2
      all_goals
        obtain ⟨ho, -⟩ := copyCall_success E s s1 _ _ m hm hcp
        simp [memory_of_object K s1 _ ho, *]

end osgCuda.TextureMemory

/-! ### The descriptor `osgCompute::Memory` -/

namespace osgCompute.Memory

theorem u32_lt (n : Nat) : u32 n < 2 ^ 32 := Nat.mod_lt _ (by norm_num)

theorem foldl_u32 (l : List Nat) (a : Nat) :
    (l.foldl (fun n d => u32 (n * d)) a) % 2 ^ 32 = (a * l.prod) % 2 ^ 32 := by
  induction l generalizing a with
  | nil => simp
  | cons d l ih =>
    simp only [List.foldl_cons, List.prod_cons]
    rw [ih, u32, Nat.mod_mul_mod, Nat.mul_assoc]

theorem foldl_u32_lt (l : List Nat) (a : Nat) (ha : a < 2 ^ 32) :
    l.foldl (fun n d => u32 (n * d)) a < 2 ^ 32 := by
  induction l generalizing a with
  | nil => simpa using ha
  | cons d l ih =>
    simp only [List.foldl_cons]
    exact ih _ (u32_lt _)

/-- The loop of `init` computes the product of the extents modulo `2 ^ 32`. -/
theorem computeNumElements_eq (l : List Nat) : computeNumElements l = l.prod % 2 ^ 32 := by
  have h1 := foldl_u32 l 1
  have h2 := foldl_u32_lt l 1 (by norm_num)
  rw [Nat.mod_eq_of_lt h2, Nat.one_mul] at h1
  exact h1

/-- C15: on an unconfigured descriptor `Memory::init()` returns false exactly
when the dimension list is empty or the element size is 0, and then leaves the
descriptor as it was; otherwise it stores the number of elements and the
descriptor is initialised; on an initialised descriptor it returns true and
changes nothing. -/
theorem init_spec (s : TextureMemory) :
    (s.isClear = true →
      ((init s).2 = false ↔ (s.dimensions = [] ∨ s.elementSize = 0)) ∧
      ((init s).2 = false → (init s).1 = s) ∧
      ((init s).2 = true →
        (init s).1 = { s with numElements := computeNumElements s.dimensions,
                              isClear := false })) ∧
    (s.isClear = false → init s = (s, true)) := by
  constructor
  · intro hc
    unfold init Resource.init
    rcases hd : s.dimensions with _ | ⟨d, l⟩
    · simp [hc]
    · by_cases he : s.elementSize = 0
      · simp [hc, he]
      · simp [hc, he]
  · intro hc
    simp [init, hc]

/-- C16: after a successful `init()` the number of elements is the product of
the extents in unsigned 32-bit arithmetic, hence the exact product when that
is below `2 ^ 32`, and the byte size is the element size times that number,
in unsigned 32-bit arithmetic. -/
theorem init_numElements (s : TextureMemory) (hc : s.isClear = true)
    (h : (init s).2 = true) :
    getNumElements (init s).1 = s.dimensions.prod % 2 ^ 32 ∧
    (s.dimensions.prod < 2 ^ 32 → getNumElements (init s).1 = s.dimensions.prod) ∧
    getByteSize (init s).1 =
      (getElementSize (init s).1 * (s.dimensions.prod % 2 ^ 32)) % 2 ^ 32 ∧
    (init s).1.dimensions = s.dimensions := by
  have h3 := ((init_spec s).1 hc).2.2 h
  rw [h3]
  refine ⟨?_, fun hlt => ?_, ?_, ?_⟩
  · simp [getNumElements, computeNumElements_eq]
  · simp only [getNumElements, computeNumElements_eq]
    exact Nat.mod_eq_of_lt hlt
  · simp [getNumElements, getByteSize, getElementSize, u32, computeNumElements_eq]
  · rfl

/-- An instance of C16: 6 elements of 4 bytes. -/
theorem init_numElements_witness :
    getNumElements rowDescriptor = 6 ∧ getByteSize rowDescriptor = 24 := by
  have h := init_numElements (setDimension (setElementSize (TextureMemory.create sampleHeader) 4)
    0 6) rfl rfl
  exact ⟨h.1, h.2.2.1⟩

theorem sizeMinusOne_of_pos (l : List Nat) (h0 : 0 < l.length) (h1 : l.length < 2 ^ 64) :
    sizeMinusOne l = l.length - 1 := by
  unfold sizeMinusOne
  have : l.length + 2 ^ 64 - 1 = (l.length - 1) + 2 ^ 64 := by omega
  rw [this, Nat.add_mod_right, Nat.mod_eq_of_lt (by omega)]

theorem length_resize (l : List Nat) (n : Nat) : (resize l n).length = n := by
  simp only [resize, List.length_append, List.length_take, List.length_replicate]
  omega

theorem length_setDimensionResize (l : List Nat) (dimIdx : Nat) (hi : dimIdx < UINT_MAX) :
    dimIdx < (setDimensionResize l dimIdx).length ∧
    (l.length < 2 ^ 64 → (setDimensionResize l dimIdx).length < 2 ^ 64) := by
  have hU : UINT_MAX = 2 ^ 32 - 1 := rfl
  have hu : u32 (dimIdx + 1) = dimIdx + 1 := Nat.mod_eq_of_lt (by omega)
  unfold setDimensionResize
  split_ifs with hle
  · rw [length_resize, hu]
    have : (2:Nat) ^ 32 < 2 ^ 64 := by norm_num
    exact ⟨by omega, fun _ => by omega⟩
  · exact ⟨by omega, fun h => h⟩

/-- The setters `setDimension`, `setElementSize` and `setAllocHint` take
effect while the descriptor is unconfigured, `setDimension` for every index
below `UINT_MAX`, and change nothing once the descriptor is initialised, in
particular once `object()` has returned an object. -/
theorem setters_spec (s : TextureMemory) (dimIdx dimSize elementSize allocHint : Nat) :
    (s.isClear = true →
      (dimIdx < UINT_MAX → s.dimensions.length < 2 ^ 64 →
        setDimension? s dimIdx dimSize = some (setDimension s dimIdx dimSize) ∧
        getDimension (setDimension s dimIdx dimSize) dimIdx = dimSize) ∧
      getElementSize (setElementSize s elementSize) = elementSize ∧
      getAllocHint (setAllocHint s allocHint) = s.allocHint ||| allocHint) ∧
    (s.isClear = false →
      setDimension s dimIdx dimSize = s ∧ setElementSize s elementSize = s ∧
      setAllocHint s allocHint = s) ∧
    (∀ (K : Header) (s1 : TextureMemory) (m : TextureObject),
      TextureMemory.object K s = (s1, some m) →
      setDimension s1 dimIdx dimSize = s1 ∧ setElementSize s1 elementSize = s1 ∧
      setAllocHint s1 allocHint = s1) := by
  refine ⟨fun hc => ⟨fun hi hl => ⟨?_, ?_⟩, by simp [getElementSize, setElementSize, hc],
    by simp [getAllocHint, setAllocHint, hc]⟩, fun hc => by
      simp [setDimension, setElementSize, setAllocHint, hc], fun K s1 m ho => ?_⟩
  · unfold setDimension? setDimension
    simp only [hc, Bool.not_true, Bool.false_eq_true, if_false,
      (length_setDimensionResize s.dimensions dimIdx hi).1, if_true]
  · unfold getDimension getDimension? setDimension
    simp only [hc, Bool.not_true, Bool.false_eq_true, if_false]
    obtain ⟨hlen, hlen2⟩ := length_setDimensionResize s.dimensions dimIdx hi
    have hlen2 := hlen2 hl
    set l := setDimensionResize s.dimensions dimIdx with hl'
    have hsm : sizeMinusOne (l.set dimIdx dimSize) = l.length - 1 := by
      rw [sizeMinusOne_of_pos _ (by simp; omega) (by simpa using hlen2)]
      simp
    rw [hsm]
    have : ¬ dimIdx > l.length - 1 := by omega
    simp [this, hlen]
  · obtain ⟨-, h2, -⟩ := object_spec K s s1 (some m) ho
    have hc := (h2 m rfl).2.1
    simp [setDimension, setElementSize, setAllocHint, hc]

/-- C17 does not hold of the code for the index `UINT_MAX`: on the
unconfigured descriptor on which `setDimension( 0, 4 )` was called, the call
`setDimension( UINT_MAX, 5 )` computes `dimIdx+1` as 0 in `unsigned int`, its
`resize( 0, 0 )` empties the list, so that the extent 4 is lost, and its write
of `_dimensions[dimIdx]` is outside the list; it is outside the list on a
descriptor that was just created too. -/
theorem setDimension_index_wraps :
    (setDimension (TextureMemory.create sampleHeader) 0 4).isClear = true ∧
    (setDimension (TextureMemory.create sampleHeader) 0 4).dimensions = [4] ∧
    u32 (UINT_MAX + 1) = 0 ∧
    setDimensionResize [4] UINT_MAX = [] ∧
    (setDimension? (setDimension (TextureMemory.create sampleHeader) 0 4) UINT_MAX 5).isNone
      = true ∧
    (setDimension? (TextureMemory.create sampleHeader) UINT_MAX 5).isNone = true := by
  refine ⟨rfl, by decide, by decide, by decide, by decide, by decide⟩

/-- The claim C18 fails: after `setElementSize( 4 )` and `setDimension( 1, 5 )`
the descriptor initialises although its first extent is 0, and it has no
elements. -/
theorem init_zero_extent :
    (init paddedDescriptor).2 = true ∧ (init paddedDescriptor).1.dimensions = [0, 5] ∧
    getNumElements (init paddedDescriptor).1 = 0 := by
  decide

/-- C18 as amended: a descriptor on which `init()` has succeeded has a
non-empty dimension list and a positive element size; it has no elements when
an extent is 0, and has elements when every extent is positive and their
product is below `2 ^ 32`. -/
theorem init_extents (s : TextureMemory) (hc : s.isClear = true) (h : (init s).2 = true) :
    (init s).1.dimensions ≠ [] ∧ 0 < getElementSize (init s).1 ∧
    (0 ∈ (init s).1.dimensions → getNumElements (init s).1 = 0) ∧
    ((∀ d ∈ (init s).1.dimensions, 0 < d) → s.dimensions.prod < 2 ^ 32 →
      0 < getNumElements (init s).1) := by
  have hspec := (init_spec s).1 hc
  have hne : ¬ (s.dimensions = [] ∨ s.elementSize = 0) := by
    intro hcon
    have := hspec.1.2 hcon
    rw [h] at this; cases this
  have hn := init_numElements s hc h
  rw [hn.2.2.2]
  have h3 := hspec.2.2 h
  refine ⟨fun e => hne (Or.inl e), ?_, fun h0 => ?_, fun hpos hlt => ?_⟩
  · rw [h3]
    exact Nat.pos_of_ne_zero (fun e => hne (Or.inr e))
  · rw [hn.1, List.prod_eq_zero h0]; rfl
  · rw [hn.2.1 hlt]
    exact List.prod_pos hpos

/-- An instance of the amended C18: the descriptor of 6 elements. -/
theorem init_extents_witness : 0 < getNumElements rowDescriptor :=
  (init_extents (setDimension (setElementSize (TextureMemory.create sampleHeader) 4) 0 6)
    rfl rfl).2.2.2 (by decide) (by decide)

end osgCompute.Memory

/-! ### The pitch -/

namespace osgCuda.TextureMemory

/-- C19: for a row size `r = dimension[0] * elementSize > 0` and an alignment
`a > 0` with `r + a < 2 ^ 32`, `computePitch` returns the smallest multiple of
`a` that is at least `r`. -/
theorem computePitch_spec (E : Env) (s : TextureMemory)
    (hd : getDimension s 0 ≠ 0) (he : getElementSize s ≠ 0) (ha : 0 < E.textureAlignment)
    (hlt : getDimension s 0 * getElementSize s + E.textureAlignment < 2 ^ 32) :
    E.textureAlignment ∣ computePitch E s ∧
    getDimension s 0 * getElementSize s ≤ computePitch E s ∧
    computePitch E s - getDimension s 0 * getElementSize s < E.textureAlignment ∧
    (E.textureAlignment ∣ getDimension s 0 * getElementSize s →
      computePitch E s = getDimension s 0 * getElementSize s) ∧
    (∀ q, E.textureAlignment ∣ q → getDimension s 0 * getElementSize s ≤ q →
      computePitch E s ≤ q) := by
  have hr : rowBytes s = getDimension s 0 * getElementSize s := by
    unfold rowBytes; exact u32_of_lt _ (by omega)
  generalize hrdef : getDimension s 0 * getElementSize s = r at *
  generalize hadef : E.textureAlignment = a at *
  have hmod : r % a < a := Nat.mod_lt _ ha
  have hdm : a * (r / a) + r % a = r := Nat.div_add_mod r a
  have hcond : (getDimension s 0 == 0 || getElementSize s == 0) = false := by
    simp [hd, he]
  unfold computePitch
  simp only [hcond, Bool.false_eq_true, if_false, hr, hadef, bne_iff_ne, ne_eq, ite_not]
  by_cases h0 : r % a = 0
  · simp only [h0, if_true]
    refine ⟨Nat.dvd_of_mod_eq_zero h0, le_refl _, by omega, fun _ => trivial, fun q _ hq => hq⟩
  · simp only [h0, if_false]
    have hp : u32 (r + (a - r % a)) = a * (r / a + 1) := by
      rw [u32_of_lt _ (by omega)]
      rw [Nat.mul_add, Nat.mul_one]; omega
    rw [hp]
    refine ⟨Dvd.intro _ rfl, by rw [Nat.mul_add, Nat.mul_one]; omega,
      by rw [Nat.mul_add, Nat.mul_one]; omega, fun hdiv => ?_, fun q hq hrq => ?_⟩
    · exact absurd (Nat.mod_eq_zero_of_dvd hdiv) h0
    · obtain ⟨j, rfl⟩ := hq
      apply Nat.mul_le_mul_left
      by_contra hcon
      have hj : j ≤ r / a := by omega
      have : a * j ≤ a * (r / a) := Nat.mul_le_mul_left a hj
      omega

/-- An instance of C19: a row of 24 bytes and an alignment of 16 give the pitch 32. -/
theorem computePitch_spec_witness :
    computePitch { sampleEnv with textureAlignment := 16 } rowDescriptor = 32 ∧
    (16 : Nat) ∣ computePitch { sampleEnv with textureAlignment := 16 } rowDescriptor :=
  ⟨by decide, (computePitch_spec { sampleEnv with textureAlignment := 16 } rowDescriptor
    (by decide) (by decide) (by decide) (by decide)).1⟩

/-- The claim C20 fails: on the initialised descriptor whose first extent is 0
the pitch is 0, and the second of two consecutive calls of `getPitch()`
evaluates `computePitch()` again. -/
theorem getPitch_recomputes_zero :
    zeroWidthDescriptor.isClear = false ∧
    (getPitch sampleEnv zeroWidthDescriptor).1.trace = [Event.computePitch] ∧
    (getPitch sampleEnv (getPitch sampleEnv zeroWidthDescriptor).1).1.trace =
      [Event.computePitch, Event.computePitch] := by
  decide

theorem getPitch_of_zero (E : Env) (s : TextureMemory) (hc : s.isClear = false)
    (h0 : s.pitch = 0) :
    getPitch E s =
      ({ emit s .computePitch with pitch := computePitch E s }, computePitch E s) := by
  unfold getPitch
  simp only [hc, h0, Bool.false_eq_true, if_false, beq_self_eq_true, if_true]
  rfl

theorem getPitch_of_ne (E : Env) (s : TextureMemory) (hc : s.isClear = false)
    (h0 : s.pitch ≠ 0) : getPitch E s = (s, s.pitch) := by
  unfold getPitch
  simp [hc, h0]

/-- C20 as amended: two consecutive calls of `getPitch()` on an initialised
descriptor return the same value, and when that value is not 0 the second
call returns the cached pitch without evaluating `computePitch()`: it leaves
the state, with its trace, as it is. -/
theorem getPitch_cached (E : Env) (s : TextureMemory) (hc : s.isClear = false) :
    (getPitch E (getPitch E s).1).2 = (getPitch E s).2 ∧
    ((getPitch E s).2 ≠ 0 →
      ∀ E' : Env, getPitch E' (getPitch E s).1 = ((getPitch E s).1, (getPitch E s).2)) := by
  by_cases h0 : s.pitch = 0
  · rw [getPitch_of_zero E s hc h0]
    have hc1 : ({ emit s .computePitch with pitch := computePitch E s } :
        TextureMemory).isClear = false := hc
    refine ⟨?_, fun hne E' => ?_⟩
    · by_cases hz : computePitch E s = 0
      · rw [getPitch_of_zero E _ hc1 hz]; rfl
      · rw [getPitch_of_ne E _ hc1 hz]
    · exact getPitch_of_ne E' _ hc1 hne
  · rw [getPitch_of_ne E s hc h0]
    exact ⟨by rw [getPitch_of_ne E s hc h0], fun _ E' => getPitch_of_ne E' s hc h0⟩

/-- An instance of the amended C20: the pitch 32 is computed once. -/
theorem getPitch_cached_witness :
    (getPitch { sampleEnv with textureAlignment := 16 }
      (getPitch { sampleEnv with textureAlignment := 16 } rowDescriptor).1).1.trace =
      [Event.computePitch] := by
  have h := (getPitch_cached { sampleEnv with textureAlignment := 16 } rowDescriptor rfl).2
    (by decide) { sampleEnv with textureAlignment := 16 }
  rw [h]
  decide

end osgCuda.TextureMemory

/-! ### `TextureMemory::init` -/

namespace osgCuda.TextureMemory

/-- The members `setDimension` leaves alone. -/
theorem setDimension_keeps (s : TextureMemory) (i d : Nat) :
    (setDimension s i d)._object = s._object ∧ (setDimension s i d).isClear = s.isClear ∧
    (setDimension s i d).trace = s.trace ∧ (setDimension s i d).usage = s.usage ∧
    (setDimension s i d).subloadCallback = s.subloadCallback := by
  unfold setDimension
  split_ifs <;> exact ⟨rfl, rfl, rfl, rfl, rfl⟩

theorem setElementSize_keeps (s : TextureMemory) (e : Nat) :
    (setElementSize s e)._object = s._object ∧ (setElementSize s e).isClear = s.isClear ∧
    (setElementSize s e).trace = s.trace ∧ (setElementSize s e).usage = s.usage ∧
    (setElementSize s e).subloadCallback = s.subloadCallback := by
  unfold setElementSize
  split_ifs <;> exact ⟨rfl, rfl, rfl, rfl, rfl⟩

theorem initDimensionLoop_keeps (E : Env) (fuel d : Nat) (s : TextureMemory) (reads : List Nat) :
    (initDimensionLoop E fuel d s reads).1._object = s._object ∧
    (initDimensionLoop E fuel d s reads).1.isClear = s.isClear ∧
    (initDimensionLoop E fuel d s reads).1.trace = s.trace ∧
    (initDimensionLoop E fuel d s reads).1.usage = s.usage ∧
    (initDimensionLoop E fuel d s reads).1.subloadCallback = s.subloadCallback := by
  induction fuel generalizing d s reads with
  | zero => exact ⟨rfl, rfl, rfl, rfl, rfl⟩
  | succ fuel ih =>
    unfold initDimensionLoop
    dsimp only
    split_ifs
    · obtain ⟨h1, h2, h3, h4, h5⟩ := ih (d + 1) (setDimension s d
        ((initDimensionDim E).getD d E.pastDim)) (reads ++ [d])
      obtain ⟨k1, k2, k3, k4, k5⟩ := setDimension_keeps s d
        ((initDimensionDim E).getD d E.pastDim)
      exact ⟨h1.trans k1, h2.trans k2, h3.trans k3, h4.trans k4, h5.trans k5⟩
    · exact ⟨rfl, rfl, rfl, rfl, rfl⟩

theorem initElementSize_keeps (E : Env) (s s' : TextureMemory) (b : Bool)
    (h : initElementSize E s = (s', b)) :
    s'._object = s._object ∧ s'.isClear = s.isClear ∧ s'.trace = s.trace ∧
    s'.usage = s.usage ∧ s'.subloadCallback = s.subloadCallback := by
  unfold initElementSize at h
  dsimp only at h
  split_ifs at h <;> cases h <;>
    first | exact ⟨rfl, rfl, rfl, rfl, rfl⟩ | exact setElementSize_keeps _ _

theorem initDimension_keeps (E : Env) (s s' : TextureMemory) (b : Bool)
    (h : initDimension E s = (s', b)) :
    s'._object = s._object ∧ s'.isClear = s.isClear ∧ s'.trace = s.trace ∧
    s'.usage = s.usage ∧ s'.subloadCallback = s.subloadCallback := by
  unfold initDimension at h
  split_ifs at h
  · cases h; exact ⟨rfl, rfl, rfl, rfl, rfl⟩
  · cases h; exact initDimensionLoop_keeps _ _ _ _ _

/-- The method `clear` drops the object, leaves the descriptor clear and
keeps the trace and the usage. -/
theorem clear_keeps (s : TextureMemory) :
    (clear s)._object = none ∧ (clear s).isClear = true ∧ (clear s).trace = s.trace ∧
    (clear s).usage = s.usage :=
  ⟨rfl, rfl, rfl, rfl⟩

theorem GLMemory_init_keeps (s s' : TextureMemory) (b : Bool) (hc : s.isClear = true)
    (h : GLMemory_init s = (s', b)) :
    s'._object = s._object ∧ s'.isClear = !b ∧ s'.trace = s.trace ∧
    s'.usage = s.usage ∧ s'.subloadCallback = s.subloadCallback := by
  unfold GLMemory_init Memory.init Resource.init at h
  simp only [hc, Bool.not_true, Bool.false_eq_true, if_false] at h
  split_ifs at h <;> cases h <;> simp [hc]

/-- The method `init` on a clear descriptor without an object and with a
texture: it leaves the object, the trace and the usage alone, and the
descriptor is clear afterwards exactly when `init` fails. -/
theorem init_keeps (E : Env) (s s' : TextureMemory) (b : Bool) (hc : s.isClear = true)
    (ho : s._object = none) (hv : E.texrefValid = true) (h : init E s = (s', b)) :
    s'._object = none ∧ s'.isClear = (!b) ∧ s'.trace = s.trace ∧ s'.usage = s.usage := by
  unfold TextureMemory.init at h
  simp only [hc, hv, Bool.not_true, Bool.or_self, Bool.false_eq_true, if_false] at h
  rcases h1 : initElementSize E s with ⟨s1, _ | _⟩
  · rw [h1] at h
    obtain ⟨-, -, k3, k4, -⟩ := initElementSize_keeps E s s1 _ h1
    cases h
    exact ⟨rfl, rfl, k3, k4⟩
  · rw [h1] at h
    obtain ⟨k1, k2, k3, k4, -⟩ := initElementSize_keeps E s s1 _ h1
    dsimp only at h
    rcases h2 : initDimension E s1 with ⟨s2, _ | _⟩
    · rw [h2] at h
      obtain ⟨-, -, j3, j4, -⟩ := initDimension_keeps E s1 s2 _ h2
      cases h
      exact ⟨rfl, rfl, j3.trans k3, j4.trans k4⟩
    · rw [h2] at h
      obtain ⟨j1, j2, j3, j4, -⟩ := initDimension_keeps E s1 s2 _ h2
      dsimp only at h
      obtain ⟨i1, i2, i3, i4, -⟩ := GLMemory_init_keeps s2 s' b (j2.trans (k2.trans hc)) h
      exact ⟨i1.trans (j1.trans (k1.trans ho)), i2, i3.trans (j3.trans k3),
        i4.trans (j4.trans k4)⟩

/-- The method `init` without a texture does nothing and succeeds. -/
theorem init_invalid (E : Env) (s : TextureMemory) (hv : E.texrefValid = false) :
    init E s = (s, true) := by
  simp [TextureMemory.init, hv]

/-- C9: if the descriptor is unconfigured and `init()` fails, `map` returns
`NULL` for every mapping and offset, creates no object, calls no primitive
(it allocates nothing) and leaves the descriptor unconfigured. -/
theorem map_init_fails (K : Header) (E : Env) (fuel : Nat) (s : TextureMemory)
    (mapping offset : Nat) (hc : s.isClear = true) (ho : s._object = none)
    (hi : (init E s).2 = false) :
    ∃ s', map K E fuel s mapping offset = some (s', none) ∧ s'._object = none ∧
      s'.isClear = true ∧ s'.trace = s.trace := by
  have hv : E.texrefValid = true := by
    by_contra hne
    simp only [Bool.not_eq_true] at hne
    rw [init_invalid E s hne] at hi
    cases hi
  rcases hinit : init E s with ⟨s0, b⟩
  rw [hinit] at hi
  simp only at hi
  subst hi
  obtain ⟨k1, k2, k3, -⟩ := init_keeps E s s0 false hc ho hv hinit
  refine ⟨s0, ?_, k1, k2, k3⟩
  unfold map mapBody
  simp only [hv, hc, Bool.not_true, Bool.false_eq_true, if_false, if_true, hinit]

/-- An instance of C9: the internal format of the texture has no size, so
`initElementSize` fails. -/
theorem map_init_fails_witness :
    ∃ s', map sampleHeader { sampleEnv with internalFormatSizeInBits := 0 } 0
        (create sampleHeader) 0x10 0 = some (s', none) ∧
      s'._object = none ∧ s'.isClear = true ∧ s'.trace = (create sampleHeader).trace :=
  map_init_fails sampleHeader { sampleEnv with internalFormatSizeInBits := 0 } 0
    (create sampleHeader) 0x10 0 rfl rfl rfl

end osgCuda.TextureMemory

namespace osgCuda.TextureMemory

/-- A successful `init` keeps the object. -/
theorem init_object (E : Env) (s s' : TextureMemory) (h : init E s = (s', true)) :
    s'._object = s._object := by
  unfold TextureMemory.init at h
  split_ifs at h with hc
  · cases h; rfl
  · simp only [Bool.or_eq_true, Bool.not_eq_true', not_or, Bool.not_eq_false] at hc
    rcases h1 : initElementSize E s with ⟨s1, _ | _⟩
    · rw [h1] at h; cases h
    · rw [h1] at h
      obtain ⟨k1, k2, -⟩ := initElementSize_keeps E s s1 _ h1
      dsimp only at h
      rcases h2 : initDimension E s1 with ⟨s2, _ | _⟩
      · rw [h2] at h; cases h
      · rw [h2] at h
        obtain ⟨j1, j2, -⟩ := initDimension_keeps E s1 s2 _ h2
        dsimp only at h
        obtain ⟨i1, -⟩ := GLMemory_init_keeps s2 s' true (j2.trans (k2.trans hc.1)) h
        exact i1.trans (j1.trans k1)

/-- The object that `object` returns has the handles and the pitch of the
object there was, or of a new one. -/
theorem object_memory (K : Header) (s s1 : TextureMemory) (m : TextureObject)
    (h : object K s = (s1, some m)) :
    m.hostPtr = (memory K s).hostPtr ∧ m.devPtr = (memory K s).devPtr ∧
    m.graphicsArray = (memory K s).graphicsArray ∧
    m.graphicsResource = (memory K s).graphicsResource ∧ m.pitch = (memory K s).pitch := by
  unfold TextureMemory.object at h
  split_ifs at h with hc
  · simp at h
  · split at h
    · rename_i m0 hm0
      simp only [Prod.mk.injEq, Option.some.injEq] at h
      obtain ⟨rfl, rfl⟩ := h
      rw [memory_of_object K _ _ hm0]
      exact ⟨rfl, rfl, rfl, rfl, rfl⟩
    · rename_i hm0
      simp only [Prod.mk.injEq, Option.some.injEq] at h
      obtain ⟨rfl, rfl⟩ := h
      simp [memory, hm0, TextureObject.create]

@[simp] theorem memory_getPitch (K : Header) (E : Env) (s : TextureMemory) :
    memory K (getPitch E s).1 = memory K s := by
  unfold getPitch
  split_ifs <;> rfl

@[simp] theorem memory_call (K : Header) (E : Env) (s : TextureMemory) (site : Site) :
    memory K (call E s site).1 = memory K s := rfl

@[simp] theorem memory_callVoid (K : Header) (s : TextureMemory) (site : Site) :
    memory K (callVoid s site) = memory K s := rfl

theorem call_fst (E : Env) (s s1 : TextureMemory) (site : Site) (r : Option Nat)
    (h : call E s site = (s1, r)) : s1 = emit s (.call site (E.ok s.trace.length site)) := by
  unfold TextureMemory.call at h
  cases h
  rfl

theorem getPitch_fst (E : Env) (s : TextureMemory) :
    (getPitch E s).1.isClear = s.isClear ∧ (getPitch E s).1.usage = s.usage ∧
    (getPitch E s).1.subloadCallback = s.subloadCallback ∧
    getByteSize (getPitch E s).1 = getByteSize s ∧
    (getPitch E s).1._object = s._object := by
  unfold getPitch
  split_ifs <;> exact ⟨rfl, rfl, rfl, rfl, rfl⟩

/-- The block "Reset host memory" of `reset` changes the bytes of the host
memory only, and fills the `getByteSize()` bytes with zero when the host
memory is allocated and there is no image. -/
theorem resetHost_spec (K : Header) (E : Env) (s : TextureMemory) :
    (resetHost K E s).isClear = s.isClear ∧ (resetHost K E s).usage = s.usage ∧
    (resetHost K E s).subloadCallback = s.subloadCallback ∧
    getByteSize (resetHost K E s) = getByteSize s ∧
    getNumDimensions (resetHost K E s) = getNumDimensions s ∧
    ((∃ m, s._object = some m) → ∃ m', (resetHost K E s)._object = some m') ∧
    (fun m : TextureObject => { m with hostMem := fun _ => 0 }) (memory K (resetHost K E s)) =
      (fun m : TextureObject => { m with hostMem := fun _ => 0 }) (memory K s) ∧
    ((memory K s).hostPtr ≠ none → E.image = none →
      ∀ k, k < getByteSize s → (memory K (resetHost K E s)).hostMem k = 0) := by
  unfold resetHost
  split_ifs with hcond
  · refine ⟨rfl, rfl, rfl, rfl, rfl, fun _ => ⟨_, rfl⟩, rfl, fun _ _ k hk => ?_⟩
    simp only [memory_modify, memsetFlat]
    rw [if_pos]
    exact hk
  · refine ⟨rfl, rfl, rfl, rfl, rfl, id, rfl, fun h1 h2 => ?_⟩
    exfalso
    apply hcond
    simp [h1, h2]

/-- The block "clear shadow-copy memory" of `reset`, when `reset` returns
`true`, changes the bytes of the device memory and the cached pitch of the
descriptor only. -/
theorem resetDevice_spec (K : Header) (E : Env) (fuel : Nat) (s s' : TextureMemory)
    (h : resetDevice K E fuel s = some (s', true)) :
    s'.isClear = s.isClear ∧ s'.usage = s.usage ∧
    s'.subloadCallback = s.subloadCallback ∧ getByteSize s' = getByteSize s ∧
    ((∃ m, s._object = some m) → ∃ m', s'._object = some m') ∧
    (fun m : TextureObject => { m with devMem := fun _ => 0 }) (memory K s') =
      (fun m : TextureObject => { m with devMem := fun _ => 0 }) (memory K s) := by
  unfold resetDevice at h
  split_ifs at h
  · rcases hg : getPitch E s with ⟨sg, pg⟩
    rw [hg] at h
    dsimp only at h
    rcases hcall : TextureMemory.call E sg .resetMemset3D with ⟨sc, _ | v⟩
    · rw [hcall] at h
      dsimp only at h
      split at h <;> cases h
    · rw [hcall] at h
      dsimp only at h
      cases h
      have e0 := call_fst _ _ _ _ _ hcall
      subst e0
      have hsg : sg = (getPitch E s).1 := by rw [hg]
      subst hsg
      obtain ⟨g1, g2, g3, g4, g5⟩ := getPitch_fst E s
      refine ⟨g1, g2, g3, g4, fun _ => ⟨_, rfl⟩, ?_⟩
      simp only [memory_modify, memory_emit, memory_getPitch]
  · rcases hcall : TextureMemory.call E s .resetMemset2D with ⟨sc, _ | v⟩
    · rw [hcall] at h
      dsimp only at h
      split at h <;> cases h
    · rw [hcall] at h
      dsimp only at h
      cases h
      have e0 := call_fst _ _ _ _ _ hcall
      subst e0
      exact ⟨rfl, rfl, rfl, rfl, fun _ => ⟨_, rfl⟩, rfl⟩
  · rcases hcall : TextureMemory.call E s .resetMemset with ⟨sc, _ | v⟩
    · rw [hcall] at h
      dsimp only at h
      split at h <;> cases h
    · rw [hcall] at h
      dsimp only at h
      cases h
      have e0 := call_fst _ _ _ _ _ hcall
      subst e0
      exact ⟨rfl, rfl, rfl, rfl, fun _ => ⟨_, rfl⟩, rfl⟩
  · cases h
    exact ⟨rfl, rfl, rfl, rfl, id, rfl⟩

/-- What a `reset` that returns `true` does to the object: see C13. -/
theorem reset_spec (K : Header) (E : Env) (fuel : Nat) (s s' : TextureMemory)
    (h : reset K E fuel s = some (s', true)) :
    (memory K s').syncOp = K.NO_SYNC ∧
    (memory K s').lastModifiedCount = UINT_MAX ∧
    (memory K s').hostPtr = (memory K s).hostPtr ∧
    (memory K s').devPtr = (memory K s).devPtr ∧
    (memory K s').graphicsArray = (memory K s).graphicsArray ∧
    (memory K s').graphicsResource = (memory K s).graphicsResource ∧
    (memory K s').pitch = (memory K s).pitch := by
  by_cases hv : E.texrefValid = true
  swap
  · simp only [Bool.not_eq_true] at hv
    simp [reset, hv] at h
  unfold reset at h
  simp only [hv, Bool.not_true, Bool.false_eq_true, if_false] at h
  have hpre : ∃ s0, (if s.isClear = true then init E s else (s, true)) = (s0, true) ∧
      s0._object = s._object := by
    rcases hi : (if s.isClear = true then init E s else (s, true)) with ⟨s0, _ | _⟩
    · rw [hi] at h; cases h
    · refine ⟨s0, rfl, ?_⟩
      split_ifs at hi
      · exact init_object E s s0 hi
      · cases hi; rfl
  obtain ⟨s0, hi, ho0⟩ := hpre
  rw [hi] at h
  dsimp only at h
  have hmem0 : memory K s0 = memory K s := by simp [memory, ho0]
  rcases hobj : object K s0 with ⟨s1, _ | m1⟩
  · rw [hobj] at h; cases h
  · rw [hobj] at h
    dsimp only at h
    obtain ⟨hs1, -⟩ := object_some K s0 s1 m1 hobj
    have hm1 := object_memory K s0 s1 m1 hobj
    rw [hmem0, ← memory_of_object K s1 m1 hs1] at hm1
    obtain ⟨e1, e2, e3, e4, e5⟩ := hm1
    rw [← e1, ← e2, ← e3, ← e4, ← e5]
    obtain ⟨-, -, -, -, -, dD⟩ := resetDevice_spec K E fuel _ s' h
    obtain ⟨-, -, -, -, -, -, dH, -⟩ := resetHost_spec K E
      (modify K (modify K s1 (fun m => { m with lastModifiedCount := UINT_MAX }))
        (fun m => { m with syncOp := K.NO_SYNC }))
    generalize memory K (resetHost K E (modify K (modify K s1
      (fun m => { m with lastModifiedCount := UINT_MAX }))
        (fun m => { m with syncOp := K.NO_SYNC }))) = mH at dD dH
    generalize memory K s' = m' at dD ⊢
    simp only [memory_modify] at dH
    generalize memory K s1 = mm at dH ⊢
    have a1 := congrArg TextureObject.syncOp dD
    have a2 := congrArg TextureObject.lastModifiedCount dD
    have a3 := congrArg TextureObject.hostPtr dD
    have a4 := congrArg TextureObject.devPtr dD
    have a5 := congrArg TextureObject.graphicsArray dD
    have a6 := congrArg TextureObject.graphicsResource dD
    have a7 := congrArg TextureObject.pitch dD
    have b1 := congrArg TextureObject.syncOp dH
    have b2 := congrArg TextureObject.lastModifiedCount dH
    have b3 := congrArg TextureObject.hostPtr dH
    have b4 := congrArg TextureObject.devPtr dH
    have b5 := congrArg TextureObject.graphicsArray dH
    have b6 := congrArg TextureObject.graphicsResource dH
    have b7 := congrArg TextureObject.pitch dH
    simp only at a1 a2 a3 a4 a5 a6 a7 b1 b2 b3 b4 b5 b6 b7
    exact ⟨a1.trans b1, a2.trans b2, a3.trans b3, a4.trans b4, a5.trans b5, a6.trans b6,
      a7.trans b7⟩

/-- C13: a successful `reset()` leaves the sync flags at `NO_SYNC`, so (with
`NO_SYNC` the empty set of flags) none of the three dirty bits is set, puts
the recorded version of the image to `UINT_MAX`, and releases nothing: the
host, device and array handles, the registered resource and the pitch of the
object are as before the call. -/
theorem reset_success (K : Header) (E : Env) (fuel : Nat) (s s' : TextureMemory)
    (hNo : K.NO_SYNC = 0) (h : reset K E fuel s = some (s', true)) :
    hasFlag (memory K s').syncOp K.SYNC_HOST = false ∧
    hasFlag (memory K s').syncOp K.SYNC_DEVICE = false ∧
    hasFlag (memory K s').syncOp K.SYNC_ARRAY = false ∧
    (memory K s').lastModifiedCount = UINT_MAX ∧
    (memory K s').hostPtr = (memory K s).hostPtr ∧
    (memory K s').devPtr = (memory K s).devPtr ∧
    (memory K s').graphicsArray = (memory K s).graphicsArray ∧
    (memory K s').graphicsResource = (memory K s).graphicsResource ∧
    (memory K s').pitch = (memory K s).pitch := by
  obtain ⟨k0, k1, k2, k3, k4, k5, k6⟩ := reset_spec K E fuel s s' h
  rw [k0, hNo]
  exact ⟨by simp [hasFlag], by simp [hasFlag], by simp [hasFlag], k1, k2, k3, k4, k5, k6⟩

/-- An instance of C13: a reset after a host-target mapping of a fresh memory,
which has left the device flag set and the host memory allocated. -/
theorem reset_success_witness :
    ∃ s', reset sampleHeader sampleEnv 0 hostWritten = some (s', true) ∧
      hasFlag (memory sampleHeader hostWritten).syncOp sampleHeader.SYNC_DEVICE = true ∧
      hasFlag (memory sampleHeader s').syncOp sampleHeader.SYNC_DEVICE = false ∧
      (memory sampleHeader s').hostPtr = some 1000 :=
  ⟨_, rfl, by decide,
    (reset_success sampleHeader sampleEnv 0 hostWritten _ rfl rfl).2.1,
    ((reset_success sampleHeader sampleEnv 0 hostWritten _ rfl rfl).2.2.2.2.1).trans
      (by decide)⟩

end osgCuda.TextureMemory

namespace osgCuda.TextureMemory

/-- On a configured memory with an object, a `map` with a mapping other than
`UNMAP` is the part of `map` that follows RECEIVE HANDLE. -/
theorem mapBody_configured (unmap : TextureMemory → Option TextureMemory) (K : Header)
    (E : Env) (s : TextureMemory) (m : TextureObject) (mapping offset : Nat)
    (hv : E.texrefValid = true) (hc : s.isClear = false) (hne : mapping ≠ K.UNMAP)
    (ho : s._object = some m) :
    mapBody unmap K E s mapping offset = mapMain unmap K E s mapping offset := by
  unfold mapBody
  have hne' : (mapping == K.UNMAP) = false := by simpa using hne
  simp only [hv, hc, hne', Bool.not_true, Bool.false_eq_true, if_false,
    object_of_some K s m ho hc]

theorem needsSetup_modify (K : Header) (E : Env) (s : TextureMemory)
    (u : TextureObject → TextureObject)
    (h1 : ∀ m, (u m).lastModifiedCount = m.lastModifiedCount)
    (h2 : ∀ m, (u m).lastModifiedAddress = m.lastModifiedAddress) :
    needsSetup K E (modify K s u) = needsSetup K E s := by
  unfold needsSetup
  cases E.image with
  | none => rfl
  | some image => simp only [memory_modify, h1, h2]

/-- The host branch of `map` when nothing is to be done: the host memory is
allocated, the image has not changed and the host flag is clear. -/
theorem mapMain_host_quiet (unmap : TextureMemory → Option TextureMemory) (K : Header)
    (E : Env) (s : TextureMemory) (mapping offset p : Nat)
    (hu : hasFlag s.usage K.GL_TARGET = false ∨ hasFlag (memory K s).syncOp K.SYNC_ARRAY = true)
    (hn : needsSetup K E s = false)
    (hmap : hasFlag mapping K.MAP_HOST = true) (hp : (memory K s).hostPtr = some p)
    (hf : hasFlag (memory K s).syncOp K.SYNC_HOST = false) :
    mapMain unmap K E s mapping offset =
      some (mapFinish K (modify K s (fun m => { m with mapping := mapping }))
        mapping offset p false) := by
  unfold mapMain
  rw [mapRenderTarget_skip K E s hu]
  dsimp only
  unfold mapData
  have hn' := needsSetup_modify K E s (fun m => { m with mapping := mapping })
    (fun _ => rfl) (fun _ => rfl)
  simp only [hmap, if_true, hn', hn]
  unfold mapHost
  simp only [memory_modify, hp, beq_iff_eq, reduceCtorEq, if_false]
  unfold mapSetupSync
  simp only [Bool.false_eq_true, if_false, memory_modify, hf, hp]

/-- The device branch of `map` when nothing is to be done. -/
theorem mapMain_device_quiet (unmap : TextureMemory → Option TextureMemory) (K : Header)
    (E : Env) (s : TextureMemory) (mapping offset p : Nat)
    (hu : hasFlag s.usage K.GL_TARGET = false ∨ hasFlag (memory K s).syncOp K.SYNC_ARRAY = true)
    (hn : needsSetup K E s = false)
    (h1 : hasFlag mapping K.MAP_HOST = false) (h2 : hasAll mapping K.MAP_DEVICE_ARRAY = false)
    (h3 : hasFlag mapping K.MAP_DEVICE = true) (hp : (memory K s).devPtr = some p)
    (hf : hasFlag (memory K s).syncOp K.SYNC_DEVICE = false) :
    mapMain unmap K E s mapping offset =
      some (mapFinish K (modify K s (fun m => { m with mapping := mapping }))
        mapping offset p false) := by
  unfold mapMain
  rw [mapRenderTarget_skip K E s hu]
  dsimp only
  unfold mapData
  have hn' := needsSetup_modify K E s (fun m => { m with mapping := mapping })
    (fun _ => rfl) (fun _ => rfl)
  simp only [h1, h2, h3, if_true, hn', hn, Bool.false_eq_true, if_false]
  unfold mapDevice
  simp only [memory_modify, hp, beq_iff_eq, reduceCtorEq, if_false]
  unfold mapSetupSync
  simp only [Bool.false_eq_true, if_false, memory_modify, hf, hp]

/-- The array branch of `map` when nothing is to be done: the texture is
registered and mapped, the image has not changed and the array flag is
clear. -/
theorem mapMain_array_quiet (unmap : TextureMemory → Option TextureMemory) (K : Header)
    (E : Env) (s : TextureMemory) (mapping offset p r : Nat)
    (hu : hasFlag s.usage K.GL_TARGET = false)
    (hn : needsSetup K E s = false)
    (h1 : hasFlag mapping K.MAP_HOST = false) (h2 : hasAll mapping K.MAP_DEVICE_ARRAY = true)
    (hr : (memory K s).graphicsResource = some r)
    (hp : (memory K s).graphicsArray = some p)
    (hf : hasFlag (memory K s).syncOp K.SYNC_ARRAY = false) :
    mapMain unmap K E s mapping offset =
      some (mapFinish K (modify K s (fun m => { m with mapping := mapping }))
        mapping offset p false) := by
  unfold mapMain
  rw [mapRenderTarget_skip K E s (Or.inl hu)]
  dsimp only
  unfold mapData
  have hn' := needsSetup_modify K E s (fun m => { m with mapping := mapping })
    (fun _ => rfl) (fun _ => rfl)
  simp only [h1, h2, if_true, hn', hn, Bool.false_eq_true, if_false]
  unfold mapArray
  simp only [memory_modify, hp, hr, beq_iff_eq, reduceCtorEq, if_false]
  unfold mapSetupSync
  simp only [Bool.false_eq_true, if_false, memory_modify, hf, hp]

/-- The end of `map` leaves the descriptor and the bytes alone. -/
theorem mapFinish_keeps (K : Header) (s : TextureMemory) (mapping offset ptr : Nat)
    (firstLoad : Bool) :
    (mapFinish K s mapping offset ptr firstLoad).2 = some (ptr + offset) ∧
    descriptor (mapFinish K s mapping offset ptr firstLoad).1 = descriptor s ∧
    TextureObject.pinned (memory K (mapFinish K s mapping offset ptr firstLoad).1) =
      TextureObject.pinned (memory K s) ∧
    (memory K (mapFinish K s mapping offset ptr firstLoad).1).hostMem =
      (memory K s).hostMem ∧
    (memory K (mapFinish K s mapping offset ptr firstLoad).1).devMem =
      (memory K s).devMem ∧
    (memory K (mapFinish K s mapping offset ptr firstLoad).1).arrayMem =
      (memory K s).arrayMem ∧
    (memory K (mapFinish K s mapping offset ptr firstLoad).1).graphicsArray =
      (memory K s).graphicsArray ∧
    (memory K (mapFinish K s mapping offset ptr firstLoad).1).graphicsResource =
      (memory K s).graphicsResource := by
  unfold mapFinish
  dsimp only
  split_ifs <;> exact ⟨rfl, rfl, rfl, rfl, rfl, rfl, rfl, rfl⟩

/-- The method `reset` on a configured memory without an image whose host
memory is allocated: it fills the `getByteSize()` bytes of the host memory
with zero and leaves the descriptor but its cached pitch alone. -/
theorem reset_host_zero (K : Header) (E : Env) (fuel : Nat) (s s' : TextureMemory)
    (hc : s.isClear = false) (himg : E.image = none)
    (hhost : (memory K s).hostPtr ≠ none) (h : reset K E fuel s = some (s', true)) :
    s'.isClear = false ∧ s'.usage = s.usage ∧ s'.subloadCallback = s.subloadCallback ∧
    getByteSize s' = getByteSize s ∧ (∃ m', s'._object = some m') ∧
    ∀ k, k < getByteSize s → (memory K s').hostMem k = 0 := by
  by_cases hv : E.texrefValid = true
  swap
  · simp only [Bool.not_eq_true] at hv
    simp [reset, hv] at h
  unfold reset at h
  simp only [hv, hc, Bool.not_true, Bool.false_eq_true, if_false] at h
  rcases hobj : object K s with ⟨s1, _ | m1⟩
  · rw [hobj] at h; cases h
  · rw [hobj] at h
    dsimp only at h
    obtain ⟨hs1, hc1⟩ := object_some K s s1 m1 hobj
    have hm1 := (object_memory K s s1 m1 hobj).1
    have hd : s1.usage = s.usage ∧ s1.subloadCallback = s.subloadCallback ∧
        getByteSize s1 = getByteSize s := by
      unfold TextureMemory.object at hobj
      simp only [hc, Bool.false_eq_true, if_false] at hobj
      split at hobj <;> cases hobj <;> exact ⟨rfl, rfl, rfl⟩
    obtain ⟨hd1, hd2, hd3⟩ := hd
    rw [← hm1, ← memory_of_object K s1 m1 hs1] at hhost
    rw [← hd1, ← hd2, ← hd3]
    obtain ⟨d1, d2, d3, d4, d5, dD⟩ := resetDevice_spec K E fuel _ s' h
    obtain ⟨e1, e2, e3, e4, -, e5, -, e6⟩ := resetHost_spec K E
      (modify K (modify K s1 (fun m => { m with lastModifiedCount := UINT_MAX }))
        (fun m => { m with syncOp := K.NO_SYNC }))
    refine ⟨(d1.trans e1).trans hc1, d2.trans e2, d3.trans e3, d4.trans e4,
      d5 (e5 ⟨_, rfl⟩), fun k hk => ?_⟩
    have a := congrFun (congrArg TextureObject.hostMem dD) k
    simp only at a
    rw [a]
    exact e6 hhost himg k hk

/-- C14, amended: on a configured memory without an attached image, whose host
memory is allocated and whose usage lacks `GL_TARGET`, a successful `reset()`
followed by a `map` of the host memory returns the host pointer, and the
`getByteSize()` bytes of the host memory are all zero. -/
theorem reset_then_map_host (K : Header) (E E2 : Env) (fuel fuel2 : Nat)
    (s s1 : TextureMemory) (mapping offset : Nat)
    (hNo : K.NO_SYNC = 0) (himg : E.image = none) (himg2 : E2.image = none)
    (hv2 : E2.texrefValid = true) (hc : s.isClear = false)
    (hhost : (memory K s).hostPtr ≠ none) (hu : hasFlag s.usage K.GL_TARGET = false)
    (hmap : hasFlag mapping K.MAP_HOST = true) (hne : mapping ≠ K.UNMAP)
    (hr : reset K E fuel s = some (s1, true)) :
    ∃ s2 p, (memory K s).hostPtr = some p ∧
      map K E2 fuel2 s1 mapping offset = some (s2, some (p + offset)) ∧
      getByteSize s2 = getByteSize s ∧
      ∀ k, k < getByteSize s2 → (memory K s2).hostMem k = 0 := by
  obtain ⟨r1, r2, -, r4, ⟨m1, r5⟩, r6⟩ := reset_host_zero K E fuel s s1 hc himg hhost hr
  obtain ⟨k0, -, k2, -⟩ := reset_spec K E fuel s s1 hr
  rcases hp : (memory K s).hostPtr with _ | p
  · exact absurd hp hhost
  have hf : hasFlag (memory K s1).syncOp K.SYNC_HOST = false := by
    rw [k0, hNo]; simp [hasFlag]
  have hn : needsSetup K E2 s1 = false := by simp [needsSetup, himg2]
  have hq := mapMain_host_quiet (unmap K E2 fuel2) K E2 s1 mapping offset p
    (Or.inl (r2 ▸ hu)) hn hmap (k2.trans hp) hf
  obtain ⟨f1, f2, -, f4, -⟩ := mapFinish_keeps K
    (modify K s1 (fun m => { m with mapping := mapping })) mapping offset p false
  refine ⟨(mapFinish K (modify K s1 (fun m => { m with mapping := mapping }))
    mapping offset p false).1, p, rfl, ?_, ?_, ?_⟩
  · unfold map
    rw [mapBody_configured _ K E2 s1 m1 mapping offset hv2 r1 hne r5, hq, ← f1]
  · have := congrArg getByteSize f2
    exact this.trans r4
  · intro k hk
    rw [f4]
    have e : getByteSize (mapFinish K (modify K s1 (fun m => { m with mapping := mapping }))
        mapping offset p false).1 = getByteSize s := (congrArg getByteSize f2).trans r4
    rw [e] at hk
    exact r6 k hk

/-- An instance of C14, amended: a reset of the memory `hostWritten`, then a
`map( MAP_HOST_SOURCE )`. -/
theorem reset_then_map_host_witness :
    ∃ s1 s2 p, reset sampleHeader sampleEnv 0 hostWritten = some (s1, true) ∧
      (memory sampleHeader hostWritten).hostPtr = some p ∧
      map sampleHeader sampleEnv 0 s1 0x01 0 = some (s2, some (p + 0)) ∧
      getByteSize s2 = getByteSize hostWritten ∧
      ∀ k, k < getByteSize s2 → (memory sampleHeader s2).hostMem k = 0 :=
  have h := reset_then_map_host sampleHeader sampleEnv sampleEnv 0 0 hostWritten
    (modify sampleHeader (modify sampleHeader (callVoid (modify sampleHeader
      (modify sampleHeader hostWritten (fun m => { m with lastModifiedCount := UINT_MAX }))
      (fun m => { m with syncOp := 0 })) .resetMemsetHost)
      (fun m => { m with hostMem := memsetFlat m.hostMem 4 })) id)
    0x01 0 rfl rfl rfl rfl rfl (by decide) (by decide) (by decide) (by decide) rfl
  h.elim fun s2 h2 => h2.elim fun p h3 => ⟨_, s2, p, rfl, h3⟩

/-- C14 fails with an image attached: `reset` does not fill the host memory
then, and the `map( MAP_HOST_SOURCE )` that follows copies the image into it
again; the host memory holds the bytes of the image, which are 5. -/
theorem reset_then_map_image :
    ∃ s1 s2, reset sampleHeader imageEnv 0 imageWritten = some (s1, true) ∧
      map sampleHeader imageEnv 0 s1 0x01 0 = some (s2, some 1000) ∧
      0 < getByteSize s2 ∧ (memory sampleHeader s2).hostMem 0 = 5 :=
  ⟨_, _, rfl, rfl, by decide, rfl⟩

end osgCuda.TextureMemory

/-! ### The load/subload hook -/

namespace osgCuda.TextureMemory

@[simp] theorem hooks_emit_call (s : TextureMemory) (site : Site) (ok : Bool) :
    hooks (emit s (.call site ok)) = hooks s := by
  simp [hooks, TextureMemory.emit, Event.isHook]

@[simp] theorem hooks_setObject (s : TextureMemory) (m : TextureObject) :
    hooks (setObject s m) = hooks s := rfl

@[simp] theorem hooks_modify (K : Header) (s : TextureMemory)
    (u : TextureObject → TextureObject) : hooks (modify K s u) = hooks s := rfl

@[simp] theorem hooks_call (E : Env) (s : TextureMemory) (site : Site) :
    hooks (call E s site).1 = hooks s := by
  simp [TextureMemory.call]

@[simp] theorem hooks_callVoid (s : TextureMemory) (site : Site) :
    hooks (callVoid s site) = hooks s := by
  simp [TextureMemory.callVoid]

@[simp] theorem hooks_copyCall (E : Env) (s : TextureMemory) (site : Site)
    (u : TextureObject → TextureObject) : hooks (copyCall E s site u).1 = hooks s := by
  unfold copyCall
  simp only [TextureMemory.call]
  repeat' (first | split_ifs | dsimp only)
  all_goals first | simp | (split <;> simp)

@[simp] theorem hooks_object (K : Header) (s : TextureMemory) :
    hooks (object K s).1 = hooks s := by
  unfold TextureMemory.object
  repeat' (first | split_ifs | split | dsimp only)
  all_goals rfl

@[simp] theorem hooks_alloc (K : Header) (E : Env) (s : TextureMemory) (mapping : Nat) :
    hooks (alloc K E s mapping).1 = hooks s := by
  unfold alloc
  rcases ho : object K s with ⟨s1, _ | m⟩
  · have := hooks_object K s
    rw [ho] at this
    exact this
  · have h1 := hooks_object K s
    rw [ho] at h1
    simp only at h1 ⊢
    rw [← h1]
    simp only [findTextureObject, TextureMemory.call, TextureMemory.callVoid]
    repeat' (first | split_ifs | dsimp only)
    all_goals simp

@[simp] theorem hooks_syncMapArray (E : Env) (s : TextureMemory) (m : TextureObject)
    (r1 r2 r3 : Site) : hooks (syncMapArray E s m r1 r2 r3).1 = hooks s := by
  unfold syncMapArray
  simp only [TextureMemory.call]
  repeat' (first | split_ifs | dsimp only)
  all_goals simp

@[simp] theorem hooks_syncHostCopy (K : Header) (E : Env) (s : TextureMemory)
    (m : TextureObject) : hooks (syncHostCopy K E s m).1 = hooks s := by
  unfold syncHostCopy
  dsimp only
  split_ifs
  · rcases hc : syncMapArray E s m .syncHostRegisterImage .syncHostMapResources
      .syncHostGetMappedArray with ⟨s1, _ | _⟩
    · have := hooks_syncMapArray E s m .syncHostRegisterImage .syncHostMapResources
        .syncHostGetMappedArray
      rw [hc] at this
      exact this
    · have := hooks_syncMapArray E s m .syncHostRegisterImage .syncHostMapResources
        .syncHostGetMappedArray
      rw [hc] at this
      dsimp only at this ⊢
      split_ifs <;> simp [this]
  all_goals simp

@[simp] theorem hooks_syncDeviceCopy (K : Header) (E : Env) (s : TextureMemory)
    (m : TextureObject) : hooks (syncDeviceCopy K E s m).1 = hooks s := by
  unfold syncDeviceCopy
  dsimp only
  split_ifs
  · rcases hc : syncMapArray E s m .syncDeviceRegisterImage .syncDeviceMapResources
      .syncDeviceGetMappedArray with ⟨s1, _ | _⟩
    · have := hooks_syncMapArray E s m .syncDeviceRegisterImage .syncDeviceMapResources
        .syncDeviceGetMappedArray
      rw [hc] at this
      exact this
    · have := hooks_syncMapArray E s m .syncDeviceRegisterImage .syncDeviceMapResources
        .syncDeviceGetMappedArray
      rw [hc] at this
      dsimp only at this ⊢
      split_ifs <;> simp [this]
  all_goals simp

@[simp] theorem hooks_syncArrayCopy (K : Header) (E : Env) (s : TextureMemory)
    (m : TextureObject) : hooks (syncArrayCopy K E s m).1 = hooks s := by
  unfold syncArrayCopy
  dsimp only
  split_ifs
  · rcases hc : copyCall E s .syncArrayFromHostToArray
      (fun m => { m with arrayMem := memcpyFlat m.arrayMem m.hostMem (getByteSize s) })
      with ⟨s1, _ | _⟩
    · have := hooks_copyCall E s .syncArrayFromHostToArray
        (fun m => { m with arrayMem := memcpyFlat m.arrayMem m.hostMem (getByteSize s) })
      rw [hc] at this
      exact this
    · have := hooks_copyCall E s .syncArrayFromHostToArray
        (fun m => { m with arrayMem := memcpyFlat m.arrayMem m.hostMem (getByteSize s) })
      rw [hc] at this
      dsimp only at this ⊢
      split_ifs <;> simp [this]
  all_goals
    try dsimp only
    first | (split_ifs <;> simp) | simp

/-- The three branches of `sync` call no hook. -/
theorem hooks_syncBranches (K : Header) (E : Env) (s : TextureMemory) (m : TextureObject) :
    hooks (syncHost K E s m).1 = hooks s ∧ hooks (syncDevice K E s m).1 = hooks s ∧
    hooks (syncArray K E s m).1 = hooks s := by
  refine ⟨?_, ?_, ?_⟩
  · unfold syncHost
    split_ifs
    · rfl
    · rfl
    · have := hooks_syncHostCopy K E s m
      rcases hc : syncHostCopy K E s m with ⟨s1, _ | _⟩ <;> rw [hc] at this <;> exact this
  · unfold syncDevice
    split_ifs
    · rfl
    · rfl
    · have := hooks_syncDeviceCopy K E s m
      rcases hc : syncDeviceCopy K E s m with ⟨s1, _ | _⟩ <;> rw [hc] at this <;> exact this
  · unfold syncArray
    split_ifs
    · rfl
    · rfl
    · have := hooks_syncArrayCopy K E s m
      rcases hc : syncArrayCopy K E s m with ⟨s1, _ | _⟩ <;> rw [hc] at this <;> exact this

@[simp] theorem hooks_sync (K : Header) (E : Env) (s : TextureMemory) (mapping : Nat) :
    hooks (sync K E s mapping).1 = hooks s := by
  unfold sync
  have h0 := hooks_object K s
  rcases ho : object K s with ⟨s1, _ | m⟩
  · rw [ho] at h0; exact h0
  · rw [ho] at h0
    obtain ⟨h1, h2, h3⟩ := hooks_syncBranches K E s1 m
    dsimp only at h0 ⊢
    split_ifs
    · exact h3.trans h0
    · exact h2.trans h0
    · exact h1.trans h0
    · exact h0

@[simp] theorem hooks_setupDevice (K : Header) (E : Env) (s : TextureMemory) (image : Image) :
    hooks (setupDevice K E s image).1 = hooks s := by
  unfold setupDevice
  split
  · rfl
  · rename_i data _
    have : hooks (setupDeviceCopy E s data).1 = hooks s := by
      unfold setupDeviceCopy
      split_ifs <;> simp
    rcases hc : setupDeviceCopy E s data with ⟨s1, _ | _⟩
    · rw [hc] at this; exact this
    · rw [hc] at this
      dsimp only at this ⊢
      split_ifs <;> simp [this]

@[simp] theorem hooks_setupHost (K : Header) (E : Env) (s : TextureMemory) (image : Image) :
    hooks (setupHost K E s image).1 = hooks s := by
  unfold setupHost
  split
  · rfl
  · rename_i data _
    have := hooks_copyCall E s .setupHostMemcpy
      (fun m => { m with hostMem := memcpyFlat m.hostMem data (getByteSize s) })
    rcases hc : copyCall E s .setupHostMemcpy
      (fun m => { m with hostMem := memcpyFlat m.hostMem data (getByteSize s) })
      with ⟨s1, _ | _⟩
    · rw [hc] at this; exact this
    · rw [hc] at this
      dsimp only at this ⊢
      split_ifs <;> simp [this]

@[simp] theorem hooks_mapRenderTarget (K : Header) (E : Env) (s : TextureMemory) :
    hooks (mapRenderTarget K E s).1 = hooks s := by
  unfold mapRenderTarget
  simp only [findTextureObject, TextureMemory.call, TextureMemory.callVoid]
  repeat' (first | split_ifs | dsimp only)
  all_goals simp

/-- A successful `init` keeps the object, the trace, the usage and the
callback, and leaves the descriptor of a texture configured. -/
theorem init_success (E : Env) (s s' : TextureMemory) (h : init E s = (s', true)) :
    s'._object = s._object ∧ s'.trace = s.trace ∧ s'.usage = s.usage ∧
    s'.subloadCallback = s.subloadCallback ∧ (E.texrefValid = true → s'.isClear = false) := by
  unfold TextureMemory.init at h
  split_ifs at h with hc
  · cases h
    refine ⟨rfl, rfl, rfl, rfl, fun hv => ?_⟩
    simpa [hv] using hc
  · simp only [Bool.or_eq_true, Bool.not_eq_true', not_or, Bool.not_eq_false] at hc
    rcases h1 : initElementSize E s with ⟨s1, _ | _⟩
    · rw [h1] at h; cases h
    · rw [h1] at h
      obtain ⟨k1, k2, k3, k4, k5⟩ := initElementSize_keeps E s s1 _ h1
      dsimp only at h
      rcases h2 : initDimension E s1 with ⟨s2, _ | _⟩
      · rw [h2] at h; cases h
      · rw [h2] at h
        obtain ⟨j1, j2, j3, j4, j5⟩ := initDimension_keeps E s1 s2 _ h2
        dsimp only at h
        obtain ⟨i1, i2, i3, i4, i5⟩ :=
          GLMemory_init_keeps s2 s' true (j2.trans (k2.trans hc.1)) h
        exact ⟨i1.trans (j1.trans k1), i3.trans (j3.trans k3), i4.trans (j4.trans k4),
          i5.trans (j5.trans k5), fun _ => by simpa using i2⟩

/-- The state in which the part of `map`, `unmap` and `reset` after RECEIVE
HANDLE starts: the descriptor is configured, and the object is the one there
was, or a new one, which differs from the value `memory` reads without an
object in the allocation hint only. -/
theorem enter (K : Header) (E : Env) (s s0 s1 : TextureMemory) (m1 : TextureObject)
    (hi : (if s.isClear then init E s else (s, true)) = (s0, true))
    (ho : object K s0 = (s1, some m1)) :
    s1.isClear = false ∧ s1._object = some m1 ∧ s1.trace = s.trace ∧ s1.usage = s.usage ∧
    s1.subloadCallback = s.subloadCallback ∧
    (fun m : TextureObject => { m with allocHint := 0 }) m1 =
      (fun m : TextureObject => { m with allocHint := 0 }) (memory K s) ∧
    (s.isClear = false → descriptor s1 = descriptor s) := by
  have h0 : s0._object = s._object ∧ s0.trace = s.trace ∧ s0.usage = s.usage ∧
      s0.subloadCallback = s.subloadCallback ∧ (s.isClear = false → s0 = s) := by
    split_ifs at hi with hc
    · obtain ⟨a1, a2, a3, a4, -⟩ := init_success E s s0 hi
      exact ⟨a1, a2, a3, a4, fun hc' => by rw [hc] at hc'; cases hc'⟩
    · cases hi
      exact ⟨rfl, rfl, rfl, rfl, fun _ => rfl⟩
  obtain ⟨a1, a2, a3, a4, a5⟩ := h0
  have hmem : memory K s0 = memory K s := by simp [memory, a1]
  unfold TextureMemory.object at ho
  split_ifs at ho with hc
  · cases ho
  · split at ho
    · rename_i m0 hm0
      cases ho
      refine ⟨by simpa using hc, hm0, a2, a3, a4, ?_, fun hc' => by rw [a5 hc']⟩
      rw [← hmem, memory_of_object K _ _ hm0]
    · rename_i hm0
      cases ho
      refine ⟨by simpa using hc, rfl, a2, a3, a4, ?_, fun hc' => by rw [a5 hc']; rfl⟩
      rw [← hmem]
      simp [memory, hm0, TextureObject.create]

/-- The results of `map` with a mapping other than `UNMAP`: it returns `NULL`
at once without a texture or when `init` fails, and else it runs the part
after RECEIVE HANDLE. -/
theorem mapBody_cases (unmap : TextureMemory → Option TextureMemory) (K : Header)
    (E : Env) (s s' : TextureMemory) (mapping offset : Nat) (r : Option Nat)
    (hne : mapping ≠ K.UNMAP)
    (h : mapBody unmap K E s mapping offset = some (s', r)) :
    (r = none ∧ E.texrefValid = false ∧ s' = s) ∨
    (r = none ∧ E.texrefValid = true ∧ s.isClear = true ∧ init E s = (s', false)) ∨
    (∃ s0 s1 m1, E.texrefValid = true ∧
      (if s.isClear then init E s else (s, true)) = (s0, true) ∧
      object K s0 = (s1, some m1) ∧
      mapMain unmap K E s1 mapping offset = some (s', r)) := by
  have hne' : (mapping == K.UNMAP) = false := by simpa using hne
  unfold mapBody at h
  by_cases hv : E.texrefValid = true
  swap
  · simp only [Bool.not_eq_true] at hv
    simp only [hv, Bool.not_false, if_true, Option.some.injEq, Prod.mk.injEq] at h
    exact Or.inl ⟨h.2.symm, hv, h.1.symm⟩
  simp only [hv, Bool.not_true, Bool.false_eq_true, if_false, hne'] at h
  rcases hi : (if s.isClear = true then init E s else (s, true)) with ⟨s0, _ | _⟩
  · rw [hi] at h
    simp only [Option.some.injEq, Prod.mk.injEq] at h
    obtain ⟨rfl, rfl⟩ := h
    right; left
    split_ifs at hi with hc
    · exact ⟨rfl, hv, hc, hi⟩
    · cases hi
  · rw [hi] at h
    dsimp only at h
    right; right
    rcases ho : object K s0 with ⟨s1, _ | m1⟩
    · exfalso
      have hc0 : s0.isClear = false := by
        split_ifs at hi with hc
        · exact (init_success E s s0 hi).2.2.2.2 hv
        · cases hi; simpa using hc
      simp [TextureMemory.object, hc0] at ho
      split at ho <;> simp at ho
    · rw [ho] at h
      exact ⟨s0, s1, m1, hv, rfl, ho, h⟩

end osgCuda.TextureMemory

namespace osgCuda.TextureMemory

/-- The method `setup` for a mapping that is not one of the array calls no
hook and leaves the descriptor alone. -/
theorem setupBody_calls (unmap : TextureMemory → Option TextureMemory) (K : Header) (E : Env)
    (s s' : TextureMemory) (mapping : Nat) (b : Bool)
    (ha : hasAll mapping K.MAP_DEVICE_ARRAY = false)
    (h : setupBody unmap K E s mapping = some (s', b)) :
    descriptor s' = descriptor s ∧ hooks s' = hooks s := by
  unfold setupBody at h
  have hf0 := Frame.object (fun _ : TextureObject => ()) K s
  have hh0 := hooks_object K s
  rcases ho : object K s with ⟨s1, _ | m1⟩
  · rw [ho] at h hf0 hh0
    cases h
    exact ⟨hf0.1, hh0⟩
  · rw [ho] at h hf0 hh0
    obtain ⟨hm1, -⟩ := object_some K s s1 m1 ho
    dsimp only at h hf0 hh0
    split at h
    · cases h
      exact ⟨hf0.1, hh0⟩
    · rename_i image _
      simp only [ha, Bool.false_eq_true, if_false] at h
      split_ifs at h
      · simp only [Option.some.injEq] at h
        have h1 := (setupDevice_spec K E s1 s' m1 image b hm1 h).1
        have h2 := hooks_setupDevice K E s1 image
        rw [h] at h2
        exact ⟨h1.1.trans hf0.1, h2.trans hh0⟩
      · simp only [Option.some.injEq] at h
        have h1 := (setupHost_spec K E s1 s' m1 image b hm1 h).1
        have h2 := hooks_setupHost K E s1 image
        rw [h] at h2
        exact ⟨h1.1.trans hf0.1, h2.trans hh0⟩
      · cases h
        exact ⟨hf0.1, hh0⟩

/-- The steps SETUP STREAM and SYNC STREAM of `map` call no hook and leave the
descriptor alone, unless `setup` runs for the array. -/
theorem mapSetupSync_calls (unmap : TextureMemory → Option TextureMemory) (K : Header)
    (E : Env) (s s' : TextureMemory) (mapping : Nat) (ns : Bool) (flag : Nat) (b : Bool)
    (hq : hasAll mapping K.MAP_DEVICE_ARRAY = true → ns = false)
    (h : mapSetupSync unmap K E s mapping ns flag = some (s', b)) :
    descriptor s' = descriptor s ∧ hooks s' = hooks s := by
  unfold mapSetupSync at h
  have h1 : ∀ s3 b3, (if ns = true then setupBody unmap K E s mapping else some (s, true)) =
      some (s3, b3) → descriptor s3 = descriptor s ∧ hooks s3 = hooks s := by
    intro s3 b3 h3
    split_ifs at h3 with hns
    · have ha : hasAll mapping K.MAP_DEVICE_ARRAY = false := by
        by_contra hne
        simp only [Bool.not_eq_false] at hne
        rw [hq hne] at hns
        cases hns
      exact setupBody_calls unmap K E s s3 mapping b3 ha h3
    · cases h3
      exact ⟨rfl, rfl⟩
  split at h
  · cases h
  · rename_i s3 h3
    cases h
    exact h1 _ _ h3
  · rename_i s3 h3
    obtain ⟨d3, k3⟩ := h1 _ _ h3
    split_ifs at h
    · simp only [Option.some.injEq] at h
      have a := (sync_spec K E s3 s' mapping b h).1.1
      have c := hooks_sync K E s3 mapping
      rw [h] at c
      exact ⟨a.trans d3, c.trans k3⟩
    · cases h
      exact ⟨d3, k3⟩

/-- The part MAP DATA of `map`, when it ends with a pointer: no hook is
called, the descriptor is left alone, the pointer is the handle of the mapped
representation, and `firstLoad` tells whether that representation had no
handle when its branch was reached. -/
theorem mapData_calls (unmap : TextureMemory → Option TextureMemory) (K : Header)
    (E : Env) (s s' : TextureMemory) (mapping ptr : Nat) (firstLoad : Bool)
    (hq : hasAll mapping K.MAP_DEVICE_ARRAY = true → needsSetup K E s = false)
    (h : mapData unmap K E s mapping = some (s', some (some ptr, firstLoad))) :
    descriptor s' = descriptor s ∧ hooks s' = hooks s ∧
    (hasFlag mapping K.MAP_HOST = true →
      (memory K s').hostPtr = some ptr ∧ firstLoad = ((memory K s).hostPtr == none)) ∧
    (hasFlag mapping K.MAP_HOST = false → hasAll mapping K.MAP_DEVICE_ARRAY = true →
      (memory K s').graphicsArray = some ptr ∧
      firstLoad = ((memory K s).graphicsResource == none)) ∧
    (hasFlag mapping K.MAP_HOST = false → hasAll mapping K.MAP_DEVICE_ARRAY = false →
      (memory K s').devPtr = some ptr ∧ firstLoad = ((memory K s).devPtr == none)) := by
  unfold mapData at h
  have hn' := needsSetup_modify K E s (fun m => { m with mapping := mapping })
    (fun _ => rfl) (fun _ => rfl)
  have hq' : hasAll mapping K.MAP_DEVICE_ARRAY = true →
      needsSetup K E (modify K s (fun m => { m with mapping := mapping })) = false :=
    fun ha => hn'.trans (hq ha)
  have hd0 : descriptor (modify K s (fun m => { m with mapping := mapping })) = descriptor s :=
    rfl
  have hk0 : hooks (modify K s (fun m => { m with mapping := mapping })) = hooks s := rfl
  have hp0 : (memory K (modify K s (fun m => { m with mapping := mapping }))).hostPtr =
      (memory K s).hostPtr := rfl
  have hp1 : (memory K (modify K s (fun m => { m with mapping := mapping }))).devPtr =
      (memory K s).devPtr := rfl
  have hp2 : (memory K (modify K s (fun m => { m with mapping := mapping }))).graphicsResource =
      (memory K s).graphicsResource := rfl
  generalize modify K s (fun m => { m with mapping := mapping }) = sm at h hq' hd0 hk0 hp0 hp1 hp2
  dsimp only at h
  rw [← hd0, ← hk0, ← hp0, ← hp1, ← hp2]
  clear hd0 hk0 hp0 hp1 hp2 hn'
  generalize needsSetup K E sm = ns at h hq'
  split_ifs at h with c1 c2 c3
  · -- host
    unfold mapHost at h
    dsimp only at h
    have hal := alloc_host_frame K E sm mapping c1
    have hah := hooks_alloc K E sm mapping
    split_ifs at h with cp
    · rcases ha : alloc K E sm mapping with ⟨sa, _ | _⟩
      · rw [ha] at h; cases h
      · rw [ha] at h hal hah
        dsimp only at h
        split at h
        · cases h
        · cases h
        · rename_i s4 hss
          simp only [Option.some.injEq, Prod.mk.injEq] at h
          obtain ⟨rfl, hptr, rfl⟩ := h
          obtain ⟨d4, k4⟩ := mapSetupSync_calls unmap K E sa _ mapping ns _ true hq' hss
          refine ⟨d4.trans hal.1, k4.trans hah, fun _ => ⟨hptr, ?_⟩, fun hc => ?_, fun hc => ?_⟩
          · simpa using cp
          · rw [c1] at hc; cases hc
          · rw [c1] at hc; cases hc
    · dsimp only at h
      split at h
      · cases h
      · cases h
      · rename_i s4 hss
        simp only [Option.some.injEq, Prod.mk.injEq] at h
        obtain ⟨rfl, hptr, rfl⟩ := h
        obtain ⟨d4, k4⟩ := mapSetupSync_calls unmap K E sm _ mapping ns _ true hq' hss
        refine ⟨d4, k4, fun _ => ⟨hptr, ?_⟩, fun hc => ?_, fun hc => ?_⟩
        · simpa using cp
        · rw [c1] at hc; cases hc
        · rw [c1] at hc; cases hc
  · -- array
    have c1' : hasFlag mapping K.MAP_HOST = false := by simpa using c1
    unfold mapArray at h
    dsimp only at h
    have hal := alloc_array_frame K E sm mapping c1' c2
    have hah := hooks_alloc K E sm mapping
    have key : ∀ sa : TextureMemory, descriptor sa = descriptor sm → hooks sa = hooks sm →
        ∀ fl : Bool,
        (match (if ((memory K sa).graphicsArray == none) = true then
            match call E sa .mapMapResources with
            | (s, none) => (s, false)
            | (s, some _) =>
              match call E s .mapGetMappedArray with
              | (s, none) => (s, false)
              | (s, some a) => (modify K s (fun m => { m with graphicsArray := some a }), true)
          else (sa, true)) with
        | (s, false) => some (s, none)
        | (s, true) =>
          match mapSetupSync unmap K E s mapping ns K.SYNC_ARRAY with
          | none => none
          | some (s, false) => some (s, none)
          | some (s, true) => some (s, some ((memory K s).graphicsArray, fl))) =
          some (s', some (some ptr, firstLoad)) →
        descriptor s' = descriptor sm ∧ hooks s' = hooks sm ∧
          (memory K s').graphicsArray = some ptr ∧ firstLoad = fl := by
      intro sa da ka fl hh
      have hmp : ∀ sb b, (if ((memory K sa).graphicsArray == none) = true then
            match call E sa .mapMapResources with
            | (s, none) => (s, false)
            | (s, some _) =>
              match call E s .mapGetMappedArray with
              | (s, none) => (s, false)
              | (s, some a) => (modify K s (fun m => { m with graphicsArray := some a }), true)
          else (sa, true)) = (sb, b) → descriptor sb = descriptor sa ∧ hooks sb = hooks sa := by
        intro sb b hb
        simp only [TextureMemory.call] at hb
        repeat' (first | split_ifs at hb | dsimp only at hb)
        all_goals
          cases hb
          exact ⟨rfl, by simp⟩
      split at hh
      · cases hh
      · rename_i sb hb
        obtain ⟨db, kb⟩ := hmp _ _ hb
        split at hh
        · cases hh
        · cases hh
        · rename_i s4 hss
          simp only [Option.some.injEq, Prod.mk.injEq] at hh
          obtain ⟨rfl, hptr, rfl⟩ := hh
          obtain ⟨d4, k4⟩ := mapSetupSync_calls unmap K E sb _ mapping ns _ true hq' hss
          exact ⟨(d4.trans db).trans da, (k4.trans kb).trans ka, hptr, rfl⟩
    split_ifs at h with cp
    · rcases ha : alloc K E sm mapping with ⟨sa, _ | _⟩
      · rw [ha] at h; cases h
      · rw [ha] at h hal hah
        dsimp only at h
        obtain ⟨x1, x2, x3, x4⟩ := key sa hal.1 hah true h
        refine ⟨x1, x2, fun hc => ?_, fun _ _ => ⟨x3, ?_⟩, fun _ hc => ?_⟩
        · rw [c1'] at hc; cases hc
        · rw [x4]; simpa using cp
        · rw [c2] at hc; cases hc
    · dsimp only at h
      obtain ⟨x1, x2, x3, x4⟩ := key sm rfl rfl false h
      refine ⟨x1, x2, fun hc => ?_, fun _ _ => ⟨x3, ?_⟩, fun _ hc => ?_⟩
      · rw [c1'] at hc; cases hc
      · rw [x4]; simpa using cp
      · rw [c2] at hc; cases hc
  · -- device
    have c1' : hasFlag mapping K.MAP_HOST = false := by simpa using c1
    have c2' : hasAll mapping K.MAP_DEVICE_ARRAY = false := by simpa using c2
    unfold mapDevice at h
    dsimp only at h
    have hal := alloc_device_frame K E sm mapping c1' c2'
    have hah := hooks_alloc K E sm mapping
    split_ifs at h with cp
    · rcases ha : alloc K E sm mapping with ⟨sa, _ | _⟩
      · rw [ha] at h; cases h
      · rw [ha] at h hal hah
        dsimp only at h
        split at h
        · cases h
        · cases h
        · rename_i s4 hss
          simp only [Option.some.injEq, Prod.mk.injEq] at h
          obtain ⟨rfl, hptr, rfl⟩ := h
          obtain ⟨d4, k4⟩ := mapSetupSync_calls unmap K E sa _ mapping ns _ true hq' hss
          refine ⟨d4.trans hal.1, k4.trans hah, fun hc => ?_, fun _ hc => ?_, fun _ _ => ⟨hptr, ?_⟩⟩
          · rw [c1'] at hc; cases hc
          · rw [c2'] at hc; cases hc
          · simpa using cp
    · dsimp only at h
      split at h
      · cases h
      · cases h
      · rename_i s4 hss
        simp only [Option.some.injEq, Prod.mk.injEq] at h
        obtain ⟨rfl, hptr, rfl⟩ := h
        obtain ⟨d4, k4⟩ := mapSetupSync_calls unmap K E sm _ mapping ns _ true hq' hss
        refine ⟨d4, k4, fun hc => ?_, fun _ hc => ?_, fun _ _ => ⟨hptr, ?_⟩⟩
        · rw [c1'] at hc; cases hc
        · rw [c2'] at hc; cases hc
        · simpa using cp
  · cases h

/-- The render-target block of `map`, when it does not end `map`: it leaves
the descriptor, the host and device handles and the recorded version of the
image alone and calls no hook; when it runs, the texture is registered
afterwards. -/
theorem mapRenderTarget_spec (K : Header) (E : Env) (s s2 : TextureMemory) (m : TextureObject)
    (hm : s._object = some m) (h : mapRenderTarget K E s = (s2, true)) :
    descriptor s2 = descriptor s ∧ hooks s2 = hooks s ∧
    (∃ m2, s2._object = some m2) ∧
    (memory K s2).hostPtr = (memory K s).hostPtr ∧
    (memory K s2).devPtr = (memory K s).devPtr ∧
    needsSetup K E s2 = needsSetup K E s ∧
    ((hasFlag s.usage K.GL_TARGET && !hasFlag (memory K s).syncOp K.SYNC_ARRAY) = true →
      (memory K s2).graphicsResource ≠ none) ∧
    ((hasFlag s.usage K.GL_TARGET && !hasFlag (memory K s).syncOp K.SYNC_ARRAY) = false →
      s2 = s) := by
  have hk := hooks_mapRenderTarget K E s
  have hf := mapRenderTarget_frame K E s
  rw [h] at hk hf
  obtain ⟨m2, hm2, e2⟩ := hf.2.2 m hm
  have hmem : memory K s = m := memory_of_object K s m hm
  have hmem2 : memory K s2 = m2 := memory_of_object K s2 m2 hm2
  have a1 := congrArg TextureObject.hostPtr e2
  have a2 := congrArg TextureObject.devPtr e2
  have a3 := congrArg TextureObject.lastModifiedCount e2
  have a4 := congrArg TextureObject.lastModifiedAddress e2
  simp only at a1 a2 a3 a4
  refine ⟨hf.1, hk, ⟨m2, hm2⟩, by rw [hmem, hmem2]; exact a1, by rw [hmem, hmem2]; exact a2,
    ?_, ?_, ?_⟩
  · unfold needsSetup
    rw [hmem, hmem2, a3, a4]
  · intro hc
    simp only [mapRenderTarget, hc, if_true] at h
    by_cases hr : (memory K s).graphicsResource = none
    · simp only [hr, beq_self_eq_true, if_true, findTextureObject, TextureMemory.call,
        TextureMemory.callVoid] at h
      repeat' (first | split_ifs at h | dsimp only at h)
      all_goals
        cases h
        try simp [memory_modify]
    · have hr' : ((memory K s).graphicsResource == none) = false := by simpa using hr
      simp only [hr', Bool.false_eq_true, if_false] at h
      cases h
      simpa [memory_modify] using hr
  · intro hc
    simp only [mapRenderTarget, hc, Bool.false_eq_true, if_false] at h
    cases h
    rfl

/-- The end of `map` calls the hook once when a callback is installed. -/
theorem mapFinish_hooks (K : Header) (s : TextureMemory) (mapping offset ptr : Nat)
    (firstLoad : Bool) (hcb : s.subloadCallback = true) :
    hooks (mapFinish K s mapping offset ptr firstLoad).1 =
      hooks s ++ [if firstLoad then Event.load ptr mapping offset
                  else Event.subload ptr mapping offset] := by
  unfold mapFinish
  simp only [hcb, if_true]
  cases firstLoad <;>
    (simp only [Bool.false_eq_true, if_false, if_true]
     split_ifs <;> simp [hooks, TextureMemory.emit, Event.isHook, modify, setObject])

/-- C11, amended: with a callback installed, a successful `map` calls the
hook exactly once, with the handle of the mapped representation, the mapping
and the offset, provided `setup` does not run for the array (the image has
not changed when the mapping is one of the array).  It calls `load` when the
representation had no handle as its branch was reached, else `subload`: for
the host and the device memory that is the handle when `map` was called; for
the array it is the registered resource when `map` was called, unless the
render-target block has registered the texture before (usage `GL_TARGET`,
array flag clear), in which case `subload` is called. -/
theorem map_hook_once (K : Header) (E : Env) (fuel : Nat) (s s' : TextureMemory)
    (mapping offset p : Nat) (hcb : s.subloadCallback = true)
    (hq : hasAll mapping K.MAP_DEVICE_ARRAY = true → needsSetup K E s = false)
    (h : map K E fuel s mapping offset = some (s', some p)) :
    ∃ ptr firstLoad, p = ptr + offset ∧
      hooks s' = hooks s ++ [if firstLoad then Event.load ptr mapping offset
                             else Event.subload ptr mapping offset] ∧
      (K.isHostMapping mapping →
        (memory K s').hostPtr = some ptr ∧ firstLoad = ((memory K s).hostPtr == none)) ∧
      (K.isDeviceMapping mapping →
        (memory K s').devPtr = some ptr ∧ firstLoad = ((memory K s).devPtr == none)) ∧
      (K.isArrayMapping mapping →
        (memory K s').graphicsArray = some ptr ∧
        firstLoad = ((memory K s).graphicsResource == none &&
          !(hasFlag s.usage K.GL_TARGET && !hasFlag (memory K s).syncOp K.SYNC_ARRAY))) := by
  unfold map at h
  obtain ⟨s0, s1, m1, -, hi, ho, hmain⟩ := mapBody_success_main _ K E s s' mapping offset p h
  obtain ⟨-, e2, e3, e4, e5, e6, -⟩ := enter K E s s0 s1 m1 hi ho
  obtain ⟨s2, s4, ptr, fl, hrt, hd, hf⟩ := mapMain_success _ K E s1 s' mapping offset p hmain
  obtain ⟨r1, r2, -, r4, r5, r6, r7, r8⟩ := mapRenderTarget_spec K E s1 s2 m1 e2 hrt
  have hmem1 : memory K s1 = m1 := memory_of_object K s1 m1 e2
  have b1 := congrArg TextureObject.hostPtr e6
  have b2 := congrArg TextureObject.devPtr e6
  have b3 := congrArg TextureObject.graphicsResource e6
  have b4 := congrArg TextureObject.syncOp e6
  have b5 := congrArg TextureObject.lastModifiedCount e6
  have b6 := congrArg TextureObject.lastModifiedAddress e6
  simp only at b1 b2 b3 b4 b5 b6
  rw [← hmem1] at b1 b2 b3 b4 b5 b6
  have hns : needsSetup K E s1 = needsSetup K E s := by
    unfold needsSetup
    rw [b5, b6]
  have hq2 : hasAll mapping K.MAP_DEVICE_ARRAY = true → needsSetup K E s2 = false :=
    fun ha => (r6.trans hns).trans (hq ha)
  obtain ⟨d1, d2, d3, d4, d5⟩ := mapData_calls _ K E s2 s4 mapping ptr fl hq2 hd
  obtain ⟨f1, -, f3, -, -, -, f7, -⟩ := mapFinish_keeps K s4 mapping offset ptr fl
  rw [hf] at f1 f3 f7
  have hcb4 : s4.subloadCallback = true := by
    have c1 := congrArg TextureMemory.subloadCallback d1
    have c2 := congrArg TextureMemory.subloadCallback r1
    simp only [descriptor] at c1 c2
    rw [c1, c2, e5, hcb]
  have hk := mapFinish_hooks K s4 mapping offset ptr fl hcb4
  rw [hf] at hk
  have hk1 : hooks s1 = hooks s := by simp [hooks, e3]
  have g1 := congrArg TextureObject.hostPtr f3
  have g2 := congrArg TextureObject.devPtr f3
  simp only [TextureObject.pinned, TextureObject.core] at g1 g2
  refine ⟨ptr, fl, ?_, ?_, ?_, ?_, ?_⟩
  · simpa using f1
  · rw [hk, d2, r2, hk1]
  · rintro ⟨h1, -⟩
    obtain ⟨x1, x2⟩ := d3 h1
    exact ⟨g1.trans x1, by rw [x2, r4, b1]⟩
  · rintro ⟨h1, h2, -⟩
    obtain ⟨x1, x2⟩ := d5 h1 h2
    exact ⟨g2.trans x1, by rw [x2, r5, b2]⟩
  · rintro ⟨h1, h2, -⟩
    obtain ⟨x1, x2⟩ := d4 h1 h2
    refine ⟨f7.trans x1, ?_⟩
    rw [x2, ← e4, ← b4, ← b3]
    by_cases hc : (hasFlag s1.usage K.GL_TARGET &&
        !hasFlag (memory K s1).syncOp K.SYNC_ARRAY) = true
    · have := r7 hc
      rw [hc]
      simpa using this
    · simp only [Bool.not_eq_true] at hc
      rw [r8 hc, hc]
      simp

/-- An instance of C11, amended: the first host-target mapping of a fresh
memory with a callback. -/
theorem map_hook_once_witness :
    ∃ s', map sampleHeader sampleEnv 0
        (setSubloadCallback (create sampleHeader) true) 0x10 7 = some (s', some 1007) ∧
      ∃ (ptr : Nat) (firstLoad : Bool), 1007 = ptr + 7 ∧
        hooks s' = hooks (setSubloadCallback (create sampleHeader) true) ++
          [if firstLoad then Event.load ptr 0x10 7 else Event.subload ptr 0x10 7] :=
  ⟨_, rfl,
    (map_hook_once sampleHeader sampleEnv 0 (setSubloadCallback (create sampleHeader) true) _
      0x10 7 1007 rfl (fun hc => Bool.noConfusion hc) rfl).imp fun _ hx =>
      hx.imp fun _ hy => ⟨hy.1, hy.2.1⟩⟩

/-- C11 fails for the array of a render target: the memory has the usage
`GL_TARGET` and no registered resource when `map` is called; the
render-target block registers the texture, and `map` calls `subload`. -/
theorem map_array_render_target_subload :
    (memory sampleHeader (setSubloadCallback renderTarget true)).graphicsResource = none ∧
    ∃ s', map sampleHeader sampleEnv 0 (setSubloadCallback renderTarget true) 0x10000 0 =
        some (s', some 1002) ∧
      hooks s' = [Event.subload 1002 0x10000 0] :=
  ⟨rfl, _, rfl, rfl⟩

end osgCuda.TextureMemory

/-! ### `unmap` when the image has changed -/

namespace osgCuda.TextureMemory

theorem call_ok (E : Env) (s : TextureMemory) (site : Site)
    (hok : ∀ n site, E.ok n site = true) :
    call E s site = (emit s (.call site true), some (E.handle s.trace.length site)) := by
  simp [TextureMemory.call, hok]

theorem Stale.emit {K : Header} {E : Env} {s : TextureMemory} (e : Event)
    (h : Stale K E s) : Stale K E (emit s e) := h

theorem Stale.modify {K : Header} {E : Env} {s : TextureMemory}
    (u : TextureObject → TextureObject) (h : Stale K E s)
    (h1 : ∀ m, (u m).syncOp = m.syncOp)
    (h2 : ∀ m, (u m).lastModifiedCount = m.lastModifiedCount)
    (h3 : ∀ m, (u m).lastModifiedAddress = m.lastModifiedAddress) :
    Stale K E (modify K s u) := by
  obtain ⟨a, -, c, d⟩ := h
  refine ⟨a, ⟨_, rfl⟩, ?_, ?_⟩
  · rw [memory_modify, h1]; exact c
  · rw [needsSetup_modify K E s u h2 h3]; exact d

theorem Stale.setObject {K : Header} {E : Env} {s : TextureMemory} (m : TextureObject)
    (u : TextureObject → TextureObject) (h : Stale K E s) (hm : s._object = some m)
    (h1 : ∀ m, (u m).syncOp = m.syncOp)
    (h2 : ∀ m, (u m).lastModifiedCount = m.lastModifiedCount)
    (h3 : ∀ m, (u m).lastModifiedAddress = m.lastModifiedAddress) :
    Stale K E (setObject s (u m)) := by
  have := Stale.modify u h h1 h2 h3
  unfold TextureMemory.modify at this
  rw [memory_of_object K s m hm] at this
  exact this

/-- With every primitive succeeding and a state of the context, `alloc`
registers the texture for a mapping of the array. -/
theorem alloc_array_stale (K : Header) (E : Env) (s : TextureMemory) (mapping : Nat)
    (hok : ∀ n site, E.ok n site = true) (hst : E.stateFound = true)
    (h1 : hasFlag mapping K.MAP_HOST = false) (h2 : hasAll mapping K.MAP_DEVICE_ARRAY = true)
    (hs : Stale K E s) :
    ∃ sa, alloc K E s mapping = (sa, true) ∧ Stale K E sa := by
  obtain ⟨hc, ⟨m, hm⟩, -, -⟩ := id hs
  unfold alloc
  rw [object_of_some K s m hm hc]
  simp only [h1, h2, Bool.false_eq_true, if_false, if_true]
  by_cases hr : m.graphicsResource = none
  · simp only [hr, bne_self_eq_false, Bool.false_eq_true, if_false, findTextureObject, hst,
      Bool.not_true, TextureMemory.callVoid]
    by_cases ht : E.textureObject = true
    · simp only [ht, Bool.not_true, Bool.false_eq_true, if_false, call_ok E _ _ hok]
      exact ⟨_, rfl, Stale.setObject m (fun m => { m with graphicsResource := _ })
        (hs.emit _) hm (fun _ => rfl) (fun _ => rfl) (fun _ => rfl)⟩
    · simp only [ht, Bool.not_false, if_true, call_ok E _ _ hok]
      exact ⟨_, rfl, Stale.setObject m (fun m => { m with graphicsResource := _ })
        ((hs.emit _).emit _) hm (fun _ => rfl) (fun _ => rfl) (fun _ => rfl)⟩
  · have hr' : (m.graphicsResource != none) = true := by simpa using hr
    simp only [hr', if_true]
    exact ⟨_, rfl, hs⟩

/-- The array branch of `setup` does not return when the `unmap` it reaches
does not. -/
theorem setupArray_diverges (unmap : TextureMemory → Option TextureMemory) (K : Header)
    (E : Env) (s : TextureMemory) (image : Image)
    (hok : ∀ n site, E.ok n site = true) (hst : E.stateFound = true)
    (hu : ∀ s, Stale K E s → unmap s = none) (hs : Stale K E s) :
    setupArray unmap K E s image = none := by
  unfold setupArray
  dsimp only
  split
  · rename_i s1 heq
    exfalso
    split_ifs at heq
    · rw [call_ok E _ _ hok] at heq
      cases heq
    · cases heq
  · rename_i s1 heq
    have hs1 : Stale K E s1 := by
      split_ifs at heq
      · rw [call_ok E _ _ hok] at heq
        cases heq
        exact (hs.emit _).modify _ (fun _ => rfl) (fun _ => rfl) (fun _ => rfl)
      · cases heq
        exact hs
    split
    · rename_i s2 heq2
      exfalso
      split_ifs at heq2
      · rw [call_ok E _ _ hok] at heq2
        cases heq2
      · cases heq2
    · rename_i s2 heq2
      have hs2 : Stale K E s2 := by
        split_ifs at heq2
        · rw [call_ok E _ _ hok] at heq2
          cases heq2
          exact (hs1.emit _).modify _ (fun _ => rfl) (fun _ => rfl) (fun _ => rfl)
        · cases heq2
          exact hs1
      simp only [hst, Bool.not_true, Bool.false_eq_true, if_false]
      unfold adapterApply
      simp only [hs2.1, Bool.not_false, if_true, hu s2 hs2]

/-- The array branch of `map` does not return when the image has changed, the
array flag is set and the `unmap` that `setup` reaches does not return. -/
theorem mapArray_diverges (unmap : TextureMemory → Option TextureMemory) (K : Header)
    (E : Env) (s : TextureMemory) (mapping : Nat)
    (hok : ∀ n site, E.ok n site = true) (hst : E.stateFound = true)
    (h1 : hasFlag mapping K.MAP_HOST = false) (h2 : hasAll mapping K.MAP_DEVICE_ARRAY = true)
    (hu : ∀ s, Stale K E s → unmap s = none) (hs : Stale K E s) :
    mapArray unmap K E s mapping true = none := by
  unfold mapArray
  dsimp only
  split
  · rename_i sa heq
    exfalso
    split_ifs at heq
    · obtain ⟨sa', ea, -⟩ := alloc_array_stale K E s mapping hok hst h1 h2 hs
      rw [ea] at heq
      cases heq
    · cases heq
  · rename_i sa fl heq
    have hsa : Stale K E sa := by
      split_ifs at heq
      · obtain ⟨sa', ea, hsa'⟩ := alloc_array_stale K E s mapping hok hst h1 h2 hs
        rw [ea] at heq
        cases heq
        exact hsa'
      · cases heq
        exact hs
    split
    · rename_i sb heq2
      exfalso
      split_ifs at heq2
      · rw [call_ok E _ _ hok] at heq2
        dsimp only at heq2
        rw [call_ok E _ _ hok] at heq2
        cases heq2
      · cases heq2
    · rename_i sb heq2
      have hsb : Stale K E sb := by
        split_ifs at heq2
        · rw [call_ok E _ _ hok] at heq2
          dsimp only at heq2
          rw [call_ok E _ _ hok] at heq2
          cases heq2
          exact ((hsa.emit _).emit _).modify _ (fun _ => rfl) (fun _ => rfl) (fun _ => rfl)
        · cases heq2
          exact hsa
      obtain ⟨hc, ⟨m, hm⟩, -, hn⟩ := id hsb
      have hd : mapSetupSync unmap K E sb mapping true K.SYNC_ARRAY = none := by
        unfold mapSetupSync setupBody
        simp only [if_true, object_of_some K sb m hm hc]
        unfold needsSetup at hn
        rcases hi : E.image with _ | image
        · rw [hi] at hn; cases hn
        · simp only [h2, if_true, setupArray_diverges unmap K E sb image hok hst hu hsb]
      rw [hd]

/-- With every primitive succeeding, `unmap` does not return when the array
flag is set and the image has changed: `unmap` calls `map` for the array,
`map` calls `setup`, `setup` calls the `apply` of the texture, which calls
`unmap` again, in a state in which the array flag is still set and the image
is still the changed one. -/
theorem unmap_diverges (K : Header) (E : Env)
    (hv : E.texrefValid = true) (hok : ∀ n site, E.ok n site = true)
    (hst : E.stateFound = true)
    (hA : hasFlag K.MAP_DEVICE_ARRAY K.MAP_HOST = false)
    (hU : K.MAP_DEVICE_ARRAY ≠ K.UNMAP) :
    ∀ (fuel : Nat) (s : TextureMemory), Stale K E s → unmap K E fuel s = none := by
  intro fuel
  induction fuel with
  | zero => intro s _; rfl
  | succ fuel ih =>
    intro s hs
    obtain ⟨hc, ⟨m, hm⟩, hf, hn⟩ := id hs
    have hAA : hasAll K.MAP_DEVICE_ARRAY K.MAP_DEVICE_ARRAY = true := by simp [hasAll]
    have hmap : mapBody (unmap K E fuel) K E s K.MAP_DEVICE_ARRAY 0 = none := by
      rw [mapBody_configured _ K E s m _ _ hv hc hU hm]
      unfold mapMain
      rw [mapRenderTarget_skip K E s (Or.inr hf)]
      dsimp only
      unfold mapData
      simp only [hA, hAA, Bool.false_eq_true, if_false, if_true]
      have hs' : Stale K E (modify K s (fun m => { m with mapping := K.MAP_DEVICE_ARRAY })) :=
        hs.modify _ (fun _ => rfl) (fun _ => rfl) (fun _ => rfl)
      rw [hs'.2.2.2, mapArray_diverges _ K E _ _ hok hst hA hAA ih hs']
    show unmapBody _ K E s = none
    unfold unmapBody
    simp only [hv, hc, Bool.not_true, Bool.false_eq_true, if_false, object_of_some K s m hm hc,
      hf, if_true, hmap]

end osgCuda.TextureMemory

/-! ### `unmap` -/

namespace osgCuda.TextureMemory

theorem copyCall_ok (E : Env) (s : TextureMemory) (site : Site)
    (u : TextureObject → TextureObject) (hok : ∀ n site, E.ok n site = true) :
    (copyCall E s site u).2 = true := by
  unfold copyCall
  rw [call_ok E _ _ hok]
  dsimp only
  split <;> rfl

/-- With every primitive succeeding, the copy into the array succeeds. -/
theorem syncArrayCopy_ok (K : Header) (E : Env) (s : TextureMemory) (m : TextureObject)
    (hok : ∀ n site, E.ok n site = true) : (syncArrayCopy K E s m).2 = true := by
  unfold syncArrayCopy
  dsimp only
  split_ifs
  · have h1 := copyCall_ok E s .syncArrayFromHostToArray
      (fun m => { m with arrayMem := memcpyFlat m.arrayMem m.hostMem (getByteSize s) }) hok
    rcases hc : copyCall E s .syncArrayFromHostToArray
      (fun m => { m with arrayMem := memcpyFlat m.arrayMem m.hostMem (getByteSize s) })
      with ⟨s1, _ | _⟩
    · rw [hc] at h1; cases h1
    · dsimp only
      split_ifs <;> exact copyCall_ok E _ _ _ hok
  all_goals
    try dsimp only
    first
    | exact copyCall_ok E _ _ _ hok
    | (split_ifs <;> exact copyCall_ok E _ _ _ hok)

/-- The copy into the array changes the bytes of the array only. -/
theorem syncArrayCopy_frame (K : Header) (E : Env) (s : TextureMemory) (m : TextureObject) :
    Frame (fun m : TextureObject => { m with arrayMem := fun _ => 0 }) s
      (syncArrayCopy K E s m).1 := by
  unfold TextureMemory.syncArrayCopy
  dsimp only
  split_ifs
  · have h1 : Frame (fun m : TextureObject => { m with arrayMem := fun _ => 0 }) s
        (copyCall E s .syncArrayFromHostToArray
          (fun m => { m with arrayMem := memcpyFlat m.arrayMem m.hostMem (getByteSize s) })).1 :=
      Frame.copyCall _ E s _ _ (fun _ => rfl)
    rcases hc : TextureMemory.copyCall E s .syncArrayFromHostToArray
      (fun m => { m with arrayMem := memcpyFlat m.arrayMem m.hostMem (getByteSize s) })
      with ⟨s1, _ | _⟩
    · rw [hc] at h1; exact h1
    · rw [hc] at h1
      dsimp only
      split_ifs <;> exact h1.trans (Frame.copyCall _ E s1 _ _ (fun _ => rfl))
  · dsimp only
    split_ifs <;> exact Frame.copyCall _ E s _ _ (fun _ => rfl)
  all_goals exact Frame.copyCall _ E s _ _ (fun _ => rfl)

/-- The array branch of `sync` changes the bytes of the array and the sync
flags only; with every primitive succeeding and a memory to copy from, it
succeeds. -/
theorem syncArray_tight (K : Header) (E : Env) (s s' : TextureMemory) (m : TextureObject)
    (b : Bool) (h : syncArray K E s m = (s', b)) :
    Frame (fun m : TextureObject => { m with arrayMem := fun _ => 0, syncOp := 0 }) s s' ∧
    ((∀ n site, E.ok n site = true) →
      ((hasFlag m.syncOp K.SYNC_DEVICE && m.hostPtr == none) ||
       (hasFlag m.syncOp K.SYNC_HOST && m.devPtr == none) ||
       (hasFlag m.syncOp K.SYNC_DEVICE && hasFlag m.syncOp K.SYNC_HOST)) = false →
      b = true) := by
  unfold TextureMemory.syncArray at h
  split_ifs at h with h1 h2
  · cases h
    exact ⟨Frame.refl _ _, fun _ _ => rfl⟩
  · cases h
    exact ⟨Frame.refl _ _, fun _ hsrc => by rw [hsrc] at h2; cases h2⟩
  · have hf := (syncArrayCopy_frame K E s m).weaken
      (fun c : TextureObject => { c with syncOp := 0 })
    have hb := syncArrayCopy_ok K E s m
    rcases hc : TextureMemory.syncArrayCopy K E s m with ⟨s1, _ | _⟩
    · rw [hc] at hf h hb
      cases h
      exact ⟨hf, fun hok _ => by cases hb hok⟩
    · rw [hc] at hf h
      cases h
      exact ⟨Frame.modify_keep K _ hf (fun _ => rfl), fun _ _ => rfl⟩

/-- What a frame says about the later state of a configured memory with an
object. -/
theorem Frame.facts {α : Type} {n : TextureObject → α} {s s' : TextureMemory} (K : Header)
    (m : TextureObject) (h : Frame n s s') (hc : s.isClear = false) (hm : s._object = some m) :
    ∃ m', s'._object = some m' ∧ memory K s' = m' ∧ n m' = n m ∧ s'.isClear = false := by
  obtain ⟨m', hm', e⟩ := h.2.2 m hm
  have hd := congrArg TextureMemory.isClear h.1
  simp only [descriptor] at hd
  exact ⟨m', hm', memory_of_object K s' m' hm', e, hd.trans hc⟩

/-- With every primitive succeeding and a texture object or a state of the
context, `alloc` succeeds for a mapping of the array. -/
theorem alloc_array_ok (K : Header) (E : Env) (s : TextureMemory) (m : TextureObject)
    (mapping : Nat) (hok : ∀ n site, E.ok n site = true)
    (hc : s.isClear = false) (hm : s._object = some m)
    (h1 : hasFlag mapping K.MAP_HOST = false) (h2 : hasAll mapping K.MAP_DEVICE_ARRAY = true)
    (htex : m.graphicsResource = none → E.textureObject = true ∨ E.stateFound = true) :
    (alloc K E s mapping).2 = true := by
  unfold alloc
  rw [object_of_some K s m hm hc]
  simp only [h1, h2, Bool.false_eq_true, if_false, if_true]
  by_cases hr : m.graphicsResource = none
  · simp only [hr, bne_self_eq_false, Bool.false_eq_true, if_false, findTextureObject,
      TextureMemory.callVoid]
    by_cases ht : E.textureObject = true
    · simp only [ht, Bool.not_true, Bool.false_eq_true, if_false, call_ok E _ _ hok]
    · have hst : E.stateFound = true := by
        rcases htex hr with h | h
        · exact absurd h ht
        · exact h
      simp only [ht, hst, Bool.not_false, Bool.not_true, Bool.false_eq_true, if_true, if_false,
        call_ok E _ _ hok]
  · have hr' : (m.graphicsResource != none) = true := by simpa using hr
    simp only [hr', if_true]

/-- With every primitive succeeding, the array branch of `map` ends with the
mapped array when the image has not changed and there is a memory to copy
from. -/
theorem mapArray_ok (unmap : TextureMemory → Option TextureMemory) (K : Header) (E : Env)
    (s : TextureMemory) (m : TextureObject) (mapping : Nat)
    (hok : ∀ n site, E.ok n site = true)
    (hc : s.isClear = false) (hm : s._object = some m)
    (h1 : hasFlag mapping K.MAP_HOST = false) (h2 : hasAll mapping K.MAP_DEVICE_ARRAY = true)
    (htex : m.graphicsResource = none → E.textureObject = true ∨ E.stateFound = true)
    (hsrc : ((hasFlag m.syncOp K.SYNC_DEVICE && m.hostPtr == none) ||
       (hasFlag m.syncOp K.SYNC_HOST && m.devPtr == none) ||
       (hasFlag m.syncOp K.SYNC_DEVICE && hasFlag m.syncOp K.SYNC_HOST)) = false) :
    ∃ s4 ptr fl, mapArray unmap K E s mapping false = some (s4, some (some ptr, fl)) := by
  have hmem : memory K s = m := memory_of_object K s m hm
  unfold mapArray
  dsimp only
  split
  · rename_i sa heq
    exfalso
    split_ifs at heq with hr
    · have := alloc_array_ok K E s m mapping hok hc hm h1 h2 htex
      rcases ha : alloc K E s mapping with ⟨sa', _ | _⟩
      · rw [ha] at this; cases this
      · rw [ha] at heq; cases heq
    · cases heq
  · rename_i sa fl heq
    have hfa : Frame (fun m : TextureObject => (m.syncOp, m.hostPtr, m.devPtr)) s sa := by
      split_ifs at heq with hr
      · have hf := (alloc_array_frame K E s mapping h1 h2).weaken
          (fun m : TextureObject => (m.syncOp, m.hostPtr, m.devPtr))
        rcases ha : alloc K E s mapping with ⟨sa', _ | _⟩
        · rw [ha] at heq; cases heq
        · rw [ha] at heq hf
          cases heq
          exact hf
      · cases heq
        exact Frame.refl _ _
    obtain ⟨ma, hma, hmema, ea, hca⟩ := hfa.facts K m hc hm
    split
    · rename_i sb heq2
      exfalso
      split_ifs at heq2
      · rw [call_ok E _ _ hok] at heq2
        dsimp only at heq2
        rw [call_ok E _ _ hok] at heq2
        cases heq2
      · cases heq2
    · rename_i sb heq2
      have hfb : Frame (fun m : TextureObject => (m.syncOp, m.hostPtr, m.devPtr)) sa sb ∧
          (memory K sb).graphicsArray ≠ none := by
        split_ifs at heq2 with hg
        · rw [call_ok E _ _ hok] at heq2
          dsimp only at heq2
          rw [call_ok E _ _ hok] at heq2
          cases heq2
          refine ⟨?_, by simp [memory_modify]⟩
          exact Frame.modify_keep K _ (Frame.emit_right _ (Frame.emit_right _ (Frame.refl _ _)))
            (fun _ => rfl)
        · cases heq2
          exact ⟨Frame.refl _ _, by simpa using hg⟩
      obtain ⟨hfb, hgb⟩ := hfb
      obtain ⟨mb, hmb, hmemb, eb, hcb⟩ := hfb.facts K ma hca hma
      have e := eb.trans ea
      simp only [Prod.mk.injEq] at e
      obtain ⟨e1, e2, e3⟩ := e
      have hss : ∃ s4, mapSetupSync unmap K E sb mapping false K.SYNC_ARRAY = some (s4, true) ∧
          (memory K s4).graphicsArray = (memory K sb).graphicsArray := by
        unfold mapSetupSync
        simp only [Bool.false_eq_true, if_false]
        split_ifs with hfl
        · unfold sync
          rw [object_of_some K sb mb hmb hcb]
          simp only [h2, if_true]
          rcases hsy : syncArray K E sb mb with ⟨s5, b⟩
          obtain ⟨t1, t2⟩ := syncArray_tight K E sb s5 mb b hsy
          have hb : b = true := t2 hok (by rw [e1, e2, e3]; exact hsrc)
          subst hb
          refine ⟨s5, rfl, ?_⟩
          obtain ⟨m5, -, hmem5, e5, -⟩ := t1.facts K mb hcb hmb
          rw [hmem5, hmemb]
          have := congrArg TextureObject.graphicsArray e5
          simpa using this
        · exact ⟨sb, rfl, rfl⟩
      obtain ⟨s4, hs4, hg4⟩ := hss
      rw [hs4]
      dsimp only
      rcases hp : (memory K s4).graphicsArray with _ | ptr
      · rw [hg4] at hp
        exact absurd hp hgb
      · exact ⟨s4, ptr, fl, rfl⟩

/-- After a successful run of the part of `map` after RECEIVE HANDLE for a
mapping of the array, the array flag is clear. -/
theorem mapMain_array_flag (unmap : TextureMemory → Option TextureMemory) (K : Header)
    (E : Env) (s s' : TextureMemory) (mapping offset p : Nat) (hK : K.SyncBits)
    (hA : K.isArrayMapping mapping)
    (h : mapMain unmap K E s mapping offset = some (s', some p)) :
    hasFlag (memory K s').syncOp K.SYNC_ARRAY = false := by
  obtain ⟨d, hb, a, hD, hH, hA', hdh, hda, hha⟩ := hK
  obtain ⟨s2, s4, ptr, firstLoad, -, hdata, hfin⟩ :=
    mapMain_success unmap K E s s' mapping offset p h
  have hs' : s' = (mapFinish K s4 mapping offset ptr firstLoad).1 := by rw [hfin]
  subst hs'
  rw [mapFinish_syncOp]
  unfold mapData at hdata
  dsimp only at hdata
  obtain ⟨h1, h2, h3⟩ := hA
  have ht : syncTarget K mapping = some (2 ^ a) := by
    simp [syncTarget, h2, hA']
  simp only [h1, h2, if_true, Bool.false_eq_true, if_false] at hdata
  have hc := mapArray_flag _ K E _ _ mapping _ a _ hA' ht hdata
  simp only [hD, hH, hA']
  split_ifs with c1 c2 c3
  · rw [hasFlag_or_of_ne _ _ _ hha, hasFlag_or_of_ne _ _ _ hda]; exact hc
  · exact absurd c2 (by simpa using (h3 (by simpa using c1)).1)
  · exact absurd c3 (by simpa using (h3 (by simpa using c1)).2)
  · exact hc

/-- The marking block of `unmap` leaves a clear array flag clear and does not
touch the mapped array. -/
theorem unmapMark_spec (K : Header) (E : Env) (s : TextureMemory) (hK : K.SyncBits)
    (hf : hasFlag (memory K s).syncOp K.SYNC_ARRAY = false) :
    hasFlag (memory K (unmapMark K E s)).syncOp K.SYNC_ARRAY = false ∧
    (memory K (unmapMark K E s)).graphicsArray = (memory K s).graphicsArray := by
  obtain ⟨d, hb, a, hD, hH, hA, hdh, hda, hha⟩ := hK
  unfold unmapMark
  split
  · split_ifs
    · refine ⟨?_, rfl⟩
      simp only [memory_modify, hD, hH, hA]
      rw [hasFlag_or_of_ne _ _ _ hha, hasFlag_two_pow, Nat.testBit_two_pow]
      simpa using hda
    · exact ⟨hf, rfl⟩
  · exact ⟨hf, rfl⟩

/-- With every primitive succeeding, the end of `unmap` leaves no mapped
array and the mapping `UNMAP`, and does not touch the sync flags. -/
theorem unmapRelease_ok (K : Header) (E : Env) (s : TextureMemory)
    (hok : ∀ n site, E.ok n site = true) :
    (memory K (unmapRelease K E s)).mapping = K.UNMAP ∧
    (memory K (unmapRelease K E s)).graphicsArray = none ∧
    (memory K (unmapRelease K E s)).syncOp = (memory K s).syncOp := by
  unfold unmapRelease
  dsimp only
  by_cases hg : (memory K s).graphicsArray = none
  · simp only [hg, bne_self_eq_false, Bool.false_eq_true, if_false, memory_modify]
    exact ⟨trivial, trivial, trivial⟩
  · have hg' : ((memory K s).graphicsArray != none) = true := by simpa using hg
    simp only [hg', if_true, call_ok E _ _ hok, memory_modify, memory_emit]
    exact ⟨trivial, trivial, trivial⟩

/-- Where `unmap` flushes: on a configured memory with an object, when every
external primitive succeeds and, in case the array flag is set, the image has
not changed, there is a memory to copy from (the host memory when the device flag
is set, else the device memory, and not both other flags set) and the texture
is registered or can be (there is a texture object or a state of the
context), `unmap()` returns, and afterwards the recorded mapping is `UNMAP`,
no mapped array is held and the array flag is clear. -/
theorem unmap_flushes (K : Header) (E : Env) (fuel : Nat) (s : TextureMemory)
    (m : TextureObject) (hK : K.SyncBits) (hA : K.isArrayMapping K.MAP_DEVICE_ARRAY)
    (hU : K.MAP_DEVICE_ARRAY ≠ K.UNMAP)
    (hv : E.texrefValid = true) (hok : ∀ n site, E.ok n site = true)
    (hc : s.isClear = false) (hm : s._object = some m)
    (hflush : hasFlag m.syncOp K.SYNC_ARRAY = true →
      needsSetup K E s = false ∧
      ((hasFlag m.syncOp K.SYNC_DEVICE && m.hostPtr == none) ||
       (hasFlag m.syncOp K.SYNC_HOST && m.devPtr == none) ||
       (hasFlag m.syncOp K.SYNC_DEVICE && hasFlag m.syncOp K.SYNC_HOST)) = false ∧
      (m.graphicsResource = none → E.textureObject = true ∨ E.stateFound = true)) :
    ∃ s', unmap K E (fuel + 1) s = some s' ∧
      (memory K s').mapping = K.UNMAP ∧ (memory K s').graphicsArray = none ∧
      hasFlag (memory K s').syncOp K.SYNC_ARRAY = false := by
  have hmem : memory K s = m := memory_of_object K s m hm
  have tail : ∀ sF, hasFlag (memory K sF).syncOp K.SYNC_ARRAY = false →
      (memory K (unmapRelease K E (unmapMark K E sF))).mapping = K.UNMAP ∧
      (memory K (unmapRelease K E (unmapMark K E sF))).graphicsArray = none ∧
      hasFlag (memory K (unmapRelease K E (unmapMark K E sF))).syncOp K.SYNC_ARRAY = false := by
    intro sF hF
    obtain ⟨r1, r2, r3⟩ := unmapRelease_ok K E (unmapMark K E sF) hok
    exact ⟨r1, r2, by rw [r3]; exact (unmapMark_spec K E sF hK hF).1⟩
  show ∃ s', unmapBody _ K E s = some s' ∧ _
  unfold unmapBody
  simp only [hv, hc, Bool.not_true, Bool.false_eq_true, if_false, object_of_some K s m hm hc,
    hmem]
  by_cases hf : hasFlag m.syncOp K.SYNC_ARRAY = true
  · obtain ⟨hn, hsrc, htex⟩ := hflush hf
    obtain ⟨h1, h2, -⟩ := id hA
    have hmain : ∃ sm p, mapBody (unmap K E fuel) K E s K.MAP_DEVICE_ARRAY 0 =
        some (sm, some p) ∧ hasFlag (memory K sm).syncOp K.SYNC_ARRAY = false := by
      rw [mapBody_configured _ K E s m _ _ hv hc hU hm]
      have hskip := mapRenderTarget_skip K E s (Or.inr (hmem.symm ▸ hf))
      have hdata : ∃ s4 ptr fl, mapData (unmap K E fuel) K E s K.MAP_DEVICE_ARRAY =
          some (s4, some (some ptr, fl)) := by
        unfold mapData
        have hn' := needsSetup_modify K E s (fun m => { m with mapping := K.MAP_DEVICE_ARRAY })
          (fun _ => rfl) (fun _ => rfl)
        simp only [h1, h2, Bool.false_eq_true, if_false, if_true, hn', hn]
        exact mapArray_ok _ K E _ { m with mapping := K.MAP_DEVICE_ARRAY } _ hok hc
          (by simp [modify, setObject, hmem]) h1 h2 htex hsrc
      obtain ⟨s4, ptr, fl, hd⟩ := hdata
      have hmm : mapMain (unmap K E fuel) K E s K.MAP_DEVICE_ARRAY 0 =
          some (mapFinish K s4 K.MAP_DEVICE_ARRAY 0 ptr fl) := by
        unfold mapMain
        rw [hskip]
        dsimp only
        rw [hd]
      have hfin := (mapFinish_keeps K s4 K.MAP_DEVICE_ARRAY 0 ptr fl).1
      rcases hF : mapFinish K s4 K.MAP_DEVICE_ARRAY 0 ptr fl with ⟨sm, pm⟩
      rw [hF] at hmm hfin
      dsimp only at hfin
      subst hfin
      exact ⟨sm, _, hmm, mapMain_array_flag _ K E s sm _ 0 _ hK hA hmm⟩
    obtain ⟨sm, p, hmap, hfm⟩ := hmain
    simp only [hf, if_true, hmap]
    exact ⟨_, rfl, tail sm hfm⟩
  · simp only [Bool.not_eq_true] at hf
    simp only [hf, Bool.false_eq_true, if_false]
    exact ⟨_, rfl, tail s (by rw [hmem]; exact hf)⟩

/-- An instance of `unmap_flushes`: `unmap` after a host-target mapping of a
fresh memory, which has left the array flag set; the host memory is copied
into the array. -/
theorem unmap_flushes_witness :
    ∃ s', unmap sampleHeader sampleEnv 1 hostWritten = some s' ∧
      (memory sampleHeader s').mapping = sampleHeader.UNMAP ∧
      (memory sampleHeader s').graphicsArray = none ∧
      hasFlag (memory sampleHeader s').syncOp sampleHeader.SYNC_ARRAY = false :=
  unmap_flushes sampleHeader sampleEnv 0 hostWritten (memory sampleHeader hostWritten)
    ⟨0, 4, 8, rfl, rfl, rfl, by decide, by decide, by decide⟩ (by decide) (by decide) rfl
    (fun _ _ => rfl) rfl rfl (fun _ => ⟨rfl, by decide, fun _ => Or.inl rfl⟩)

/-- C12 does not hold of the code when the image has changed: the host memory
of `hostWritten` was written by `map( MAP_HOST_TARGET )` (the array flag is
set), then an image is attached to the texture; with every primitive
succeeding `unmap` does not return, whatever depth of recursion it is granted:
it calls `map` for the array, `map` calls `setup`, and the `apply` of the
texture in `setup` calls `unmap` again, with the array flag still set and the
image still the changed one. -/
theorem unmap_changed_image_diverges :
    hasFlag (memory sampleHeader hostWritten).syncOp sampleHeader.SYNC_ARRAY = true ∧
    (∀ n site, imageEnv.ok n site = true) ∧
    ∀ fuel, unmap sampleHeader imageEnv fuel hostWritten = none :=
  ⟨by decide, fun _ _ => rfl, fun fuel =>
    unmap_diverges sampleHeader imageEnv rfl (fun _ _ => rfl) rfl (by decide) (by decide)
      fuel hostWritten ⟨rfl, ⟨_, rfl⟩, by decide, by decide⟩⟩

end osgCuda.TextureMemory

/-! ### Read-intent mappings -/

namespace osgCuda.TextureMemory

theorem xor_two_pow_down (x a : Nat) (h : hasFlag x (2 ^ a) = true) :
    ∀ i, (x ^^^ 2 ^ a).testBit i = true → x.testBit i = true := by
  intro i hi
  rw [hasFlag_two_pow] at h
  simp only [Nat.testBit_xor, Nat.testBit_two_pow] at hi
  by_cases e : a = i
  · subst e; exact h
  · simpa [e] using hi

/-- The method `sync` sets no bit of the sync flags, with the three flags
three different single bits. -/
theorem sync_flags_down (K : Header) (E : Env) (s s' : TextureMemory) (mapping : Nat)
    (b : Bool) (hK : K.SyncBits) (h : sync K E s mapping = (s', b)) :
    ∀ i, (memory K s').syncOp.testBit i = true → (memory K s).syncOp.testBit i = true := by
  obtain ⟨d, hb, a, hD, hH, hA, -, -, -⟩ := hK
  have h2 := (sync_spec K E s s' mapping b h).2
  intro i hi
  rcases hs : syncTarget K mapping with _ | f
  · rw [hs] at h2
    dsimp only at h2
    rw [h2] at hi
    exact hi
  · rw [hs] at h2
    dsimp only at h2
    have hf : f = 2 ^ d ∨ f = 2 ^ hb ∨ f = 2 ^ a := by
      unfold syncTarget at hs
      split_ifs at hs <;> cases hs <;> simp [hD, hH, hA]
    split_ifs at h2 with c
    · rw [h2] at hi
      simp only [Bool.and_eq_true] at c
      rcases hf with rfl | rfl | rfl <;> exact xor_two_pow_down _ _ c.2 i hi
    · rw [h2] at hi
      exact hi

/-- The steps SETUP STREAM and SYNC STREAM of `map` when the image has not
changed: `sync` may run; the call returns, no bit of the sync flags is set, and
the members under `pinned` are left alone. -/
theorem mapSetupSync_quiet (unmap : TextureMemory → Option TextureMemory) (K : Header)
    (E : Env) (s : TextureMemory) (mapping flag : Nat) (hK : K.SyncBits) :
    ∃ s' b, mapSetupSync unmap K E s mapping false flag = some (s', b) ∧
      Frame TextureObject.pinned s s' ∧
      ∀ i, (memory K s').syncOp.testBit i = true → (memory K s).syncOp.testBit i = true := by
  unfold mapSetupSync
  simp only [Bool.false_eq_true, if_false]
  split_ifs
  · rcases hs : sync K E s mapping with ⟨s', b⟩
    exact ⟨s', b, rfl, (sync_spec K E s s' mapping b hs).1,
      sync_flags_down K E s s' mapping b hK hs⟩
  · exact ⟨s, true, rfl, Frame.refl _ _, fun _ hi => hi⟩

/-- The part MAP DATA of `map` when the image has not changed: it returns,
sets no bit of the sync flags and leaves the recorded version of the image
alone. -/
theorem mapData_quiet (unmap : TextureMemory → Option TextureMemory) (K : Header)
    (E : Env) (s : TextureMemory) (mapping : Nat) (hK : K.SyncBits)
    (hn : needsSetup K E s = false) :
    ∃ s' r, mapData unmap K E s mapping = some (s', r) ∧
      Frame (fun m : TextureObject => (m.lastModifiedCount, m.lastModifiedAddress)) s s' ∧
      (∃ m', s'._object = some m') ∧
      ∀ i, (memory K s').syncOp.testBit i = true → (memory K s).syncOp.testBit i = true := by
  unfold mapData
  have hn' := needsSetup_modify K E s (fun m => { m with mapping := mapping })
    (fun _ => rfl) (fun _ => rfl)
  have hf0 : Frame (fun m : TextureObject => (m.lastModifiedCount, m.lastModifiedAddress)) s
      (modify K s (fun m => { m with mapping := mapping })) :=
    Frame.modify_keep K _ (Frame.refl _ _) (fun _ => rfl)
  have hs0 : (memory K (modify K s (fun m => { m with mapping := mapping }))).syncOp =
      (memory K s).syncOp := rfl
  have ho0 : (modify K s (fun m => { m with mapping := mapping }))._object =
      some (memory K (modify K s (fun m => { m with mapping := mapping }))) := rfl
  generalize modify K s (fun m => { m with mapping := mapping }) = sm at hf0 hs0 hn' ho0
  simp only [hn', hn]
  rw [← hs0]
  -- what follows an allocation step that has kept the flags and the version
  have fin : ∀ (sa : TextureMemory) (flag : Nat),
      Frame (fun m : TextureObject => (m.syncOp, m.lastModifiedCount, m.lastModifiedAddress))
        sm sa →
      ∃ s' b, mapSetupSync unmap K E sa mapping false flag = some (s', b) ∧
        Frame (fun m : TextureObject => (m.lastModifiedCount, m.lastModifiedAddress)) s s' ∧
        (∃ m', s'._object = some m') ∧
        ∀ i, (memory K s').syncOp.testBit i = true → (memory K sm).syncOp.testBit i = true := by
    intro sa flag hfa
    obtain ⟨s', b, e, hfp, hsub⟩ := mapSetupSync_quiet unmap K E sa mapping flag hK
    have ea := hfa.memory_eq K _ ho0
    simp only [Prod.mk.injEq] at ea
    obtain ⟨ma, hma, -⟩ := hfa.2.2 _ ho0
    obtain ⟨m', hm', -⟩ := hfp.2.2 _ hma
    refine ⟨s', b, e, ?_, ⟨m', hm'⟩, fun i hi => ?_⟩
    · exact hf0.trans ((hfa.weaken (fun c => (c.2.1, c.2.2))).trans
        (hfp.weaken (fun c : TextureObject => (c.lastModifiedCount, c.lastModifiedAddress))))
    · rw [← ea.1]
      exact hsub i hi
  have keep : ∀ sx : TextureMemory,
      Frame (fun m : TextureObject => (m.syncOp, m.lastModifiedCount, m.lastModifiedAddress))
        sm sx →
      Frame (fun m : TextureObject => (m.lastModifiedCount, m.lastModifiedAddress)) s sx ∧
      (∃ m', sx._object = some m') ∧
      ∀ i, (memory K sx).syncOp.testBit i = true → (memory K sm).syncOp.testBit i = true := by
    intro sx hfx
    have ex := hfx.memory_eq K _ ho0
    simp only [Prod.mk.injEq] at ex
    obtain ⟨mx, hmx, -⟩ := hfx.2.2 _ ho0
    exact ⟨hf0.trans (hfx.weaken (fun c => (c.2.1, c.2.2))), ⟨mx, hmx⟩,
      fun i hi => by rw [← ex.1]; exact hi⟩
  split_ifs with c1 c2 c3
  · -- host
    unfold mapHost
    dsimp only
    have hal := (alloc_host_frame K E sm mapping c1).weaken
      (fun m : TextureObject => (m.syncOp, m.lastModifiedCount, m.lastModifiedAddress))
    split
    · rename_i sa heq
      split_ifs at heq
      · rcases ha : alloc K E sm mapping with ⟨sa', _ | _⟩
        · rw [ha] at heq hal
          cases heq
          exact ⟨_, _, rfl, keep _ hal⟩
        · rw [ha] at heq; cases heq
      · cases heq
    · rename_i sa fl heq
      have hfa : Frame (fun m : TextureObject =>
          (m.syncOp, m.lastModifiedCount, m.lastModifiedAddress)) sm sa := by
        split_ifs at heq
        · rcases ha : alloc K E sm mapping with ⟨sa', _ | _⟩
          · rw [ha] at heq; cases heq
          · rw [ha] at heq hal
            cases heq
            exact hal
        · cases heq
          exact Frame.refl _ _
      obtain ⟨s', b, e, r1, r2, r3⟩ := fin sa K.SYNC_HOST hfa
      rw [e]
      cases b
      · exact ⟨_, _, rfl, r1, r2, r3⟩
      · exact ⟨_, _, rfl, r1, r2, r3⟩
  · -- array
    have c1' : hasFlag mapping K.MAP_HOST = false := by simpa using c1
    unfold mapArray
    dsimp only
    have hal := (alloc_array_frame K E sm mapping c1' c2).weaken
      (fun m : TextureObject => (m.syncOp, m.lastModifiedCount, m.lastModifiedAddress))
    split
    · rename_i sa heq
      split_ifs at heq
      · rcases ha : alloc K E sm mapping with ⟨sa', _ | _⟩
        · rw [ha] at heq hal
          cases heq
          exact ⟨_, _, rfl, keep _ hal⟩
        · rw [ha] at heq; cases heq
      · cases heq
    · rename_i sa fl heq
      have hfa : Frame (fun m : TextureObject =>
          (m.syncOp, m.lastModifiedCount, m.lastModifiedAddress)) sm sa := by
        split_ifs at heq
        · rcases ha : alloc K E sm mapping with ⟨sa', _ | _⟩
          · rw [ha] at heq; cases heq
          · rw [ha] at heq hal
            cases heq
            exact hal
        · cases heq
          exact Frame.refl _ _
      have hmp : ∀ sb b, (if ((memory K sa).graphicsArray == none) = true then
            match call E sa .mapMapResources with
            | (s, none) => (s, false)
            | (s, some _) =>
              match call E s .mapGetMappedArray with
              | (s, none) => (s, false)
              | (s, some a) => (modify K s (fun m => { m with graphicsArray := some a }), true)
          else (sa, true)) = (sb, b) →
          Frame (fun m : TextureObject =>
            (m.syncOp, m.lastModifiedCount, m.lastModifiedAddress)) sa sb := by
        intro sb b hb
        simp only [TextureMemory.call] at hb
        repeat' (first | split_ifs at hb | dsimp only at hb)
        all_goals
          cases hb
          repeat (first
            | with_reducible exact Frame.refl _ _
            | with_reducible apply Frame.emit_right
            | (with_reducible apply Frame.modify_keep
               rotate_left
               (intro _; rfl)))
      split
      · rename_i sb heq2
        exact ⟨_, _, rfl, keep _ (hfa.trans (hmp _ _ heq2))⟩
      · rename_i sb heq2
        obtain ⟨s', b, e, r1, r2, r3⟩ := fin sb K.SYNC_ARRAY (hfa.trans (hmp _ _ heq2))
        rw [e]
        cases b
        · exact ⟨_, _, rfl, r1, r2, r3⟩
        · exact ⟨_, _, rfl, r1, r2, r3⟩
  · -- device
    have c1' : hasFlag mapping K.MAP_HOST = false := by simpa using c1
    have c2' : hasAll mapping K.MAP_DEVICE_ARRAY = false := by simpa using c2
    unfold mapDevice
    dsimp only
    have hal := (alloc_device_frame K E sm mapping c1' c2').weaken
      (fun m : TextureObject => (m.syncOp, m.lastModifiedCount, m.lastModifiedAddress))
    split
    · rename_i sa heq
      split_ifs at heq
      · rcases ha : alloc K E sm mapping with ⟨sa', _ | _⟩
        · rw [ha] at heq hal
          cases heq
          exact ⟨_, _, rfl, keep _ hal⟩
        · rw [ha] at heq; cases heq
      · cases heq
    · rename_i sa fl heq
      have hfa : Frame (fun m : TextureObject =>
          (m.syncOp, m.lastModifiedCount, m.lastModifiedAddress)) sm sa := by
        split_ifs at heq
        · rcases ha : alloc K E sm mapping with ⟨sa', _ | _⟩
          · rw [ha] at heq; cases heq
          · rw [ha] at heq hal
            cases heq
            exact hal
        · cases heq
          exact Frame.refl _ _
      obtain ⟨s', b, e, r1, r2, r3⟩ := fin sa K.SYNC_DEVICE hfa
      rw [e]
      cases b
      · exact ⟨_, _, rfl, r1, r2, r3⟩
      · exact ⟨_, _, rfl, r1, r2, r3⟩
  · exact ⟨_, _, rfl, keep _ (Frame.refl _ _)⟩

/-- The end of `map` changes the sync flags only. -/
theorem mapFinish_frame (K : Header) (s : TextureMemory) (mapping offset ptr : Nat)
    (firstLoad : Bool) :
    Frame (fun m : TextureObject => { m with syncOp := 0 }) s
      (mapFinish K s mapping offset ptr firstLoad).1 := by
  unfold mapFinish
  dsimp only
  repeat' (first | split_ifs | dsimp only)
  all_goals
    repeat (first
      | with_reducible exact Frame.refl _ _
      | with_reducible apply Frame.emit_right
      | (with_reducible apply Frame.modify_keep
         rotate_left
         (intro _; rfl)))

/-- The part of `map` after RECEIVE HANDLE for a read-intent mapping, when the
render-target block does not run and the image has not changed: it returns,
sets no bit of the sync flags and leaves the recorded version of the image
alone. -/
theorem mapMain_quiet (unmap : TextureMemory → Option TextureMemory) (K : Header)
    (E : Env) (s : TextureMemory) (mapping offset : Nat) (hK : K.SyncBits)
    (hR : K.isReadIntent mapping)
    (hu : hasFlag s.usage K.GL_TARGET = false ∨ hasFlag (memory K s).syncOp K.SYNC_ARRAY = true)
    (hn : needsSetup K E s = false) :
    ∃ s' r, mapMain unmap K E s mapping offset = some (s', r) ∧
      Frame (fun m : TextureObject => (m.lastModifiedCount, m.lastModifiedAddress)) s s' ∧
      (∃ m', s'._object = some m') ∧
      ∀ i, (memory K s').syncOp.testBit i = true → (memory K s).syncOp.testBit i = true := by
  unfold mapMain
  rw [mapRenderTarget_skip K E s hu]
  dsimp only
  obtain ⟨s4, r4, e, f1, ⟨m4, hm4⟩, f3⟩ := mapData_quiet unmap K E s mapping hK hn
  rw [e]
  rcases r4 with _ | ⟨_ | ptr, fl⟩
  · exact ⟨_, _, rfl, f1, ⟨m4, hm4⟩, f3⟩
  · exact ⟨_, _, rfl, f1, ⟨m4, hm4⟩, f3⟩
  · dsimp only
    have hff := mapFinish_frame K s4 mapping offset ptr fl
    have hso := mapFinish_syncOp K s4 mapping offset ptr fl
    obtain ⟨r1, r2, r3⟩ := hR
    simp only [r1, r2, r3, Bool.false_eq_true, if_false] at hso
    obtain ⟨m5, hm5, -⟩ := hff.2.2 m4 hm4
    refine ⟨(mapFinish K s4 mapping offset ptr fl).1, (mapFinish K s4 mapping offset ptr fl).2,
      rfl, f1.trans (hff.weaken
      (fun c : TextureObject => (c.lastModifiedCount, c.lastModifiedAddress))), ⟨m5, hm5⟩, ?_⟩
    rw [hso]
    exact f3

/-- C6, amended: a `map` with a read-intent mapping returns and sets no sync
flag, provided the render-target block does not run (the usage lacks
`GL_TARGET`, or the array flag is set) and the image has not changed: each of
the three flags that is clear before the call is clear after it, whether
`map` returns a pointer or `NULL`. -/
theorem map_read_intent_flags (K : Header) (E : Env) (fuel : Nat) (s : TextureMemory)
    (mapping offset : Nat) (hK : K.SyncBits)
    (hwf : s.isClear = true → s._object = none) (hne : mapping ≠ K.UNMAP)
    (hR : K.isReadIntent mapping)
    (hu : hasFlag s.usage K.GL_TARGET = false ∨ hasFlag (memory K s).syncOp K.SYNC_ARRAY = true)
    (hn : needsSetup K E s = false) :
    ∃ s' r, map K E fuel s mapping offset = some (s', r) ∧
      (hasFlag (memory K s).syncOp K.SYNC_HOST = false →
        hasFlag (memory K s').syncOp K.SYNC_HOST = false) ∧
      (hasFlag (memory K s).syncOp K.SYNC_DEVICE = false →
        hasFlag (memory K s').syncOp K.SYNC_DEVICE = false) ∧
      (hasFlag (memory K s).syncOp K.SYNC_ARRAY = false →
        hasFlag (memory K s').syncOp K.SYNC_ARRAY = false) := by
  have down : ∀ s' : TextureMemory,
      (∀ i, (memory K s').syncOp.testBit i = true → (memory K s).syncOp.testBit i = true) →
      (hasFlag (memory K s).syncOp K.SYNC_HOST = false →
        hasFlag (memory K s').syncOp K.SYNC_HOST = false) ∧
      (hasFlag (memory K s).syncOp K.SYNC_DEVICE = false →
        hasFlag (memory K s').syncOp K.SYNC_DEVICE = false) ∧
      (hasFlag (memory K s).syncOp K.SYNC_ARRAY = false →
        hasFlag (memory K s').syncOp K.SYNC_ARRAY = false) := by
    intro s' hsub
    obtain ⟨d, hb, a, hD, hH, hA, -, -, -⟩ := hK
    rw [hD, hH, hA]
    simp only [hasFlag_two_pow]
    refine ⟨fun h0 => ?_, fun h0 => ?_, fun h0 => ?_⟩
    all_goals
      by_contra hne'
      simp only [Bool.not_eq_false] at hne'
      rw [hsub _ hne'] at h0
      cases h0
  have same : ∀ s' : TextureMemory, memory K s' = memory K s →
      (∀ i, (memory K s').syncOp.testBit i = true → (memory K s).syncOp.testBit i = true) :=
    fun s' e i hi => by rw [e] at hi; exact hi
  have hne' : (mapping == K.UNMAP) = false := by simpa using hne
  unfold map mapBody
  by_cases hv : E.texrefValid = true
  swap
  · simp only [Bool.not_eq_true] at hv
    simp only [hv, Bool.not_false, if_true]
    exact ⟨_, _, rfl, down s (same s rfl)⟩
  simp only [hv, Bool.not_true, Bool.false_eq_true, if_false, hne']
  rcases hi : (if s.isClear = true then init E s else (s, true)) with ⟨s0, _ | _⟩
  · dsimp only
    refine ⟨_, _, rfl, down s0 (same s0 ?_)⟩
    split_ifs at hi with hc
    · have ho := hwf hc
      obtain ⟨k1, -⟩ := init_keeps E s s0 false hc ho hv hi
      simp [memory, k1, ho]
    · cases hi
  · dsimp only
    rcases ho : object K s0 with ⟨s1, _ | m1⟩
    · exfalso
      have hc0 : s0.isClear = false := by
        split_ifs at hi with hc
        · exact (init_success E s s0 hi).2.2.2.2 hv
        · cases hi; simpa using hc
      simp [TextureMemory.object, hc0] at ho
      split at ho <;> simp at ho
    · dsimp only
      obtain ⟨-, e2, -, e4, -, e6, -⟩ := enter K E s s0 s1 m1 hi ho
      have hmem1 : memory K s1 = m1 := memory_of_object K s1 m1 e2
      have b4 := congrArg TextureObject.syncOp e6
      have b5 := congrArg TextureObject.lastModifiedCount e6
      have b6 := congrArg TextureObject.lastModifiedAddress e6
      simp only at b4 b5 b6
      rw [← hmem1] at b4 b5 b6
      have hns : needsSetup K E s1 = false := by
        rw [← hn]
        unfold needsSetup
        rw [b5, b6]
      have hu1 : hasFlag s1.usage K.GL_TARGET = false ∨
          hasFlag (memory K s1).syncOp K.SYNC_ARRAY = true := by
        rw [e4, b4]; exact hu
      obtain ⟨s', r, e, -, -, f3⟩ := mapMain_quiet (unmap K E fuel) K E s1 mapping offset hK hR
        hu1 hns
      exact ⟨s', r, e, down s' (fun i hi => by rw [← b4]; exact f3 i hi)⟩

/-- An instance of C6, amended: a `map( MAP_DEVICE_SOURCE )` of the memory
`hostWritten`, whose host flag is clear and whose device flag is set: it
copies the host memory to the device memory and leaves the host flag clear. -/
theorem map_read_intent_flags_witness :
    hasFlag (memory sampleHeader hostWritten).syncOp sampleHeader.SYNC_HOST = false ∧
    ∃ s' r, map sampleHeader sampleEnv 0 hostWritten 0x100 0 = some (s', r) ∧
      hasFlag (memory sampleHeader s').syncOp sampleHeader.SYNC_HOST = false :=
  ⟨by decide,
    (map_read_intent_flags sampleHeader sampleEnv 0 hostWritten 0x100 0
      ⟨0, 4, 8, rfl, rfl, rfl, by decide, by decide, by decide⟩
      (fun h => Bool.noConfusion h) (by decide) (by decide) (Or.inl (by decide))
      rfl).imp fun _ hx => hx.imp fun _ hy => ⟨hy.1, hy.2.1 (by decide)⟩⟩

/-- C6 fails for a render target: a `map( MAP_HOST_SOURCE )` of a fresh memory
with the usage `GL_TARGET`, all of whose flags are clear, returns the host
memory and leaves the device flag set. -/
theorem map_read_intent_render_target :
    hasFlag (memory sampleHeader renderTarget).syncOp sampleHeader.SYNC_DEVICE = false ∧
    sampleHeader.isReadIntent 0x01 ∧
    ∃ s', map sampleHeader sampleEnv 0 renderTarget 0x01 0 = some (s', some 1001) ∧
      hasFlag (memory sampleHeader s').syncOp sampleHeader.SYNC_DEVICE = true :=
  ⟨by decide, by decide, _, rfl, by decide⟩

end osgCuda.TextureMemory

/-! ### Failing allocation -/

namespace osgCuda.TextureMemory

/-- An `alloc` that fails leaves the object as it is. -/
theorem alloc_false_frame (K : Header) (E : Env) (s s' : TextureMemory) (mapping : Nat)
    (h : alloc K E s mapping = (s', false)) :
    Frame (fun m : TextureObject => m) s s' := by
  unfold alloc at h
  rcases ho : TextureMemory.object K s with ⟨s1, _ | m⟩
  · obtain ⟨hf, -, -⟩ := object_spec K s s1 none ho
    rw [ho] at h
    cases h
    exact hf
  · obtain ⟨hf, -, -⟩ := object_spec K s s1 (some m) ho
    rw [ho] at h
    refine hf.trans ?_
    simp only [TextureMemory.call, TextureMemory.findTextureObject,
      TextureMemory.callVoid] at h
    repeat' (first | split_ifs at h | dsimp only at h)
    all_goals first
      | (cases h; done)
      | (cases h
         repeat (first
           | with_reducible exact Frame.refl _ _
           | with_reducible apply Frame.emit_right))

/-- The method `alloc` fails when the representation of the mapping has no
handle and its allocation primitive fails. -/
theorem alloc_fails (K : Header) (E : Env) (s : TextureMemory) (m : TextureObject)
    (mapping : Nat) (hc : s.isClear = false) (hm : s._object = some m)
    (hH : hasFlag mapping K.MAP_HOST = true →
      m.hostPtr = none ∧ ∀ n, E.ok n .allocMalloc = false)
    (hA : hasFlag mapping K.MAP_HOST = false → hasAll mapping K.MAP_DEVICE_ARRAY = true →
      m.graphicsResource = none ∧ ∀ n, E.ok n .allocRegisterImage = false)
    (hD : hasFlag mapping K.MAP_HOST = false → hasAll mapping K.MAP_DEVICE_ARRAY = false →
      m.devPtr = none ∧ ∀ n, E.ok n .allocMalloc3D = false ∧
        E.ok n .allocMallocPitch = false ∧ E.ok n .allocCudaMalloc = false) :
    (alloc K E s mapping).2 = false := by
  unfold alloc
  rw [object_of_some K s m hm hc]
  dsimp only
  by_cases c1 : hasFlag mapping K.MAP_HOST = true
  · obtain ⟨p, hf⟩ := hH c1
    simp [c1, p, TextureMemory.call, hf]
  · simp only [Bool.not_eq_true] at c1
    by_cases c2 : hasAll mapping K.MAP_DEVICE_ARRAY = true
    · obtain ⟨p, hf⟩ := hA c1 c2
      simp only [c1, c2, p, Bool.false_eq_true, if_false, if_true, bne_self_eq_false,
        findTextureObject, TextureMemory.callVoid, TextureMemory.call, hf]
      repeat' (first | split_ifs | dsimp only)
    · simp only [Bool.not_eq_true] at c2
      obtain ⟨p, hf⟩ := hD c1 c2
      simp only [c1, c2, p, Bool.false_eq_true, if_false, bne_self_eq_false,
        TextureMemory.call, (hf _).1, (hf _).2.1, (hf _).2.2]
      repeat' (first | split_ifs | dsimp only)

/-- The part MAP DATA of `map` when the allocation fails: it ends `map`, and
only the recorded mapping has changed. -/
theorem mapData_alloc_fails (unmap : TextureMemory → Option TextureMemory) (K : Header)
    (E : Env) (s : TextureMemory) (m : TextureObject) (mapping : Nat)
    (hc : s.isClear = false) (hm : s._object = some m)
    (hH : hasFlag mapping K.MAP_HOST = true →
      m.hostPtr = none ∧ ∀ n, E.ok n .allocMalloc = false)
    (hA : hasFlag mapping K.MAP_HOST = false → hasAll mapping K.MAP_DEVICE_ARRAY = true →
      m.graphicsResource = none ∧ ∀ n, E.ok n .allocRegisterImage = false)
    (hD : hasFlag mapping K.MAP_HOST = false → hasAll mapping K.MAP_DEVICE_ARRAY = false →
      m.devPtr = none ∧ ∀ n, E.ok n .allocMalloc3D = false ∧
        E.ok n .allocMallocPitch = false ∧ E.ok n .allocCudaMalloc = false) :
    ∃ s', mapData unmap K E s mapping = some (s', none) ∧
      Frame (fun m : TextureObject => { m with mapping := 0 }) s s' := by
  unfold mapData
  have hmem : memory K s = m := memory_of_object K s m hm
  have hf0 : Frame (fun m : TextureObject => { m with mapping := 0 }) s
      (modify K s (fun m => { m with mapping := mapping })) :=
    Frame.modify_keep K _ (Frame.refl _ _) (fun _ => rfl)
  have ho0 : (modify K s (fun m => { m with mapping := mapping }))._object =
      some { m with mapping := mapping } := by
    simp [modify, setObject, hmem]
  have hc0 : (modify K s (fun m => { m with mapping := mapping })).isClear = false := hc
  have hm0 : memory K (modify K s (fun m => { m with mapping := mapping })) =
      { m with mapping := mapping } := by
    simp [hmem]
  generalize modify K s (fun m => { m with mapping := mapping }) = sm at hf0 ho0 hc0 hm0
  dsimp only
  have hb := alloc_fails K E sm { m with mapping := mapping } mapping hc0 ho0 hH hA hD
  have hfr : ∀ sa, alloc K E sm mapping = (sa, false) →
      Frame (fun m : TextureObject => { m with mapping := 0 }) s sa := fun sa ha =>
    hf0.trans ((alloc_false_frame K E sm sa mapping ha).weaken
      (fun m : TextureObject => { m with mapping := 0 }))
  rcases ha : alloc K E sm mapping with ⟨sa, _ | _⟩
  swap
  · rw [ha] at hb; cases hb
  split_ifs with c1 c2 c3
  · unfold mapHost
    simp only [hm0, (hH c1).1, beq_self_eq_true, if_true, ha]
    exact ⟨sa, rfl, hfr sa ha⟩
  · have c1' : hasFlag mapping K.MAP_HOST = false := by simpa using c1
    unfold mapArray
    simp only [hm0, (hA c1' c2).1, beq_self_eq_true, if_true, ha]
    exact ⟨sa, rfl, hfr sa ha⟩
  · have c1' : hasFlag mapping K.MAP_HOST = false := by simpa using c1
    have c2' : hasAll mapping K.MAP_DEVICE_ARRAY = false := by simpa using c2
    unfold mapDevice
    simp only [hm0, (hD c1' c2').1, beq_self_eq_true, if_true, ha]
    exact ⟨sa, rfl, hfr sa ha⟩
  · exact ⟨sm, rfl, hf0⟩

/-- C10, amended: when the render-target block of `map` does not run (the
usage lacks `GL_TARGET`, or the array flag is set), the representation of the
mapping has no handle and its allocation primitive fails, `map` returns `NULL`
and the handles of all representations and the sync flags are as before the
call. -/
theorem map_alloc_fails (K : Header) (E : Env) (fuel : Nat) (s : TextureMemory)
    (mapping offset : Nat)
    (hwf : s.isClear = true → s._object = none) (hne : mapping ≠ K.UNMAP)
    (hu : hasFlag s.usage K.GL_TARGET = false ∨ hasFlag (memory K s).syncOp K.SYNC_ARRAY = true)
    (hH : hasFlag mapping K.MAP_HOST = true →
      (memory K s).hostPtr = none ∧ ∀ n, E.ok n .allocMalloc = false)
    (hA : hasFlag mapping K.MAP_HOST = false → hasAll mapping K.MAP_DEVICE_ARRAY = true →
      (memory K s).graphicsResource = none ∧ ∀ n, E.ok n .allocRegisterImage = false)
    (hD : hasFlag mapping K.MAP_HOST = false → hasAll mapping K.MAP_DEVICE_ARRAY = false →
      (memory K s).devPtr = none ∧ ∀ n, E.ok n .allocMalloc3D = false ∧
        E.ok n .allocMallocPitch = false ∧ E.ok n .allocCudaMalloc = false) :
    ∃ s', map K E fuel s mapping offset = some (s', none) ∧
      (memory K s').hostPtr = (memory K s).hostPtr ∧
      (memory K s').devPtr = (memory K s).devPtr ∧
      (memory K s').graphicsArray = (memory K s).graphicsArray ∧
      (memory K s').graphicsResource = (memory K s).graphicsResource ∧
      (memory K s').syncOp = (memory K s).syncOp := by
  have hne' : (mapping == K.UNMAP) = false := by simpa using hne
  unfold map mapBody
  by_cases hv : E.texrefValid = true
  swap
  · simp only [Bool.not_eq_true] at hv
    simp only [hv, Bool.not_false, if_true]
    exact ⟨_, rfl, rfl, rfl, rfl, rfl, rfl⟩
  simp only [hv, Bool.not_true, Bool.false_eq_true, if_false, hne']
  rcases hi : (if s.isClear = true then init E s else (s, true)) with ⟨s0, _ | _⟩
  · dsimp only
    have e : memory K s0 = memory K s := by
      split_ifs at hi with hc
      · have ho := hwf hc
        obtain ⟨k1, -⟩ := init_keeps E s s0 false hc ho hv hi
        simp [memory, k1, ho]
      · cases hi
    exact ⟨_, rfl, by rw [e], by rw [e], by rw [e], by rw [e], by rw [e]⟩
  · dsimp only
    rcases ho : object K s0 with ⟨s1, _ | m1⟩
    · exfalso
      have hc0 : s0.isClear = false := by
        split_ifs at hi with hc
        · exact (init_success E s s0 hi).2.2.2.2 hv
        · cases hi; simpa using hc
      simp [TextureMemory.object, hc0] at ho
      split at ho <;> simp at ho
    · dsimp only
      obtain ⟨e1, e2, -, e4, -, e6, -⟩ := enter K E s s0 s1 m1 hi ho
      have hmem1 : memory K s1 = m1 := memory_of_object K s1 m1 e2
      have b1 := congrArg TextureObject.hostPtr e6
      have b2 := congrArg TextureObject.devPtr e6
      have b3 := congrArg TextureObject.graphicsArray e6
      have b4 := congrArg TextureObject.graphicsResource e6
      have b5 := congrArg TextureObject.syncOp e6
      simp only at b1 b2 b3 b4 b5
      rw [← b1] at hH
      rw [← b4] at hA
      rw [← b2] at hD
      have hu1 : hasFlag s1.usage K.GL_TARGET = false ∨
          hasFlag (memory K s1).syncOp K.SYNC_ARRAY = true := by
        rw [e4, hmem1, b5]; exact hu
      obtain ⟨s', hd, hf⟩ := mapData_alloc_fails (unmap K E fuel) K E s1 m1 mapping e1 e2
        hH hA hD
      have em := hf.memory_eq K m1 e2
      have a1 := congrArg TextureObject.hostPtr em
      have a2 := congrArg TextureObject.devPtr em
      have a3 := congrArg TextureObject.graphicsArray em
      have a4 := congrArg TextureObject.graphicsResource em
      have a5 := congrArg TextureObject.syncOp em
      simp only at a1 a2 a3 a4 a5
      refine ⟨s', ?_, a1.trans b1, a2.trans b2, a3.trans b3, a4.trans b4, a5.trans b5⟩
      unfold mapMain
      rw [mapRenderTarget_skip K E s1 hu1]
      dsimp only
      rw [hd]

/-- An instance of C10, amended: the host memory of a fresh memory cannot be
allocated. -/
theorem map_alloc_fails_witness :
    ∃ s', map sampleHeader { sampleEnv with ok := fun _ site => site != Site.allocMalloc } 0
        (create sampleHeader) 0x01 0 = some (s', none) ∧
      (memory sampleHeader s').hostPtr = (memory sampleHeader (create sampleHeader)).hostPtr ∧
      (memory sampleHeader s').devPtr = (memory sampleHeader (create sampleHeader)).devPtr ∧
      (memory sampleHeader s').graphicsArray =
        (memory sampleHeader (create sampleHeader)).graphicsArray ∧
      (memory sampleHeader s').graphicsResource =
        (memory sampleHeader (create sampleHeader)).graphicsResource ∧
      (memory sampleHeader s').syncOp = (memory sampleHeader (create sampleHeader)).syncOp :=
  map_alloc_fails sampleHeader { sampleEnv with ok := fun _ site => site != Site.allocMalloc } 0
    (create sampleHeader) 0x01 0 (fun _ => rfl) (by decide) (Or.inl (by decide))
    (fun _ => ⟨rfl, fun _ => rfl⟩) (fun h => absurd h (by decide))
    (fun h => absurd h (by decide))

/-- C10 fails for a render target: the host memory of a fresh memory with the
usage `GL_TARGET` cannot be allocated; `map( MAP_HOST_SOURCE )` returns `NULL`,
but has registered the texture and set the device and the host flag
before. -/
theorem map_alloc_fails_render_target :
    (memory sampleHeader renderTarget).graphicsResource = none ∧
    (memory sampleHeader renderTarget).syncOp = 0 ∧
    ∃ s', map sampleHeader { sampleEnv with ok := fun _ site => site != Site.allocMalloc } 0
        renderTarget 0x01 0 = some (s', none) ∧
      (memory sampleHeader s').graphicsResource = some 1000 ∧
      (memory sampleHeader s').syncOp = 0x11 :=
  ⟨rfl, rfl, _, rfl, rfl, rfl⟩

end osgCuda.TextureMemory

/-! ### Lazy allocation -/

namespace osgCuda.TextureMemory

/-- The method `setup` for a mapping that is not one of the array leaves the
handles alone. -/
theorem setupBody_frame (unmap : TextureMemory → Option TextureMemory) (K : Header) (E : Env)
    (s s' : TextureMemory) (mapping : Nat) (b : Bool)
    (ha : hasAll mapping K.MAP_DEVICE_ARRAY = false)
    (h : setupBody unmap K E s mapping = some (s', b)) :
    Frame TextureObject.handles s s' := by
  unfold setupBody at h
  have hf0 := Frame.object TextureObject.handles K s
  rcases ho : object K s with ⟨s1, _ | m1⟩
  · rw [ho] at h hf0
    cases h
    exact hf0
  · rw [ho] at h hf0
    obtain ⟨hm1, -⟩ := object_some K s s1 m1 ho
    dsimp only at h hf0
    split at h
    · cases h
      exact hf0
    · rename_i image _
      simp only [ha, Bool.false_eq_true, if_false] at h
      split_ifs at h
      · simp only [Option.some.injEq] at h
        exact hf0.trans (setupDevice_spec K E s1 s' m1 image b hm1 h).1
      · simp only [Option.some.injEq] at h
        exact hf0.trans (setupHost_spec K E s1 s' m1 image b hm1 h).1
      · cases h
        exact hf0

/-- The steps SETUP STREAM and SYNC STREAM of `map` leave the handles alone,
unless `setup` runs for the array. -/
theorem mapSetupSync_frame (unmap : TextureMemory → Option TextureMemory) (K : Header)
    (E : Env) (s s' : TextureMemory) (mapping : Nat) (ns : Bool) (flag : Nat) (b : Bool)
    (hq : hasAll mapping K.MAP_DEVICE_ARRAY = true → ns = false)
    (h : mapSetupSync unmap K E s mapping ns flag = some (s', b)) :
    Frame TextureObject.handles s s' := by
  unfold mapSetupSync at h
  have h1 : ∀ s3 b3, (if ns = true then setupBody unmap K E s mapping else some (s, true)) =
      some (s3, b3) → Frame TextureObject.handles s s3 := by
    intro s3 b3 h3
    split_ifs at h3 with hns
    · have ha : hasAll mapping K.MAP_DEVICE_ARRAY = false := by
        by_contra hne
        simp only [Bool.not_eq_false] at hne
        rw [hq hne] at hns
        cases hns
      exact setupBody_frame unmap K E s s3 mapping b3 ha h3
    · cases h3
      exact Frame.refl _ _
  split at h
  · cases h
  · rename_i s3 h3
    cases h
    exact h1 _ _ h3
  · rename_i s3 h3
    have d3 := h1 _ _ h3
    split_ifs at h
    · simp only [Option.some.injEq] at h
      exact d3.trans (sync_spec K E s3 s' mapping b h).1.pinned_handles
    · cases h
      exact d3

/-- The host branch of `map` leaves the device handle alone, unless `setup`
runs for the array. -/
theorem mapHost_frame (unmap : TextureMemory → Option TextureMemory) (K : Header)
    (E : Env) (s s' : TextureMemory) (mapping : Nat) (ns : Bool)
    (r : Option (Option Nat × Bool))
    (c1 : hasFlag mapping K.MAP_HOST = true)
    (hq : hasAll mapping K.MAP_DEVICE_ARRAY = true → ns = false)
    (h : mapHost unmap K E s mapping ns = some (s', r)) :
    Frame (fun m : TextureObject => m.devPtr) s s' := by
  unfold mapHost at h
  dsimp only at h
  have hal := (alloc_host_frame K E s mapping c1).weaken (fun m : TextureObject => m.devPtr)
  split at h
  · rename_i sa heq
    cases h
    split_ifs at heq
    · rcases ha : alloc K E s mapping with ⟨sa', _ | _⟩
      · rw [ha] at heq hal
        cases heq
        exact hal
      · rw [ha] at heq; cases heq
    · cases heq
  · rename_i sa fl heq
    have hfa : Frame (fun m : TextureObject => m.devPtr) s sa := by
      split_ifs at heq
      · rcases ha : alloc K E s mapping with ⟨sa', _ | _⟩
        · rw [ha] at heq; cases heq
        · rw [ha] at heq hal
          cases heq
          exact hal
      · cases heq
        exact Frame.refl _ _
    split at h
    · cases h
    · rename_i s4 hss
      cases h
      exact hfa.trans ((mapSetupSync_frame unmap K E sa _ mapping ns _ _ hq hss).weaken
        (fun m : TextureObject => m.devPtr))
    · rename_i s4 hss
      cases h
      exact hfa.trans ((mapSetupSync_frame unmap K E sa _ mapping ns _ _ hq hss).weaken
        (fun m : TextureObject => m.devPtr))

/-- The device branch of `map` leaves the host handle alone, unless `setup`
runs for the array. -/
theorem mapDevice_frame (unmap : TextureMemory → Option TextureMemory) (K : Header)
    (E : Env) (s s' : TextureMemory) (mapping : Nat) (ns : Bool)
    (r : Option (Option Nat × Bool))
    (c1 : hasFlag mapping K.MAP_HOST = false) (c2 : hasAll mapping K.MAP_DEVICE_ARRAY = false)
    (h : mapDevice unmap K E s mapping ns = some (s', r)) :
    Frame (fun m : TextureObject => m.hostPtr) s s' := by
  have hq : hasAll mapping K.MAP_DEVICE_ARRAY = true → ns = false := fun hc => by
    rw [c2] at hc; cases hc
  unfold mapDevice at h
  dsimp only at h
  have hal := (alloc_device_frame K E s mapping c1 c2).weaken
    (fun m : TextureObject => m.hostPtr)
  split at h
  · rename_i sa heq
    cases h
    split_ifs at heq
    · rcases ha : alloc K E s mapping with ⟨sa', _ | _⟩
      · rw [ha] at heq hal
        cases heq
        exact hal
      · rw [ha] at heq; cases heq
    · cases heq
  · rename_i sa fl heq
    have hfa : Frame (fun m : TextureObject => m.hostPtr) s sa := by
      split_ifs at heq
      · rcases ha : alloc K E s mapping with ⟨sa', _ | _⟩
        · rw [ha] at heq; cases heq
        · rw [ha] at heq hal
          cases heq
          exact hal
      · cases heq
        exact Frame.refl _ _
    split at h
    · cases h
    · rename_i s4 hss
      cases h
      exact hfa.trans ((mapSetupSync_frame unmap K E sa _ mapping ns _ _ hq hss).weaken
        (fun m : TextureObject => m.hostPtr))
    · rename_i s4 hss
      cases h
      exact hfa.trans ((mapSetupSync_frame unmap K E sa _ mapping ns _ _ hq hss).weaken
        (fun m : TextureObject => m.hostPtr))

/-- The `apply` of the adapter leaves the host and device handles alone when
the `unmap` it calls does. -/
theorem adapterApply_frame (unmap : TextureMemory → Option TextureMemory)
    (s s' : TextureMemory) (image : Image)
    (hU : ∀ s s', unmap s = some s' → s.isClear = false →
      Frame (fun m : TextureObject => (m.hostPtr, m.devPtr)) s s')
    (h : adapterApply unmap s image = some s') :
    Frame (fun m : TextureObject => (m.hostPtr, m.devPtr)) s s' := by
  unfold adapterApply at h
  split at h
  · cases h
  · rename_i s1 heq
    have hf1 : Frame (fun m : TextureObject => (m.hostPtr, m.devPtr)) s s1 := by
      split_ifs at heq with hc
      · exact hU s s1 heq (by simpa using hc)
      · cases heq
        exact Frame.refl _ _
    dsimp only at h
    split at h
    · rename_i memory data hm _
      cases h
      refine hf1.trans ⟨rfl, ⟨[Event.call Site.setupApply true], rfl⟩, fun m hm' => ?_⟩
      have hm2 : s1._object = some memory := hm
      rw [hm2] at hm'
      cases hm'
      exact ⟨_, rfl, rfl⟩
    · cases h
      exact hf1.trans (Frame.emit_right _ (Frame.refl _ _))

/-- The array branch of `setup` leaves the host and device handles alone when
the `unmap` it reaches does. -/
theorem setupArray_frame (unmap : TextureMemory → Option TextureMemory) (K : Header)
    (E : Env) (s s' : TextureMemory) (image : Image) (b : Bool)
    (hU : ∀ s s', unmap s = some s' → s.isClear = false →
      Frame (fun m : TextureObject => (m.hostPtr, m.devPtr)) s s')
    (h : setupArray unmap K E s image = some (s', b)) :
    Frame (fun m : TextureObject => (m.hostPtr, m.devPtr)) s s' := by
  unfold setupArray at h
  dsimp only at h
  have step : ∀ (sx : TextureMemory) (site : Site) (u : TextureObject → TextureObject)
      (c : Bool) (sy : TextureMemory) (by' : Bool),
      (∀ m, (fun m : TextureObject => (m.hostPtr, m.devPtr)) (u m) =
        (fun m : TextureObject => (m.hostPtr, m.devPtr)) m) →
      (if c = true then
        (match call E sx site with
          | (s, none) => (s, false)
          | (s, some _) => (modify K s u, true))
        else (sx, true)) = (sy, by') →
      Frame (fun m : TextureObject => (m.hostPtr, m.devPtr)) sx sy := by
    intro sx site u c sy by' hu hh
    simp only [TextureMemory.call] at hh
    repeat' (first | split_ifs at hh | dsimp only at hh)
    all_goals
      cases hh
      first
      | exact Frame.refl _ _
      | exact Frame.emit_right _ (Frame.refl _ _)
      | exact Frame.modify_keep K _ (Frame.emit_right _ (Frame.refl _ _)) hu
  split at h
  · rename_i s1 heq
    cases h
    exact step _ _ (fun m => { m with graphicsArray := none }) _ _ _ (fun _ => rfl) heq
  · rename_i s1 heq
    have f1 := step _ _ (fun m => { m with graphicsArray := none }) _ _ _ (fun _ => rfl) heq
    split at h
    · rename_i s2 heq2
      cases h
      exact f1.trans
        (step _ _ (fun m => { m with graphicsResource := none }) _ _ _ (fun _ => rfl) heq2)
    · rename_i s2 heq2
      have f2 := f1.trans
        (step _ _ (fun m => { m with graphicsResource := none }) _ _ _ (fun _ => rfl) heq2)
      split_ifs at h
      · cases h
        exact f2
      · split at h
        · cases h
        · rename_i s3 heq3
          have f3 := f2.trans (adapterApply_frame unmap s2 s3 image hU heq3)
          simp only [TextureMemory.call] at h
          repeat' (first | split_ifs at h | dsimp only at h)
          all_goals
            cases h
            refine f3.trans ?_
            repeat (first
              | with_reducible exact Frame.refl _ _
              | with_reducible apply Frame.emit_right
              | (with_reducible apply Frame.modify_keep
                 rotate_left
                 (intro _; rfl)))

/-- The method `setup` leaves the host and device handles alone when the
`unmap` it reaches does. -/
theorem setupBody_frame_handles (unmap : TextureMemory → Option TextureMemory) (K : Header)
    (E : Env) (s s' : TextureMemory) (mapping : Nat) (b : Bool)
    (hU : ∀ s s', unmap s = some s' → s.isClear = false →
      Frame (fun m : TextureObject => (m.hostPtr, m.devPtr)) s s')
    (h : setupBody unmap K E s mapping = some (s', b)) :
    Frame (fun m : TextureObject => (m.hostPtr, m.devPtr)) s s' := by
  by_cases ha : hasAll mapping K.MAP_DEVICE_ARRAY = true
  · unfold setupBody at h
    have hf0 := Frame.object (fun m : TextureObject => (m.hostPtr, m.devPtr)) K s
    rcases ho : object K s with ⟨s1, _ | m1⟩
    · rw [ho] at h hf0
      cases h
      exact hf0
    · rw [ho] at h hf0
      dsimp only at h hf0
      split at h
      · cases h
        exact hf0
      · rename_i image _
        simp only [ha, if_true] at h
        exact hf0.trans (setupArray_frame unmap K E s1 s' image b hU h)
  · simp only [Bool.not_eq_true] at ha
    exact (setupBody_frame unmap K E s s' mapping b ha h).weaken
      (fun m : TextureObject => (m.hostPtr, m.devPtr))

/-- The steps SETUP STREAM and SYNC STREAM of `map` leave the host and device
handles alone when the `unmap` that `setup` reaches does. -/
theorem mapSetupSync_frame_handles (unmap : TextureMemory → Option TextureMemory) (K : Header)
    (E : Env) (s s' : TextureMemory) (mapping : Nat) (ns : Bool) (flag : Nat) (b : Bool)
    (hU : ∀ s s', unmap s = some s' → s.isClear = false →
      Frame (fun m : TextureObject => (m.hostPtr, m.devPtr)) s s')
    (h : mapSetupSync unmap K E s mapping ns flag = some (s', b)) :
    Frame (fun m : TextureObject => (m.hostPtr, m.devPtr)) s s' := by
  unfold mapSetupSync at h
  have h1 : ∀ s3 b3, (if ns = true then setupBody unmap K E s mapping else some (s, true)) =
      some (s3, b3) → Frame (fun m : TextureObject => (m.hostPtr, m.devPtr)) s s3 := by
    intro s3 b3 h3
    split_ifs at h3 with hns
    · exact setupBody_frame_handles unmap K E s s3 mapping b3 hU h3
    · cases h3
      exact Frame.refl _ _
  split at h
  · cases h
  · rename_i s3 h3
    cases h
    exact h1 _ _ h3
  · rename_i s3 h3
    have d3 := h1 _ _ h3
    split_ifs at h
    · simp only [Option.some.injEq] at h
      exact d3.trans ((sync_spec K E s3 s' mapping b h).1.weaken
        (fun m : TextureObject => (m.hostPtr, m.devPtr)))
    · cases h
      exact d3

/-- The array branch of `map` leaves the host and device handles alone when
the `unmap` that `setup` reaches does. -/
theorem mapArray_frame (unmap : TextureMemory → Option TextureMemory) (K : Header)
    (E : Env) (s s' : TextureMemory) (mapping : Nat) (ns : Bool)
    (r : Option (Option Nat × Bool))
    (c1 : hasFlag mapping K.MAP_HOST = false) (c2 : hasAll mapping K.MAP_DEVICE_ARRAY = true)
    (hU : ∀ s s', unmap s = some s' → s.isClear = false →
      Frame (fun m : TextureObject => (m.hostPtr, m.devPtr)) s s')
    (h : mapArray unmap K E s mapping ns = some (s', r)) :
    Frame (fun m : TextureObject => (m.hostPtr, m.devPtr)) s s' := by
  unfold mapArray at h
  dsimp only at h
  have hal := (alloc_array_frame K E s mapping c1 c2).weaken
    (fun m : TextureObject => (m.hostPtr, m.devPtr))
  split at h
  · rename_i sa heq
    cases h
    split_ifs at heq
    · rcases ha : alloc K E s mapping with ⟨sa', _ | _⟩
      · rw [ha] at heq hal
        cases heq
        exact hal
      · rw [ha] at heq; cases heq
    · cases heq
  · rename_i sa fl heq
    have hfa : Frame (fun m : TextureObject => (m.hostPtr, m.devPtr)) s sa := by
      split_ifs at heq
      · rcases ha : alloc K E s mapping with ⟨sa', _ | _⟩
        · rw [ha] at heq; cases heq
        · rw [ha] at heq hal
          cases heq
          exact hal
      · cases heq
        exact Frame.refl _ _
    have hmp : ∀ sb b, (if ((memory K sa).graphicsArray == none) = true then
          match call E sa .mapMapResources with
          | (s, none) => (s, false)
          | (s, some _) =>
            match call E s .mapGetMappedArray with
            | (s, none) => (s, false)
            | (s, some a) => (modify K s (fun m => { m with graphicsArray := some a }), true)
        else (sa, true)) = (sb, b) →
        Frame (fun m : TextureObject => (m.hostPtr, m.devPtr)) sa sb := by
      intro sb b hb
      simp only [TextureMemory.call] at hb
      repeat' (first | split_ifs at hb | dsimp only at hb)
      all_goals
        cases hb
        repeat (first
          | with_reducible exact Frame.refl _ _
          | with_reducible apply Frame.emit_right
          | (with_reducible apply Frame.modify_keep
             rotate_left
             (intro _; rfl)))
    split at h
    · rename_i sb heq2
      cases h
      exact hfa.trans (hmp _ _ heq2)
    · rename_i sb heq2
      have hfb := hfa.trans (hmp _ _ heq2)
      split at h
      · cases h
      · rename_i s4 hss
        cases h
        exact hfb.trans (mapSetupSync_frame_handles unmap K E sb _ mapping ns _ _ hU hss)
      · rename_i s4 hss
        cases h
        exact hfb.trans (mapSetupSync_frame_handles unmap K E sb _ mapping ns _ _ hU hss)

/-- The part of `map` after RECEIVE HANDLE: a mapping of the array leaves the
host and device handles alone (when the `unmap` that `setup` reaches does), a
mapping of the host memory the device handle, and a mapping of the device
memory the host handle. -/
theorem mapMain_frame (unmap : TextureMemory → Option TextureMemory) (K : Header)
    (E : Env) (s s' : TextureMemory) (mapping offset : Nat) (r : Option Nat)
    (h : mapMain unmap K E s mapping offset = some (s', r)) :
    (hasFlag mapping K.MAP_HOST = false → hasAll mapping K.MAP_DEVICE_ARRAY = true →
      (∀ s s', unmap s = some s' → s.isClear = false →
        Frame (fun m : TextureObject => (m.hostPtr, m.devPtr)) s s') →
      Frame (fun m : TextureObject => (m.hostPtr, m.devPtr)) s s') ∧
    (hasFlag mapping K.MAP_HOST = true → hasAll mapping K.MAP_DEVICE_ARRAY = false →
      Frame (fun m : TextureObject => m.devPtr) s s') ∧
    (hasFlag mapping K.MAP_HOST = false → hasAll mapping K.MAP_DEVICE_ARRAY = false →
      Frame (fun m : TextureObject => m.hostPtr) s s') := by
  unfold mapMain at h
  have hrt := mapRenderTarget_frame K E s
  -- the three frames of the part MAP DATA
  have data : ∀ s2 s4 r4, mapData unmap K E s2 mapping = some (s4, r4) →
      (hasFlag mapping K.MAP_HOST = false → hasAll mapping K.MAP_DEVICE_ARRAY = true →
        (∀ s s', unmap s = some s' → s.isClear = false →
          Frame (fun m : TextureObject => (m.hostPtr, m.devPtr)) s s') →
        Frame (fun m : TextureObject => (m.hostPtr, m.devPtr)) s2 s4) ∧
      (hasFlag mapping K.MAP_HOST = true → hasAll mapping K.MAP_DEVICE_ARRAY = false →
        Frame (fun m : TextureObject => m.devPtr) s2 s4) ∧
      (hasFlag mapping K.MAP_HOST = false → hasAll mapping K.MAP_DEVICE_ARRAY = false →
        Frame (fun m : TextureObject => m.hostPtr) s2 s4) := by
    intro s2 s4 r4 hd
    unfold mapData at hd
    dsimp only at hd
    refine ⟨fun c1 c2 hU => ?_, fun c1 c2 => ?_, fun c1 c2 => ?_⟩
    · simp only [c1, c2, Bool.false_eq_true, if_false, if_true] at hd
      have f0 : Frame (fun m : TextureObject => (m.hostPtr, m.devPtr)) s2
          (modify K s2 (fun m => { m with mapping := mapping })) :=
        Frame.modify_keep K _ (Frame.refl _ _) (fun _ => rfl)
      exact f0.trans (mapArray_frame unmap K E _ s4 mapping _ r4 c1 c2 hU hd)
    · simp only [c1, if_true] at hd
      have f0 : Frame (fun m : TextureObject => m.devPtr) s2
          (modify K s2 (fun m => { m with mapping := mapping })) :=
        Frame.modify_keep K _ (Frame.refl _ _) (fun _ => rfl)
      exact f0.trans (mapHost_frame unmap K E _ s4 mapping _ r4 c1
          (fun hc => by rw [c2] at hc; cases hc) hd)
    · simp only [c1, c2, Bool.false_eq_true, if_false] at hd
      have f0 : Frame (fun m : TextureObject => m.hostPtr) s2
          (modify K s2 (fun m => { m with mapping := mapping })) :=
        Frame.modify_keep K _ (Frame.refl _ _) (fun _ => rfl)
      split_ifs at hd
      · exact f0.trans (mapDevice_frame unmap K E _ s4 mapping _ r4 c1 c2 hd)
      · cases hd
        exact f0
  have fin : ∀ s4 ptr fl,
      Frame (fun m : TextureObject => (m.hostPtr, m.devPtr)) s4
        (mapFinish K s4 mapping offset ptr fl).1 :=
    fun s4 ptr fl => (mapFinish_frame K s4 mapping offset ptr fl).weaken
      (fun m : TextureObject => (m.hostPtr, m.devPtr))
  split at h
  · rename_i s2 heq
    cases h
    rw [heq] at hrt
    exact ⟨fun _ _ _ => hrt.weaken (fun m : TextureObject => (m.hostPtr, m.devPtr)),
      fun _ _ => hrt.weaken (fun m : TextureObject => m.devPtr),
      fun _ _ => hrt.weaken (fun m : TextureObject => m.hostPtr)⟩
  · rename_i s2 heq
    rw [heq] at hrt
    have g1 := hrt.weaken (fun m : TextureObject => (m.hostPtr, m.devPtr))
    have g2 := hrt.weaken (fun m : TextureObject => m.devPtr)
    have g3 := hrt.weaken (fun m : TextureObject => m.hostPtr)
    split at h
    · cases h
    · rename_i s4 hd
      cases h
      obtain ⟨d1, d2, d3⟩ := data _ _ _ hd
      exact ⟨fun c1 c2 hU => g1.trans (d1 c1 c2 hU), fun c1 c2 => g2.trans (d2 c1 c2),
        fun c1 c2 => g3.trans (d3 c1 c2)⟩
    · rename_i s4 fl hd
      cases h
      obtain ⟨d1, d2, d3⟩ := data _ _ _ hd
      exact ⟨fun c1 c2 hU => g1.trans (d1 c1 c2 hU), fun c1 c2 => g2.trans (d2 c1 c2),
        fun c1 c2 => g3.trans (d3 c1 c2)⟩
    · rename_i s4 ptr fl hd
      obtain ⟨d1, d2, d3⟩ := data _ _ _ hd
      have e : s' = (mapFinish K s4 mapping offset ptr fl).1 := by
        simp only [Option.some.injEq] at h
        rw [h]
      subst e
      have f1 := fin s4 ptr fl
      exact ⟨fun c1 c2 hU => (g1.trans (d1 c1 c2 hU)).trans f1,
        fun c1 c2 => (g2.trans (d2 c1 c2)).trans (f1.weaken (fun c => c.2)),
        fun c1 c2 => (g3.trans (d3 c1 c2)).trans (f1.weaken (fun c => c.1))⟩

/-- A `map` of the array on a configured memory leaves the host and device
handles alone when the `unmap` it reaches does. -/
theorem mapBody_frame (unmap : TextureMemory → Option TextureMemory) (K : Header)
    (E : Env) (s s' : TextureMemory) (mapping offset : Nat) (r : Option Nat)
    (hc : s.isClear = false)
    (c1 : hasFlag mapping K.MAP_HOST = false) (c2 : hasAll mapping K.MAP_DEVICE_ARRAY = true)
    (hU : ∀ s s', unmap s = some s' → s.isClear = false →
      Frame (fun m : TextureObject => (m.hostPtr, m.devPtr)) s s')
    (h : mapBody unmap K E s mapping offset = some (s', r)) :
    Frame (fun m : TextureObject => (m.hostPtr, m.devPtr)) s s' := by
  unfold mapBody at h
  simp only [hc, Bool.false_eq_true, if_false] at h
  split_ifs at h with hv hu
  · cases h
    exact Frame.refl _ _
  · split at h
    · cases h
    · rename_i s1 heq
      cases h
      exact hU s s' heq hc
  · have hf0 := Frame.object (fun m : TextureObject => (m.hostPtr, m.devPtr)) K s
    rcases ho : object K s with ⟨s1, _ | m1⟩
    · rw [ho] at h hf0
      cases h
      exact hf0
    · rw [ho] at h hf0
      exact hf0.trans ((mapMain_frame unmap K E s1 s' mapping offset r h).1 c1 c2 hU)

/-- The blocks of `unmap` after the flush leave the host and device handles
alone. -/
theorem unmapRelease_frame (K : Header) (E : Env) (s : TextureMemory) :
    Frame (fun m : TextureObject => (m.hostPtr, m.devPtr)) s
      (unmapRelease K E (unmapMark K E s)) := by
  have h1 : Frame (fun m : TextureObject => (m.hostPtr, m.devPtr)) s (unmapMark K E s) := by
    unfold unmapMark
    repeat' (first | split | split_ifs | dsimp only)
    all_goals
      repeat (first
        | with_reducible exact Frame.refl _ _
        | (with_reducible apply Frame.modify_keep
           rotate_left
           (intro _; rfl)))
  refine h1.trans ?_
  generalize unmapMark K E s = s1
  unfold unmapRelease
  simp only [TextureMemory.call]
  repeat' (first | split_ifs | dsimp only)
  all_goals
    repeat (first
      | with_reducible exact Frame.refl _ _
      | with_reducible apply Frame.emit_right
      | (with_reducible apply Frame.modify_keep
         rotate_left
         (intro _; rfl)))

/-- The method `unmap` on a configured memory leaves the host and device
handles alone when the `map` of the array it calls does. -/
theorem unmapBody_frame
    (map : TextureMemory → Nat → Nat → Option (TextureMemory × Option Nat))
    (K : Header) (E : Env) (s s' : TextureMemory) (hc : s.isClear = false)
    (hM : ∀ s s' r, map s K.MAP_DEVICE_ARRAY 0 = some (s', r) → s.isClear = false →
      Frame (fun m : TextureObject => (m.hostPtr, m.devPtr)) s s')
    (h : unmapBody map K E s = some s') :
    Frame (fun m : TextureObject => (m.hostPtr, m.devPtr)) s s' := by
  unfold unmapBody at h
  simp only [hc, Bool.false_eq_true, if_false] at h
  split_ifs at h with hv
  · cases h
    exact Frame.refl _ _
  · have hf0 := Frame.object (fun m : TextureObject => (m.hostPtr, m.devPtr)) K s
    rcases ho : object K s with ⟨s1, _ | m1⟩
    · rw [ho] at h hf0
      cases h
      exact hf0
    · rw [ho] at h hf0
      obtain ⟨-, hc1⟩ := object_some K s s1 m1 ho
      dsimp only at h hf0
      split at h
      · cases h
      · rename_i sF heq
        cases h
        split_ifs at heq
        · split at heq
          · cases heq
          · rename_i sm hmap
            cases heq
            exact hf0.trans (hM _ _ _ hmap hc1)
          · cases heq
        · cases heq
      · rename_i sF heq
        cases h
        refine (hf0.trans ?_).trans (unmapRelease_frame K E sF)
        split_ifs at heq
        · split at heq
          · cases heq
          · cases heq
          · rename_i sm p hmap
            cases heq
            exact hM _ _ _ hmap hc1
        · cases heq
          exact Frame.refl _ _

/-- The method `unmap` on a configured memory leaves the host and device
handles alone. -/
theorem unmap_frame (K : Header) (E : Env)
    (hA : hasFlag K.MAP_DEVICE_ARRAY K.MAP_HOST = false) :
    ∀ (fuel : Nat) (s s' : TextureMemory), unmap K E fuel s = some s' → s.isClear = false →
      Frame (fun m : TextureObject => (m.hostPtr, m.devPtr)) s s' := by
  intro fuel
  induction fuel with
  | zero => intro s s' h; cases h
  | succ fuel ih =>
    intro s s' h hc
    have hAA : hasAll K.MAP_DEVICE_ARRAY K.MAP_DEVICE_ARRAY = true := by simp [hasAll]
    exact unmapBody_frame _ K E s s' hc
      (fun s1 s2 r hm hc1 => mapBody_frame (unmap K E fuel) K E s1 s2 _ _ r hc1 hA hAA ih hm) h

/-- C8: a `map` with a mapping of the array leaves the host handle and the
device handle as they are, whatever the state and whatever `setup`, `sync` and
the nested `unmap` do; a `map` of the host memory leaves the device handle as
it is, and a `map` of the device memory the host handle. -/
theorem map_lazy_alloc (K : Header) (E : Env) (fuel : Nat) (s s' : TextureMemory)
    (mapping offset : Nat) (r : Option Nat)
    (hA : hasFlag K.MAP_DEVICE_ARRAY K.MAP_HOST = false)
    (hwf : s.isClear = true → s._object = none) (hne : mapping ≠ K.UNMAP)
    (h : map K E fuel s mapping offset = some (s', r)) :
    (K.isArrayMapping mapping →
      (memory K s').hostPtr = (memory K s).hostPtr ∧
      (memory K s').devPtr = (memory K s).devPtr) ∧
    (K.isHostMapping mapping → (memory K s').devPtr = (memory K s).devPtr) ∧
    (K.isDeviceMapping mapping → (memory K s').hostPtr = (memory K s).hostPtr) := by
  unfold map at h
  rcases mapBody_cases _ K E s s' mapping offset r hne h with
    ⟨-, -, rfl⟩ | ⟨-, hv, hc, hi⟩ | ⟨s0, s1, m1, hv, hi, ho, hmain⟩
  · exact ⟨fun _ => ⟨rfl, rfl⟩, fun _ => rfl, fun _ => rfl⟩
  · have ho := hwf hc
    obtain ⟨k1, -⟩ := init_keeps E s s' false hc ho hv hi
    have e : memory K s' = memory K s := by simp [memory, k1, ho]
    rw [e]
    exact ⟨fun _ => ⟨rfl, rfl⟩, fun _ => rfl, fun _ => rfl⟩
  · obtain ⟨-, e2, -, -, -, e6, -⟩ := enter K E s s0 s1 m1 hi ho
    have b1 := congrArg TextureObject.hostPtr e6
    have b2 := congrArg TextureObject.devPtr e6
    simp only at b1 b2
    obtain ⟨f1, f2, f3⟩ := mapMain_frame _ K E s1 s' mapping offset r hmain
    refine ⟨fun hm => ?_, fun hm => ?_, fun hm => ?_⟩
    · have e := (f1 hm.1 hm.2.1 (unmap_frame K E hA fuel)).memory_eq K m1 e2
      simp only [Prod.mk.injEq] at e
      exact ⟨e.1.trans b1, e.2.trans b2⟩
    · exact ((f2 hm.1 hm.2.1).memory_eq K m1 e2).trans b2
    · exact ((f3 hm.1 hm.2.1).memory_eq K m1 e2).trans b1

/-- An instance of C8: a mapping of the array of the memory `hostWritten`,
whose device memory is not allocated; the host memory is copied into the
array, and no device memory is allocated. -/
theorem map_lazy_alloc_witness :
    ∃ s' p, map sampleHeader sampleEnv 0 hostWritten 0x10000 0 = some (s', some p) ∧
      (memory sampleHeader s').hostPtr = some 1000 ∧ (memory sampleHeader s').devPtr = none :=
  ⟨_, _, rfl,
    ((map_lazy_alloc sampleHeader sampleEnv 0 hostWritten _ 0x10000 0 _ (by decide)
      (fun h => Bool.noConfusion h) (by decide) rfl).1 (by decide)).1.trans (by decide),
    ((map_lazy_alloc sampleHeader sampleEnv 0 hostWritten _ 0x10000 0 _ (by decide)
      (fun h => Bool.noConfusion h) (by decide) rfl).1 (by decide)).2.trans (by decide)⟩

end osgCuda.TextureMemory

/-! ### Repeated mappings -/

namespace osgCuda.TextureMemory

/-- A successful `setup` of the array records the version and the address of
the image. -/
theorem setupArray_version (unmap : TextureMemory → Option TextureMemory) (K : Header)
    (E : Env) (s s' : TextureMemory) (image : Image)
    (h : setupArray unmap K E s image = some (s', true)) :
    (memory K s').lastModifiedCount = image.modifiedCount ∧
    (memory K s').lastModifiedAddress = some image.address := by
  unfold setupArray at h
  dsimp only at h
  split at h
  · cases h
  · split at h
    · cases h
    · split_ifs at h
      · cases h
      · split at h
        · cases h
        · simp only [TextureMemory.call] at h
          repeat' (first | split_ifs at h | dsimp only at h)
          all_goals first
            | (cases h; done)
            | (cases h
               exact ⟨rfl, rfl⟩)

/-- After a successful `setup` for the mapping of one of the three branches of
`map`, the image is recorded as seen. -/
theorem setupBody_version (unmap : TextureMemory → Option TextureMemory) (K : Header)
    (E : Env) (s s' : TextureMemory) (mapping : Nat)
    (hb : hasFlag mapping K.MAP_HOST = true ∨ hasAll mapping K.MAP_DEVICE_ARRAY = true ∨
      hasFlag mapping K.MAP_DEVICE = true)
    (h : setupBody unmap K E s mapping = some (s', true)) :
    needsSetup K E s' = false := by
  unfold setupBody at h
  rcases ho : object K s with ⟨s1, _ | m1⟩
  · rw [ho] at h
    cases h
  · rw [ho] at h
    obtain ⟨hm1, -⟩ := object_some K s s1 m1 ho
    dsimp only at h
    unfold needsSetup
    rcases hi : E.image with _ | image
    · rfl
    · rw [hi] at h
      dsimp only at h ⊢
      split_ifs at h with c1 c2 c3
      · obtain ⟨a1, a2⟩ := setupArray_version unmap K E s1 s' image h
        simp [a1, a2]
      · simp only [Option.some.injEq] at h
        obtain ⟨a1, a2, -⟩ := (setupDevice_spec K E s1 s' m1 image true hm1 h).2.2 rfl
        simp [a1, a2]
      · simp only [Option.some.injEq] at h
        obtain ⟨a1, a2, -⟩ := (setupHost_spec K E s1 s' m1 image true hm1 h).2.2 rfl
        simp [a1, a2]
      · exfalso
        rcases hb with hb | hb | hb
        · exact c3 hb
        · exact c1 hb
        · exact c2 hb

/-- A frame that keeps the recorded version keeps the test for a changed
image. -/
theorem Frame.needsSetup_eq {α : Type} {n : TextureObject → α} {s s' : TextureMemory}
    (K : Header) (E : Env) (m : TextureObject) (h : Frame n s s') (hm : s._object = some m)
    (f : α → Nat × Option Nat)
    (hf : ∀ m, f (n m) = (m.lastModifiedCount, m.lastModifiedAddress)) :
    needsSetup K E s' = needsSetup K E s := by
  have e := congrArg f (h.memory_eq K m hm)
  rw [hf, hf, ← memory_of_object K s m hm] at e
  simp only [Prod.mk.injEq] at e
  unfold needsSetup
  rw [e.1, e.2]

/-- After the steps SETUP STREAM and SYNC STREAM of a branch of `map` have
succeeded, the image is recorded as seen. -/
theorem mapSetupSync_version (unmap : TextureMemory → Option TextureMemory) (K : Header)
    (E : Env) (s s' : TextureMemory) (m : TextureObject) (mapping flag : Nat)
    (hm : s._object = some m)
    (hb : hasFlag mapping K.MAP_HOST = true ∨ hasAll mapping K.MAP_DEVICE_ARRAY = true ∨
      hasFlag mapping K.MAP_DEVICE = true)
    (h : mapSetupSync unmap K E s mapping (needsSetup K E s) flag = some (s', true)) :
    needsSetup K E s' = false ∧ ∃ m', s'._object = some m' := by
  unfold mapSetupSync at h
  split at h
  · cases h
  · cases h
  · rename_i s3 h3
    have hn3 : needsSetup K E s3 = false ∧ ∃ m3, s3._object = some m3 := by
      split_ifs at h3 with hns
      · refine ⟨setupBody_version unmap K E s s3 mapping hb h3, ?_⟩
        -- the object is still there
        unfold setupBody at h3
        rcases ho : object K s with ⟨s1, _ | m1⟩
        · rw [ho] at h3; cases h3
        · by_contra hne
          have hnone : s3._object = none := by
            rcases hx : s3._object with _ | m3
            · rfl
            · exact absurd ⟨m3, hx⟩ hne
          have := setupBody_version unmap K E s s3 mapping hb
            (by unfold setupBody; rw [ho]; rw [ho] at h3; exact h3)
          rcases hi : E.image with _ | image
          · simp [needsSetup, hi] at hns
          · rw [ho, hi] at h3
            dsimp only at h3
            split_ifs at h3 with c1 c2 c3
            · have hv := setupArray_version unmap K E s1 s3 image h3
              unfold setupArray at h3
              dsimp only at h3
              split at h3
              · cases h3
              · split at h3
                · cases h3
                · split_ifs at h3
                  · cases h3
                  · split at h3
                    · cases h3
                    · simp only [TextureMemory.call] at h3
                      repeat' (first | split_ifs at h3 | dsimp only at h3)
                      all_goals first
                        | (cases h3; done)
                        | (cases h3
                           cases hnone)
            · simp only [Option.some.injEq] at h3
              obtain ⟨hm1, -⟩ := object_some K s s1 m1 ho
              obtain ⟨m3, hm3, -⟩ :=
                (setupDevice_spec K E s1 s3 m1 image true hm1 h3).1.2.2 m1 hm1
              rw [hnone] at hm3; cases hm3
            · simp only [Option.some.injEq] at h3
              obtain ⟨hm1, -⟩ := object_some K s s1 m1 ho
              obtain ⟨m3, hm3, -⟩ :=
                (setupHost_spec K E s1 s3 m1 image true hm1 h3).1.2.2 m1 hm1
              rw [hnone] at hm3; cases hm3
            · rcases hb with hb | hb | hb
              · exact c3 hb
              · exact c1 hb
              · exact c2 hb
      · cases h3
        exact ⟨by simpa using hns, m, hm⟩
    obtain ⟨hn3, m3, hm3⟩ := hn3
    split_ifs at h
    · simp only [Option.some.injEq] at h
      have hf := (sync_spec K E s3 s' mapping true h).1
      obtain ⟨m', hm', -⟩ := hf.2.2 m3 hm3
      rw [hf.needsSetup_eq K E m3 hm3
        (fun c => (c.lastModifiedCount, c.lastModifiedAddress)) (fun _ => rfl)]
      exact ⟨hn3, m', hm'⟩
    · cases h
      exact ⟨hn3, m3, hm3⟩

/-- After the part MAP DATA of `map` has ended with a pointer, the image is
recorded as seen. -/
theorem mapData_version (unmap : TextureMemory → Option TextureMemory) (K : Header)
    (E : Env) (s s' : TextureMemory) (mapping ptr : Nat) (firstLoad : Bool)
    (h : mapData unmap K E s mapping = some (s', some (some ptr, firstLoad))) :
    needsSetup K E s' = false ∧ ∃ m', s'._object = some m' := by
  unfold mapData at h
  have ho0 : (modify K s (fun m => { m with mapping := mapping }))._object =
      some (memory K (modify K s (fun m => { m with mapping := mapping }))) := rfl
  generalize modify K s (fun m => { m with mapping := mapping }) = sm at h ho0
  dsimp only at h
  -- an allocation step keeps the recorded version
  have fin : ∀ (sa : TextureMemory) (flag : Nat),
      Frame (fun m : TextureObject => (m.lastModifiedCount, m.lastModifiedAddress)) sm sa →
      (hasFlag mapping K.MAP_HOST = true ∨ hasAll mapping K.MAP_DEVICE_ARRAY = true ∨
        hasFlag mapping K.MAP_DEVICE = true) →
      mapSetupSync unmap K E sa mapping (needsSetup K E sm) flag = some (s', true) →
      needsSetup K E s' = false ∧ ∃ m', s'._object = some m' := by
    intro sa flag hfa hb hss
    obtain ⟨ma, hma, -⟩ := hfa.2.2 _ ho0
    rw [← hfa.needsSetup_eq K E _ ho0 (fun c => c) (fun _ => rfl)] at hss
    exact mapSetupSync_version unmap K E sa s' ma mapping flag hma hb hss
  split_ifs at h with c1 c2 c3
  · unfold mapHost at h
    dsimp only at h
    have hal := (alloc_host_frame K E sm mapping c1).weaken
      (fun m : TextureObject => (m.lastModifiedCount, m.lastModifiedAddress))
    split at h
    · cases h
    · rename_i sa fl heq
      have hfa : Frame (fun m : TextureObject =>
          (m.lastModifiedCount, m.lastModifiedAddress)) sm sa := by
        split_ifs at heq
        · rcases ha : alloc K E sm mapping with ⟨sa', _ | _⟩
          · rw [ha] at heq; cases heq
          · rw [ha] at heq hal
            cases heq
            exact hal
        · cases heq
          exact Frame.refl _ _
      split at h
      · cases h
      · cases h
      · rename_i s4 hss
        simp only [Option.some.injEq, Prod.mk.injEq] at h
        obtain ⟨rfl, -, -⟩ := h
        exact fin sa _ hfa (Or.inl c1) hss
  · have c1' : hasFlag mapping K.MAP_HOST = false := by simpa using c1
    unfold mapArray at h
    dsimp only at h
    have hal := (alloc_array_frame K E sm mapping c1' c2).weaken
      (fun m : TextureObject => (m.lastModifiedCount, m.lastModifiedAddress))
    split at h
    · cases h
    · rename_i sa fl heq
      have hfa : Frame (fun m : TextureObject =>
          (m.lastModifiedCount, m.lastModifiedAddress)) sm sa := by
        split_ifs at heq
        · rcases ha : alloc K E sm mapping with ⟨sa', _ | _⟩
          · rw [ha] at heq; cases heq
          · rw [ha] at heq hal
            cases heq
            exact hal
        · cases heq
          exact Frame.refl _ _
      have hmp : ∀ sb b, (if ((memory K sa).graphicsArray == none) = true then
            match call E sa .mapMapResources with
            | (s, none) => (s, false)
            | (s, some _) =>
              match call E s .mapGetMappedArray with
              | (s, none) => (s, false)
              | (s, some a) => (modify K s (fun m => { m with graphicsArray := some a }), true)
          else (sa, true)) = (sb, b) →
          Frame (fun m : TextureObject => (m.lastModifiedCount, m.lastModifiedAddress)) sa sb := by
        intro sb b hb
        simp only [TextureMemory.call] at hb
        repeat' (first | split_ifs at hb | dsimp only at hb)
        all_goals
          cases hb
          repeat (first
            | with_reducible exact Frame.refl _ _
            | with_reducible apply Frame.emit_right
            | (with_reducible apply Frame.modify_keep
               rotate_left
               (intro _; rfl)))
      split at h
      · cases h
      · rename_i sb heq2
        split at h
        · cases h
        · cases h
        · rename_i s4 hss
          simp only [Option.some.injEq, Prod.mk.injEq] at h
          obtain ⟨rfl, -, -⟩ := h
          exact fin sb _ (hfa.trans (hmp _ _ heq2)) (Or.inr (Or.inl c2)) hss
  · have c1' : hasFlag mapping K.MAP_HOST = false := by simpa using c1
    have c2' : hasAll mapping K.MAP_DEVICE_ARRAY = false := by simpa using c2
    unfold mapDevice at h
    dsimp only at h
    have hal := (alloc_device_frame K E sm mapping c1' c2').weaken
      (fun m : TextureObject => (m.lastModifiedCount, m.lastModifiedAddress))
    split at h
    · cases h
    · rename_i sa fl heq
      have hfa : Frame (fun m : TextureObject =>
          (m.lastModifiedCount, m.lastModifiedAddress)) sm sa := by
        split_ifs at heq
        · rcases ha : alloc K E sm mapping with ⟨sa', _ | _⟩
          · rw [ha] at heq; cases heq
          · rw [ha] at heq hal
            cases heq
            exact hal
        · cases heq
          exact Frame.refl _ _
      split at h
      · cases h
      · cases h
      · rename_i s4 hss
        simp only [Option.some.injEq, Prod.mk.injEq] at h
        obtain ⟨rfl, -, -⟩ := h
        exact fin sa _ hfa (Or.inr (Or.inr c3)) hss
  · cases h

/-! ### Repeated maps -/

/-- Every copy primitive is called inside `setup` or `sync`. -/
theorem copies_eq_filter (s : TextureMemory) :
    copies s = (setupSyncCalls s).filter Event.isCopy := by
  unfold copies setupSyncCalls
  rw [List.filter_filter]
  congr 1
  funext e
  cases e with
  | call site ok => cases site <;> rfl
  | load _ _ _ => rfl
  | subload _ _ _ => rfl
  | computePitch => rfl

@[simp] theorem setupSyncCalls_setObject (s : TextureMemory) (m : TextureObject) :
    setupSyncCalls (setObject s m) = setupSyncCalls s := rfl

@[simp] theorem setupSyncCalls_modify (K : Header) (s : TextureMemory)
    (u : TextureObject → TextureObject) : setupSyncCalls (modify K s u) = setupSyncCalls s := rfl

theorem setupSyncCalls_emit (s : TextureMemory) (e : Event)
    (he : Event.isSetupOrSync e = false) : setupSyncCalls (emit s e) = setupSyncCalls s := by
  simp [setupSyncCalls, TextureMemory.emit, he]

@[simp] theorem setupSyncCalls_object (K : Header) (s : TextureMemory) :
    setupSyncCalls (object K s).1 = setupSyncCalls s := by
  unfold TextureMemory.object
  repeat' (first | split_ifs | split | dsimp only)
  all_goals rfl

/-- The primitives `alloc` calls are not those of `setup` and `sync`. -/
@[simp] theorem setupSyncCalls_alloc (K : Header) (E : Env) (s : TextureMemory)
    (mapping : Nat) : setupSyncCalls (alloc K E s mapping).1 = setupSyncCalls s := by
  unfold alloc
  rcases ho : object K s with ⟨s1, _ | m⟩
  · have := setupSyncCalls_object K s
    rw [ho] at this
    exact this
  · have h1 := setupSyncCalls_object K s
    rw [ho] at h1
    simp only at h1 ⊢
    rw [← h1]
    simp only [findTextureObject, TextureMemory.call, TextureMemory.callVoid]
    repeat' (first | split_ifs | dsimp only)
    all_goals simp [setupSyncCalls_emit, Event.isSetupOrSync, Site.isSetupOrSync]

@[simp] theorem setupSyncCalls_mapFinish (K : Header) (s : TextureMemory)
    (mapping offset ptr : Nat) (firstLoad : Bool) :
    setupSyncCalls (mapFinish K s mapping offset ptr firstLoad).1 = setupSyncCalls s := by
  unfold mapFinish
  dsimp only
  repeat' (first | split_ifs | dsimp only)
  all_goals simp [setupSyncCalls_emit, Event.isSetupOrSync]

/-- Without a changed image and with the flag of the representation clear, the
steps SETUP STREAM and SYNC STREAM do nothing. -/
theorem mapSetupSync_idle (unmap : TextureMemory → Option TextureMemory) (K : Header)
    (E : Env) (s : TextureMemory) (mapping flag : Nat)
    (hf : hasFlag (memory K s).syncOp flag = false) :
    mapSetupSync unmap K E s mapping false flag = some (s, true) := by
  unfold mapSetupSync
  simp [hf]

/-- The step MAP VBO of the array branch of `map` calls no primitive of `setup`
or `sync` and leaves the sync flags alone. -/
theorem mapVBO_idle (K : Header) (E : Env) (sa sb : TextureMemory) (b : Bool)
    (h : (if ((memory K sa).graphicsArray == none) = true then
            match call E sa .mapMapResources with
            | (s, none) => (s, false)
            | (s, some _) =>
              match call E s .mapGetMappedArray with
              | (s, none) => (s, false)
              | (s, some a) => (modify K s (fun m => { m with graphicsArray := some a }), true)
          else (sa, true)) = (sb, b)) :
    Frame (fun m : TextureObject => m.syncOp) sa sb ∧ setupSyncCalls sb = setupSyncCalls sa := by
  simp only [TextureMemory.call] at h
  repeat' (first | split_ifs at h | dsimp only at h)
  all_goals
    cases h
    refine ⟨?_, by simp [setupSyncCalls_emit, Event.isSetupOrSync, Site.isSetupOrSync]⟩
    repeat (first
      | with_reducible exact Frame.refl _ _
      | with_reducible apply Frame.emit_right
      | (with_reducible apply Frame.modify_keep
         rotate_left
         (intro _; rfl)))

theorem mapHost_idle (unmap : TextureMemory → Option TextureMemory) (K : Header)
    (E : Env) (s : TextureMemory) (m : TextureObject) (mapping : Nat)
    (hm : s._object = some m) (h1 : hasFlag mapping K.MAP_HOST = true)
    (hf : hasFlag (memory K s).syncOp K.SYNC_HOST = false) :
    ∃ s4 r, mapHost unmap K E s mapping false = some (s4, r) ∧
      setupSyncCalls s4 = setupSyncCalls s := by
  unfold mapHost
  dsimp only
  by_cases hp : ((memory K s).hostPtr == none) = true
  · simp only [hp, if_true]
    have hal := (alloc_host_frame K E s mapping h1).weaken (fun m : TextureObject => m.syncOp)
    have hc := setupSyncCalls_alloc K E s mapping
    rcases ha : alloc K E s mapping with ⟨sa, _ | _⟩
    · rw [ha] at hc
      exact ⟨_, _, rfl, hc⟩
    · rw [ha] at hal hc
      dsimp only
      have hfa : hasFlag (memory K sa).syncOp K.SYNC_HOST = false := by
        have e := hal.memory_eq K m hm
        simp only at e
        rw [e, ← memory_of_object K s m hm]
        exact hf
      rw [mapSetupSync_idle unmap K E sa mapping _ hfa]
      exact ⟨_, _, rfl, hc⟩
  · simp only [hp, Bool.false_eq_true, if_false]
    rw [mapSetupSync_idle unmap K E s mapping _ hf]
    exact ⟨_, _, rfl, rfl⟩

theorem mapDevice_idle (unmap : TextureMemory → Option TextureMemory) (K : Header)
    (E : Env) (s : TextureMemory) (m : TextureObject) (mapping : Nat)
    (hm : s._object = some m) (h1 : hasFlag mapping K.MAP_HOST = false)
    (h2 : hasAll mapping K.MAP_DEVICE_ARRAY = false)
    (hf : hasFlag (memory K s).syncOp K.SYNC_DEVICE = false) :
    ∃ s4 r, mapDevice unmap K E s mapping false = some (s4, r) ∧
      setupSyncCalls s4 = setupSyncCalls s := by
  unfold mapDevice
  dsimp only
  by_cases hp : ((memory K s).devPtr == none) = true
  · simp only [hp, if_true]
    have hal := (alloc_device_frame K E s mapping h1 h2).weaken
      (fun m : TextureObject => m.syncOp)
    have hc := setupSyncCalls_alloc K E s mapping
    rcases ha : alloc K E s mapping with ⟨sa, _ | _⟩
    · rw [ha] at hc
      exact ⟨_, _, rfl, hc⟩
    · rw [ha] at hal hc
      dsimp only
      have hfa : hasFlag (memory K sa).syncOp K.SYNC_DEVICE = false := by
        have e := hal.memory_eq K m hm
        simp only at e
        rw [e, ← memory_of_object K s m hm]
        exact hf
      rw [mapSetupSync_idle unmap K E sa mapping _ hfa]
      exact ⟨_, _, rfl, hc⟩
  · simp only [hp, Bool.false_eq_true, if_false]
    rw [mapSetupSync_idle unmap K E s mapping _ hf]
    exact ⟨_, _, rfl, rfl⟩

theorem mapArray_idle (unmap : TextureMemory → Option TextureMemory) (K : Header)
    (E : Env) (s : TextureMemory) (m : TextureObject) (mapping : Nat)
    (hm : s._object = some m) (h1 : hasFlag mapping K.MAP_HOST = false)
    (h2 : hasAll mapping K.MAP_DEVICE_ARRAY = true)
    (hf : hasFlag (memory K s).syncOp K.SYNC_ARRAY = false) :
    ∃ s4 r, mapArray unmap K E s mapping false = some (s4, r) ∧
      setupSyncCalls s4 = setupSyncCalls s := by
  -- the steps after the allocation
  have rest : ∀ (sa : TextureMemory) (fl : Bool),
      Frame (fun m : TextureObject => m.syncOp) s sa → setupSyncCalls sa = setupSyncCalls s →
      ∃ s4 r, (match (if ((memory K sa).graphicsArray == none) = true then
            match call E sa .mapMapResources with
            | (s, none) => (s, false)
            | (s, some _) =>
              match call E s .mapGetMappedArray with
              | (s, none) => (s, false)
              | (s, some a) => (modify K s (fun m => { m with graphicsArray := some a }), true)
          else (sa, true)) with
        | (s, false) => some (s, none)
        | (s, true) =>
          match mapSetupSync unmap K E s mapping false K.SYNC_ARRAY with
          | none => none
          | some (s, false) => some (s, none)
          | some (s, true) => some (s, some ((memory K s).graphicsArray, fl))) = some (s4, r) ∧
        setupSyncCalls s4 = setupSyncCalls s := by
    intro sa fl hfa hca
    split
    · rename_i sb heq
      exact ⟨_, _, rfl, (mapVBO_idle K E sa sb false heq).2.trans hca⟩
    · rename_i sb heq
      obtain ⟨g1, g2⟩ := mapVBO_idle K E sa sb true heq
      have hfb : hasFlag (memory K sb).syncOp K.SYNC_ARRAY = false := by
        have e := (hfa.trans g1).memory_eq K m hm
        simp only at e
        rw [e, ← memory_of_object K s m hm]
        exact hf
      rw [mapSetupSync_idle unmap K E sb mapping _ hfb]
      exact ⟨_, _, rfl, g2.trans hca⟩
  unfold mapArray
  dsimp only
  by_cases hp : ((memory K s).graphicsResource == none) = true
  · simp only [hp, if_true]
    have hal := (alloc_array_frame K E s mapping h1 h2).weaken
      (fun m : TextureObject => m.syncOp)
    have hc := setupSyncCalls_alloc K E s mapping
    rcases ha : alloc K E s mapping with ⟨sa, _ | _⟩
    · rw [ha] at hc
      exact ⟨_, _, rfl, hc⟩
    · rw [ha] at hal hc
      exact rest sa true hal hc
  · simp only [hp]
    exact rest s false (Frame.refl _ _) rfl

end osgCuda.TextureMemory

namespace osgCuda.TextureMemory

/-- With the image seen and the flag of the mapped representation clear, the
part of `map` after RECEIVE HANDLE calls no primitive of `setup` or `sync`. -/
theorem mapMain_idle (unmap : TextureMemory → Option TextureMemory) (K : Header)
    (E : Env) (s s' : TextureMemory) (m : TextureObject) (mapping offset : Nat) (r : Option Nat)
    (hu : hasFlag s.usage K.GL_TARGET = false) (hn : needsSetup K E s = false)
    (hm : s._object = some m)
    (hX : K.isHostMapping mapping ∨ K.isDeviceMapping mapping ∨ K.isArrayMapping mapping)
    (hH : K.isHostMapping mapping → hasFlag (memory K s).syncOp K.SYNC_HOST = false)
    (hD : K.isDeviceMapping mapping → hasFlag (memory K s).syncOp K.SYNC_DEVICE = false)
    (hA : K.isArrayMapping mapping → hasFlag (memory K s).syncOp K.SYNC_ARRAY = false)
    (h : mapMain unmap K E s mapping offset = some (s', r)) :
    setupSyncCalls s' = setupSyncCalls s := by
  unfold mapMain at h
  rw [mapRenderTarget_skip K E s (Or.inl hu)] at h
  dsimp only at h
  have hd : ∃ s4 r4, mapData unmap K E s mapping = some (s4, r4) ∧
      setupSyncCalls s4 = setupSyncCalls s := by
    unfold mapData
    dsimp only
    rw [needsSetup_modify K E s (fun m => { m with mapping := mapping }) (fun _ => rfl)
      (fun _ => rfl), hn]
    have hm' : (modify K s (fun m => { m with mapping := mapping }))._object =
        some { m with mapping := mapping } := by
      simp [modify, setObject, memory_of_object K s m hm]
    rcases hX with hx | hx | hx
    · have hf := hH hx
      obtain ⟨h1, -⟩ := hx
      simp only [h1, if_true]
      exact mapHost_idle unmap K E _ _ mapping hm' h1 hf
    · have hf := hD hx
      obtain ⟨h1, h2, h3, -⟩ := hx
      simp only [h1, h2, h3, if_true, Bool.false_eq_true, if_false]
      exact mapDevice_idle unmap K E _ _ mapping hm' h1 h2 hf
    · have hf := hA hx
      obtain ⟨h1, h2, -⟩ := hx
      simp only [h1, h2, if_true, Bool.false_eq_true, if_false]
      exact mapArray_idle unmap K E _ _ mapping hm' h1 h2 hf
  obtain ⟨s4, r4, e4, c4⟩ := hd
  rw [e4] at h
  rcases r4 with _ | ⟨_ | ptr, fl⟩
  · cases h
    exact c4
  · cases h
    exact c4
  · simp only [Option.some.injEq] at h
    have e := setupSyncCalls_mapFinish K s4 mapping offset ptr fl
    rw [h] at e
    exact e.trans c4

/-- After a successful run of the part of `map` after RECEIVE HANDLE the sync
flag of the mapped representation is clear. -/
theorem mapMain_own_flag (unmap : TextureMemory → Option TextureMemory) (K : Header)
    (E : Env) (s s' : TextureMemory) (mapping offset p : Nat) (hK : K.SyncBits)
    (h : mapMain unmap K E s mapping offset = some (s', some p)) :
    (K.isHostMapping mapping → hasFlag (memory K s').syncOp K.SYNC_HOST = false) ∧
    (K.isDeviceMapping mapping → hasFlag (memory K s').syncOp K.SYNC_DEVICE = false) ∧
    (K.isArrayMapping mapping → hasFlag (memory K s').syncOp K.SYNC_ARRAY = false) := by
  obtain ⟨d, hb, a, hD, hH, hA, hdh, hda, hha⟩ := hK
  obtain ⟨s2, s4, ptr, firstLoad, -, hdata, hfin⟩ :=
    mapMain_success unmap K E s s' mapping offset p h
  have hs' : s' = (mapFinish K s4 mapping offset ptr firstLoad).1 := by rw [hfin]
  subst hs'
  rw [mapFinish_syncOp]
  unfold mapData at hdata
  dsimp only at hdata
  refine ⟨?_, ?_, ?_⟩
  · rintro ⟨h1, h2, h3, h4, h5⟩
    have ht : syncTarget K mapping = some (2 ^ hb) := by
      simp [syncTarget, h1, h2, h3, hH]
    simp only [h1, if_true] at hdata
    have hc := mapHost_flag _ K E _ _ mapping _ hb _ hH ht hdata
    simp only [h4, h5, hD, hH, hA, Bool.false_eq_true, if_false]
    split_ifs
    · rw [hasFlag_or_of_ne _ _ _ hdh, hasFlag_or_of_ne _ _ _ (Ne.symm hha)]; exact hc
    · exact hc
  · rintro ⟨h1, h2, h3, h4, h5⟩
    have ht : syncTarget K mapping = some (2 ^ d) := by
      simp [syncTarget, h1, h2, h3, hD]
    simp only [h1, h2, h3, if_true, Bool.false_eq_true, if_false] at hdata
    have hc := mapDevice_flag _ K E _ _ mapping _ d _ hD ht hdata
    simp only [h4, hD, hH, hA, Bool.false_eq_true, if_false]
    split_ifs with c1 c2
    · rw [hasFlag_or_of_ne _ _ _ (Ne.symm hdh), hasFlag_or_of_ne _ _ _ (Ne.symm hda)]; exact hc
    · exact absurd (h5 c2) c1
    · exact hc
  · rintro ⟨h1, h2, h3⟩
    have ht : syncTarget K mapping = some (2 ^ a) := by
      simp [syncTarget, h2, hA]
    simp only [h1, h2, if_true, Bool.false_eq_true, if_false] at hdata
    have hc := mapArray_flag _ K E _ _ mapping _ a _ hA ht hdata
    simp only [hD, hH, hA]
    split_ifs with c1 c2 c3
    · rw [hasFlag_or_of_ne _ _ _ hha, hasFlag_or_of_ne _ _ _ hda]; exact hc
    · exact absurd c2 (by simpa using (h3 (by simpa using c1)).1)
    · exact absurd c3 (by simpa using (h3 (by simpa using c1)).2)
    · exact hc

/-- The state in which a successful `map` of a representation returns: the
descriptor is configured and has its object, the usage is that before the
call, and the image is recorded as seen. -/
theorem map_success_state (K : Header) (E : Env) (fuel : Nat) (s s' : TextureMemory)
    (mapping offset p : Nat)
    (hA : K.isArrayMapping mapping → hasFlag K.MAP_DEVICE_ARRAY K.MAP_HOST = false)
    (hX : K.isHostMapping mapping ∨ K.isDeviceMapping mapping ∨ K.isArrayMapping mapping)
    (h : map K E fuel s mapping offset = some (s', some p)) :
    E.texrefValid = true ∧ mapping ≠ K.UNMAP ∧
    s'.isClear = false ∧ (∃ m', s'._object = some m') ∧ s'.usage = s.usage ∧
    needsSetup K E s' = false := by
  unfold map at h
  have hne : mapping ≠ K.UNMAP := by
    intro e
    unfold mapBody at h
    simp only [e, beq_self_eq_true, if_true] at h
    repeat' (first | split at h | split_ifs at h)
    all_goals simp at h
  obtain ⟨s0, s1, m1, hv, hi, ho, hmain⟩ :=
    mapBody_success_main _ K E s s' mapping offset p h
  obtain ⟨c1, o1, -, u1, -⟩ := enter K E s s0 s1 m1 hi ho
  obtain ⟨f1, f2, f3⟩ := mapMain_frame _ K E s1 s' mapping offset (some p) hmain
  have hf : Frame (fun _ : TextureObject => ()) s1 s' := by
    rcases hX with hx | hx | hx
    · exact (f2 hx.1 hx.2.1).weaken (fun _ => ())
    · exact (f3 hx.1 hx.2.1).weaken (fun _ => ())
    · exact (f1 hx.1 hx.2.1 (unmap_frame K E (hA hx) fuel)).weaken (fun _ => ())
  obtain ⟨m', hm', -, -, hc'⟩ := hf.facts K m1 c1 o1
  obtain ⟨s2, s4, ptr, firstLoad, -, hdata, hfin⟩ :=
    mapMain_success _ K E s1 s' mapping offset p hmain
  obtain ⟨n4, m4, hm4⟩ := mapData_version _ K E s2 s4 mapping ptr firstLoad hdata
  have hff := mapFinish_frame K s4 mapping offset ptr firstLoad
  rw [hfin] at hff
  refine ⟨hv, hne, hc', ⟨m', hm'⟩, ?_, ?_⟩
  · have := congrArg TextureMemory.usage hf.1
    simp only [descriptor] at this
    exact this.trans u1
  · rw [hff.needsSetup_eq K E m4 hm4
      (fun c => (c.lastModifiedCount, c.lastModifiedAddress)) (fun _ => rfl)]
    exact n4

/-- One map with read intent of a configured memory that is not a render
target and whose image is recorded as seen: `map` returns, the memory is as
described again, and no sync flag is set that was clear. -/
theorem map_quiet_step (K : Header) (E : Env) (fuel : Nat) (s : TextureMemory)
    (mapping offset : Nat) (hK : K.SyncBits) (hv : E.texrefValid = true)
    (hc : s.isClear = false) (hm : ∃ m, s._object = some m)
    (hu : hasFlag s.usage K.GL_TARGET = false) (hn : needsSetup K E s = false)
    (hR : K.isReadIntent mapping) (hne : mapping ≠ K.UNMAP) :
    ∃ s' r, map K E fuel s mapping offset = some (s', r) ∧
      mapMain (unmap K E fuel) K E s mapping offset = some (s', r) ∧
      s'.isClear = false ∧ (∃ m', s'._object = some m') ∧ s'.usage = s.usage ∧
      needsSetup K E s' = false ∧
      ∀ i, (memory K s').syncOp.testBit i = true → (memory K s).syncOp.testBit i = true := by
  obtain ⟨m, hm⟩ := hm
  unfold map
  rw [mapBody_configured _ K E s m mapping offset hv hc hne hm]
  obtain ⟨s', r, e, f, o, d⟩ :=
    mapMain_quiet (unmap K E fuel) K E s mapping offset hK hR (Or.inl hu) hn
  obtain ⟨-, -, -, -, hc'⟩ := f.facts K m hc hm
  refine ⟨s', r, e, e, hc', o, ?_, ?_, d⟩
  · have := congrArg TextureMemory.usage f.1
    simp only [descriptor] at this
    exact this
  · rw [f.needsSetup_eq K E m hm (fun c => c) (fun _ => rfl)]
    exact hn

/-- A sequence of maps with read intent of a configured memory that is not a
render target and whose image is recorded as seen: every `map` returns, and no
sync flag is set that was clear. -/
theorem mapSeq_quiet (K : Header) (E : Env) (fuel : Nat) (hK : K.SyncBits)
    (hv : E.texrefValid = true) :
    ∀ (ms : List (Nat × Nat)) (s : TextureMemory),
      s.isClear = false → (∃ m, s._object = some m) →
      hasFlag s.usage K.GL_TARGET = false → needsSetup K E s = false →
      (∀ x ∈ ms, K.isReadIntent x.1 ∧ x.1 ≠ K.UNMAP) →
      ∃ s', mapSeq K E fuel s ms = some s' ∧
        s'.isClear = false ∧ (∃ m', s'._object = some m') ∧ s'.usage = s.usage ∧
        needsSetup K E s' = false ∧
        ∀ i, (memory K s').syncOp.testBit i = true → (memory K s).syncOp.testBit i = true := by
  intro ms
  induction ms with
  | nil =>
    intro s hc hm hu hn _
    exact ⟨s, rfl, hc, hm, rfl, hn, fun _ h => h⟩
  | cons x rest ih =>
    intro s hc hm hu hn hms
    obtain ⟨hR, hne⟩ := hms x (List.mem_cons_self _ _)
    obtain ⟨s1, r, e, -, c1, m1, u1, n1, d1⟩ :=
      map_quiet_step K E fuel s x.1 x.2 hK hv hc hm hu hn hR hne
    obtain ⟨s', e', c', m', u', n', d'⟩ := ih s1 c1 m1 (by rw [u1]; exact hu) n1
      (fun y hy => hms y (List.mem_cons_of_mem _ hy))
    refine ⟨s', ?_, c', m', u'.trans u1, n', fun i h => d1 i (d' i h)⟩
    obtain ⟨x1, x2⟩ := x
    simp only [mapSeq]
    rw [e]
    exact e'

/-- C5: in a memory that is not a render target, after a successful `map` of a
representation with read intent and any sequence of further maps with read
intent (all of which return), a `map` of the same representation returns, calls
no primitive inside `setup` or `sync`, so no copy primitive, and leaves the
sync flag of the representation clear. -/
theorem repeated_map_no_copy (K : Header) (E : Env) (fuel : Nat) (s0 s1 : TextureMemory)
    (X o1 p1 o2 : Nat) (ms : List (Nat × Nat))
    (hK : K.SyncBits) (hA : hasFlag K.MAP_DEVICE_ARRAY K.MAP_HOST = false)
    (hu : hasFlag s0.usage K.GL_TARGET = false)
    (hX : K.isHostMapping X ∨ K.isDeviceMapping X ∨ K.isArrayMapping X)
    (hXr : K.isReadIntent X)
    (hms : ∀ x ∈ ms, K.isReadIntent x.1 ∧ x.1 ≠ K.UNMAP)
    (h1 : map K E fuel s0 X o1 = some (s1, some p1)) :
    ∃ s2, mapSeq K E fuel s1 ms = some s2 ∧
      ∃ s3 r, map K E fuel s2 X o2 = some (s3, r) ∧
        setupSyncCalls s3 = setupSyncCalls s2 ∧ copies s3 = copies s2 ∧
        (K.isHostMapping X → hasFlag (memory K s3).syncOp K.SYNC_HOST = false) ∧
        (K.isDeviceMapping X → hasFlag (memory K s3).syncOp K.SYNC_DEVICE = false) ∧
        (K.isArrayMapping X → hasFlag (memory K s3).syncOp K.SYNC_ARRAY = false) := by
  obtain ⟨hv, hne, c1, m1, u1, n1⟩ := map_success_state K E fuel s0 s1 X o1 p1 (fun _ => hA) hX h1
  obtain ⟨t0, t1, k1, -, -, -, hmain⟩ := mapBody_success_main _ K E s0 s1 X o1 p1 h1
  obtain ⟨w1, w2, w3⟩ := mapMain_own_flag _ K E t1 s1 X o1 p1 hK hmain
  have hu1 : hasFlag s1.usage K.GL_TARGET = false := by rw [u1]; exact hu
  obtain ⟨s2, e2, c2, ⟨m2, hm2⟩, u2, n2, d2⟩ :=
    mapSeq_quiet K E fuel hK hv ms s1 c1 m1 hu1 n1 hms
  have hu2 : hasFlag s2.usage K.GL_TARGET = false := by rw [u2]; exact hu1
  obtain ⟨s3, r, e3, g3, -, -, -, -, d3⟩ :=
    map_quiet_step K E fuel s2 X o2 hK hv c2 ⟨m2, hm2⟩ hu2 n2 hXr hne
  obtain ⟨d, hb, a, hD, hH, hAr, -⟩ := hK
  -- a flag that is clear after the first map is clear from then on
  have down : ∀ (k : Nat) (t : TextureMemory),
      (∀ i, (memory K t).syncOp.testBit i = true → (memory K s1).syncOp.testBit i = true) →
      hasFlag (memory K s1).syncOp (2 ^ k) = false →
      hasFlag (memory K t).syncOp (2 ^ k) = false := by
    intro k t ht h
    rw [hasFlag_two_pow] at h ⊢
    cases hb' : (memory K t).syncOp.testBit k
    · rfl
    · rw [ht k hb'] at h
      cases h
  have d23 : ∀ i, (memory K s3).syncOp.testBit i = true →
      (memory K s1).syncOp.testBit i = true := fun i h => d2 i (d3 i h)
  have idle := mapMain_idle _ K E s2 s3 m2 X o2 r hu2 n2 hm2 hX
    (fun hx => by rw [hH]; exact down hb s2 d2 (by rw [← hH]; exact w1 hx))
    (fun hx => by rw [hD]; exact down d s2 d2 (by rw [← hD]; exact w2 hx))
    (fun hx => by rw [hAr]; exact down a s2 d2 (by rw [← hAr]; exact w3 hx)) g3
  refine ⟨s2, e2, s3, r, e3, idle, ?_, ?_, ?_, ?_⟩
  · rw [copies_eq_filter, copies_eq_filter, idle]
  · intro hx; rw [hH]; exact down hb s3 d23 (by rw [← hH]; exact w1 hx)
  · intro hx; rw [hD]; exact down d s3 d23 (by rw [← hD]; exact w2 hx)
  · intro hx; rw [hAr]; exact down a s3 d23 (by rw [← hAr]; exact w3 hx)

/-- An instance of C5, amended: the memory `hostWritten` is mapped with
`MAP_HOST_SOURCE`, then with `MAP_DEVICE_SOURCE` (which copies the host memory
to the device memory), then with `MAP_HOST_SOURCE` again: the last `map` calls
no copy primitive and leaves the host flag clear. -/
theorem repeated_map_no_copy_witness :
    ∃ s1 p1, map sampleHeader sampleEnv 0 hostWritten 0x01 0 = some (s1, some p1) ∧
      ∃ s2, mapSeq sampleHeader sampleEnv 0 s1 [(0x100, 0)] = some s2 ∧
        ∃ s3 r, map sampleHeader sampleEnv 0 s2 0x01 0 = some (s3, r) ∧
          copies s3 = copies s2 ∧
          hasFlag (memory sampleHeader s3).syncOp sampleHeader.SYNC_HOST = false :=
  ⟨_, _, rfl,
    (repeated_map_no_copy sampleHeader sampleEnv 0 hostWritten _ 0x01 0 _ 0 [(0x100, 0)]
      ⟨0, 4, 8, rfl, rfl, rfl, by decide, by decide, by decide⟩
      (by decide) (by decide) (Or.inl (by decide)) (by decide) (by decide)
      rfl).imp fun _ hx => ⟨hx.1, hx.2.imp fun _ hy => hy.imp fun _ hz =>
        ⟨hz.1, hz.2.2.1, hz.2.2.2.1 (by decide)⟩⟩⟩

/-- C5 fails for a render target: two `map( MAP_HOST_SOURCE )` in a row of a
fresh memory with the usage `GL_TARGET` both succeed, and the second one copies
the array to the host memory again. -/
theorem repeated_map_render_target :
    sampleHeader.isReadIntent 0x01 ∧
    ∃ s1 s2, map sampleHeader sampleEnv 0 renderTarget 0x01 0 = some (s1, some 1001) ∧
      map sampleHeader sampleEnv 0 s1 0x01 0 = some (s2, some 1001) ∧
      copies s1 = [Event.call Site.syncHost2DFromArray true] ∧
      copies s2 = [Event.call Site.syncHost2DFromArray true,
        Event.call Site.syncHost2DFromArray true] :=
  ⟨by decide, _, _, rfl, rfl, by decide, by decide⟩

end osgCuda.TextureMemory

/-! ### Round trips -/

namespace osgCuda.TextureMemory

/-- The host branch of `map` when the host flag is set, the device flag is
clear and no setup runs: the host memory is synchronised from the device
memory, into the memory the branch has allocated or found. -/
theorem mapHost_from_device (unmap : TextureMemory → Option TextureMemory) (K : Header)
    (E : Env) (s s4 : TextureMemory) (m : TextureObject) (mapping : Nat)
    (r : Option Nat × Bool)
    (hmap : K.isHostMapping mapping) (hm : s._object = some m) (hc : s.isClear = false)
    (hH : hasFlag m.syncOp K.SYNC_HOST = true) (hD : hasFlag m.syncOp K.SYNC_DEVICE = false)
    (h : mapHost unmap K E s mapping false = some (s4, some r)) :
    descriptor s4 = descriptor s ∧
    ∃ dst : Bytes, (memory K s4).hostMem =
      (if getNumDimensions s = 3 then
        memcpy3D dst (rowBytes s) (getDimension s 1) m.devMem m.pitch (getDimension s 1)
          (rowBytes s) (getDimension s 1) (getDimension s 2)
      else if getNumDimensions s = 2 then
        memcpy2D dst (rowBytes s) m.devMem m.pitch (rowBytes s) (getDimension s 1)
      else memcpyFlat dst m.devMem (getByteSize s)) := by
  unfold mapHost at h
  dsimp only at h
  split at h
  · cases h
  · rename_i sa fl heq
    have hfa : Frame (fun m : TextureObject =>
        { m with hostPtr := none, hostMem := fun _ => 0 }) s sa := by
      have hal := alloc_host_frame K E s mapping hmap.1
      split_ifs at heq
      · rcases ha : alloc K E s mapping with ⟨sa', _ | _⟩
        · rw [ha] at heq; cases heq
        · rw [ha] at heq hal
          cases heq
          exact hal
      · cases heq
        exact Frame.refl _ _
    obtain ⟨ma, hma, hmem, hn, hca⟩ := hfa.facts K m hc hm
    have e1 : ma.syncOp = m.syncOp := by
      have := congrArg TextureObject.syncOp hn
      exact this
    have e2 : ma.devMem = m.devMem := by
      have := congrArg TextureObject.devMem hn
      exact this
    have e3 : ma.pitch = m.pitch := by
      have := congrArg TextureObject.pitch hn
      exact this
    split at h
    · cases h
    · cases h
    · rename_i s4' hss
      simp only [Option.some.injEq, Prod.mk.injEq] at h
      obtain ⟨rfl, -⟩ := h
      unfold mapSetupSync at hss
      have hHa : hasFlag (memory K sa).syncOp K.SYNC_HOST = true := by
        rw [hmem, e1]; exact hH
      simp only [Bool.false_eq_true, if_false, hHa, if_true, Option.some.injEq] at hss
      obtain ⟨k1, k2⟩ := sync_host_from_device K E sa s4' mapping ma hmap hma hca
        (by rw [e1]; exact hH) (by rw [e1]; exact hD) hss
      refine ⟨k1.trans hfa.1, ma.hostMem, ?_⟩
      rw [k2, e2, e3]
      have d1 : getNumDimensions sa = getNumDimensions s := by
        have := congrArg getNumDimensions hfa.1
        exact this
      have d2 : rowBytes sa = rowBytes s := by
        have := congrArg rowBytes hfa.1
        exact this
      have d3 : ∀ i, getDimension sa i = getDimension s i := by
        intro i
        have := congrArg (fun t => getDimension t i) hfa.1
        exact this
      have d4 : getByteSize sa = getByteSize s := by
        have := congrArg getByteSize hfa.1
        exact this
      rw [d1, d2, d3, d3, d4]

/-- A `map` that returns a pointer was not called with the mapping `UNMAP`. -/
theorem map_success_ne_unmap (K : Header) (E : Env) (fuel : Nat) (s s' : TextureMemory)
    (mapping offset p : Nat) (h : map K E fuel s mapping offset = some (s', some p)) :
    mapping ≠ K.UNMAP := by
  intro e
  unfold map mapBody at h
  simp only [e, beq_self_eq_true, if_true] at h
  repeat' (first | split at h | split_ifs at h)
  all_goals simp at h

/-- C3: after a successful `map` of the device memory with write intent, and
whatever bytes the caller has left in the device memory through the pointer,
a successful `map` of the host memory leaves, in each of the `getByteSize()`
bytes of the dense host memory, the byte of the device memory at the
corresponding offset: rows are `_pitch` bytes apart in the device memory for
rank 2 and 3. -/
theorem device_host_round_trip (K : Header) (E : Env) (fuel : Nat)
    (s0 s1 s2 : TextureMemory) (mW mR o1 o2 p1 p2 : Nat) (written : Bytes)
    (hK : K.SyncBits) (hW : K.isDeviceTarget mW) (hR : K.isHostMapping mR)
    (hs : Sized s1)
    (hrank : getNumDimensions s1 = 1 ∨ getNumDimensions s1 = 2 ∨ getNumDimensions s1 = 3)
    (h1 : map K E fuel s0 mW o1 = some (s1, some p1))
    (h2 : map K E fuel (modify K s1 (fun m => { m with devMem := written })) mR o2 =
      some (s2, some p2)) :
    getByteSize s2 = getByteSize s1 ∧
    ∀ k, k < getByteSize s2 →
      (memory K s2).hostMem k = written (deviceOffset s1 (memory K s1).pitch k) := by
  obtain ⟨hv, -, c1, ⟨m1, hm1⟩, -, n1⟩ := map_success_state K E fuel s0 s1 mW o1 p1
    (fun hx => absurd hx.2.1 (by rw [hW.1.2.1]; simp)) (Or.inr (Or.inl hW.1)) h1
  obtain ⟨t0, t1, k1, -, -, -, hmain⟩ := mapBody_success_main _ K E s0 s1 mW o1 p1 h1
  obtain ⟨-, w2, -⟩ := mapMain_own_flag _ K E t1 s1 mW o1 p1 hK hmain
  have hD := w2 hW.1
  -- the flags the write intent has set
  obtain ⟨t2, t4, ptr, fl, -, -, hfin⟩ := mapMain_success _ K E t1 s1 mW o1 p1 hmain
  have hso := mapFinish_syncOp K t4 mW o1 ptr fl
  rw [hfin] at hso
  simp only [hW.1.2.2.2.1, hW.2, Bool.false_eq_true, if_false, if_true] at hso
  obtain ⟨d, hb, a, hD', hH', hA', -⟩ := hK
  have hAr : hasFlag (memory K s1).syncOp K.SYNC_ARRAY = true := by
    rw [hso]
    exact hasFlag_or_of_hasFlag _ _ _ (hasFlag_or_self _ _ (by rw [hA']; positivity))
  have hH : hasFlag (memory K s1).syncOp K.SYNC_HOST = true := by
    rw [hso]
    exact hasFlag_or_self _ _ (by rw [hH']; positivity)
  rw [memory_of_object K s1 m1 hm1] at hD hAr hH ⊢
  -- the second map
  have hne2 := map_success_ne_unmap K E fuel _ s2 mR o2 p2 h2
  obtain ⟨sw, hsw⟩ : ∃ sw, sw = modify K s1 (fun m => { m with devMem := written }) :=
    ⟨_, rfl⟩
  rw [← hsw] at h2
  have hmw : sw._object = some { m1 with devMem := written } := by
    rw [hsw]
    simp [modify, setObject, memory_of_object K s1 m1 hm1]
  have hcw : sw.isClear = false := by rw [hsw]; exact c1
  have hnw : needsSetup K E sw = false := by
    rw [hsw, needsSetup_modify K E s1 (fun m => { m with devMem := written })
      (fun _ => rfl) (fun _ => rfl)]
    exact n1
  have hdw : descriptor sw = descriptor s1 := by rw [hsw]; rfl
  unfold map at h2
  rw [mapBody_configured _ K E sw _ mR o2 hv hcw hne2 hmw] at h2
  obtain ⟨v2, v4, ptr2, fl2, hrt, hdata, hfin2⟩ := mapMain_success _ K E sw s2 mR o2 p2 h2
  rw [mapRenderTarget_skip K E sw (Or.inr (by
    rw [memory_of_object K _ _ hmw]; exact hAr))] at hrt
  cases hrt
  unfold mapData at hdata
  dsimp only at hdata
  rw [needsSetup_modify K E sw (fun m => { m with mapping := mR }) (fun _ => rfl)
    (fun _ => rfl), hnw] at hdata
  simp only [hR.1, if_true] at hdata
  obtain ⟨q1, dst, q2⟩ := mapHost_from_device _ K E
    (modify K sw (fun m => { m with mapping := mR })) v4
    { m1 with devMem := written, mapping := mR } mR _ hR
    (by simp [modify, setObject, memory_of_object K sw _ hmw]) hcw hH hD hdata
  obtain ⟨-, f2, -, f4, -⟩ := mapFinish_keeps K v4 mR o2 ptr2 fl2
  rw [hfin2] at f2 f4
  simp only at f2 f4
  have q1' : descriptor v4 = descriptor s1 := q1.trans hdw
  have e12 : descriptor s2 = descriptor s1 := f2.trans q1'
  have b12 : getByteSize s2 = getByteSize s1 := by
    have := congrArg getByteSize e12
    exact this
  refine ⟨b12, fun k hk => ?_⟩
  rw [b12] at hk
  rw [f4, q2]
  have d1 : getNumDimensions (modify K sw (fun m => { m with mapping := mR })) =
      getNumDimensions s1 := by
    have := congrArg getNumDimensions hdw
    exact this
  have d2 : rowBytes (modify K sw (fun m => { m with mapping := mR })) = rowBytes s1 := by
    have := congrArg rowBytes hdw
    exact this
  have d3 : ∀ i, getDimension (modify K sw (fun m => { m with mapping := mR })) i =
      getDimension s1 i := by
    intro i
    have := congrArg (fun t => getDimension t i) hdw
    exact this
  have d4 : getByteSize (modify K sw (fun m => { m with mapping := mR })) =
      getByteSize s1 := by
    have := congrArg getByteSize hdw
    exact this
  rw [d1, d2, d3, d3, d4]
  dsimp only
  unfold deviceOffset
  rcases hrank with hr | hr | hr
  · obtain ⟨d0, hd⟩ := List.length_eq_one.mp hr
    obtain ⟨-, -, g3⟩ := hs.rank1 s1 d0 hd
    simp only [hr, Nat.reduceEqDiff, if_false, or_self]
    exact memcpyFlat_of_lt _ _ _ _ hk
  · obtain ⟨d0, e0, hd⟩ := List.length_eq_two.mp hr
    obtain ⟨-, g2, g3, g4⟩ := hs.rank2 s1 d0 e0 hd
    simp only [hr, Nat.reduceEqDiff, if_false, if_true, true_or]
    rw [g3]
    rw [g4] at hk
    exact memcpy2D_dense _ _ _ _ _ _ g2 hk
  · obtain ⟨d0, e0, e1, hd⟩ := List.length_eq_three.mp hr
    obtain ⟨-, g2, g3, g4, g5, g6⟩ := hs.rank3 s1 d0 e0 e1 hd
    simp only [hr, if_true, or_true]
    rw [g3, g5]
    rw [g6] at hk
    exact memcpy3D_dense _ _ _ _ _ _ _ g2 g4 hk

/-- An instance of C3: the memory `deviceWritten` of 2 x 2 bytes, whose device
memory has rows 4 bytes apart; the caller leaves the byte `i + 1` at each
offset `i` of the device memory, and a `map( MAP_HOST_SOURCE )` follows. -/
theorem device_host_round_trip_witness :
    ∃ s2 p2, map sampleHeader sampleEnv 0
        (modify sampleHeader deviceWritten (fun m => { m with devMem := fun i => i + 1 }))
        0x01 0 = some (s2, some p2) ∧
      getByteSize s2 = getByteSize deviceWritten ∧
      ∀ k, k < getByteSize s2 → (memory sampleHeader s2).hostMem k =
        deviceOffset deviceWritten (memory sampleHeader deviceWritten).pitch k + 1 :=
  ⟨_, _, rfl,
    device_host_round_trip sampleHeader sampleEnv 0 (create sampleHeader) deviceWritten _
      0x1000 0x01 0 0 1000 _ (fun i => i + 1)
      ⟨0, 4, 8, rfl, rfl, rfl, by decide, by decide, by decide⟩
      (by decide) (by decide) (by unfold Sized; decide) (Or.inr (Or.inl rfl)) rfl rfl⟩

/-- C4 fails on the code for a device memory whose rows are further apart than
they are long: the memory `hostWritten` of 2 x 2 bytes, into whose host memory
the caller has written the bytes 1, 2, 3, 4, is mapped with
`MAP_DEVICE_SOURCE`.  The device memory is allocated with rows 4 bytes apart
and `sync` copies the 4 bytes of the host memory to its first 4 bytes, so the
byte of row 1, column 0, which the caller wrote as 3, is read at the offset 4
of the device memory, where the uninitialised byte 7 is. -/
theorem host_device_round_trip_pitched :
    ∃ s2, map sampleHeader sampleEnv 0
        (modify sampleHeader hostWritten (fun m => { m with hostMem := fun i => i + 1 }))
        0x100 0 = some (s2, some 1001) ∧
      s2.dimensions = [2, 2] ∧ getElementSize s2 = 1 ∧ (memory sampleHeader s2).pitch = 4 ∧
      deviceOffset s2 (memory sampleHeader s2).pitch 2 = 4 ∧
      (memory sampleHeader s2).hostMem 2 = 3 ∧
      (memory sampleHeader s2).devMem (deviceOffset s2 (memory sampleHeader s2).pitch 2) = 7 ∧
      copies s2 = [Event.call Site.syncDeviceFromHostMemcpy true] :=
  ⟨_, rfl, by decide, by decide, by decide, by decide, by decide, by decide, by decide⟩

end osgCuda.TextureMemory

/-! ### Sync flags are cleared only after a copy -/

namespace osgCuda.TextureMemory

/-- The three sync flags are the bits of an injective numbering of the
representations. -/
theorem flag_bits (K : Header) (hK : K.SyncBits) :
    ∃ bit : Representation → Nat,
      (∀ rep, Representation.flag K rep = 2 ^ bit rep) ∧ Function.Injective bit := by
  obtain ⟨d, h, a, hD, hH, hA, hdh, hda, hha⟩ := hK
  refine ⟨fun rep => match rep with
    | .host => h
    | .device => d
    | .array => a, fun rep => ?_, fun r1 r2 e => ?_⟩
  · cases rep <;> simp [Representation.flag, hD, hH, hA]
  · cases r1 <;> cases r2 <;> simp_all

theorem hasFlag_or_false (x c f : Nat) (h : hasFlag (x ||| c) f = false) :
    hasFlag x f = false := by
  cases hx : hasFlag x f
  · rfl
  · rw [hasFlag_or_of_hasFlag x f c hx] at h
    cases h

/-- Clearing the flag of one representation leaves the flags of the others. -/
theorem hasFlag_xor_flag (K : Header) (hK : K.SyncBits) (x : Nat) (rep rep' : Representation)
    (hne : rep' ≠ rep) :
    hasFlag (x ^^^ Representation.flag K rep) (Representation.flag K rep') =
      hasFlag x (Representation.flag K rep') := by
  obtain ⟨bit, hb, hinj⟩ := flag_bits K hK
  rw [hb rep, hb rep']
  exact hasFlag_xor_of_ne x _ _ (fun e => hne (hinj e).symm)

theorem copiedInto_append (rep : Representation) (t1 t2 : List Event) :
    copiedInto rep (t1 ++ t2) = (copiedInto rep t1 || copiedInto rep t2) := by
  simp [copiedInto]

theorem ClearedByCopy.stay (K : Header) (s : TextureMemory) : ClearedByCopy K s s :=
  ⟨[], by simp, fun rep h1 h2 => by rw [h1] at h2; cases h2⟩

theorem ClearedByCopy.andThen {K : Header} {s s1 s2 : TextureMemory}
    (h1 : ClearedByCopy K s s1) (h2 : ClearedByCopy K s1 s2) : ClearedByCopy K s s2 := by
  obtain ⟨t1, e1, c1⟩ := h1
  obtain ⟨t2, e2, c2⟩ := h2
  refine ⟨t1 ++ t2, by rw [e2, e1, List.append_assoc], fun rep hs hc => ?_⟩
  rw [copiedInto_append]
  cases hm : hasFlag (memory K s1).syncOp (Representation.flag K rep)
  · rw [c1 rep hs hm]; rfl
  · rw [c2 rep hm hc]; simp

/-- A step that clears no flag. -/
theorem ClearedByCopy.of_up {K : Header} {s s' : TextureMemory}
    (ht : ∃ t, s'.trace = s.trace ++ t)
    (hup : ∀ f, hasFlag (memory K s').syncOp f = false → hasFlag (memory K s).syncOp f = false) :
    ClearedByCopy K s s' := by
  obtain ⟨t, ht⟩ := ht
  refine ⟨t, ht, fun rep hs hc => ?_⟩
  rw [hup _ hc] at hs
  cases hs

theorem FlagStep.idle (K : Header) (s : TextureMemory) : FlagStep K s s :=
  ⟨Frame.refl _ _, ClearedByCopy.stay K s⟩

theorem FlagStep.followedBy {K : Header} {s s1 s2 : TextureMemory}
    (h1 : FlagStep K s s1) (h2 : FlagStep K s1 s2) : FlagStep K s s2 :=
  ⟨h1.1.trans h2.1, h1.2.andThen h2.2⟩

/-- A step that leaves the sync flags of the object as they are. -/
theorem FlagStep.of_frame {K : Header} {s s' : TextureMemory} (m : TextureObject)
    (hm : s._object = some m) (h : Frame (fun m : TextureObject => m.syncOp) s s') :
    FlagStep K s s' := by
  refine ⟨h.weaken (fun _ => ()), ClearedByCopy.of_up h.2.1 (fun f hf => ?_)⟩
  have e := h.memory_eq K m hm
  simp only at e
  rw [e, ← memory_of_object K s m hm] at hf
  exact hf

/-- The call `object()` clears no flag: a new object has the flags of
`NO_SYNC`. -/
theorem FlagStep.of_object (K : Header) (s : TextureMemory) :
    FlagStep K s (TextureMemory.object K s).1 := by
  refine ⟨Frame.object _ K s, ?_⟩
  rcases ho : TextureMemory.object K s with ⟨s1, o⟩
  obtain ⟨hf, h2, h3⟩ := object_spec K s s1 o ho
  cases o with
  | none =>
    rw [h3 rfl]
    exact ClearedByCopy.stay K s
  | some m =>
    obtain ⟨hm, -, hso⟩ := h2 m rfl
    refine ClearedByCopy.of_up hf.2.1 (fun f hf => ?_)
    simp only at hf
    rw [memory_of_object K s1 m hm, hso] at hf
    exact hf

theorem FlagStep.logEvent {K : Header} {s s' : TextureMemory} (e : Event)
    (h : FlagStep K s s') : FlagStep K s (emit s' e) := by
  refine ⟨Frame.emit_right e h.1, ?_⟩
  obtain ⟨t, ht, c⟩ := h.2
  refine ⟨t ++ [e], by simp [TextureMemory.emit, ht], fun rep hs hc => ?_⟩
  rw [copiedInto_append, c rep hs hc]
  rfl

/-- An assignment to the object that clears no flag. -/
theorem FlagStep.modify_up {K : Header} {s s' : TextureMemory}
    (u : TextureObject → TextureObject) (h : FlagStep K s s')
    (hu : ∀ m f, hasFlag (u m).syncOp f = false → hasFlag m.syncOp f = false) :
    FlagStep K s (modify K s' u) := by
  refine ⟨Frame.modify_keep K u h.1 (fun _ => rfl), ?_⟩
  obtain ⟨t, ht, c⟩ := h.2
  exact ⟨t, ht, fun rep hs hc => c rep hs (hu _ _ hc)⟩

/-- An assignment to the object that clears the flag of a representation into
which a copy has succeeded since `s`, and no other flag. -/
theorem FlagStep.modify_clear {K : Header} {s s' : TextureMemory} (rep : Representation)
    (u : TextureObject → TextureObject) (h : FlagStep K s s')
    (hlog : ∃ t, s'.trace = s.trace ++ t ∧ copiedInto rep t = true)
    (hu : ∀ m rep', rep' ≠ rep → hasFlag (u m).syncOp (Representation.flag K rep') = false →
      hasFlag m.syncOp (Representation.flag K rep') = false) :
    FlagStep K s (modify K s' u) := by
  refine ⟨Frame.modify_keep K u h.1 (fun _ => rfl), ?_⟩
  obtain ⟨t, ht, c⟩ := h.2
  obtain ⟨t', ht', c'⟩ := hlog
  have e : t' = t := List.append_cancel_left (ht'.symm.trans ht)
  subst e
  refine ⟨t', ht, fun rep' hs hc => ?_⟩
  by_cases hr : rep' = rep
  · rw [hr]; exact c'
  · exact c rep' hs (hu _ rep' hr hc)

/-- A copy that is in the trace since `s1` is in the trace since an earlier
state. -/
theorem logged_left {rep : Representation} {s s1 s2 : TextureMemory}
    (h1 : ∃ t, s1.trace = s.trace ++ t)
    (h2 : ∃ t, s2.trace = s1.trace ++ t ∧ copiedInto rep t = true) :
    ∃ t, s2.trace = s.trace ++ t ∧ copiedInto rep t = true := by
  obtain ⟨t1, e1⟩ := h1
  obtain ⟨t2, e2, c2⟩ := h2
  exact ⟨t1 ++ t2, by rw [e2, e1, List.append_assoc], by rw [copiedInto_append, c2]; simp⟩

/-- A copy that is in the trace up to `s1` is in the trace up to a later
state. -/
theorem logged_right {rep : Representation} {s s1 s2 : TextureMemory}
    (h1 : ∃ t, s1.trace = s.trace ++ t ∧ copiedInto rep t = true)
    (h2 : ∃ t, s2.trace = s1.trace ++ t) :
    ∃ t, s2.trace = s.trace ++ t ∧ copiedInto rep t = true := by
  obtain ⟨t1, e1, c1⟩ := h1
  obtain ⟨t2, e2⟩ := h2
  exact ⟨t1 ++ t2, by rw [e2, e1, List.append_assoc], by rw [copiedInto_append, c1]; rfl⟩

/-- A copy primitive that has succeeded is in the trace. -/
theorem copyCall_logged (E : Env) (s s' : TextureMemory) (site : Site)
    (u : TextureObject → TextureObject) (rep : Representation)
    (h : copyCall E s site u = (s', true)) (hsite : Site.copiesInto site = some rep) :
    ∃ t, s'.trace = s.trace ++ t ∧ copiedInto rep t = true := by
  refine ⟨[Event.call site true], ?_, by simp [copiedInto, Event.copiesInto, hsite]⟩
  unfold copyCall TextureMemory.call at h
  split_ifs at h with hok
  · dsimp only at h
    split at h <;> cases h <;> simp [TextureMemory.emit, TextureMemory.setObject, hok]
  · cases h

theorem syncHostCopy_logged (K : Header) (E : Env) (s s' : TextureMemory)
    (m : TextureObject) (hm : s._object = some m) (h : syncHostCopy K E s m = (s', true)) :
    ∃ t, s'.trace = s.trace ++ t ∧ copiedInto Representation.host t = true := by
  unfold syncHostCopy at h
  dsimp only at h
  split_ifs at h
  · have h1 := Frame.syncMapArray E s m hm .syncHostRegisterImage .syncHostMapResources
      .syncHostGetMappedArray
    rcases hsm : syncMapArray E s m .syncHostRegisterImage .syncHostMapResources
      .syncHostGetMappedArray with ⟨s1, _ | _⟩
    · rw [hsm] at h; cases h
    · rw [hsm] at h h1
      dsimp only at h
      split_ifs at h <;>
        exact logged_left h1.2.1 (copyCall_logged E s1 s' _ _ Representation.host h (by rfl))
  all_goals exact copyCall_logged E s s' _ _ Representation.host h (by rfl)

theorem syncDeviceCopy_logged (K : Header) (E : Env) (s s' : TextureMemory)
    (m : TextureObject) (hm : s._object = some m) (h : syncDeviceCopy K E s m = (s', true)) :
    ∃ t, s'.trace = s.trace ++ t ∧ copiedInto Representation.device t = true := by
  unfold syncDeviceCopy at h
  dsimp only at h
  split_ifs at h
  · have h1 := Frame.syncMapArray E s m hm .syncDeviceRegisterImage .syncDeviceMapResources
      .syncDeviceGetMappedArray
    rcases hsm : syncMapArray E s m .syncDeviceRegisterImage .syncDeviceMapResources
      .syncDeviceGetMappedArray with ⟨s1, _ | _⟩
    · rw [hsm] at h; cases h
    · rw [hsm] at h h1
      dsimp only at h
      split_ifs at h <;>
        exact logged_left h1.2.1 (copyCall_logged E s1 s' _ _ Representation.device h (by rfl))
  all_goals exact copyCall_logged E s s' _ _ Representation.device h (by rfl)

theorem syncArrayCopy_logged (K : Header) (E : Env) (s s' : TextureMemory)
    (m : TextureObject) (h : syncArrayCopy K E s m = (s', true)) :
    ∃ t, s'.trace = s.trace ++ t ∧ copiedInto Representation.array t = true := by
  unfold syncArrayCopy at h
  dsimp only at h
  split_ifs at h
  · have h1 := Frame.copyCall TextureObject.core E s .syncArrayFromHostToArray
      (fun m => { m with arrayMem := memcpyFlat m.arrayMem m.hostMem (getByteSize s) })
      (fun _ => rfl)
    rcases hc : copyCall E s .syncArrayFromHostToArray
      (fun m => { m with arrayMem := memcpyFlat m.arrayMem m.hostMem (getByteSize s) })
      with ⟨s1, _ | _⟩
    · rw [hc] at h; cases h
    · rw [hc] at h h1
      dsimp only at h
      split_ifs at h <;>
        exact logged_left h1.2.1 (copyCall_logged E s1 s' _ _ Representation.array h (by rfl))
  · dsimp only at h
    split_ifs at h <;> exact copyCall_logged E s s' _ _ Representation.array h (by rfl)
  all_goals exact copyCall_logged E s s' _ _ Representation.array h (by rfl)

/-- The host branch of `sync` clears the host flag only after its copy. -/
theorem syncHost_step (K : Header) (E : Env) (s s' : TextureMemory) (m : TextureObject)
    (b : Bool) (hK : K.SyncBits) (hm : s._object = some m)
    (h : syncHost K E s m = (s', b)) : FlagStep K s s' := by
  unfold syncHost at h
  split_ifs at h with h1 h2
  · cases h; exact FlagStep.idle K s
  · cases h; exact FlagStep.idle K s
  · have hf := (Frame.syncHostCopy K E s m hm).weaken (fun c => c.syncOp)
    rcases hc : syncHostCopy K E s m with ⟨s1, _ | _⟩
    · rw [hc] at hf h
      cases h
      exact FlagStep.of_frame m hm hf
    · rw [hc] at hf h
      cases h
      exact FlagStep.modify_clear Representation.host _ (FlagStep.of_frame m hm hf)
        (syncHostCopy_logged K E s s1 m hm hc) (fun c rep' hne hx => by
          rw [← hasFlag_xor_flag K hK c.syncOp Representation.host rep' hne]
          exact hx)

/-- The device branch of `sync` clears the device flag only after its copy. -/
theorem syncDevice_step (K : Header) (E : Env) (s s' : TextureMemory) (m : TextureObject)
    (b : Bool) (hK : K.SyncBits) (hm : s._object = some m)
    (h : syncDevice K E s m = (s', b)) : FlagStep K s s' := by
  unfold syncDevice at h
  split_ifs at h with h1 h2
  · cases h; exact FlagStep.idle K s
  · cases h; exact FlagStep.idle K s
  · have hf := (Frame.syncDeviceCopy K E s m hm).weaken (fun c => c.syncOp)
    rcases hc : syncDeviceCopy K E s m with ⟨s1, _ | _⟩
    · rw [hc] at hf h
      cases h
      exact FlagStep.of_frame m hm hf
    · rw [hc] at hf h
      cases h
      exact FlagStep.modify_clear Representation.device _ (FlagStep.of_frame m hm hf)
        (syncDeviceCopy_logged K E s s1 m hm hc) (fun c rep' hne hx => by
          rw [← hasFlag_xor_flag K hK c.syncOp Representation.device rep' hne]
          exact hx)

/-- The array branch of `sync` clears the array flag only after its copy. -/
theorem syncArray_step (K : Header) (E : Env) (s s' : TextureMemory) (m : TextureObject)
    (b : Bool) (hK : K.SyncBits) (hm : s._object = some m)
    (h : syncArray K E s m = (s', b)) : FlagStep K s s' := by
  unfold syncArray at h
  split_ifs at h with h1 h2
  · cases h; exact FlagStep.idle K s
  · cases h; exact FlagStep.idle K s
  · have hf := (Frame.syncArrayCopy K E s m).weaken (fun c => c.syncOp)
    rcases hc : syncArrayCopy K E s m with ⟨s1, _ | _⟩
    · rw [hc] at hf h
      cases h
      exact FlagStep.of_frame m hm hf
    · rw [hc] at hf h
      cases h
      exact FlagStep.modify_clear Representation.array _ (FlagStep.of_frame m hm hf)
        (syncArrayCopy_logged K E s s1 m hc) (fun c rep' hne hx => by
          rw [← hasFlag_xor_flag K hK c.syncOp Representation.array rep' hne]
          exact hx)

/-- The method `sync` clears a sync flag only after a copy into the
representation of the flag. -/
theorem sync_step (K : Header) (E : Env) (s s' : TextureMemory) (mapping : Nat) (b : Bool)
    (hK : K.SyncBits) (h : sync K E s mapping = (s', b)) : FlagStep K s s' := by
  unfold TextureMemory.sync at h
  have h0 := FlagStep.of_object K s
  rcases ho : TextureMemory.object K s with ⟨s1, _ | m⟩
  · rw [ho] at h h0
    cases h
    exact h0
  · rw [ho] at h h0
    obtain ⟨hm, -⟩ := object_some K s s1 m ho
    dsimp only at h h0
    split_ifs at h
    · exact h0.followedBy (syncArray_step K E s1 s' m b hK hm h)
    · exact h0.followedBy (syncDevice_step K E s1 s' m b hK hm h)
    · exact h0.followedBy (syncHost_step K E s1 s' m b hK hm h)
    · cases h
      exact h0

end osgCuda.TextureMemory

namespace osgCuda.TextureMemory

/-- A write of the object that clears no flag. -/
theorem FlagStep.setObject_up {K : Header} {s s' : TextureMemory} (m1 m' : TextureObject)
    (h : FlagStep K s s') (hm1 : s'._object = some m1)
    (hu : ∀ f, hasFlag m'.syncOp f = false → hasFlag m1.syncOp f = false) :
    FlagStep K s (setObject s' m') := by
  refine ⟨Frame.setObject_right m' h.1 (fun _ _ => rfl), ?_⟩
  obtain ⟨t, ht, c⟩ := h.2
  refine ⟨t, ht, fun rep hs hc => c rep hs ?_⟩
  rw [memory_of_object K s' m1 hm1]
  exact hu _ hc

/-- The end of `setup` for one representation: its flag is cleared when it is
set, after the copy, and the flags of the two others are set. -/
theorem setup_tail_step (K : Header) (hK : K.SyncBits) (rep : Representation)
    (s s1 : TextureMemory) (c1 c2 : Nat) (u : TextureObject → TextureObject)
    (hu : ∀ m, (u m).syncOp = m.syncOp)
    (h : FlagStep K s s1)
    (hlog : ∃ t, s1.trace = s.trace ++ t ∧ copiedInto rep t = true) :
    FlagStep K s
      (modify K
        (modify K
          (modify K
            (if hasAll (memory K s1).syncOp (Representation.flag K rep) = true then
              modify K s1 (fun m => { m with syncOp := m.syncOp ^^^ Representation.flag K rep })
            else s1)
            (fun m => { m with syncOp := m.syncOp ||| c1 }))
          (fun m => { m with syncOp := m.syncOp ||| c2 }))
        u) := by
  have st1 : FlagStep K s
      (if hasAll (memory K s1).syncOp (Representation.flag K rep) = true then
        modify K s1 (fun m => { m with syncOp := m.syncOp ^^^ Representation.flag K rep })
      else s1) := by
    split_ifs
    · exact FlagStep.modify_clear rep
        (fun m => { m with syncOp := m.syncOp ^^^ Representation.flag K rep }) h hlog
        (fun c rep' hne hx => by
          rw [← hasFlag_xor_flag K hK c.syncOp rep rep' hne]
          exact hx)
    · exact h
  exact FlagStep.modify_up u
    (FlagStep.modify_up (fun m => { m with syncOp := m.syncOp ||| c2 })
      (FlagStep.modify_up (fun m => { m with syncOp := m.syncOp ||| c1 }) st1
        (fun _ _ hx => hasFlag_or_false _ _ _ hx))
      (fun _ _ hx => hasFlag_or_false _ _ _ hx))
    (fun m f hx => by rw [hu] at hx; exact hx)

/-- The host branch of `setup` clears the host flag only after its copy. -/
theorem setupHost_step (K : Header) (E : Env) (s s' : TextureMemory) (m : TextureObject)
    (image : Image) (b : Bool) (hK : K.SyncBits) (hm : s._object = some m)
    (h : setupHost K E s image = (s', b)) : FlagStep K s s' := by
  unfold setupHost at h
  split at h
  · cases h
    exact FlagStep.idle K s
  · rename_i data _
    have hf := Frame.copyCall (fun c : TextureObject => c.syncOp) E s .setupHostMemcpy
      (fun m => { m with hostMem := memcpyFlat m.hostMem data (getByteSize s) }) (fun _ => rfl)
    split at h
    · rename_i s1 hc
      rw [hc] at hf
      cases h
      exact FlagStep.of_frame m hm hf
    · rename_i s1 hc
      rw [hc] at hf
      cases h
      exact setup_tail_step K hK Representation.host s s1 _ _ _ (fun _ => rfl)
        (FlagStep.of_frame m hm hf)
        (copyCall_logged E s s1 _ _ Representation.host hc (by rfl))

theorem setupDeviceCopy_logged (E : Env) (s s' : TextureMemory) (data : Bytes)
    (h : setupDeviceCopy E s data = (s', true)) :
    ∃ t, s'.trace = s.trace ++ t ∧ copiedInto Representation.device t = true := by
  unfold setupDeviceCopy at h
  split_ifs at h <;> exact copyCall_logged E s s' _ _ Representation.device h (by rfl)

/-- The device branch of `setup` clears the device flag only after its copy. -/
theorem setupDevice_step (K : Header) (E : Env) (s s' : TextureMemory) (m : TextureObject)
    (image : Image) (b : Bool) (hK : K.SyncBits) (hm : s._object = some m)
    (h : setupDevice K E s image = (s', b)) : FlagStep K s s' := by
  unfold setupDevice at h
  split at h
  · cases h
    exact FlagStep.idle K s
  · rename_i data _
    have hf := (Frame.setupDeviceCopy E s data).weaken (fun c => c.syncOp)
    split at h
    · rename_i s1 hc
      rw [hc] at hf
      cases h
      exact FlagStep.of_frame m hm hf
    · rename_i s1 hc
      rw [hc] at hf
      cases h
      exact setup_tail_step K hK Representation.device s s1 _ _ _ (fun _ => rfl)
        (FlagStep.of_frame m hm hf) (setupDeviceCopy_logged E s s1 data hc)

/-- The `apply` of the adapter: the upload to the texture is in the trace, and
flags are cleared only after a copy when that holds of the `unmap` it calls. -/
theorem adapterApply_step (unmap : TextureMemory → Option TextureMemory) (K : Header)
    (s s' : TextureMemory) (image : Image)
    (hU : ∀ s s', unmap s = some s' → s.isClear = false → FlagStep K s s')
    (h : adapterApply unmap s image = some s') :
    FlagStep K s s' ∧ ∃ t, s'.trace = s.trace ++ t ∧ copiedInto Representation.array t = true := by
  unfold adapterApply at h
  split at h
  · cases h
  · rename_i s1 heq
    have hf1 : FlagStep K s s1 := by
      split_ifs at heq with hc
      · exact hU s s1 heq (by simpa using hc)
      · cases heq
        exact FlagStep.idle K s
    have hl : ∃ t, (callVoid s1 Site.setupApply).trace = s.trace ++ t ∧
        copiedInto Representation.array t = true :=
      logged_left hf1.1.2.1 ⟨[Event.call Site.setupApply true], rfl, by decide⟩
    dsimp only at h
    split at h
    · rename_i memory data hm _
      cases h
      exact ⟨FlagStep.setObject_up memory _ (hf1.logEvent _) hm (fun _ hx => hx), hl⟩
    · cases h
      exact ⟨hf1.logEvent _, hl⟩

/-- The array branch of `setup` clears the array flag only after the upload of
`apply`, and what the `unmap` it reaches clears, only after a copy. -/
theorem setupArray_step (unmap : TextureMemory → Option TextureMemory) (K : Header)
    (E : Env) (s s' : TextureMemory) (image : Image) (b : Bool) (hK : K.SyncBits)
    (hU : ∀ s s', unmap s = some s' → s.isClear = false → FlagStep K s s')
    (h : setupArray unmap K E s image = some (s', b)) : FlagStep K s s' := by
  unfold setupArray at h
  dsimp only at h
  have step : ∀ (sx : TextureMemory) (site : Site) (u : TextureObject → TextureObject)
      (c : Bool) (sy : TextureMemory) (by' : Bool),
      (∀ m, (u m).syncOp = m.syncOp) →
      (if c = true then
        (match call E sx site with
          | (s, none) => (s, false)
          | (s, some _) => (modify K s u, true))
        else (sx, true)) = (sy, by') →
      FlagStep K sx sy := by
    intro sx site u c sy by' hu hh
    simp only [TextureMemory.call] at hh
    repeat' (first | split_ifs at hh | dsimp only at hh)
    all_goals
      cases hh
      first
      | exact FlagStep.idle _ _
      | exact FlagStep.logEvent _ (FlagStep.idle _ _)
      | exact FlagStep.modify_up u (FlagStep.logEvent _ (FlagStep.idle _ _))
          (fun m f hx => by rw [hu] at hx; exact hx)
  split at h
  · rename_i s1 heq
    cases h
    exact step _ _ (fun m => { m with graphicsArray := none }) _ _ _ (fun _ => rfl) heq
  · rename_i s1 heq
    have f1 := step _ _ (fun m => { m with graphicsArray := none }) _ _ _ (fun _ => rfl) heq
    split at h
    · rename_i s2 heq2
      cases h
      exact f1.followedBy
        (step _ _ (fun m => { m with graphicsResource := none }) _ _ _ (fun _ => rfl) heq2)
    · rename_i s2 heq2
      have f2 := f1.followedBy
        (step _ _ (fun m => { m with graphicsResource := none }) _ _ _ (fun _ => rfl) heq2)
      split_ifs at h
      · cases h
        exact f2
      · split at h
        · cases h
        · rename_i s3 heq3
          obtain ⟨g3, l3⟩ := adapterApply_step unmap K s2 s3 image hU heq3
          refine f2.followedBy ?_
          have g4 : FlagStep K s2 (call E s3 .setupRegisterImage).1 := g3.logEvent _
          have l4 : ∃ t, (call E s3 .setupRegisterImage).1.trace = s2.trace ++ t ∧
              copiedInto Representation.array t = true := logged_right l3 ⟨[_], rfl⟩
          rcases hc : call E s3 .setupRegisterImage with ⟨s4, _ | r⟩
          · rw [hc] at h g4
            cases h
            exact g4
          · rw [hc] at h g4 l4
            dsimp only at h
            simp only [Option.some.injEq, Prod.mk.injEq] at h
            obtain ⟨rfl, -⟩ := h
            exact setup_tail_step K hK Representation.array s2
              (modify K s4 (fun m => { m with graphicsResource := some r })) _ _ _
              (fun _ => rfl)
              (FlagStep.modify_up (fun m => { m with graphicsResource := some r }) g4
                (fun _ _ hx => hx)) l4

/-- The method `setup` clears a sync flag only after a copy into the
representation of the flag, when that holds of the `unmap` it reaches. -/
theorem setupBody_step (unmap : TextureMemory → Option TextureMemory) (K : Header)
    (E : Env) (s s' : TextureMemory) (mapping : Nat) (b : Bool) (hK : K.SyncBits)
    (hU : ∀ s s', unmap s = some s' → s.isClear = false → FlagStep K s s')
    (h : setupBody unmap K E s mapping = some (s', b)) : FlagStep K s s' := by
  unfold setupBody at h
  have h0 := FlagStep.of_object K s
  rcases ho : TextureMemory.object K s with ⟨s1, _ | m⟩
  · rw [ho] at h h0
    cases h
    exact h0
  · rw [ho] at h h0
    obtain ⟨hm, -⟩ := object_some K s s1 m ho
    dsimp only at h h0
    split at h
    · cases h
      exact h0
    · rename_i image _
      split_ifs at h
      · exact h0.followedBy (setupArray_step unmap K E s1 s' image b hK hU h)
      · simp only [Option.some.injEq] at h
        exact h0.followedBy (setupDevice_step K E s1 s' m image b hK hm h)
      · simp only [Option.some.injEq] at h
        exact h0.followedBy (setupHost_step K E s1 s' m image b hK hm h)
      · cases h
        exact h0

/-- The steps SETUP STREAM and SYNC STREAM of `map` clear a sync flag only after
a copy into the representation of the flag. -/
theorem mapSetupSync_step (unmap : TextureMemory → Option TextureMemory) (K : Header)
    (E : Env) (s s' : TextureMemory) (mapping : Nat) (ns : Bool) (flag : Nat) (b : Bool)
    (hK : K.SyncBits)
    (hU : ∀ s s', unmap s = some s' → s.isClear = false → FlagStep K s s')
    (h : mapSetupSync unmap K E s mapping ns flag = some (s', b)) : FlagStep K s s' := by
  unfold mapSetupSync at h
  have h1 : ∀ s3 b3, (if ns = true then setupBody unmap K E s mapping else some (s, true)) =
      some (s3, b3) → FlagStep K s s3 := by
    intro s3 b3 h3
    split_ifs at h3 with hns
    · exact setupBody_step unmap K E s s3 mapping b3 hK hU h3
    · cases h3
      exact FlagStep.idle _ _
  split at h
  · cases h
  · rename_i s3 h3
    cases h
    exact h1 _ _ h3
  · rename_i s3 h3
    have d3 := h1 _ _ h3
    split_ifs at h
    · simp only [Option.some.injEq] at h
      exact d3.followedBy (sync_step K E s3 s' mapping b hK h)
    · cases h
      exact d3

end osgCuda.TextureMemory

namespace osgCuda.TextureMemory

/-- The method `alloc` leaves the sync flags alone. -/
theorem alloc_step (K : Header) (E : Env) (s : TextureMemory) (m : TextureObject)
    (mapping : Nat) (hm : s._object = some m) : FlagStep K s (alloc K E s mapping).1 := by
  by_cases h1 : hasFlag mapping K.MAP_HOST = true
  · exact FlagStep.of_frame m hm
      ((alloc_host_frame K E s mapping h1).weaken (fun c => c.syncOp))
  · simp only [Bool.not_eq_true] at h1
    by_cases h2 : hasAll mapping K.MAP_DEVICE_ARRAY = true
    · exact FlagStep.of_frame m hm
        ((alloc_array_frame K E s mapping h1 h2).weaken (fun c => c.syncOp))
    · simp only [Bool.not_eq_true] at h2
      exact FlagStep.of_frame m hm
        ((alloc_device_frame K E s mapping h1 h2).weaken (fun c => c.syncOp))

/-- The allocation step of a branch of `map`. -/
theorem allocated_step (K : Header) (E : Env) (s sa : TextureMemory) (m : TextureObject)
    (mapping : Nat) (c : Bool) (o : Option Bool) (hm : s._object = some m)
    (h : (if c = true then
            match alloc K E s mapping with
            | (s, false) => (s, none)
            | (s, true) => (s, some true)
          else (s, some false)) = (sa, o)) : FlagStep K s sa := by
  have hal := alloc_step K E s m mapping hm
  split_ifs at h
  · rcases ha : alloc K E s mapping with ⟨sa', _ | _⟩
    · rw [ha] at h hal
      cases h
      exact hal
    · rw [ha] at h hal
      cases h
      exact hal
  · cases h
    exact FlagStep.idle K s

/-- The step MAP VBO of the array branch of `map` leaves the sync flags
alone. -/
theorem mapVBO_step (K : Header) (E : Env) (sa sb : TextureMemory) (b : Bool)
    (h : (if ((memory K sa).graphicsArray == none) = true then
            match call E sa .mapMapResources with
            | (s, none) => (s, false)
            | (s, some _) =>
              match call E s .mapGetMappedArray with
              | (s, none) => (s, false)
              | (s, some a) => (modify K s (fun m => { m with graphicsArray := some a }), true)
          else (sa, true)) = (sb, b)) : FlagStep K sa sb := by
  simp only [TextureMemory.call] at h
  repeat' (first | split_ifs at h | dsimp only at h)
  all_goals
    cases h
    repeat (first
      | with_reducible exact FlagStep.idle _ _
      | with_reducible apply FlagStep.logEvent
      | (with_reducible apply FlagStep.modify_up
         rotate_left
         (intro _ _ hx; exact hx)))

theorem mapHost_step (unmap : TextureMemory → Option TextureMemory) (K : Header)
    (E : Env) (s s' : TextureMemory) (m : TextureObject) (mapping : Nat) (ns : Bool)
    (r : Option (Option Nat × Bool)) (hK : K.SyncBits) (hm : s._object = some m)
    (hU : ∀ s s', unmap s = some s' → s.isClear = false → FlagStep K s s')
    (h : mapHost unmap K E s mapping ns = some (s', r)) : FlagStep K s s' := by
  unfold mapHost at h
  dsimp only at h
  split at h
  · rename_i sa heq
    cases h
    exact allocated_step K E s _ m mapping _ _ hm heq
  · rename_i sa fl heq
    have hfa := allocated_step K E s sa m mapping _ _ hm heq
    split at h
    · cases h
    · rename_i s4 hss
      cases h
      exact hfa.followedBy (mapSetupSync_step unmap K E sa _ mapping ns _ _ hK hU hss)
    · rename_i s4 hss
      cases h
      exact hfa.followedBy (mapSetupSync_step unmap K E sa _ mapping ns _ _ hK hU hss)

theorem mapDevice_step (unmap : TextureMemory → Option TextureMemory) (K : Header)
    (E : Env) (s s' : TextureMemory) (m : TextureObject) (mapping : Nat) (ns : Bool)
    (r : Option (Option Nat × Bool)) (hK : K.SyncBits) (hm : s._object = some m)
    (hU : ∀ s s', unmap s = some s' → s.isClear = false → FlagStep K s s')
    (h : mapDevice unmap K E s mapping ns = some (s', r)) : FlagStep K s s' := by
  unfold mapDevice at h
  dsimp only at h
  split at h
  · rename_i sa heq
    cases h
    exact allocated_step K E s _ m mapping _ _ hm heq
  · rename_i sa fl heq
    have hfa := allocated_step K E s sa m mapping _ _ hm heq
    split at h
    · cases h
    · rename_i s4 hss
      cases h
      exact hfa.followedBy (mapSetupSync_step unmap K E sa _ mapping ns _ _ hK hU hss)
    · rename_i s4 hss
      cases h
      exact hfa.followedBy (mapSetupSync_step unmap K E sa _ mapping ns _ _ hK hU hss)

theorem mapArray_step (unmap : TextureMemory → Option TextureMemory) (K : Header)
    (E : Env) (s s' : TextureMemory) (m : TextureObject) (mapping : Nat) (ns : Bool)
    (r : Option (Option Nat × Bool)) (hK : K.SyncBits) (hm : s._object = some m)
    (hU : ∀ s s', unmap s = some s' → s.isClear = false → FlagStep K s s')
    (h : mapArray unmap K E s mapping ns = some (s', r)) : FlagStep K s s' := by
  unfold mapArray at h
  dsimp only at h
  split at h
  · rename_i sa heq
    cases h
    exact allocated_step K E s _ m mapping _ _ hm heq
  · rename_i sa fl heq
    have hfa := allocated_step K E s sa m mapping _ _ hm heq
    split at h
    · rename_i sb heq2
      cases h
      exact hfa.followedBy (mapVBO_step K E sa _ _ heq2)
    · rename_i sb heq2
      have hfb := hfa.followedBy (mapVBO_step K E sa sb _ heq2)
      split at h
      · cases h
      · rename_i s4 hss
        cases h
        exact hfb.followedBy (mapSetupSync_step unmap K E sb _ mapping ns _ _ hK hU hss)
      · rename_i s4 hss
        cases h
        exact hfb.followedBy (mapSetupSync_step unmap K E sb _ mapping ns _ _ hK hU hss)

/-- The part MAP DATA of `map` clears a sync flag only after a copy into the
representation of the flag. -/
theorem mapData_step (unmap : TextureMemory → Option TextureMemory) (K : Header)
    (E : Env) (s s' : TextureMemory) (mapping : Nat)
    (r : Option (Option Nat × Bool)) (hK : K.SyncBits)
    (hU : ∀ s s', unmap s = some s' → s.isClear = false → FlagStep K s s')
    (h : mapData unmap K E s mapping = some (s', r)) : FlagStep K s s' := by
  unfold mapData at h
  dsimp only at h
  have h0 : FlagStep K s (modify K s (fun m => { m with mapping := mapping })) :=
    FlagStep.modify_up (fun m => { m with mapping := mapping }) (FlagStep.idle K s)
      (fun _ _ hx => hx)
  split_ifs at h
  · exact h0.followedBy (mapHost_step unmap K E _ s' _ mapping _ r hK rfl hU h)
  · exact h0.followedBy (mapArray_step unmap K E _ s' _ mapping _ r hK rfl hU h)
  · exact h0.followedBy (mapDevice_step unmap K E _ s' _ mapping _ r hK rfl hU h)
  · cases h
    exact h0

/-- The render-target block of `map` sets flags and clears none. -/
theorem mapRenderTarget_step (K : Header) (E : Env) (s : TextureMemory) :
    FlagStep K s (mapRenderTarget K E s).1 := by
  unfold mapRenderTarget
  simp only [findTextureObject, TextureMemory.call, TextureMemory.callVoid]
  repeat' (first | split_ifs | dsimp only)
  all_goals
    repeat (first
      | with_reducible exact FlagStep.idle _ _
      | with_reducible apply FlagStep.logEvent
      | (with_reducible apply FlagStep.modify_up
         rotate_left
         (first
          | (intro _ _ hx; exact hx)
          | (intro _ _ hx; exact hasFlag_or_false _ _ _ hx))))

/-- The end of `map` sets flags and clears none. -/
theorem mapFinish_step (K : Header) (s : TextureMemory) (mapping offset ptr : Nat)
    (firstLoad : Bool) : FlagStep K s (mapFinish K s mapping offset ptr firstLoad).1 := by
  unfold mapFinish
  dsimp only
  repeat' (first | split_ifs | dsimp only)
  all_goals
    repeat (first
      | with_reducible exact FlagStep.idle _ _
      | with_reducible apply FlagStep.logEvent
      | (with_reducible apply FlagStep.modify_up
         rotate_left
         (intro _ _ hx; exact hasFlag_or_false _ _ _ hx)))

/-- The part of `map` after RECEIVE HANDLE clears a sync flag only after a copy
into the representation of the flag. -/
theorem mapMain_step (unmap : TextureMemory → Option TextureMemory) (K : Header)
    (E : Env) (s s' : TextureMemory) (mapping offset : Nat)
    (r : Option Nat) (hK : K.SyncBits)
    (hU : ∀ s s', unmap s = some s' → s.isClear = false → FlagStep K s s')
    (h : mapMain unmap K E s mapping offset = some (s', r)) : FlagStep K s s' := by
  unfold mapMain at h
  have h0 := mapRenderTarget_step K E s
  split at h
  · rename_i s2 hrt
    rw [hrt] at h0
    cases h
    exact h0
  · rename_i s2 hrt
    rw [hrt] at h0
    split at h
    · cases h
    · rename_i s4 hd
      cases h
      exact h0.followedBy (mapData_step unmap K E s2 _ mapping _ hK hU hd)
    · rename_i s4 _ hd
      cases h
      exact h0.followedBy (mapData_step unmap K E s2 _ mapping _ hK hU hd)
    · rename_i s4 ptr firstLoad hd
      simp only [Option.some.injEq] at h
      have hf := mapFinish_step K s4 mapping offset ptr firstLoad
      rw [h] at hf
      exact (h0.followedBy (mapData_step unmap K E s2 s4 mapping _ hK hU hd)).followedBy hf

/-- The method `map` on a configured memory clears a sync flag only after a
copy into the representation of the flag, when that holds of `unmap`. -/
theorem mapBody_step (unmap : TextureMemory → Option TextureMemory) (K : Header)
    (E : Env) (s s' : TextureMemory) (mapping offset : Nat)
    (r : Option Nat) (hK : K.SyncBits) (hc : s.isClear = false)
    (hU : ∀ s s', unmap s = some s' → s.isClear = false → FlagStep K s s')
    (h : mapBody unmap K E s mapping offset = some (s', r)) : FlagStep K s s' := by
  unfold mapBody at h
  simp only [hc, Bool.false_eq_true, if_false] at h
  split_ifs at h with hv hu
  · cases h
    exact FlagStep.idle K s
  · split at h
    · cases h
    · rename_i s1 hun
      cases h
      exact hU s _ hun hc
  · have h0 := FlagStep.of_object K s
    split at h
    · rename_i s1 ho
      rw [ho] at h0
      cases h
      exact h0
    · rename_i s1 m1 ho
      rw [ho] at h0
      exact h0.followedBy (mapMain_step unmap K E s1 s' mapping offset r hK hU h)

/-- The block of `unmap` that marks the host and the device memory clears no
flag when the array flag is clear. -/
theorem unmapMark_step (K : Header) (E : Env) (s : TextureMemory) (hK : K.SyncBits)
    (hf : hasFlag (memory K s).syncOp K.SYNC_ARRAY = false) :
    FlagStep K s (unmapMark K E s) := by
  obtain ⟨d, hb, a, hD, hH, hA, -⟩ := hK
  unfold unmapMark
  split
  · split_ifs
    · refine FlagStep.modify_up _ ?_ (fun _ _ hx => hx)
      refine ⟨Frame.modify_keep K _ (Frame.refl _ s) (fun _ => rfl), [], by simp [modify,
        setObject], fun rep hs hc => ?_⟩
      exfalso
      cases rep with
      | host =>
        have : hasFlag (K.SYNC_DEVICE ||| K.SYNC_HOST) K.SYNC_HOST = true :=
          hasFlag_or_self _ _ (by rw [hH]; positivity)
        exact Bool.false_ne_true (hc.symm.trans this)
      | device =>
        have h1 : hasFlag K.SYNC_DEVICE K.SYNC_DEVICE = true := by
          have := hasFlag_or_self K.SYNC_DEVICE K.SYNC_DEVICE (by rw [hD]; positivity)
          rwa [Nat.or_self] at this
        have : hasFlag (K.SYNC_DEVICE ||| K.SYNC_HOST) K.SYNC_DEVICE = true :=
          hasFlag_or_of_hasFlag _ _ _ h1
        exact Bool.false_ne_true (hc.symm.trans this)
      | array => exact Bool.false_ne_true (hf.symm.trans hs)
    · exact FlagStep.idle K s
  · exact FlagStep.idle K s

/-- The end of `unmap` leaves the sync flags alone. -/
theorem unmapRelease_step (K : Header) (E : Env) (s : TextureMemory) :
    FlagStep K s (unmapRelease K E s) := by
  unfold unmapRelease
  simp only [TextureMemory.call]
  repeat' (first | split_ifs | dsimp only)
  all_goals
    repeat (first
      | with_reducible exact FlagStep.idle _ _
      | with_reducible apply FlagStep.logEvent
      | (with_reducible apply FlagStep.modify_up
         rotate_left
         (intro _ _ hx; exact hx)))

end osgCuda.TextureMemory

namespace osgCuda.TextureMemory

/-- The method `unmap` on a configured memory clears a sync flag only after a
copy into the representation of the flag, when that holds of the `map` it
calls and a successful `map` of the array leaves the array flag clear. -/
theorem unmapBody_step
    (map : TextureMemory → Nat → Nat → Option (TextureMemory × Option Nat))
    (K : Header) (E : Env) (s s' : TextureMemory) (hK : K.SyncBits)
    (hc : s.isClear = false)
    (hM : ∀ s s' r, map s K.MAP_DEVICE_ARRAY 0 = some (s', r) → s.isClear = false →
      FlagStep K s s' ∧ (r ≠ none → hasFlag (memory K s').syncOp K.SYNC_ARRAY = false))
    (h : unmapBody map K E s = some s') : FlagStep K s s' := by
  unfold unmapBody at h
  simp only [hc, Bool.false_eq_true, if_false] at h
  split_ifs at h with hv
  · cases h
    exact FlagStep.idle K s
  · have h0 := FlagStep.of_object K s
    split at h
    · rename_i s1 ho
      rw [ho] at h0
      cases h
      exact h0
    · rename_i s1 m1 ho
      rw [ho] at h0
      obtain ⟨hm1, hc1⟩ := object_some K s s1 m1 ho
      split at h
      · cases h
      · rename_i s2 hfl
        cases h
        split_ifs at hfl with hfa
        · split at hfl
          · cases hfl
          · rename_i s3 hmap
            cases hfl
            exact h0.followedBy (hM _ _ _ hmap hc1).1
          · cases hfl
        · cases hfl
      · rename_i s2 hfl
        cases h
        have key : FlagStep K s1 s2 ∧ hasFlag (memory K s2).syncOp K.SYNC_ARRAY = false := by
          split_ifs at hfl with hfa
          · split at hfl
            · cases hfl
            · cases hfl
            · rename_i s3 p hmap
              cases hfl
              obtain ⟨g1, g2⟩ := hM _ _ _ hmap hc1
              exact ⟨g1, g2 (by simp)⟩
          · cases hfl
            exact ⟨FlagStep.idle K _, by simpa using hfa⟩
        exact ((h0.followedBy key.1).followedBy (unmapMark_step K E s2 hK key.2)).followedBy
          (unmapRelease_step K E _)

/-- The `map` of the array that `unmap` calls: it clears a sync flag only after
a copy, and leaves the array flag clear when it returns a pointer. -/
theorem mapBody_array_step (unmap : TextureMemory → Option TextureMemory) (K : Header)
    (E : Env) (hK : K.SyncBits) (hA : K.isArrayMapping K.MAP_DEVICE_ARRAY)
    (hU : ∀ s s', unmap s = some s' → s.isClear = false → FlagStep K s s')
    (s s' : TextureMemory) (r : Option Nat)
    (hm : mapBody unmap K E s K.MAP_DEVICE_ARRAY 0 = some (s', r))
    (hc : s.isClear = false) :
    FlagStep K s s' ∧ (r ≠ none → hasFlag (memory K s').syncOp K.SYNC_ARRAY = false) := by
  refine ⟨mapBody_step unmap K E s s' _ 0 r hK hc hU hm, fun hr => ?_⟩
  cases r with
  | none => exact absurd rfl hr
  | some p =>
    obtain ⟨t0, t1, k1, -, -, -, hmain⟩ :=
      mapBody_success_main _ K E s s' K.MAP_DEVICE_ARRAY 0 p hm
    exact mapMain_array_flag _ K E t1 s' _ 0 p hK hA hmain

/-- The method `unmap` on a configured memory clears a sync flag only after a
copy into the representation of the flag, at every depth of recursion. -/
theorem unmap_step (K : Header) (E : Env) (hK : K.SyncBits)
    (hA : K.isArrayMapping K.MAP_DEVICE_ARRAY) :
    ∀ (fuel : Nat) (s s' : TextureMemory), unmap K E fuel s = some s' → s.isClear = false →
      FlagStep K s s' := by
  intro fuel
  induction fuel with
  | zero =>
    intro s s' h
    cases h
  | succ fuel ih =>
    intro s s' h hc
    unfold unmap at h
    exact unmapBody_step _ K E s s' hK hc
      (mapBody_array_step (unmap K E fuel) K E hK hA ih) h

/-- The relation `ClearedByCopy` does not hold of every operation: `reset` of
the memory `hostWritten`, whose device flag is set, clears the flag and calls
no copy primitive. -/
theorem reset_not_cleared_by_copy :
    ∃ s', reset sampleHeader sampleEnv 0 hostWritten = some (s', true) ∧
      ¬ ClearedByCopy sampleHeader hostWritten s' := by
  refine ⟨_, rfl, fun h => ?_⟩
  obtain ⟨t, ht, c⟩ := h
  have e : t = [Event.call Site.resetMemsetHost true] :=
    List.append_cancel_left (ht.symm.trans (by decide))
  subst e
  have := c Representation.device (by decide) (by decide)
  revert this
  decide

end osgCuda.TextureMemory

/-! ### The descriptor of a texture memory -/

namespace osgCompute.Memory

/-- On a descriptor with a dimension list that is not empty (and shorter than
2^64), `getDimension` reads inside the list or returns 0. -/
theorem getDimension_of_ne_nil (s : TextureMemory) (i : Nat) (hne : s.dimensions ≠ [])
    (hlen : s.dimensions.length < 2 ^ 64) :
    getDimension? s i = some (if i < s.dimensions.length then s.dimensions.getD i 0 else 0) := by
  have hpos : 0 < s.dimensions.length := List.length_pos.mpr hne
  have hsz : sizeMinusOne s.dimensions = s.dimensions.length - 1 := by
    unfold sizeMinusOne
    have : s.dimensions.length + 2 ^ 64 - 1 = (s.dimensions.length - 1) + 2 ^ 64 := by omega
    rw [this, Nat.add_mod_right]
    exact Nat.mod_eq_of_lt (by omega)
  unfold getDimension?
  rw [hsz]
  by_cases hi : i < s.dimensions.length
  · have : ¬ (i > s.dimensions.length - 1) := by omega
    simp only [this, if_false, hi, if_true]
    rw [List.getD_eq_getElem?_getD, List.get?_eq_getElem?, List.getElem?_eq_getElem hi]
    rfl
  · have : i > s.dimensions.length - 1 := by omega
    simp [this, hi]

/-- C30 fails on the code when no dimension has been set: on a freshly created
memory `_dimensions.size()-1` wraps to 2^64 - 1, no index is greater, and
`getDimension( 0 )` reads `_dimensions[0]` of the empty list. -/
theorem getDimension_of_empty :
    getNumDimensions (TextureMemory.create sampleHeader) = 0 ∧
    sizeMinusOne (TextureMemory.create sampleHeader).dimensions = 2 ^ 64 - 1 ∧
    getDimension? (TextureMemory.create sampleHeader) 0 = none := by
  decide

end osgCompute.Memory

namespace osgCuda.TextureMemory

/-- C29 fails on the code for a texture of 2 x 2 x 2 texels: the loop
`while( dim[d] > 1 && d < 3 )` of `initDimension` reads `dim[3]` before it
tests `d < 3`. -/
theorem initDimension_reads_past :
    (initDimensionDim { sampleEnv with textureDepth := 2 }).length = 3 ∧
    (initDimensionLoop { sampleEnv with textureDepth := 2 } 4 0 (create sampleHeader) []).2 =
      [0, 1, 2, 3] ∧
    (initDimensionLoop { sampleEnv with textureDepth := 2 } 4 0
      (create sampleHeader) []).1.dimensions = [2, 2, 2] := by
  decide

/-- C28 fails for a texture that is one texel wide: `initDimension` sets no
dimension, and `Memory::init` fails for the empty dimension list. -/
theorem init_fails_width_one :
    (init { sampleEnv with textureWidth := 1, textureHeight := 1 } (create sampleHeader)).2 =
      false ∧
    (init { sampleEnv with textureWidth := 1, textureHeight := 1 }
      (create sampleHeader)).1.isClear = true := by
  decide

/-- The element size `initElementSize` computes is 0 only for 0 bits. -/
theorem elementSize_eq_zero (bits : Nat) :
    ((if bits % 8 == 0 then bits / 8 else bits / 8 + 1) == 0) = (bits == 0) := by
  by_cases h : bits % 8 = 0
  · simp only [h, beq_self_eq_true, if_true]
    by_cases hb : bits = 0
    · simp [hb]
    · have : bits / 8 ≠ 0 := by omega
      simp [hb, this]
  · have hb : bits ≠ 0 := by
      intro e
      rw [e] at h
      exact h rfl
    simp [h, hb]

/-- C28, amended: on a clear memory without dimensions and with a valid
texture, `init()` succeeds exactly when the pixel size is at least 1 bit and
the width is at least 2; it then leaves the descriptor configured, with the
width as its first dimension. -/
theorem init_succeeds_iff (E : Env) (s : TextureMemory) (w h d bits : Nat)
    (hv : E.texrefValid = true) (hc : s.isClear = true) (hd : s.dimensions = [])
    (hdim : initDimensionDim E = [w, h, d])
    (hbits : ∀ image, E.image = some image → image.pixelSizeInBits = bits)
    (hbits0 : E.image = none → E.internalFormatSizeInBits = bits) :
    ((init E s).2 = true ↔ 1 ≤ bits ∧ 2 ≤ w) ∧
    ((init E s).2 = true →
      (init E s).1.isClear = false ∧ (init E s).1.dimensions.head? = some w) := by
  have hes : initElementSize E s =
      (if (bits == 0) = true then (s, false)
       else (setElementSize s (if bits % 8 == 0 then bits / 8 else bits / 8 + 1), true)) := by
    unfold initElementSize
    cases hi : E.image with
    | none =>
      simp only [hbits0 hi]
      rw [elementSize_eq_zero]
    | some image =>
      simp only [hbits image hi]
      rw [elementSize_eq_zero]
  unfold init
  simp only [hc, hv, Bool.not_true, Bool.or_self, Bool.false_eq_true, if_false, hes]
  by_cases hb : bits = 0
  · simp [hb]
  · have hb' : (bits == 0) = false := by simpa using hb
    have hes0 : (if bits % 8 == 0 then bits / 8 else bits / 8 + 1) ≠ 0 := by
      have := elementSize_eq_zero bits
      rw [hb'] at this
      simpa using this
    simp only [hb', Bool.false_eq_true, if_false]
    generalize (if bits % 8 == 0 then bits / 8 else bits / 8 + 1) = es at hes0
    unfold initDimension
    rw [hdim]
    by_cases hw0 : w = 0
    · simp [hw0, hb]
    · by_cases hw1 : w = 1
      · subst hw1
        simp [initDimensionLoop, hdim, GLMemory_init, Memory.init, setElementSize, hc, hd]
      · have hw : 1 < w := by omega
        have hge : 1 ≤ bits ∧ 2 ≤ w := ⟨by omega, by omega⟩
        by_cases hh : 1 < h <;> by_cases hdd : 1 < d <;>
          simp [initDimensionLoop, hdim, GLMemory_init, Memory.init, Resource.init,
            setElementSize, setDimension, resize, hc, hd, hw, hw0, hh, hdd, hge, hes0,
            List.set]

/-- An instance of C28, amended: the texture of 2 x 2 texels of one byte. -/
theorem init_succeeds_iff_witness :
    (init sampleEnv (create sampleHeader)).2 = true ∧
    (init sampleEnv (create sampleHeader)).1.dimensions = [2, 2] :=
  ⟨((init_succeeds_iff sampleEnv (create sampleHeader) 2 2 1 8 rfl rfl rfl rfl
      (fun _ h => Option.noConfusion h) (fun _ => rfl)).1).mpr (by decide), by decide⟩

end osgCuda.TextureMemory

/-! ### The method `sync` -/

namespace osgCuda.TextureMemory

theorem object_trace (K : Header) (s : TextureMemory) :
    (TextureMemory.object K s).1.trace = s.trace := by
  unfold TextureMemory.object
  repeat' (first | split_ifs | split | dsimp only)

/-- C23: when the sync flags of all three representations are set, `sync`
fails for every mapping, calls no primitive, and leaves the flags as they
are. -/
theorem sync_no_current (K : Header) (E : Env) (s : TextureMemory) (mapping : Nat)
    (hD : hasFlag (memory K s).syncOp K.SYNC_DEVICE = true)
    (hH : hasFlag (memory K s).syncOp K.SYNC_HOST = true)
    (hA : hasFlag (memory K s).syncOp K.SYNC_ARRAY = true) :
    (sync K E s mapping).2 = false ∧ (sync K E s mapping).1.trace = s.trace ∧
    (memory K (sync K E s mapping).1).syncOp = (memory K s).syncOp := by
  have e := (sync_spec K E s _ mapping _ rfl).2
  have ht := object_trace K s
  unfold TextureMemory.sync at e ⊢
  rcases ho : TextureMemory.object K s with ⟨s1, _ | m⟩
  · rw [ho] at e ht
    obtain ⟨-, -, h3⟩ := object_spec K s s1 none ho
    exact ⟨rfl, ht, by rw [h3 rfl]⟩
  · rw [ho] at e ht
    obtain ⟨-, h2, -⟩ := object_spec K s s1 (some m) ho
    obtain ⟨-, -, hso⟩ := h2 m rfl
    rw [← hso] at hD hH hA
    have hres : (if hasAll mapping K.MAP_DEVICE_ARRAY = true then syncArray K E s1 m
        else if hasFlag mapping K.MAP_DEVICE = true then syncDevice K E s1 m
        else if hasFlag mapping K.MAP_HOST = true then syncHost K E s1 m
        else (s1, false)) = (s1, false) := by
      split_ifs
      · simp [syncArray, hD, hH, hA]
      · simp [syncDevice, hD, hH, hA]
      · simp [syncHost, hD, hH, hA]
      · rfl
    dsimp only at e ⊢
    rw [hres] at e ⊢
    refine ⟨rfl, ht, ?_⟩
    rw [memory_of_object K s1 m (h2 m rfl).1, hso]

/-- An instance of C23: the memory `hostWritten` with all three flags set by
hand, and a host mapping. -/
theorem sync_no_current_witness :
    (sync sampleHeader sampleEnv
      (modify sampleHeader hostWritten (fun m => { m with syncOp := 0x111 })) 0x01).2 = false ∧
    (sync sampleHeader sampleEnv
      (modify sampleHeader hostWritten (fun m => { m with syncOp := 0x111 })) 0x01).1.trace =
      hostWritten.trace :=
  ⟨(sync_no_current sampleHeader sampleEnv
      (modify sampleHeader hostWritten (fun m => { m with syncOp := 0x111 })) 0x01
      (by decide) (by decide) (by decide)).1,
   (sync_no_current sampleHeader sampleEnv
      (modify sampleHeader hostWritten (fun m => { m with syncOp := 0x111 })) 0x01
      (by decide) (by decide) (by decide)).2.1⟩

/-- C22 fails on the code for a buffer of rank 1 whose array is synchronised
from the host memory: the memory of 4 elements of 4 bytes is mapped with
`MAP_HOST_TARGET` and then with `MAP_DEVICE_ARRAY`, and `sync` calls
`cudaMemcpyToArray` and then, for want of an `else`, also `cudaMemcpy3D`. -/
theorem sync_array_from_host_copies_twice :
    ∃ s1 s2, map sampleHeader
        { sampleEnv with textureWidth := 4, textureHeight := 1, internalFormatSizeInBits := 32 }
        0 (create sampleHeader) 0x10 0 = some (s1, some 1000) ∧
      getNumDimensions s1 = 1 ∧
      hasFlag (memory sampleHeader s1).syncOp sampleHeader.SYNC_ARRAY = true ∧
      map sampleHeader
        { sampleEnv with textureWidth := 4, textureHeight := 1, internalFormatSizeInBits := 32 }
        0 s1 0x10000 0 = some (s2, some 1003) ∧
      copies s2 = [Event.call Site.syncArrayFromHostToArray true,
        Event.call Site.syncArrayFromHostMemcpy3D true] :=
  ⟨_, _, rfl, by decide, by decide, rfl, by decide⟩

/-- C25 fails on the code for the array when the image has changed: on a fresh
memory with an image attached, with every primitive succeeding and at every
depth of recursion that lets `unmap` return, `map( MAP_DEVICE_ARRAY, 0 )`
returns `NULL`: `setup` unmaps and unregisters the texture that the step MAP
VBO has just mapped, and `ptr` is the `_graphicsArray` it has set to `NULL`. -/
theorem map_array_changed_image_null :
    supportsMapping sampleHeader imageEnv 0x10000 = true ∧
    (∀ n site, imageEnv.ok n site = true) ∧
    ∀ fuel, ∃ s', map sampleHeader imageEnv (fuel + 1) (create sampleHeader) 0x10000 0 =
        some (s', none) ∧
      s'.isClear = false ∧ (memory sampleHeader s').graphicsArray = none :=
  ⟨by decide, fun _ _ => rfl, fun _ => ⟨_, rfl, by decide, by decide⟩⟩

/-- The members of the object that a `map` without a representation leaves
alone. -/
theorem mapBody_no_branch (unmap : TextureMemory → Option TextureMemory) (K : Header)
    (E : Env) (s : TextureMemory) (mapping offset : Nat)
    (hv : E.texrefValid = true) (hc : s.isClear = false) (hne : mapping ≠ K.UNMAP)
    (h1 : hasFlag mapping K.MAP_HOST = false) (h2 : hasAll mapping K.MAP_DEVICE_ARRAY = false)
    (h3 : hasFlag mapping K.MAP_DEVICE = false)
    (hu : hasFlag s.usage K.GL_TARGET = false ∨
      hasFlag (memory K s).syncOp K.SYNC_ARRAY = true) :
    ∃ s', mapBody unmap K E s mapping offset = some (s', none) ∧
      (memory K s').syncOp = (memory K s).syncOp ∧
      (memory K s').hostPtr = (memory K s).hostPtr ∧
      (memory K s').devPtr = (memory K s).devPtr ∧
      (memory K s').graphicsArray = (memory K s).graphicsArray ∧
      (memory K s').graphicsResource = (memory K s).graphicsResource := by
  have hne' : (mapping == K.UNMAP) = false := by simpa using hne
  unfold mapBody
  simp only [hv, hc, hne', Bool.not_true, Bool.false_eq_true, if_false]
  rcases ho : TextureMemory.object K s with ⟨s1, o⟩
  cases o with
  | none =>
    unfold TextureMemory.object at ho
    simp only [hc, Bool.false_eq_true, if_false] at ho
    split at ho <;> cases ho
  | some m1 =>
    obtain ⟨hm1, -⟩ := object_some K s s1 m1 ho
    have e1 : m1 = memory K s ∨ (s._object = none ∧
        m1 = { TextureObject.create K with mapping := K.UNMAP, allocHint := getAllocHint s }) := by
      unfold TextureMemory.object at ho
      simp only [hc, Bool.false_eq_true, if_false] at ho
      split at ho
      · rename_i m0 hm0
        cases ho
        exact Or.inl (memory_of_object K s m1 hm0).symm
      · rename_i hn0
        cases ho
        exact Or.inr ⟨hn0, rfl⟩
    have hus : s1.usage = s.usage := by
      have := congrArg TextureMemory.usage (Frame.object (fun _ : TextureObject => ()) K s).1
      rw [ho] at this
      exact this
    have key : (memory K s1).syncOp = (memory K s).syncOp ∧
        (memory K s1).hostPtr = (memory K s).hostPtr ∧
        (memory K s1).devPtr = (memory K s).devPtr ∧
        (memory K s1).graphicsArray = (memory K s).graphicsArray ∧
        (memory K s1).graphicsResource = (memory K s).graphicsResource := by
      rw [memory_of_object K s1 m1 hm1]
      rcases e1 with e | ⟨hn0, e⟩
      · rw [e]
        exact ⟨rfl, rfl, rfl, rfl, rfl⟩
      · rw [e]
        simp [memory, hn0, TextureObject.create]
    dsimp only
    unfold mapMain
    rw [mapRenderTarget_skip K E s1 (by rw [hus, key.1]; exact hu)]
    dsimp only
    unfold mapData
    simp only [h1, h2, h3, Bool.false_eq_true, if_false]
    exact ⟨_, rfl, key⟩

/-- C27, amended: `map` returns `NULL` and leaves the sync flags and the four
handles as they are when the texture reference is not valid (then
`supportsMapping` rejects every mapping), and when the mapping is not `UNMAP`,
has none of the bits `map` tests to choose a representation, and the
render-target block does not run. -/
theorem map_no_representation (K : Header) (E : Env) (fuel : Nat) (s : TextureMemory)
    (mapping offset : Nat) (hwf : s.isClear = true → s._object = none)
    (hn : E.texrefValid = false ∨
      (mapping ≠ K.UNMAP ∧ hasFlag mapping K.MAP_HOST = false ∧
        hasAll mapping K.MAP_DEVICE_ARRAY = false ∧ hasFlag mapping K.MAP_DEVICE = false ∧
        (hasFlag s.usage K.GL_TARGET = false ∨
          hasFlag (memory K s).syncOp K.SYNC_ARRAY = true))) :
    (E.texrefValid = false → supportsMapping K E mapping = false) ∧
    ∃ s', map K E fuel s mapping offset = some (s', none) ∧
      (memory K s').syncOp = (memory K s).syncOp ∧
      (memory K s').hostPtr = (memory K s).hostPtr ∧
      (memory K s').devPtr = (memory K s).devPtr ∧
      (memory K s').graphicsArray = (memory K s).graphicsArray ∧
      (memory K s').graphicsResource = (memory K s).graphicsResource := by
  refine ⟨fun hv => by simp [supportsMapping, hv], ?_⟩
  cases hv : E.texrefValid
  · unfold map mapBody
    simp only [hv, Bool.not_false, if_true]
    exact ⟨s, rfl, rfl, rfl, rfl, rfl, rfl⟩
  · rcases hn with hn | ⟨hne, h1, h2, h3, hu⟩
    · rw [hv] at hn
      cases hn
    · cases hc : s.isClear
      · exact mapBody_no_branch _ K E s mapping offset hv hc hne h1 h2 h3 hu
      · have ho := hwf hc
        rcases hi : init E s with ⟨s0, b0⟩
        obtain ⟨o0, c0, -, u0⟩ := init_keeps E s s0 b0 hc ho hv hi
        have hmem : memory K s0 = memory K s := by simp [memory, o0, ho]
        cases b0
        · refine ⟨s0, ?_, by rw [hmem], by rw [hmem], by rw [hmem], by rw [hmem],
            by rw [hmem]⟩
          unfold map mapBody
          simp only [hv, hc, hi, Bool.not_true, Bool.false_eq_true, if_false, if_true]
        · have c0' : s0.isClear = false := by simpa using c0
          obtain ⟨s', e, k⟩ := mapBody_no_branch (unmap K E fuel) K E s0 mapping offset hv c0'
            hne h1 h2 h3 (by rw [u0, hmem]; exact hu)
          rw [hmem] at k
          refine ⟨s', ?_, k⟩
          rw [← e]
          unfold map mapBody
          simp only [hv, hc, hi, c0', Bool.not_true, Bool.false_eq_true, if_false, if_true]

/-- An instance of C27, amended: a mapping value without any bit of a
representation, on the memory `hostWritten`. -/
theorem map_no_representation_witness :
    ∃ s', map sampleHeader sampleEnv 0 hostWritten 0x1000000 0 = some (s', none) ∧
      (memory sampleHeader s').syncOp = (memory sampleHeader hostWritten).syncOp ∧
      (memory sampleHeader s').hostPtr = (memory sampleHeader hostWritten).hostPtr :=
  (map_no_representation sampleHeader sampleEnv 0 hostWritten 0x1000000 0
    (fun h => Bool.noConfusion h)
    (Or.inr ⟨by decide, by decide, by decide, by decide, Or.inl (by decide)⟩)).2.imp
    fun _ hx => ⟨hx.1, hx.2.1, hx.2.2.1⟩

/-- C27 fails for a mapping that `supportsMapping` rejects and `map` handles:
`MAP_DEVICE_ARRAY_TARGET` is not in the list of `supportsMapping`, and `map`
registers and maps the texture, returns the array, and sets the device and the
host flag. -/
theorem map_unsupported_array_target :
    supportsMapping sampleHeader sampleEnv sampleHeader.MAP_DEVICE_ARRAY_TARGET = false ∧
    ∃ s', map sampleHeader sampleEnv 0 (create sampleHeader)
        sampleHeader.MAP_DEVICE_ARRAY_TARGET 0 = some (s', some 1002) ∧
      (memory sampleHeader (create sampleHeader)).syncOp = 0 ∧
      (memory sampleHeader s').syncOp = 0x11 ∧
      (memory sampleHeader (create sampleHeader)).graphicsResource = none ∧
      (memory sampleHeader s').graphicsResource = some 1000 :=
  ⟨by decide, _, rfl, by decide, by decide, by decide, by decide⟩

end osgCuda.TextureMemory

/-! ### The outcome of `setup` -/

namespace osgCuda.TextureMemory

/-- The flags at the end of a successful `setup`: the flag of the representation
is clear, those of the two others are set. -/
theorem setup_tail_flags (x f a b : Nat) (hfa : f ≠ a) (hfb : f ≠ b) :
    hasFlag (((if hasAll x (2 ^ f) = true then x ^^^ 2 ^ f else x) ||| 2 ^ a) ||| 2 ^ b)
        (2 ^ f) = false ∧
    hasFlag (((if hasAll x (2 ^ f) = true then x ^^^ 2 ^ f else x) ||| 2 ^ a) ||| 2 ^ b)
        (2 ^ a) = true ∧
    hasFlag (((if hasAll x (2 ^ f) = true then x ^^^ 2 ^ f else x) ||| 2 ^ a) ||| 2 ^ b)
        (2 ^ b) = true := by
  refine ⟨?_, hasFlag_or_of_hasFlag _ _ _ (hasFlag_or_two_pow_self _ _),
    hasFlag_or_two_pow_self _ _⟩
  rw [hasFlag_or_of_ne _ _ _ (Ne.symm hfb), hasFlag_or_of_ne _ _ _ (Ne.symm hfa)]
  split_ifs with c
  · rw [hasFlag_xor_self, hasFlag_two_pow, ← hasAll_two_pow, c]
    rfl
  · rw [hasFlag_two_pow, ← hasAll_two_pow]
    simpa using c

/-- The sync flags after a successful `setup` of the array. -/
theorem setupArray_syncOp (unmap : TextureMemory → Option TextureMemory) (K : Header)
    (E : Env) (s s' : TextureMemory) (image : Image)
    (h : setupArray unmap K E s image = some (s', true)) :
    ∃ x, (memory K s').syncOp =
      (((if hasAll x K.SYNC_ARRAY = true then x ^^^ K.SYNC_ARRAY else x)
        ||| K.SYNC_DEVICE) ||| K.SYNC_HOST) := by
  unfold setupArray at h
  dsimp only at h
  split at h
  · cases h
  · split at h
    · cases h
    · split_ifs at h
      · cases h
      · split at h
        · cases h
        · rename_i s3 heq3
          simp only [TextureMemory.call] at h
          split_ifs at h with c1
          · cases h
            refine ⟨(memory K s3).syncOp, ?_⟩
            by_cases c2 : hasAll (memory K s3).syncOp K.SYNC_ARRAY = true
            · rw [if_pos c2]
              rw [if_pos (by exact c2)]
              rfl
            · rw [if_neg c2]
              rw [if_neg (by exact c2)]
              rfl
          · cases h

/-- The end of `unmap` leaves the sync flags and the recorded version and
identity of the image alone. -/
theorem unmapRelease_version (K : Header) (E : Env) (s : TextureMemory) :
    Frame (fun m : TextureObject => (m.syncOp, m.lastModifiedCount, m.lastModifiedAddress)) s
      (unmapRelease K E s) := by
  unfold unmapRelease
  simp only [TextureMemory.call]
  repeat' (first | split_ifs | split | dsimp only)
  all_goals
    rename_i heq
    repeat' (first | split_ifs at heq | dsimp only at heq)
    all_goals
      cases heq
      repeat (first
        | with_reducible exact Frame.refl _ _
        | with_reducible apply Frame.emit_right
        | (with_reducible apply Frame.modify_keep
           rotate_left
           (intro _; rfl)))

/-- An `unmap` of a configured memory whose array flag is clear, and which has
a mapping recorded or has the modification count of the image recorded, leaves
the sync flags and the recorded version and identity of the image alone. -/
theorem unmap_version (K : Header) (E : Env) (fuel : Nat) (s s' : TextureMemory)
    (m : TextureObject) (h : unmap K E fuel s = some s') (hc : s.isClear = false)
    (hm : s._object = some m) (hf : hasFlag m.syncOp K.SYNC_ARRAY = false)
    (hp : m.mapping ≠ K.UNMAP ∨
      ∀ image, E.image = some image → image.modifiedCount = m.lastModifiedCount) :
    Frame (fun m : TextureObject => (m.syncOp, m.lastModifiedCount, m.lastModifiedAddress))
      s s' := by
  cases fuel with
  | zero => cases h
  | succ fuel =>
    unfold unmap unmapBody at h
    cases hv : E.texrefValid
    · simp only [hv, Bool.not_false, if_true] at h
      cases h
      exact Frame.refl _ _
    · simp only [hv, hc, Bool.not_true, Bool.false_eq_true, if_false,
        object_of_some K s m hm hc, memory_of_object K s m hm, hf] at h
      cases h
      have hmark : unmapMark K E s = s := by
        unfold unmapMark
        split
        · rename_i image hi
          rw [memory_of_object K s m hm]
          rcases hp with hp | hp
          · have : (m.mapping == K.UNMAP) = false := by simpa using hp
            simp [this]
          · have : (image.modifiedCount != m.lastModifiedCount) = false := by
              simpa using hp image hi
            simp [this]
        · rfl
      rw [hmark]
      exact unmapRelease_version K E s

/-- The `apply` of the adapter leaves the sync flags and the recorded version
and identity of the image alone when the `unmap` it calls does. -/
theorem adapterApply_version (unmap : TextureMemory → Option TextureMemory)
    (s s' : TextureMemory) (image : Image) (hc : s.isClear = false)
    (hU : ∀ t, unmap s = some t →
      Frame (fun m : TextureObject => (m.syncOp, m.lastModifiedCount, m.lastModifiedAddress))
        s t)
    (h : adapterApply unmap s image = some s') :
    Frame (fun m : TextureObject => (m.syncOp, m.lastModifiedCount, m.lastModifiedAddress))
      s s' := by
  unfold adapterApply at h
  split at h
  · cases h
  · rename_i s1 heq
    simp only [hc, Bool.not_false, if_true] at heq
    have hf1 := hU s1 heq
    dsimp only at h
    split at h
    · rename_i memory data hm _
      cases h
      refine hf1.trans ⟨rfl, ⟨[Event.call Site.setupApply true], rfl⟩, fun m hm' => ?_⟩
      have hm2 : s1._object = some memory := hm
      rw [hm2] at hm'
      cases hm'
      exact ⟨_, rfl, rfl⟩
    · cases h
      exact hf1.trans (Frame.emit_right _ (Frame.refl _ _))

/-- A failing `setup` of the array leaves the sync flags and the recorded
version and identity of the image alone when the `unmap` it reaches does. -/
theorem setupArray_fails (unmap : TextureMemory → Option TextureMemory) (K : Header)
    (E : Env) (s s' : TextureMemory) (image : Image) (m : TextureObject)
    (hc : s.isClear = false) (hm : s._object = some m)
    (hU : ∀ t t' mt, unmap t = some t' → t.isClear = false → t._object = some mt →
      mt.syncOp = m.syncOp → mt.mapping = m.mapping →
      mt.lastModifiedCount = m.lastModifiedCount →
      Frame (fun m : TextureObject => (m.syncOp, m.lastModifiedCount, m.lastModifiedAddress))
        t t')
    (h : setupArray unmap K E s image = some (s', false)) :
    Frame (fun m : TextureObject => (m.syncOp, m.lastModifiedCount, m.lastModifiedAddress))
      s s' := by
  unfold setupArray at h
  dsimp only at h
  have step : ∀ (sx : TextureMemory) (site : Site) (u : TextureObject → TextureObject)
      (c : Bool) (sy : TextureMemory) (by' : Bool),
      (∀ m, (fun m : TextureObject =>
          (m.syncOp, m.mapping, m.lastModifiedCount, m.lastModifiedAddress)) (u m) =
        (fun m : TextureObject =>
          (m.syncOp, m.mapping, m.lastModifiedCount, m.lastModifiedAddress)) m) →
      (if c = true then
        (match call E sx site with
          | (s, none) => (s, false)
          | (s, some _) => (modify K s u, true))
        else (sx, true)) = (sy, by') →
      Frame (fun m : TextureObject =>
        (m.syncOp, m.mapping, m.lastModifiedCount, m.lastModifiedAddress)) sx sy := by
    intro sx site u c sy by' hu hh
    simp only [TextureMemory.call] at hh
    repeat' (first | split_ifs at hh | dsimp only at hh)
    all_goals
      cases hh
      first
      | exact Frame.refl _ _
      | exact Frame.emit_right _ (Frame.refl _ _)
      | exact Frame.modify_keep K _ (Frame.emit_right _ (Frame.refl _ _)) hu
  have weak : ∀ sx sy : TextureMemory,
      Frame (fun m : TextureObject =>
        (m.syncOp, m.mapping, m.lastModifiedCount, m.lastModifiedAddress)) sx sy →
      Frame (fun m : TextureObject => (m.syncOp, m.lastModifiedCount, m.lastModifiedAddress))
        sx sy := by
    intro sx sy hh
    refine ⟨hh.1, hh.2.1, fun m0 hm0 => ?_⟩
    obtain ⟨m1, hm1, e⟩ := hh.2.2 m0 hm0
    refine ⟨m1, hm1, ?_⟩
    simp only [Prod.mk.injEq] at e ⊢
    exact ⟨e.1, e.2.2.1, e.2.2.2⟩
  split at h
  · rename_i s1 heq
    cases h
    exact weak _ _
      (step _ _ (fun m => { m with graphicsArray := none }) _ _ _ (fun _ => rfl) heq)
  · rename_i s1 heq
    have f1 := step _ _ (fun m => { m with graphicsArray := none }) _ _ _ (fun _ => rfl) heq
    split at h
    · rename_i s2 heq2
      cases h
      exact weak _ _ (f1.trans
        (step _ _ (fun m => { m with graphicsResource := none }) _ _ _ (fun _ => rfl) heq2))
    · rename_i s2 heq2
      have f2 := f1.trans
        (step _ _ (fun m => { m with graphicsResource := none }) _ _ _ (fun _ => rfl) heq2)
      split_ifs at h
      · cases h
        exact weak _ _ f2
      · split at h
        · cases h
        · rename_i s3 heq3
          obtain ⟨m2, hm2, -, e2, c2⟩ := f2.facts K m hc hm
          simp only [Prod.mk.injEq] at e2
          have f3 := (weak _ _ f2).trans (adapterApply_version unmap s2 s3 image c2
            (fun t ht => hU s2 t m2 ht c2 hm2 e2.1 e2.2.1 e2.2.2.1) heq3)
          simp only [TextureMemory.call] at h
          split_ifs at h
          · cases h
          · cases h
            exact f3.emit_right _

/-- The object that `object` hands out has the sync flags, the mapping and the
recorded version and identity of the image that `memory` reads. -/
theorem object_version (K : Header) (s s1 : TextureMemory) (m1 : TextureObject)
    (h : TextureMemory.object K s = (s1, some m1)) :
    m1.syncOp = (memory K s).syncOp ∧ m1.mapping = (memory K s).mapping ∧
    m1.lastModifiedCount = (memory K s).lastModifiedCount ∧
    m1.lastModifiedAddress = (memory K s).lastModifiedAddress := by
  unfold TextureMemory.object at h
  split_ifs at h with hc
  · cases h
  · split at h
    · rename_i m0 hm0
      cases h
      rw [memory_of_object K s m1 hm0]
      exact ⟨rfl, rfl, rfl, rfl⟩
    · rename_i hn0
      cases h
      simp [memory, hn0, TextureObject.create]

/-- The representation on which `setup` and `sync` work for a mapping, from the
bits of the mapping. -/
theorem syncTarget_cases (K : Header) (hK : K.SyncBits) (mapping : Nat)
    (rep : Representation) (ht : syncTarget K mapping = some (Representation.flag K rep)) :
    (rep = Representation.array ∧ hasAll mapping K.MAP_DEVICE_ARRAY = true) ∨
    (rep = Representation.device ∧ hasAll mapping K.MAP_DEVICE_ARRAY = false ∧
      hasFlag mapping K.MAP_DEVICE = true) ∨
    (rep = Representation.host ∧ hasAll mapping K.MAP_DEVICE_ARRAY = false ∧
      hasFlag mapping K.MAP_DEVICE = false ∧ hasFlag mapping K.MAP_HOST = true) := by
  obtain ⟨bit, hb, hinj⟩ := flag_bits K hK
  have inj : ∀ r : Representation, Representation.flag K r = Representation.flag K rep →
      rep = r := by
    intro r e
    rw [hb r, hb rep] at e
    exact (hinj (Nat.pow_right_injective (le_refl 2) e)).symm
  unfold syncTarget at ht
  split_ifs at ht with c1 c2 c3
  · exact Or.inl ⟨inj .array (Option.some.inj ht), c1⟩
  · exact Or.inr (Or.inl ⟨inj .device (Option.some.inj ht), by simpa using c1, c2⟩)
  · exact Or.inr (Or.inr ⟨inj .host (Option.some.inj ht), by simpa using c1,
      by simpa using c2, c3⟩)

/-- The flags and the recorded version after `setup`: when `setup` succeeds
for a mapping of the representation `rep`, the flag of `rep` is clear, the
flags of the two other representations are set, and the modification count and
the address of the image are recorded, so that `map` would not run `setup`
again; when `setup` fails, the sync flags and the recorded count and address
are unchanged for the host and the device memory, and for the array when its
flag is clear, so that the `unmap` entered through `apply` does not call `map`,
and either a mapping is recorded, as it is when `map` calls `setup`, or the
modification count of the image is the recorded one. -/
theorem setup_flags_version (K : Header) (E : Env) (fuel : Nat) (s s' : TextureMemory)
    (mapping : Nat) (b : Bool) (rep : Representation) (hK : K.SyncBits)
    (ht : syncTarget K mapping = some (Representation.flag K rep))
    (h : setup K E fuel s mapping = some (s', b)) :
    (b = true →
      hasFlag (memory K s').syncOp (Representation.flag K rep) = false ∧
      (∀ r, r ≠ rep → hasFlag (memory K s').syncOp (Representation.flag K r) = true) ∧
      (∃ image, E.image = some image ∧
        (memory K s').lastModifiedCount = image.modifiedCount ∧
        (memory K s').lastModifiedAddress = some image.address) ∧
      needsSetup K E s' = false) ∧
    (b = false →
      (rep = Representation.array →
        hasFlag (memory K s).syncOp K.SYNC_ARRAY = false ∧
        ((memory K s).mapping ≠ K.UNMAP ∨
          ∀ image, E.image = some image →
            image.modifiedCount = (memory K s).lastModifiedCount)) →
      (memory K s').syncOp = (memory K s).syncOp ∧
      (memory K s').lastModifiedCount = (memory K s).lastModifiedCount ∧
      (memory K s').lastModifiedAddress = (memory K s).lastModifiedAddress) := by
  have hcases := syncTarget_cases K hK mapping rep ht
  obtain ⟨d, hh, a, hD, hH, hA, hdh, hda, hha⟩ := hK
  have recorded : ∀ image, E.image = some image →
      (memory K s').lastModifiedCount = image.modifiedCount →
      (memory K s').lastModifiedAddress = some image.address →
      needsSetup K E s' = false := by
    intro image hi a1 a2
    unfold needsSetup
    rw [hi]
    simp [a1, a2]
  have kept : ∀ (s1 : TextureMemory) (m1 : TextureObject), s1._object = some m1 →
      Frame (fun m : TextureObject => (m.syncOp, m.lastModifiedCount, m.lastModifiedAddress))
        s1 s' →
      (memory K s').syncOp = m1.syncOp ∧
      (memory K s').lastModifiedCount = m1.lastModifiedCount ∧
      (memory K s').lastModifiedAddress = m1.lastModifiedAddress := by
    intro s1 m1 hm1 hf
    have e := hf.memory_eq K m1 hm1
    simp only [Prod.mk.injEq] at e
    exact e
  have keptCore : ∀ (s1 : TextureMemory) (m1 : TextureObject), s1._object = some m1 →
      Frame TextureObject.core s1 s' →
      (memory K s').syncOp = m1.syncOp ∧
      (memory K s').lastModifiedCount = m1.lastModifiedCount ∧
      (memory K s').lastModifiedAddress = m1.lastModifiedAddress := by
    intro s1 m1 hm1 hf
    have e := hf.memory_eq K m1 hm1
    have e1 := congrArg TextureObject.syncOp e
    have e2 := congrArg TextureObject.lastModifiedCount e
    have e3 := congrArg TextureObject.lastModifiedAddress e
    exact ⟨e1, e2, e3⟩
  unfold setup setupBody at h
  rcases ho : TextureMemory.object K s with ⟨s1, _ | m1⟩
  · rw [ho] at h
    simp only [Option.some.injEq, Prod.mk.injEq] at h
    have e := (object_spec K s s1 none ho).2.2 rfl
    rw [← h.1, ← h.2, e]
    exact ⟨fun hb => Bool.noConfusion hb, fun _ _ => ⟨rfl, rfl, rfl⟩⟩
  · rw [ho] at h
    obtain ⟨hm1, hc1⟩ := object_some K s s1 m1 ho
    obtain ⟨v1, v2, v3, v4⟩ := object_version K s s1 m1 ho
    dsimp only at h
    rcases hi : E.image with _ | image
    · rw [hi] at h
      simp only [Option.some.injEq, Prod.mk.injEq] at h
      rw [← h.1, ← h.2]
      refine ⟨fun hb => Bool.noConfusion hb, fun _ _ => ?_⟩
      rw [memory_of_object K s1 m1 hm1]
      exact ⟨v1, v3, v4⟩
    · rw [hi] at h
      dsimp only at h
      rcases hcases with ⟨rfl, c1⟩ | ⟨rfl, c1, c2⟩ | ⟨rfl, c1, c2, c3⟩
      · rw [if_pos c1] at h
        refine ⟨fun hb => ?_, fun hb hp => ?_⟩
        · subst hb
          obtain ⟨x, hx⟩ := setupArray_syncOp _ K E s1 s' image h
          obtain ⟨a1, a2⟩ := setupArray_version _ K E s1 s' image h
          rw [hD, hH, hA] at hx
          obtain ⟨f1, f2, f3⟩ := setup_tail_flags x a d hh (Ne.symm hda) (Ne.symm hha)
          refine ⟨?_, fun r hr => ?_, ⟨image, rfl, a1, a2⟩, recorded image hi a1 a2⟩
          · rw [hx]
            simp only [Representation.flag, hA]
            exact f1
          · rw [hx]
            cases r
            · simp only [Representation.flag, hH]
              exact f3
            · simp only [Representation.flag, hD]
              exact f2
            · exact absurd rfl hr
        · subst hb
          obtain ⟨p1, p2⟩ := hp rfl
          obtain ⟨k1, k2, k3⟩ := kept s1 m1 hm1
            (setupArray_fails _ K E s1 s' image m1 hc1 hm1
              (fun t t' mt hu hct hmt e1 e2 e3 =>
                unmap_version K E fuel t t' mt hu hct hmt
                  (by rw [e1, v1]; exact p1)
                  (by
                    rw [e2, e3, v2, v3]
                    exact p2.imp id (fun q im him => q im (hi.symm.trans him)))) h)
          exact ⟨k1.trans v1, k2.trans v3, k3.trans v4⟩
      · rw [if_neg (by simpa using c1), if_pos c2] at h
        simp only [Option.some.injEq] at h
        obtain ⟨-, hfail, hsucc⟩ := setupDevice_spec K E s1 s' m1 image b hm1 h
        refine ⟨fun hb => ?_, fun hb _ => ?_⟩
        · obtain ⟨a1, a2, hx⟩ := hsucc hb
          rw [hD, hH, hA] at hx
          obtain ⟨f1, f2, f3⟩ := setup_tail_flags m1.syncOp d hh a hdh hda
          refine ⟨?_, fun r hr => ?_, ⟨image, rfl, a1, a2⟩, recorded image hi a1 a2⟩
          · rw [hx]
            simp only [Representation.flag, hD]
            exact f1
          · rw [hx]
            cases r
            · simp only [Representation.flag, hH]
              exact f2
            · exact absurd rfl hr
            · simp only [Representation.flag, hA]
              exact f3
        · obtain ⟨k1, k2, k3⟩ := keptCore s1 m1 hm1 (hfail hb)
          exact ⟨k1.trans v1, k2.trans v3, k3.trans v4⟩
      · rw [if_neg (by simpa using c1), if_neg (by simpa using c2), if_pos c3] at h
        simp only [Option.some.injEq] at h
        obtain ⟨-, hfail, hsucc⟩ := setupHost_spec K E s1 s' m1 image b hm1 h
        refine ⟨fun hb => ?_, fun hb _ => ?_⟩
        · obtain ⟨a1, a2, hx⟩ := hsucc hb
          rw [hD, hH, hA] at hx
          obtain ⟨f1, f2, f3⟩ := setup_tail_flags m1.syncOp hh d a (Ne.symm hdh) hha
          refine ⟨?_, fun r hr => ?_, ⟨image, rfl, a1, a2⟩, recorded image hi a1 a2⟩
          · rw [hx]
            simp only [Representation.flag, hH]
            exact f1
          · rw [hx]
            cases r
            · exact absurd rfl hr
            · simp only [Representation.flag, hD]
              exact f2
            · simp only [Representation.flag, hA]
              exact f3
        · obtain ⟨k1, k2, k3⟩ := keptCore s1 m1 hm1 (hfail hb)
          exact ⟨k1.trans v1, k2.trans v3, k3.trans v4⟩

/-- An instance of `setup_flags_version`: `setup` of the host memory succeeds on the
memory `hostWritten` once an image is attached, and `setup` of the array fails
at the registration of the texture on a memory whose array is mapped, with no
sync flag set. -/
theorem setup_flags_version_witness :
    (∃ s', setup sampleHeader imageEnv 0 hostWritten 0x10 = some (s', true) ∧
      hasFlag (memory sampleHeader s').syncOp sampleHeader.SYNC_HOST = false ∧
      needsSetup sampleHeader imageEnv s' = false) ∧
    ∃ s', setup sampleHeader
        { imageEnv with ok := fun _ site => site != Site.setupRegisterImage } 1
        ((map sampleHeader sampleEnv 0 (create sampleHeader) 0x10000 0).getD
          (create sampleHeader, none)).1 0x10000 = some (s', false) ∧
      (memory sampleHeader s').syncOp = 0 := by
  refine ⟨⟨_, rfl, ?_, ?_⟩, ⟨_, rfl, ?_⟩⟩
  · exact ((setup_flags_version sampleHeader imageEnv 0 hostWritten _ 0x10 true
      Representation.host ⟨0, 4, 8, rfl, rfl, rfl, by decide, by decide, by decide⟩
      rfl rfl).1 rfl).1
  · exact ((setup_flags_version sampleHeader imageEnv 0 hostWritten _ 0x10 true
      Representation.host ⟨0, 4, 8, rfl, rfl, rfl, by decide, by decide, by decide⟩
      rfl rfl).1 rfl).2.2.2
  · exact ((setup_flags_version sampleHeader
      { imageEnv with ok := fun _ site => site != Site.setupRegisterImage } 1
      ((map sampleHeader sampleEnv 0 (create sampleHeader) 0x10000 0).getD
          (create sampleHeader, none)).1 _ 0x10000
      false Representation.array
      ⟨0, 4, 8, rfl, rfl, rfl, by decide, by decide, by decide⟩ rfl rfl).2 rfl
      (fun _ => ⟨by decide, Or.inl (by decide)⟩)).1

/-- C24 does not hold of the code where `setup` is entered again from inside
itself.  The memory `arrayThenHostWritten` is reached by two calls of `map`;
its array flag is set.  An image is attached, and `map( MAP_DEVICE_ARRAY )`
records the mapping and calls `setup`.  The `apply` of the texture in `setup`
enters `unmap`, which calls `map` and with it `setup` a second time; the
`apply` of the second `setup` enters `unmap` and `map` a third time, where
`cudaGraphicsMapResources` fails.  The second `setup` then succeeds, clears
the array flag, sets the host flag and records the count and the address of
the image, and the first `setup` fails at its own registration of the
texture: it returns `false` with the flags and the recorded count and address
changed, and `map` returns `NULL`. -/
theorem setup_fails_after_inner_setup :
    Reachable sampleHeader arrayThenHostWritten ∧
    ∃ s', setup sampleHeader reentrantEnv 2
        (modify sampleHeader arrayThenHostWritten (fun m => { m with mapping := 0x10000 }))
        0x10000 = some (s', false) ∧
      map sampleHeader reentrantEnv 2 arrayThenHostWritten 0x10000 0 = some (s', none) ∧
      (memory sampleHeader arrayThenHostWritten).syncOp = 0x101 ∧
      (memory sampleHeader s').syncOp = 0x11 ∧
      (memory sampleHeader arrayThenHostWritten).lastModifiedCount = UINT_MAX ∧
      (memory sampleHeader s').lastModifiedCount = 1 ∧
      (memory sampleHeader arrayThenHostWritten).lastModifiedAddress = none ∧
      (memory sampleHeader s').lastModifiedAddress = some 1 := by
  refine ⟨?_, _, rfl, rfl, by decide, by decide, by decide, by decide, by decide, by decide⟩
  refine Reachable.byMap sampleEnv 0
    ((map sampleHeader sampleEnv 0 (create sampleHeader) 0x10000 0).getD
      (create sampleHeader, none)).1 arrayThenHostWritten 0x10 0 (some 1003) ?_ (by decide)
    (by rfl)
  exact Reachable.byMap sampleEnv 0 (create sampleHeader) _ 0x10000 0 (some 1002)
    (Reachable.fresh sampleHeader.GL_SOURCE_COMPUTE_SOURCE) (by decide) (by rfl)

end osgCuda.TextureMemory

/-! ### The flags and handles stay consistent -/

namespace osgCuda.TextureMemory

/-- Consistency only reads the sync flags and whether the host and the device
memory are allocated. -/
theorem Consistent.of_eq {K : Header} {s s' : TextureMemory} (h : Consistent K s)
    (h1 : (memory K s').syncOp = (memory K s).syncOp)
    (h2 : (memory K s).hostPtr ≠ none → (memory K s').hostPtr ≠ none)
    (h3 : (memory K s).devPtr ≠ none → (memory K s').devPtr ≠ none) : Consistent K s' := by
  unfold Consistent Coherent SourcesAllocated at h ⊢
  rw [h1]
  exact ⟨h.1, fun a b => h3 (h.2.1 a b), fun a b => h2 (h.2.2 a b)⟩

theorem Consistent.of_kept {K : Header} {s s' : TextureMemory} (m : TextureObject)
    (h : Consistent K s)
    (hf : Frame (fun m : TextureObject => (m.syncOp, m.hostPtr, m.devPtr)) s s')
    (hm : s._object = some m) : Consistent K s' := by
  have e := hf.memory_eq K m hm
  rw [← memory_of_object K s m hm] at e
  simp only [Prod.mk.injEq] at e
  exact h.of_eq e.1 (by rw [e.2.1]; exact id) (by rw [e.2.2]; exact id)

theorem Consistent.of_core {K : Header} {s s' : TextureMemory} (m : TextureObject)
    (h : Consistent K s) (hf : Frame TextureObject.core s s') (hm : s._object = some m) :
    Consistent K s' :=
  h.of_kept m (hf.weaken (fun c => (c.syncOp, c.hostPtr, c.devPtr))) hm

/-- With the array flag clear and the device and host flags set the memory is
consistent. -/
theorem Consistent.of_array_clear (K : Header) (s : TextureMemory)
    (hA : hasFlag (memory K s).syncOp K.SYNC_ARRAY = false)
    (hD : hasFlag (memory K s).syncOp K.SYNC_DEVICE = true)
    (hH : hasFlag (memory K s).syncOp K.SYNC_HOST = true) : Consistent K s := by
  unfold Consistent Coherent SourcesAllocated
  refine ⟨fun h => ?_, fun a _ => ?_, fun a _ => ?_⟩
  · rw [hA] at h
    exact Bool.noConfusion h.2.2
  · rw [hD] at a
    cases a
  · rw [hH] at a
    cases a

/-- With the device flag clear and the device memory allocated the memory is
consistent. -/
theorem Consistent.of_device_clear (K : Header) (s : TextureMemory)
    (hD : hasFlag (memory K s).syncOp K.SYNC_DEVICE = false)
    (hp : (memory K s).devPtr ≠ none) : Consistent K s := by
  unfold Consistent Coherent SourcesAllocated
  refine ⟨fun h => ?_, fun _ _ => hp, fun _ b => ?_⟩
  · rw [hD] at h
    exact Bool.noConfusion h.2.1
  · rw [hD] at b
    cases b

/-- With the host flag clear, the device flag set and the host memory allocated
the memory is consistent. -/
theorem Consistent.of_host_clear (K : Header) (s : TextureMemory)
    (hH : hasFlag (memory K s).syncOp K.SYNC_HOST = false)
    (hD : hasFlag (memory K s).syncOp K.SYNC_DEVICE = true)
    (hp : (memory K s).hostPtr ≠ none) : Consistent K s := by
  unfold Consistent Coherent SourcesAllocated
  refine ⟨fun h => ?_, fun a _ => ?_, fun _ _ => hp⟩
  · rw [hH] at h
    exact Bool.noConfusion h.1
  · rw [hD] at a
    cases a

/-- With no flag set the memory is consistent. -/
theorem Consistent.of_no_flags (K : Header) (s : TextureMemory)
    (hH : hasFlag (memory K s).syncOp K.SYNC_HOST = false)
    (hD : hasFlag (memory K s).syncOp K.SYNC_DEVICE = false)
    (hA : hasFlag (memory K s).syncOp K.SYNC_ARRAY = false) : Consistent K s := by
  unfold Consistent Coherent SourcesAllocated
  refine ⟨fun h => ?_, fun _ b => ?_, fun _ b => ?_⟩
  · rw [hH] at h
    exact Bool.noConfusion h.1
  · rw [hH, hA] at b
    rcases b with b | b <;> cases b
  · rw [hD] at b
    cases b

/-- Clearing the flag of a representation keeps the memory consistent when the
representation is the array or is allocated. -/
theorem Consistent.lower {K : Header} (hK : K.SyncBits) {s s' : TextureMemory}
    (rep : Representation) (h : Consistent K s)
    (h1 : (memory K s').syncOp = (memory K s).syncOp ^^^ Representation.flag K rep)
    (hset : hasFlag (memory K s).syncOp (Representation.flag K rep) = true)
    (h2 : (memory K s').hostPtr = (memory K s).hostPtr)
    (h3 : (memory K s').devPtr = (memory K s).devPtr)
    (hh : rep = Representation.host → (memory K s).hostPtr ≠ none)
    (hd : rep = Representation.device → (memory K s).devPtr ≠ none) : Consistent K s' := by
  have own : hasFlag (memory K s').syncOp (Representation.flag K rep) = false := by
    obtain ⟨bit, hb, -⟩ := flag_bits K hK
    rw [h1, hb rep, hasFlag_xor_self, ← hb rep, hset]
    rfl
  have others : ∀ r, r ≠ rep → hasFlag (memory K s').syncOp (Representation.flag K r) =
      hasFlag (memory K s).syncOp (Representation.flag K r) := by
    intro r hr
    rw [h1]
    exact hasFlag_xor_flag K hK _ rep r hr
  unfold Consistent Coherent SourcesAllocated at h ⊢
  rw [h2, h3]
  cases rep
  · have oD := others .device (by decide)
    have oA := others .array (by decide)
    simp only [Representation.flag] at own oD oA
    rw [own, oD, oA]
    refine ⟨fun x => Bool.noConfusion x.1, fun a b => ?_, fun _ _ => hh rfl⟩
    rcases b with b | b
    · cases b
    · exact h.2.1 a (Or.inr b)
  · have oH := others .host (by decide)
    have oA := others .array (by decide)
    simp only [Representation.flag] at own oH oA
    rw [own, oH, oA]
    exact ⟨fun x => Bool.noConfusion x.2.1, fun _ _ => hd rfl, fun _ b => Bool.noConfusion b⟩
  · have oH := others .host (by decide)
    have oD := others .device (by decide)
    simp only [Representation.flag] at own oH oD
    rw [own, oH, oD]
    refine ⟨fun x => Bool.noConfusion x.2.2, fun a b => ?_, h.2.2⟩
    rcases b with b | b
    · exact h.2.1 a (Or.inl b)
    · cases b

/-- The flag on which `sync` works is the flag of a representation. -/
theorem syncTarget_flag (K : Header) (mapping f : Nat) (h : syncTarget K mapping = some f) :
    ∃ rep, f = Representation.flag K rep := by
  unfold syncTarget at h
  split_ifs at h
  · exact ⟨.array, (Option.some.inj h).symm⟩
  · exact ⟨.device, (Option.some.inj h).symm⟩
  · exact ⟨.host, (Option.some.inj h).symm⟩

/-- The method `sync` keeps the memory consistent when the representation it
works on is the array or is allocated. -/
theorem sync_consistent (K : Header) (E : Env) (s s' : TextureMemory) (mapping : Nat)
    (b : Bool) (hK : K.SyncBits) (m : TextureObject) (hm : s._object = some m)
    (hh : syncTarget K mapping = some K.SYNC_HOST → m.hostPtr ≠ none)
    (hd : syncTarget K mapping = some K.SYNC_DEVICE → m.devPtr ≠ none)
    (hi : Consistent K s) (h : sync K E s mapping = (s', b)) : Consistent K s' := by
  obtain ⟨hf, hs⟩ := sync_spec K E s s' mapping b h
  have e := hf.memory_eq K m hm
  have e2 : (memory K s').hostPtr = (memory K s).hostPtr := by
    have := congrArg TextureObject.hostPtr e
    rw [memory_of_object K s m hm]
    exact this
  have e3 : (memory K s').devPtr = (memory K s).devPtr := by
    have := congrArg TextureObject.devPtr e
    rw [memory_of_object K s m hm]
    exact this
  rcases ht : syncTarget K mapping with _ | f
  · rw [ht] at hs
    exact hi.of_eq hs (by rw [e2]; exact id) (by rw [e3]; exact id)
  · rw [ht] at hs
    dsimp only at hs
    by_cases hb : (b && hasFlag (memory K s).syncOp f) = true
    · rw [if_pos hb] at hs
      obtain ⟨rep, hrep⟩ := syncTarget_flag K mapping f ht
      subst hrep
      refine Consistent.lower hK rep hi hs ((Bool.and_eq_true _ _).mp hb).2 e2 e3 (fun hr => ?_)
        (fun hr => ?_)
      · subst hr
        rw [memory_of_object K s m hm]
        exact hh ht
      · subst hr
        rw [memory_of_object K s m hm]
        exact hd ht
    · rw [if_neg hb] at hs
      exact hi.of_eq hs (by rw [e2]; exact id) (by rw [e3]; exact id)

/-- The host branch of `setup` keeps the memory consistent when the host memory
is allocated. -/
theorem setupHost_consistent (K : Header) (E : Env) (s s' : TextureMemory)
    (m : TextureObject) (image : Image) (b : Bool) (hK : K.SyncBits)
    (hm : s._object = some m) (hp : m.hostPtr ≠ none) (hi : Consistent K s)
    (h : setupHost K E s image = (s', b)) : Consistent K s' := by
  obtain ⟨hf, hfail, hsucc⟩ := setupHost_spec K E s s' m image b hm h
  cases b
  · exact hi.of_core m (hfail rfl) hm
  · obtain ⟨-, -, hx⟩ := hsucc rfl
    obtain ⟨d, hh, a, hD, hH, hA, hdh, hda, hha⟩ := hK
    rw [hD, hH, hA] at hx
    obtain ⟨f1, f2, -⟩ := setup_tail_flags m.syncOp hh d a (Ne.symm hdh) hha
    have e := congrArg TextureObject.hostPtr (hf.memory_eq K m hm)
    refine Consistent.of_host_clear K s' ?_ ?_ ?_
    · rw [hx, hH]
      exact f1
    · rw [hx, hD]
      exact f2
    · have e' : (memory K s').hostPtr = m.hostPtr := e
      rw [e']
      exact hp

/-- The device branch of `setup` keeps the memory consistent when the device
memory is allocated. -/
theorem setupDevice_consistent (K : Header) (E : Env) (s s' : TextureMemory)
    (m : TextureObject) (image : Image) (b : Bool) (hK : K.SyncBits)
    (hm : s._object = some m) (hp : m.devPtr ≠ none) (hi : Consistent K s)
    (h : setupDevice K E s image = (s', b)) : Consistent K s' := by
  obtain ⟨hf, hfail, hsucc⟩ := setupDevice_spec K E s s' m image b hm h
  cases b
  · exact hi.of_core m (hfail rfl) hm
  · obtain ⟨-, -, hx⟩ := hsucc rfl
    obtain ⟨d, hh, a, hD, hH, hA, hdh, hda, hha⟩ := hK
    rw [hD, hH, hA] at hx
    obtain ⟨f1, -, -⟩ := setup_tail_flags m.syncOp d hh a hdh hda
    have e := congrArg TextureObject.devPtr (hf.memory_eq K m hm)
    refine Consistent.of_device_clear K s' ?_ ?_
    · rw [hx, hD]
      exact f1
    · have e' : (memory K s').devPtr = m.devPtr := e
      rw [e']
      exact hp

/-- The `apply` of the adapter leaves the members that are not those of the
array alone, apart from what the `unmap` it calls does. -/
theorem adapterApply_path (unmap : TextureMemory → Option TextureMemory) (K : Header)
    (s s' : TextureMemory) (image : Image) (hc : s.isClear = false)
    (h : adapterApply unmap s image = some s') :
    ∃ t, unmap s = some t ∧ TextureObject.core (memory K s') = TextureObject.core (memory K t) ∧
      s'.isClear = t.isClear ∧ ((∃ m, t._object = some m) → ∃ m', s'._object = some m') := by
  unfold adapterApply at h
  split at h
  · cases h
  · rename_i s1 heq
    simp only [hc, Bool.not_false, if_true] at heq
    refine ⟨s1, heq, ?_⟩
    dsimp only at h
    split at h
    · rename_i memory data hm _
      cases h
      have hm2 : s1._object = some memory := hm
      refine ⟨?_, rfl, fun _ => ⟨_, rfl⟩⟩
      rw [memory_setObject, memory_of_object K s1 memory hm2]
      rfl
    · cases h
      exact ⟨rfl, rfl, fun hx => hx⟩

/-- A failing `setup` of the array leaves the members that are not those of
the array alone, apart from what the `unmap` it reaches does. -/
theorem setupArray_fail_path (unmap : TextureMemory → Option TextureMemory) (K : Header)
    (E : Env) (s s' : TextureMemory) (image : Image) (m : TextureObject)
    (hc : s.isClear = false) (hm : s._object = some m)
    (h : setupArray unmap K E s image = some (s', false)) :
    Frame TextureObject.core s s' ∨
    ∃ t t', Frame TextureObject.core s t ∧ unmap t = some t' ∧
      TextureObject.core (memory K s') = TextureObject.core (memory K t') := by
  unfold setupArray at h
  dsimp only at h
  have step : ∀ (sx : TextureMemory) (site : Site) (u : TextureObject → TextureObject)
      (c : Bool) (sy : TextureMemory) (by' : Bool),
      (∀ m, TextureObject.core (u m) = TextureObject.core m) →
      (if c = true then
        (match call E sx site with
          | (s, none) => (s, false)
          | (s, some _) => (modify K s u, true))
        else (sx, true)) = (sy, by') →
      Frame TextureObject.core sx sy := by
    intro sx site u c sy by' hu hh
    simp only [TextureMemory.call] at hh
    repeat' (first | split_ifs at hh | dsimp only at hh)
    all_goals
      cases hh
      first
      | exact Frame.refl _ _
      | exact Frame.emit_right _ (Frame.refl _ _)
      | exact Frame.modify_keep K _ (Frame.emit_right _ (Frame.refl _ _)) hu
  split at h
  · rename_i s1 heq
    cases h
    exact Or.inl
      (step _ _ (fun m => { m with graphicsArray := none }) _ _ _ (fun _ => rfl) heq)
  · rename_i s1 heq
    have f1 := step _ _ (fun m => { m with graphicsArray := none }) _ _ _ (fun _ => rfl) heq
    split at h
    · rename_i s2 heq2
      cases h
      exact Or.inl (f1.trans
        (step _ _ (fun m => { m with graphicsResource := none }) _ _ _ (fun _ => rfl) heq2))
    · rename_i s2 heq2
      have f2 := f1.trans
        (step _ _ (fun m => { m with graphicsResource := none }) _ _ _ (fun _ => rfl) heq2)
      split_ifs at h
      · cases h
        exact Or.inl f2
      · split at h
        · cases h
        · rename_i s3 heq3
          obtain ⟨m2, hm2, -, -, c2⟩ := f2.facts K m hc hm
          obtain ⟨t', hu, e, -, -⟩ := adapterApply_path unmap K s2 s3 image c2 heq3
          simp only [TextureMemory.call] at h
          split_ifs at h
          · cases h
          · cases h
            exact Or.inr ⟨s2, t', f2, hu, e⟩

/-- A successful `setup` of the array leaves the memory consistent. -/
theorem setupArray_success_consistent (unmap : TextureMemory → Option TextureMemory)
    (K : Header) (E : Env) (s s' : TextureMemory) (image : Image) (hK : K.SyncBits)
    (h : setupArray unmap K E s image = some (s', true)) : Consistent K s' := by
  obtain ⟨x, hx⟩ := setupArray_syncOp unmap K E s s' image h
  obtain ⟨d, hh, a, hD, hH, hA, hdh, hda, hha⟩ := hK
  rw [hD, hH, hA] at hx
  obtain ⟨f1, f2, f3⟩ := setup_tail_flags x a d hh (Ne.symm hda) (Ne.symm hha)
  refine Consistent.of_array_clear K s' ?_ ?_ ?_
  · rw [hx, hA]
    exact f1
  · rw [hx, hD]
    exact f2
  · rw [hx, hH]
    exact f3

/-- Consistency only reads members that `core` keeps. -/
theorem Consistent.of_core_eq {K : Header} {s s' : TextureMemory} (h : Consistent K s)
    (e : TextureObject.core (memory K s') = TextureObject.core (memory K s)) :
    Consistent K s' := by
  have e1 : (memory K s').syncOp = (memory K s).syncOp := by
    have := congrArg TextureObject.syncOp e
    exact this
  have e2 : (memory K s').hostPtr = (memory K s).hostPtr := by
    have := congrArg TextureObject.hostPtr e
    exact this
  have e3 : (memory K s').devPtr = (memory K s).devPtr := by
    have := congrArg TextureObject.devPtr e
    exact this
  exact h.of_eq e1 (by rw [e2]; exact id) (by rw [e3]; exact id)

/-- The array branch of `setup` keeps the memory consistent when the `unmap` it
reaches does. -/
theorem setupArray_consistent (unmap : TextureMemory → Option TextureMemory) (K : Header)
    (E : Env) (s s' : TextureMemory) (image : Image) (m : TextureObject) (b : Bool)
    (hK : K.SyncBits) (hc : s.isClear = false) (hm : s._object = some m)
    (hU : ∀ t t', unmap t = some t' → t.isClear = false → Consistent K t → Consistent K t')
    (hi : Consistent K s) (h : setupArray unmap K E s image = some (s', b)) :
    Consistent K s' := by
  cases b
  · rcases setupArray_fail_path unmap K E s s' image m hc hm h with hf | ⟨t, t', hf, hu, e⟩
    · exact hi.of_core m hf hm
    · obtain ⟨mt, hmt, -, -, ct⟩ := hf.facts K m hc hm
      exact (hU t t' hu ct (hi.of_core m hf hm)).of_core_eq e
  · exact setupArray_success_consistent unmap K E s s' image hK h

/-- The method `setup` keeps the memory consistent when the representation it
works on is the array or is allocated, and the `unmap` it reaches keeps the
memory consistent. -/
theorem setupBody_consistent (unmap : TextureMemory → Option TextureMemory) (K : Header)
    (E : Env) (s s' : TextureMemory) (mapping : Nat) (b : Bool) (m : TextureObject)
    (hK : K.SyncBits) (hc : s.isClear = false) (hm : s._object = some m)
    (hh : syncTarget K mapping = some K.SYNC_HOST → m.hostPtr ≠ none)
    (hd : syncTarget K mapping = some K.SYNC_DEVICE → m.devPtr ≠ none)
    (hU : ∀ t t', unmap t = some t' → t.isClear = false → Consistent K t → Consistent K t')
    (hi : Consistent K s) (h : setupBody unmap K E s mapping = some (s', b)) :
    Consistent K s' := by
  unfold setupBody at h
  rw [object_of_some K s m hm hc] at h
  dsimp only at h
  split at h
  · cases h
    exact hi
  · rename_i image _
    split_ifs at h with c1 c2 c3
    · exact setupArray_consistent unmap K E s s' image m b hK hc hm hU hi h
    · simp only [Option.some.injEq] at h
      exact setupDevice_consistent K E s s' m image b hK hm
        (hd (by simp [syncTarget, c1, c2])) hi h
    · simp only [Option.some.injEq] at h
      exact setupHost_consistent K E s s' m image b hK hm
        (hh (by simp [syncTarget, c1, c2, c3])) hi h
    · cases h
      exact hi

/-- The steps SETUP STREAM and SYNC STREAM keep the memory consistent when the
mapped representation is the array or is allocated. -/
theorem mapSetupSync_consistent (unmap : TextureMemory → Option TextureMemory) (K : Header)
    (E : Env) (s s' : TextureMemory) (mapping : Nat) (ns : Bool) (flag : Nat) (b : Bool)
    (m : TextureObject) (hK : K.SyncBits) (hc : s.isClear = false) (hm : s._object = some m)
    (hh : syncTarget K mapping = some K.SYNC_HOST → m.hostPtr ≠ none)
    (hd : syncTarget K mapping = some K.SYNC_DEVICE → m.devPtr ≠ none)
    (hU : ∀ t t', unmap t = some t' → t.isClear = false → Consistent K t → Consistent K t')
    (hF : ∀ s s', unmap s = some s' → s.isClear = false →
      Frame (fun m : TextureObject => (m.hostPtr, m.devPtr)) s s')
    (hi : Consistent K s)
    (h : mapSetupSync unmap K E s mapping ns flag = some (s', b)) : Consistent K s' := by
  unfold mapSetupSync at h
  split at h
  · cases h
  · rename_i s1 heq
    cases h
    split_ifs at heq
    · exact setupBody_consistent unmap K E s _ mapping false m hK hc hm hh hd hU hi heq
    · cases heq
  · rename_i s1 heq
    have h1 : Consistent K s1 ∧ ∃ m1, s1._object = some m1 ∧ m1.hostPtr = m.hostPtr ∧
        m1.devPtr = m.devPtr := by
      split_ifs at heq
      · refine ⟨setupBody_consistent unmap K E s s1 mapping true m hK hc hm hh hd hU hi heq,
          ?_⟩
        obtain ⟨m1, hm1, -, e, -⟩ :=
          (setupBody_frame_handles unmap K E s s1 mapping true hF heq).facts K m hc hm
        simp only [Prod.mk.injEq] at e
        exact ⟨m1, hm1, e.1, e.2⟩
      · cases heq
        exact ⟨hi, m, hm, rfl, rfl⟩
    obtain ⟨hi1, m1, hm1, e1, e2⟩ := h1
    split_ifs at h
    · simp only [Option.some.injEq] at h
      exact sync_consistent K E s1 s' mapping b hK m1 hm1 (by rw [e1]; exact hh)
        (by rw [e2]; exact hd) hi1 h
    · cases h
      exact hi1

end osgCuda.TextureMemory

namespace osgCuda.TextureMemory

/-- After a successful `alloc` for a mapping with a bit of `MAP_HOST` the host
memory is allocated. -/
theorem alloc_host_some (K : Header) (E : Env) (s s' : TextureMemory) (m : TextureObject)
    (mapping : Nat) (hc : s.isClear = false) (hm : s._object = some m)
    (h1 : hasFlag mapping K.MAP_HOST = true) (h : alloc K E s mapping = (s', true)) :
    (memory K s').hostPtr ≠ none := by
  unfold alloc at h
  rw [object_of_some K s m hm hc] at h
  simp only [h1, if_true, TextureMemory.call] at h
  repeat' (first | split_ifs at h | dsimp only at h)
  all_goals first
    | (cases h; done)
    | (cases h
       rw [memory_of_object K _ m hm]
       rename_i hx
       simpa using hx)
    | (cases h
       simp [memory, TextureMemory.setObject])

/-- After a successful `alloc` for a mapping of the device memory the device
memory is allocated. -/
theorem alloc_device_some (K : Header) (E : Env) (s s' : TextureMemory) (m : TextureObject)
    (mapping : Nat) (hc : s.isClear = false) (hm : s._object = some m)
    (h1 : hasFlag mapping K.MAP_HOST = false) (h2 : hasAll mapping K.MAP_DEVICE_ARRAY = false)
    (h : alloc K E s mapping = (s', true)) : (memory K s').devPtr ≠ none := by
  unfold alloc at h
  rw [object_of_some K s m hm hc] at h
  simp only [h1, h2, Bool.false_eq_true, if_false, TextureMemory.call] at h
  repeat' (first | split_ifs at h | dsimp only at h)
  all_goals first
    | (cases h; done)
    | (cases h
       rw [memory_of_object K _ m hm]
       rename_i hx
       simpa using hx)
    | (cases h
       simp [memory, TextureMemory.setObject])

/-- The sync flag of a host mapping. -/
theorem syncTarget_host (K : Header) (mapping : Nat) (h : K.isHostMapping mapping) :
    syncTarget K mapping = some K.SYNC_HOST := by
  obtain ⟨h1, h2, h3, -, -⟩ := h
  simp [syncTarget, h1, h2, h3]

/-- The sync flag of a device mapping. -/
theorem syncTarget_device (K : Header) (mapping : Nat) (h : K.isDeviceMapping mapping) :
    syncTarget K mapping = some K.SYNC_DEVICE := by
  obtain ⟨-, h2, h3, -, -⟩ := h
  simp [syncTarget, h2, h3]

/-- The sync flag of an array mapping. -/
theorem syncTarget_array (K : Header) (mapping : Nat) (h : K.isArrayMapping mapping) :
    syncTarget K mapping = some K.SYNC_ARRAY := by
  obtain ⟨-, h2, -⟩ := h
  simp [syncTarget, h2]

/-- The host branch of `map` keeps the memory consistent, and when it succeeds
the host memory is allocated and its flag is clear. -/
theorem mapHost_consistent (unmap : TextureMemory → Option TextureMemory) (K : Header)
    (E : Env) (s s' : TextureMemory) (mapping : Nat) (ns : Bool)
    (r : Option (Option Nat × Bool)) (m : TextureObject) (hK : K.SyncBits)
    (hc : s.isClear = false) (hm : s._object = some m) (hH : K.isHostMapping mapping)
    (hU : ∀ t t', unmap t = some t' → t.isClear = false → Consistent K t → Consistent K t')
    (hF : ∀ s s', unmap s = some s' → s.isClear = false →
      Frame (fun m : TextureObject => (m.hostPtr, m.devPtr)) s s')
    (hi : Consistent K s) (h : mapHost unmap K E s mapping ns = some (s', r)) :
    Consistent K s' ∧
    (∀ ptr fl, r = some (some ptr, fl) →
      (memory K s').hostPtr ≠ none ∧ hasFlag (memory K s').syncOp K.SYNC_HOST = false) := by
  have ht := syncTarget_host K mapping hH
  have hflag : ∀ x, r = some x → hasFlag (memory K s').syncOp K.SYNC_HOST = false := by
    intro x hx
    subst hx
    obtain ⟨d, hh, a, hD, hH', hA, -⟩ := hK
    have := mapHost_flag unmap K E s s' mapping ns hh x hH' (by rw [← hH']; exact ht) h
    rw [hH']
    exact this
  unfold mapHost at h
  dsimp only at h
  have hal : ∀ (sa : TextureMemory) (o : Option Bool),
      (if ((memory K s).hostPtr == none) = true then
        match alloc K E s mapping with
        | (s, false) => (s, none)
        | (s, true) => (s, some true)
      else (s, some false)) = (sa, o) →
      Consistent K sa ∧ ∃ ma, sa._object = some ma ∧ sa.isClear = false ∧
        (o ≠ none → ma.hostPtr ≠ none) := by
    intro sa o hh
    split_ifs at hh with c
    · have c' : (memory K s).hostPtr = none := by simpa using c
      have hf := alloc_host_frame K E s mapping hH.1
      rcases ha : alloc K E s mapping with ⟨sa', b⟩
      rw [ha] at hf hh
      have hsa : sa = sa' := by
        cases b <;> · cases hh; rfl
      subst hsa
      obtain ⟨ma, hma, hmem, e, ca⟩ := hf.facts K m hc hm
      have e1 : ma.syncOp = m.syncOp := by
        have := congrArg TextureObject.syncOp e
        exact this
      have e3 : ma.devPtr = m.devPtr := by
        have := congrArg TextureObject.devPtr e
        exact this
      refine ⟨hi.of_eq ?_ (fun hx => absurd c' hx) ?_, ma, hma, ca, fun ho => ?_⟩
      · rw [hmem, memory_of_object K s m hm]
        exact e1
      · rw [hmem, memory_of_object K s m hm, e3]
        exact id
      · cases b
        · cases hh
          exact absurd rfl ho
        · rw [← hmem]
          exact alloc_host_some K E s sa m mapping hc hm hH.1 ha
    · cases hh
      refine ⟨hi, m, hm, hc, fun _ => ?_⟩
      rw [← memory_of_object K s m hm]
      simpa using c
  split at h
  · rename_i sa heq
    cases h
    exact ⟨(hal _ _ heq).1, fun _ _ hx => by cases hx⟩
  · rename_i sa firstLoad heq
    obtain ⟨hia, ma, hma, ca, hpa⟩ := hal _ _ heq
    have hpa' : ma.hostPtr ≠ none := hpa (by simp)
    have hd : syncTarget K mapping = some K.SYNC_DEVICE → ma.devPtr ≠ none := by
      intro hx
      rw [ht] at hx
      obtain ⟨d, hh, a, hD, hH', hA, hdh, -⟩ := hK
      rw [hD, hH'] at hx
      exact absurd (Nat.pow_right_injective (le_refl 2) (Option.some.inj hx)).symm hdh
    split at h
    · cases h
    · rename_i s1 heq1
      cases h
      exact ⟨mapSetupSync_consistent unmap K E sa _ mapping ns _ false ma hK ca hma
        (fun _ => hpa') hd hU hF hia heq1, fun _ _ hx => by cases hx⟩
    · rename_i s1 heq1
      have hi1 := mapSetupSync_consistent unmap K E sa s1 mapping ns _ true ma hK ca hma
        (fun _ => hpa') hd hU hF hia heq1
      simp only [Option.some.injEq, Prod.mk.injEq] at h
      obtain ⟨rfl, hr⟩ := h
      refine ⟨hi1, fun ptr fl hx => ⟨?_, hflag _ hr.symm⟩⟩
      rw [← hr] at hx
      simp only [Option.some.injEq, Prod.mk.injEq] at hx
      rw [hx.1]
      exact Option.some_ne_none _

/-- The device branch of `map` keeps the memory consistent, and when it
succeeds the device memory is allocated and its flag is clear. -/
theorem mapDevice_consistent (unmap : TextureMemory → Option TextureMemory) (K : Header)
    (E : Env) (s s' : TextureMemory) (mapping : Nat) (ns : Bool)
    (r : Option (Option Nat × Bool)) (m : TextureObject) (hK : K.SyncBits)
    (hc : s.isClear = false) (hm : s._object = some m) (hH : K.isDeviceMapping mapping)
    (hU : ∀ t t', unmap t = some t' → t.isClear = false → Consistent K t → Consistent K t')
    (hF : ∀ s s', unmap s = some s' → s.isClear = false →
      Frame (fun m : TextureObject => (m.hostPtr, m.devPtr)) s s')
    (hi : Consistent K s) (h : mapDevice unmap K E s mapping ns = some (s', r)) :
    Consistent K s' ∧
    (∀ ptr fl, r = some (some ptr, fl) →
      (memory K s').devPtr ≠ none ∧ hasFlag (memory K s').syncOp K.SYNC_DEVICE = false) := by
  have ht := syncTarget_device K mapping hH
  have hflag : ∀ x, r = some x → hasFlag (memory K s').syncOp K.SYNC_DEVICE = false := by
    intro x hx
    subst hx
    obtain ⟨d, hh, a, hD, hH', hA, -⟩ := hK
    have := mapDevice_flag unmap K E s s' mapping ns d x hD (by rw [← hD]; exact ht) h
    rw [hD]
    exact this
  unfold mapDevice at h
  dsimp only at h
  have hal : ∀ (sa : TextureMemory) (o : Option Bool),
      (if ((memory K s).devPtr == none) = true then
        match alloc K E s mapping with
        | (s, false) => (s, none)
        | (s, true) => (s, some true)
      else (s, some false)) = (sa, o) →
      Consistent K sa ∧ ∃ ma, sa._object = some ma ∧ sa.isClear = false ∧
        (o ≠ none → ma.devPtr ≠ none) := by
    intro sa o hh
    split_ifs at hh with c
    · have c' : (memory K s).devPtr = none := by simpa using c
      have hf := alloc_device_frame K E s mapping hH.1 hH.2.1
      rcases ha : alloc K E s mapping with ⟨sa', b⟩
      rw [ha] at hf hh
      have hsa : sa = sa' := by
        cases b <;> · cases hh; rfl
      subst hsa
      obtain ⟨ma, hma, hmem, e, ca⟩ := hf.facts K m hc hm
      have e1 : ma.syncOp = m.syncOp := by
        have := congrArg TextureObject.syncOp e
        exact this
      have e3 : ma.hostPtr = m.hostPtr := by
        have := congrArg TextureObject.hostPtr e
        exact this
      refine ⟨hi.of_eq ?_ ?_ (fun hx => absurd c' hx), ma, hma, ca, fun ho => ?_⟩
      · rw [hmem, memory_of_object K s m hm]
        exact e1
      · rw [hmem, memory_of_object K s m hm, e3]
        exact id
      · cases b
        · cases hh
          exact absurd rfl ho
        · rw [← hmem]
          exact alloc_device_some K E s sa m mapping hc hm hH.1 hH.2.1 ha
    · cases hh
      refine ⟨hi, m, hm, hc, fun _ => ?_⟩
      rw [← memory_of_object K s m hm]
      simpa using c
  split at h
  · rename_i sa heq
    cases h
    exact ⟨(hal _ _ heq).1, fun _ _ hx => by cases hx⟩
  · rename_i sa firstLoad heq
    obtain ⟨hia, ma, hma, ca, hpa⟩ := hal _ _ heq
    have hpa' : ma.devPtr ≠ none := hpa (by simp)
    have hh : syncTarget K mapping = some K.SYNC_HOST → ma.hostPtr ≠ none := by
      intro hx
      rw [ht] at hx
      obtain ⟨d, hh, a, hD, hH', hA, hdh, -⟩ := hK
      rw [hD, hH'] at hx
      exact absurd (Nat.pow_right_injective (le_refl 2) (Option.some.inj hx)) hdh
    split at h
    · cases h
    · rename_i s1 heq1
      cases h
      exact ⟨mapSetupSync_consistent unmap K E sa _ mapping ns _ false ma hK ca hma
        hh (fun _ => hpa') hU hF hia heq1, fun _ _ hx => by cases hx⟩
    · rename_i s1 heq1
      have hi1 := mapSetupSync_consistent unmap K E sa s1 mapping ns _ true ma hK ca hma
        hh (fun _ => hpa') hU hF hia heq1
      simp only [Option.some.injEq, Prod.mk.injEq] at h
      obtain ⟨rfl, hr⟩ := h
      refine ⟨hi1, fun ptr fl hx => ⟨?_, hflag _ hr.symm⟩⟩
      rw [← hr] at hx
      simp only [Option.some.injEq, Prod.mk.injEq] at hx
      rw [hx.1]
      exact Option.some_ne_none _

/-- The array branch of `map` keeps the memory consistent, and when it succeeds
the array flag is clear. -/
theorem mapArray_consistent (unmap : TextureMemory → Option TextureMemory) (K : Header)
    (E : Env) (s s' : TextureMemory) (mapping : Nat) (ns : Bool)
    (r : Option (Option Nat × Bool)) (m : TextureObject) (hK : K.SyncBits)
    (hc : s.isClear = false) (hm : s._object = some m) (hH : K.isArrayMapping mapping)
    (hU : ∀ t t', unmap t = some t' → t.isClear = false → Consistent K t → Consistent K t')
    (hF : ∀ s s', unmap s = some s' → s.isClear = false →
      Frame (fun m : TextureObject => (m.hostPtr, m.devPtr)) s s')
    (hi : Consistent K s) (h : mapArray unmap K E s mapping ns = some (s', r)) :
    Consistent K s' ∧
    (∀ x, r = some x → hasFlag (memory K s').syncOp K.SYNC_ARRAY = false) := by
  have ht := syncTarget_array K mapping hH
  have hflag : ∀ x, r = some x → hasFlag (memory K s').syncOp K.SYNC_ARRAY = false := by
    intro x hx
    subst hx
    obtain ⟨d, hh, a, hD, hH', hA, -⟩ := hK
    have := mapArray_flag unmap K E s s' mapping ns a x hA (by rw [← hA]; exact ht) h
    rw [hA]
    exact this
  refine ⟨?_, hflag⟩
  have hno : ∀ ma : TextureObject,
      (syncTarget K mapping = some K.SYNC_HOST → ma.hostPtr ≠ none) ∧
      (syncTarget K mapping = some K.SYNC_DEVICE → ma.devPtr ≠ none) := by
    intro ma
    obtain ⟨d, hh, a, hD, hH', hA, hdh, hda, hha⟩ := hK
    rw [ht, hD, hH', hA]
    refine ⟨fun hx => ?_, fun hx => ?_⟩
    · exact absurd (Nat.pow_right_injective (le_refl 2) (Option.some.inj hx)).symm hha
    · exact absurd (Nat.pow_right_injective (le_refl 2) (Option.some.inj hx)).symm hda
  unfold mapArray at h
  dsimp only at h
  have hal : ∀ (sa : TextureMemory) (o : Option Bool),
      (if ((memory K s).graphicsResource == none) = true then
        match alloc K E s mapping with
        | (s, false) => (s, none)
        | (s, true) => (s, some true)
      else (s, some false)) = (sa, o) →
      Frame TextureObject.core s sa := by
    intro sa o hh
    split_ifs at hh with c
    · have hf := alloc_array_frame K E s mapping hH.1 hH.2.1
      rcases ha : alloc K E s mapping with ⟨sa', b⟩
      rw [ha] at hf hh
      have hsa : sa = sa' := by
        cases b <;> · cases hh; rfl
      subst hsa
      exact hf.weaken TextureObject.core
    · cases hh
      exact Frame.refl _ _
  have hvbo : ∀ (sa sb : TextureMemory) (b : Bool),
      (if ((memory K sa).graphicsArray == none) = true then
        match call E sa .mapMapResources with
        | (s, none) => (s, false)
        | (s, some _) =>
          match call E s .mapGetMappedArray with
          | (s, none) => (s, false)
          | (s, some a) => (modify K s (fun m => { m with graphicsArray := some a }), true)
      else (sa, true)) = (sb, b) → Frame TextureObject.core sa sb := by
    intro sa sb b hh
    simp only [TextureMemory.call] at hh
    repeat' (first | split_ifs at hh | dsimp only at hh)
    all_goals
      cases hh
      repeat (first
        | with_reducible exact Frame.refl _ _
        | with_reducible apply Frame.emit_right
        | (with_reducible apply Frame.modify_keep
           rotate_left
           (intro _; rfl)))
  split at h
  · rename_i sa heq
    cases h
    exact hi.of_core m (hal _ _ heq) hm
  · rename_i sa firstLoad heq
    have fa := hal _ _ heq
    split at h
    · rename_i sb heqb
      cases h
      exact hi.of_core m (fa.trans (hvbo _ _ _ heqb)) hm
    · rename_i sb heqb
      have fb := fa.trans (hvbo _ _ _ heqb)
      obtain ⟨mb, hmb, -, -, cb⟩ := fb.facts K m hc hm
      have hib := hi.of_core m fb hm
      split at h
      · cases h
      · rename_i s1 heq1
        cases h
        exact mapSetupSync_consistent unmap K E sb _ mapping ns _ false mb hK cb hmb
          (hno mb).1 (hno mb).2 hU hF hib heq1
      · rename_i s1 heq1
        cases h
        exact mapSetupSync_consistent unmap K E sb _ mapping ns _ true mb hK cb hmb
          (hno mb).1 (hno mb).2 hU hF hib heq1

end osgCuda.TextureMemory

namespace osgCuda.TextureMemory

/-- The part MAP DATA of `map` keeps the memory consistent, and when it
succeeds the mapped representation has its flag clear and, if it is the host or
the device memory, is allocated. -/
theorem mapData_consistent (unmap : TextureMemory → Option TextureMemory) (K : Header)
    (E : Env) (s s' : TextureMemory) (mapping : Nat)
    (r : Option (Option Nat × Bool)) (m : TextureObject) (hK : K.SyncBits)
    (hc : s.isClear = false) (hm : s._object = some m)
    (hcls : K.isHostMapping mapping ∨ K.isDeviceMapping mapping ∨ K.isArrayMapping mapping)
    (hU : ∀ t t', unmap t = some t' → t.isClear = false → Consistent K t → Consistent K t')
    (hF : ∀ s s', unmap s = some s' → s.isClear = false →
      Frame (fun m : TextureObject => (m.hostPtr, m.devPtr)) s s')
    (hi : Consistent K s) (h : mapData unmap K E s mapping = some (s', r)) :
    Consistent K s' ∧
    (∀ ptr fl, r = some (some ptr, fl) →
      (K.isHostMapping mapping →
        (memory K s').hostPtr ≠ none ∧ hasFlag (memory K s').syncOp K.SYNC_HOST = false) ∧
      (K.isDeviceMapping mapping →
        (memory K s').devPtr ≠ none ∧ hasFlag (memory K s').syncOp K.SYNC_DEVICE = false) ∧
      (K.isArrayMapping mapping → hasFlag (memory K s').syncOp K.SYNC_ARRAY = false)) := by
  unfold mapData at h
  dsimp only at h
  obtain ⟨sw, hsw⟩ : ∃ sw, sw = modify K s (fun m => { m with mapping := mapping }) := ⟨_, rfl⟩
  rw [← hsw] at h
  have hmw : sw._object = some { m with mapping := mapping } := by
    rw [hsw, ← memory_of_object K s m hm]
    rfl
  have hcw : sw.isClear = false := by
    rw [hsw]
    exact hc
  have hiw : Consistent K sw := by
    rw [hsw]
    exact hi.of_eq rfl id id
  rcases hcls with hH | hD | hA
  · rw [if_pos hH.1] at h
    obtain ⟨c, f⟩ := mapHost_consistent unmap K E sw s' mapping _ r _ hK hcw hmw hH hU hF hiw h
    refine ⟨c, fun ptr fl hr => ⟨fun _ => f ptr fl hr, fun hx => ?_, fun hx => ?_⟩⟩
    · exact absurd hH.1 (by rw [hx.1]; exact Bool.false_ne_true)
    · exact absurd hH.1 (by rw [hx.1]; exact Bool.false_ne_true)
  · rw [if_neg (by rw [hD.1]; exact Bool.false_ne_true),
      if_neg (by rw [hD.2.1]; exact Bool.false_ne_true), if_pos hD.2.2.1] at h
    obtain ⟨c, f⟩ :=
      mapDevice_consistent unmap K E sw s' mapping _ r _ hK hcw hmw hD hU hF hiw h
    refine ⟨c, fun ptr fl hr => ⟨fun hx => ?_, fun _ => f ptr fl hr, fun hx => ?_⟩⟩
    · exact absurd hx.1 (by rw [hD.1]; exact Bool.false_ne_true)
    · exact absurd hx.2.1 (by rw [hD.2.1]; exact Bool.false_ne_true)
  · rw [if_neg (by rw [hA.1]; exact Bool.false_ne_true), if_pos hA.2.1] at h
    obtain ⟨c, f⟩ :=
      mapArray_consistent unmap K E sw s' mapping _ r _ hK hcw hmw hA hU hF hiw h
    refine ⟨c, fun ptr fl hr => ⟨fun hx => ?_, fun hx => ?_, fun _ => f _ hr⟩⟩
    · exact absurd hx.1 (by rw [hA.1]; exact Bool.false_ne_true)
    · exact absurd hA.2.1 (by rw [hx.2.1]; exact Bool.false_ne_true)

/-- The render-target block of `map` keeps the memory consistent: it sets the
device and the host flag only when the array flag is clear. -/
theorem mapRenderTarget_consistent (K : Header) (E : Env) (s s' : TextureMemory)
    (m : TextureObject) (b : Bool) (hK : K.SyncBits) (hm : s._object = some m)
    (hi : Consistent K s) (h : mapRenderTarget K E s = (s', b)) : Consistent K s' := by
  unfold mapRenderTarget at h
  by_cases c : (hasFlag s.usage K.GL_TARGET && !hasFlag (memory K s).syncOp K.SYNC_ARRAY) = true
  · rw [if_pos c] at h
    have hreg : ∀ (sx : TextureMemory) (bx : Bool),
        (if ((memory K s).graphicsResource == none) = true then
          match findTextureObject E s .mapCompileGLObjects with
          | (s, false) => (s, false)
          | (s, true) =>
            match call E s .mapRegisterImage with
            | (s, none) => (s, false)
            | (s, some r) =>
              (modify K s (fun m => { m with graphicsResource := some r }), true)
        else (s, true)) = (sx, bx) → Frame TextureObject.core s sx := by
      intro sx bx hh
      simp only [TextureMemory.call, findTextureObject, TextureMemory.callVoid] at hh
      repeat' (first | split_ifs at hh | dsimp only at hh)
      all_goals
        cases hh
        repeat (first
          | with_reducible exact Frame.refl _ _
          | with_reducible apply Frame.emit_right
          | (with_reducible apply Frame.modify_keep
             rotate_left
             (intro _; rfl)))
    dsimp only at h
    split at h
    · rename_i sx heq
      cases h
      exact hi.of_core m (hreg _ _ heq) hm
    · rename_i sx heq
      cases h
      have e := (hreg _ _ heq).memory_eq K m hm
      have e1 : (memory K sx).syncOp = m.syncOp := by
        have := congrArg TextureObject.syncOp e
        exact this
      have hA : hasFlag m.syncOp K.SYNC_ARRAY = false := by
        rw [memory_of_object K s m hm] at c
        simpa using ((Bool.and_eq_true _ _).mp c).2
      obtain ⟨d, hh, a, hD, hH, hAb, hdh, hda, hha⟩ := hK
      refine Consistent.of_array_clear K _ ?_ ?_ ?_
      · simp only [memory_modify]
        rw [e1, hD, hH, hAb, hasFlag_or_of_ne _ _ _ hha, hasFlag_or_of_ne _ _ _ hda, ← hAb]
        exact hA
      · simp only [memory_modify]
        rw [hD, hH]
        exact hasFlag_or_of_hasFlag _ _ _ (hasFlag_or_two_pow_self _ _)
      · simp only [memory_modify]
        rw [hD, hH]
        exact hasFlag_or_two_pow_self _ _
  · rw [if_neg c] at h
    cases h
    exact hi

/-- The end of `map` keeps the memory consistent when the flag of the mapped
representation is clear and the representation is the array or is allocated. -/
theorem mapFinish_consistent (K : Header) (s : TextureMemory) (m : TextureObject)
    (mapping offset ptr : Nat) (firstLoad : Bool) (hK : K.SyncBits)
    (hm : s._object = some m) (hi : Consistent K s)
    (hH : K.isHostMapping mapping →
      (memory K s).hostPtr ≠ none ∧ hasFlag (memory K s).syncOp K.SYNC_HOST = false)
    (hD : K.isDeviceMapping mapping →
      (memory K s).devPtr ≠ none ∧ hasFlag (memory K s).syncOp K.SYNC_DEVICE = false)
    (hA : K.isArrayMapping mapping → hasFlag (memory K s).syncOp K.SYNC_ARRAY = false)
    (hcls : K.isHostMapping mapping ∨ K.isDeviceMapping mapping ∨ K.isArrayMapping mapping) :
    Consistent K (mapFinish K s mapping offset ptr firstLoad).1 := by
  have hs := mapFinish_syncOp K s mapping offset ptr firstLoad
  have e := (mapFinish_frame K s mapping offset ptr firstLoad).memory_eq K m hm
  rw [← memory_of_object K s m hm] at e
  have e2 : (memory K (mapFinish K s mapping offset ptr firstLoad).1).hostPtr =
      (memory K s).hostPtr := by
    have := congrArg TextureObject.hostPtr e
    exact this
  have e3 : (memory K (mapFinish K s mapping offset ptr firstLoad).1).devPtr =
      (memory K s).devPtr := by
    have := congrArg TextureObject.devPtr e
    exact this
  have same : (memory K (mapFinish K s mapping offset ptr firstLoad).1).syncOp =
      (memory K s).syncOp → Consistent K (mapFinish K s mapping offset ptr firstLoad).1 :=
    fun hx => hi.of_eq hx (by rw [e2]; exact id) (by rw [e3]; exact id)
  obtain ⟨d, hh, a, hDb, hHb, hAb, hdh, hda, hha⟩ := hK
  rw [hDb, hHb, hAb] at hs
  rcases hcls with c | c | c
  · obtain ⟨hp, hf⟩ := hH c
    rw [if_neg (by rw [c.2.2.2.1]; exact Bool.false_ne_true),
      if_neg (by rw [c.2.2.2.2]; exact Bool.false_ne_true)] at hs
    split_ifs at hs
    · refine Consistent.of_host_clear K _ ?_ ?_ (by rw [e2]; exact hp)
      · rw [hs, hHb, hasFlag_or_of_ne _ _ _ hdh, hasFlag_or_of_ne _ _ _ (Ne.symm hha), ← hHb]
        exact hf
      · rw [hs, hDb]
        exact hasFlag_or_two_pow_self _ _
    · exact same hs
  · obtain ⟨hp, hf⟩ := hD c
    rw [if_neg (by rw [c.2.2.2.1]; exact Bool.false_ne_true)] at hs
    split_ifs at hs with c1 c2
    · refine Consistent.of_device_clear K _ ?_ (by rw [e3]; exact hp)
      rw [hs, hDb, hasFlag_or_of_ne _ _ _ (Ne.symm hdh),
        hasFlag_or_of_ne _ _ _ (Ne.symm hda), ← hDb]
      exact hf
    · exact absurd (c.2.2.2.2 c2) c1
    · exact same hs
  · have hf := hA c
    split_ifs at hs with c1 c2 c3
    · refine Consistent.of_array_clear K _ ?_ ?_ ?_
      · rw [hs, hAb, hasFlag_or_of_ne _ _ _ hha, hasFlag_or_of_ne _ _ _ hda, ← hAb]
        exact hf
      · rw [hs, hDb]
        exact hasFlag_or_of_hasFlag _ _ _ (hasFlag_or_two_pow_self _ _)
      · rw [hs, hHb]
        exact hasFlag_or_two_pow_self _ _
    · exact absurd c2 (by rw [(c.2.2 (by simpa using c1)).1]; exact Bool.false_ne_true)
    · exact absurd c3 (by rw [(c.2.2 (by simpa using c1)).2]; exact Bool.false_ne_true)
    · exact same hs

/-- The part of `map` that follows RECEIVE HANDLE keeps the memory
consistent. -/
theorem mapMain_consistent (unmap : TextureMemory → Option TextureMemory) (K : Header)
    (E : Env) (s s' : TextureMemory) (mapping offset : Nat) (r : Option Nat)
    (m : TextureObject) (hK : K.SyncBits) (hc : s.isClear = false) (hm : s._object = some m)
    (hcls : K.isHostMapping mapping ∨ K.isDeviceMapping mapping ∨ K.isArrayMapping mapping)
    (hU : ∀ t t', unmap t = some t' → t.isClear = false → Consistent K t → Consistent K t')
    (hF : ∀ s s', unmap s = some s' → s.isClear = false →
      Frame (fun m : TextureObject => (m.hostPtr, m.devPtr)) s s')
    (hS : ∀ s s', unmap s = some s' → s.isClear = false → FlagStep K s s')
    (hi : Consistent K s) (h : mapMain unmap K E s mapping offset = some (s', r)) :
    Consistent K s' := by
  unfold mapMain at h
  rcases hr : mapRenderTarget K E s with ⟨s2, b2⟩
  rw [hr] at h
  have hi2 := mapRenderTarget_consistent K E s s2 m b2 hK hm hi hr
  cases b2
  · cases h
    exact hi2
  · have f2 := mapRenderTarget_frame K E s
    rw [hr] at f2
    obtain ⟨m2, hm2, -, -, c2⟩ := f2.facts K m hc hm
    dsimp only at h
    rcases hd : mapData unmap K E s2 mapping with _ | ⟨s4, r4⟩
    · rw [hd] at h
      cases h
    · rw [hd] at h
      obtain ⟨hi4, own⟩ := mapData_consistent unmap K E s2 s4 mapping r4 m2 hK c2 hm2 hcls
        hU hF hi2 hd
      obtain ⟨m4, hm4, -, -, c4⟩ :=
        (mapData_step unmap K E s2 s4 mapping r4 hK hS hd).1.facts K m2 c2 hm2
      rcases r4 with _ | ⟨_ | ptr, fl⟩
      · cases h
        exact hi4
      · cases h
        exact hi4
      · simp only [Option.some.injEq] at h
        obtain ⟨o1, o2, o3⟩ := own ptr fl rfl
        have := mapFinish_consistent K s4 m4 mapping offset ptr fl hK hm4 hi4 o1 o2 o3 hcls
        rw [h] at this
        exact this

end osgCuda.TextureMemory

namespace osgCuda.TextureMemory

/-- The step `init()` at the start of `map`, `unmap` and `reset` keeps the
memory consistent and leaves a clear descriptor without an object. -/
theorem entry_consistent (K : Header) (E : Env) (s s0 : TextureMemory) (b0 : Bool)
    (hwf : s.isClear = true → s._object = none) (hv : E.texrefValid = true)
    (hi : Consistent K s)
    (h : (if s.isClear then init E s else (s, true)) = (s0, b0)) :
    Consistent K s0 ∧ (s0.isClear = true → s0._object = none) ∧
    (b0 = true → s0.isClear = false) := by
  cases hc : s.isClear
  · simp only [hc, Bool.false_eq_true, if_false] at h
    cases h
    exact ⟨hi, hwf, fun _ => hc⟩
  · simp only [hc, if_true] at h
    obtain ⟨o0, c0, -, -⟩ := init_keeps E s s0 b0 hc (hwf hc) hv h
    have hmem : memory K s0 = memory K s := by simp [memory, o0, hwf hc]
    refine ⟨hi.of_eq (by rw [hmem]) (by rw [hmem]; exact id) (by rw [hmem]; exact id),
      fun _ => o0, fun hb => ?_⟩
    rw [c0, hb]
    rfl

/-- A frame keeps the descriptor, and with it `isClear`. -/
theorem Frame.isClear_eq {α : Type} {n : TextureObject → α} {s s' : TextureMemory}
    (h : Frame n s s') : s'.isClear = s.isClear := by
  have := congrArg TextureMemory.isClear h.1
  exact this

/-- The method `map` keeps the memory consistent, and leaves a clear descriptor
without an object, for the mapping `UNMAP` and for the mappings that are
handled as mappings of one representation. -/
theorem mapBody_consistent (unmap : TextureMemory → Option TextureMemory) (K : Header)
    (E : Env) (s s' : TextureMemory) (mapping offset : Nat) (r : Option Nat)
    (hK : K.SyncBits) (hwf : s.isClear = true → s._object = none)
    (hcls : mapping = K.UNMAP ∨ K.isHostMapping mapping ∨ K.isDeviceMapping mapping ∨
      K.isArrayMapping mapping)
    (hU : ∀ t t', unmap t = some t' → t.isClear = false → Consistent K t → Consistent K t')
    (hF : ∀ s s', unmap s = some s' → s.isClear = false →
      Frame (fun m : TextureObject => (m.hostPtr, m.devPtr)) s s')
    (hS : ∀ s s', unmap s = some s' → s.isClear = false → FlagStep K s s')
    (hi : Consistent K s) (h : mapBody unmap K E s mapping offset = some (s', r)) :
    Consistent K s' ∧ (s'.isClear = true → s'._object = none) := by
  by_cases hne : mapping = K.UNMAP
  · unfold mapBody at h
    cases hv : E.texrefValid
    · simp only [hv, Bool.not_false, if_true] at h
      cases h
      exact ⟨hi, hwf⟩
    · simp only [hv, Bool.not_true, Bool.false_eq_true, if_false] at h
      rcases h0 : (if s.isClear then init E s else (s, true)) with ⟨s0, b0⟩
      obtain ⟨hi0, w0, c0⟩ := entry_consistent K E s s0 b0 hwf hv hi h0
      rw [h0] at h
      cases b0
      · cases h
        exact ⟨hi0, w0⟩
      · have hu : (mapping == K.UNMAP) = true := by simpa using hne
        simp only [hu, if_true] at h
        split at h
        · cases h
        · rename_i s2 heq
          cases h
          refine ⟨hU s0 _ heq (c0 rfl) hi0, fun hx => ?_⟩
          rw [(hS s0 _ heq (c0 rfl)).1.isClear_eq, c0 rfl] at hx
          cases hx
  · have hcls' : K.isHostMapping mapping ∨ K.isDeviceMapping mapping ∨
        K.isArrayMapping mapping := hcls.resolve_left hne
    rcases mapBody_cases unmap K E s s' mapping offset r hne h with
      ⟨-, -, e⟩ | ⟨-, hv, hc, h0⟩ | ⟨s0, s1, m1, hv, h0, ho, hmain⟩
    · rw [e]
      exact ⟨hi, hwf⟩
    · have h0' : (if s.isClear then init E s else (s, true)) = (s', false) := by
        simp only [hc, if_true]
        exact h0
      obtain ⟨hi0, w0, -⟩ := entry_consistent K E s s' false hwf hv hi h0'
      exact ⟨hi0, w0⟩
    · obtain ⟨c1, hm1, -, -, -, e, -⟩ := enter K E s s0 s1 m1 h0 ho
      have e1 : m1.syncOp = (memory K s).syncOp := by
        have := congrArg TextureObject.syncOp e
        exact this
      have e2 : m1.hostPtr = (memory K s).hostPtr := by
        have := congrArg TextureObject.hostPtr e
        exact this
      have e3 : m1.devPtr = (memory K s).devPtr := by
        have := congrArg TextureObject.devPtr e
        exact this
      have hi1 : Consistent K s1 := by
        refine hi.of_eq ?_ ?_ ?_
        · rw [memory_of_object K s1 m1 hm1]
          exact e1
        · rw [memory_of_object K s1 m1 hm1, e2]
          exact id
        · rw [memory_of_object K s1 m1 hm1, e3]
          exact id
      refine ⟨mapMain_consistent unmap K E s1 s' mapping offset r m1 hK c1 hm1 hcls' hU hF hS
        hi1 hmain, fun hx => ?_⟩
      rw [(mapMain_step unmap K E s1 s' mapping offset r hK hS hmain).1.isClear_eq, c1] at hx
      cases hx

/-- The block of `unmap` that marks the host and the device memory leaves the
memory consistent: it assigns the device and the host flag. -/
theorem unmapMark_consistent (K : Header) (E : Env) (s : TextureMemory) (hK : K.SyncBits)
    (hi : Consistent K s) : Consistent K (unmapMark K E s) := by
  unfold unmapMark
  split
  · split_ifs
    · obtain ⟨d, hh, a, hD, hH, hA, hdh, hda, hha⟩ := hK
      refine Consistent.of_array_clear K _ ?_ ?_ ?_
      · simp only [memory_modify]
        rw [hD, hH, hA, hasFlag_or_of_ne _ _ _ hha, hasFlag_two_pow, Nat.testBit_two_pow]
        simpa using hda
      · simp only [memory_modify]
        rw [hD, hH]
        exact hasFlag_or_of_hasFlag _ _ _ (by rw [hasFlag_two_pow, Nat.testBit_two_pow]; simp)
      · simp only [memory_modify]
        rw [hD, hH]
        exact hasFlag_or_two_pow_self _ _
    · exact hi
  · exact hi

/-- The end of `unmap` keeps the memory consistent. -/
theorem unmapRelease_consistent (K : Header) (E : Env) (s : TextureMemory)
    (hi : Consistent K s) : Consistent K (unmapRelease K E s) := by
  unfold unmapRelease
  simp only [TextureMemory.call]
  repeat' (first | split_ifs | split | dsimp only)
  all_goals
    rename_i heq
    repeat' (first | split_ifs at heq | dsimp only at heq)
    all_goals first
      | (cases heq; done)
      | (cases heq
         exact hi.of_eq rfl id id)

/-- The method `unmap` keeps the memory consistent, and leaves a clear descriptor
without an object, when the `map` it calls to flush the array does. -/
theorem unmapBody_consistent
    (map : TextureMemory → Nat → Nat → Option (TextureMemory × Option Nat))
    (K : Header) (E : Env) (s s' : TextureMemory) (hK : K.SyncBits)
    (hwf : s.isClear = true → s._object = none)
    (hM : ∀ t t' r, map t K.MAP_DEVICE_ARRAY 0 = some (t', r) → t.isClear = false →
      Consistent K t → Consistent K t' ∧ t'.isClear = false)
    (hi : Consistent K s) (h : unmapBody map K E s = some s') :
    Consistent K s' ∧ (s'.isClear = true → s'._object = none) := by
  unfold unmapBody at h
  cases hv : E.texrefValid
  · simp only [hv, Bool.not_false, if_true] at h
    cases h
    exact ⟨hi, hwf⟩
  · simp only [hv, Bool.not_true, Bool.false_eq_true, if_false] at h
    rcases h0 : (if s.isClear then init E s else (s, true)) with ⟨s0, b0⟩
    obtain ⟨hi0, w0, c0⟩ := entry_consistent K E s s0 b0 hwf hv hi h0
    rw [h0] at h
    cases b0
    · cases h
      exact ⟨hi0, w0⟩
    · dsimp only at h
      rcases ho : TextureMemory.object K s0 with ⟨s1, _ | m1⟩
      · rw [ho] at h
        cases h
        rw [(object_spec K s0 _ none ho).2.2 rfl]
        exact ⟨hi0, w0⟩
      · rw [ho] at h
        obtain ⟨hm1, c1⟩ := object_some K s0 s1 m1 ho
        obtain ⟨v1, -, -, -⟩ := object_version K s0 s1 m1 ho
        obtain ⟨p1, p2, -⟩ := object_memory K s0 s1 m1 ho
        have hi1 : Consistent K s1 := by
          refine hi0.of_eq ?_ ?_ ?_
          · rw [memory_of_object K s1 m1 hm1]
            exact v1
          · rw [memory_of_object K s1 m1 hm1, p1]
            exact id
          · rw [memory_of_object K s1 m1 hm1, p2]
            exact id
        have hrel : ∀ t, Consistent K t → t.isClear = false →
            Consistent K (unmapRelease K E (unmapMark K E t)) ∧
            ((unmapRelease K E (unmapMark K E t)).isClear = true →
              (unmapRelease K E (unmapMark K E t))._object = none) := by
          intro t hit hct
          refine ⟨unmapRelease_consistent K E _ (unmapMark_consistent K E t hK hit),
            fun hx => ?_⟩
          rw [(unmapRelease_frame K E t).isClear_eq, hct] at hx
          cases hx
        dsimp only at h
        split_ifs at h with ca
        · rcases hmap : map s1 K.MAP_DEVICE_ARRAY 0 with _ | ⟨s2, _ | p⟩
          · rw [hmap] at h
            cases h
          · rw [hmap] at h
            cases h
            obtain ⟨hi2, c2⟩ := hM s1 _ none hmap c1 hi1
            exact ⟨hi2, fun hx => by rw [c2] at hx; cases hx⟩
          · rw [hmap] at h
            cases h
            obtain ⟨hi2, c2⟩ := hM s1 _ (some p) hmap c1 hi1
            exact hrel _ hi2 c2
        · cases h
          exact hrel _ hi1 c1

/-- The method `unmap` keeps the memory consistent and leaves a clear
descriptor without an object, at every depth of recursion. -/
theorem unmap_consistent (K : Header) (E : Env) (hK : K.SyncBits)
    (hA : K.isArrayMapping K.MAP_DEVICE_ARRAY) :
    ∀ (fuel : Nat) (s s' : TextureMemory), unmap K E fuel s = some s' →
      (s.isClear = true → s._object = none) → Consistent K s →
      Consistent K s' ∧ (s'.isClear = true → s'._object = none) := by
  intro fuel
  induction fuel with
  | zero =>
    intro s s' h
    cases h
  | succ fuel ih =>
    intro s s' h hwf hi
    unfold unmap at h
    refine unmapBody_consistent _ K E s s' hK hwf (fun t t' r hm hct hit => ?_) hi h
    have hU : ∀ t t', unmap K E fuel t = some t' → t.isClear = false → Consistent K t →
        Consistent K t' :=
      fun t t' hu hc hx => (ih t t' hu (fun hx' => by rw [hc] at hx'; cases hx') hx).1
    refine ⟨(mapBody_consistent (unmap K E fuel) K E t t' K.MAP_DEVICE_ARRAY 0 r hK
      (fun hx' => by rw [hct] at hx'; cases hx') (Or.inr (Or.inr (Or.inr hA))) hU
      (unmap_frame K E hA.1 fuel) (unmap_step K E hK hA fuel) hit hm).1, ?_⟩
    rw [(mapBody_step (unmap K E fuel) K E t t' K.MAP_DEVICE_ARRAY 0 r hK hct
      (unmap_step K E hK hA fuel) hm).1.isClear_eq]
    exact hct

end osgCuda.TextureMemory

namespace osgCuda.TextureMemory

/-- The block "Reset host memory" of `reset` keeps the memory consistent. -/
theorem resetHost_consistent (K : Header) (E : Env) (s : TextureMemory)
    (hi : Consistent K s) :
    Consistent K (resetHost K E s) ∧ (resetHost K E s).isClear = s.isClear := by
  unfold resetHost
  split_ifs
  · exact ⟨hi.of_eq rfl id id, rfl⟩
  · exact ⟨hi, rfl⟩

/-- The block "clear shadow-copy memory" of `reset` keeps the memory
consistent. -/
theorem resetDevice_consistent (K : Header) (E : Env) (fuel : Nat) (s s' : TextureMemory)
    (b : Bool) (hK : K.SyncBits) (hA : K.isArrayMapping K.MAP_DEVICE_ARRAY)
    (hc : s.isClear = false) (hi : Consistent K s)
    (h : resetDevice K E fuel s = some (s', b)) :
    Consistent K s' ∧ (s'.isClear = true → s'._object = none) := by
  have hun : ∀ t t', unmap K E fuel t = some t' → t.isClear = false → Consistent K t →
      Consistent K t' ∧ (t'.isClear = true → t'._object = none) :=
    fun t t' hu hct hit =>
      unmap_consistent K E hK hA fuel t t' hu (fun hx => by rw [hct] at hx; cases hx) hit
  have hp := getPitch_fst E s
  have hip : Consistent K (getPitch E s).1 := by
    refine hi.of_eq ?_ ?_ ?_
    · simp only [memory, hp.2.2.2.2]
    · simp only [memory, hp.2.2.2.2]
      exact id
    · simp only [memory, hp.2.2.2.2]
      exact id
  have hcp : (getPitch E s).1.isClear = false := by rw [hp.1, hc]
  unfold resetDevice at h
  split_ifs at h with c1 c2 c3
  · rcases hg : getPitch E s with ⟨sp, pitch⟩
    rw [hg] at h hip hcp
    simp only [TextureMemory.call] at h
    split_ifs at h
    · cases h
      exact ⟨hip.of_eq rfl id id, fun hx => by
        have : sp.isClear = true := hx
        rw [hcp] at this
        cases this⟩
    · dsimp only at h
      split at h
      · cases h
      · rename_i t' heq
        cases h
        exact hun _ _ heq hcp (hip.of_eq rfl id id)
  · simp only [TextureMemory.call] at h
    split_ifs at h
    · cases h
      exact ⟨hi.of_eq rfl id id, fun hx => by
        have : s.isClear = true := hx
        rw [hc] at this
        cases this⟩
    · dsimp only at h
      split at h
      · cases h
      · rename_i t' heq
        cases h
        exact hun _ _ heq hc (hi.of_eq rfl id id)
  · simp only [TextureMemory.call] at h
    split_ifs at h
    · cases h
      exact ⟨hi.of_eq rfl id id, fun hx => by
        have : s.isClear = true := hx
        rw [hc] at this
        cases this⟩
    · dsimp only at h
      split at h
      · cases h
      · rename_i t' heq
        cases h
        exact hun _ _ heq hc (hi.of_eq rfl id id)
  · cases h
    exact ⟨hi, fun hx => by rw [hc] at hx; cases hx⟩

/-- The method `reset` keeps the memory consistent and leaves a clear
descriptor without an object. -/
theorem reset_consistent (K : Header) (E : Env) (fuel : Nat) (s s' : TextureMemory)
    (b : Bool) (hK : K.SyncBits) (hA : K.isArrayMapping K.MAP_DEVICE_ARRAY)
    (hN : K.NO_SYNC = 0) (hwf : s.isClear = true → s._object = none) (hi : Consistent K s)
    (h : reset K E fuel s = some (s', b)) :
    Consistent K s' ∧ (s'.isClear = true → s'._object = none) := by
  unfold reset at h
  cases hv : E.texrefValid
  · simp only [hv, Bool.not_false, if_true] at h
    cases h
    exact ⟨hi, hwf⟩
  · simp only [hv, Bool.not_true, Bool.false_eq_true, if_false] at h
    rcases h0 : (if s.isClear then init E s else (s, true)) with ⟨s0, b0⟩
    obtain ⟨hi0, w0, c0⟩ := entry_consistent K E s s0 b0 hwf hv hi h0
    rw [h0] at h
    cases b0
    · cases h
      exact ⟨hi0, w0⟩
    · dsimp only at h
      rcases ho : TextureMemory.object K s0 with ⟨s1, _ | m1⟩
      · rw [ho] at h
        cases h
        rw [(object_spec K s0 _ none ho).2.2 rfl]
        exact ⟨hi0, w0⟩
      · rw [ho] at h
        obtain ⟨hm1, c1⟩ := object_some K s0 s1 m1 ho
        dsimp only at h
        obtain ⟨sz, hsz⟩ : ∃ sz, sz = modify K
            (modify K s1 (fun m => { m with lastModifiedCount := UINT_MAX }))
            (fun m => { m with syncOp := K.NO_SYNC }) := ⟨_, rfl⟩
        rw [← hsz] at h
        have hz : (memory K sz).syncOp = 0 := by
          rw [hsz]
          exact hN
        have hiz : Consistent K sz :=
          Consistent.of_no_flags K sz (by rw [hz]; simp [hasFlag]) (by rw [hz]; simp [hasFlag])
            (by rw [hz]; simp [hasFlag])
        have hcz : sz.isClear = false := by
          rw [hsz]
          exact c1
        obtain ⟨hih, hch⟩ := resetHost_consistent K E sz hiz
        exact resetDevice_consistent K E fuel _ s' b hK hA (by rw [hch, hcz]) hih h

/-- A state that a caller reaches is consistent, and its descriptor is clear
only without an object. -/
theorem reachable_consistent (K : Header) (hK : K.SyncBits) (hC : K.Classified)
    (hN : K.NO_SYNC = 0) (s : TextureMemory) (hr : Reachable K s) :
    Consistent K s ∧ (s.isClear = true → s._object = none) := by
  obtain ⟨cH, cHS, cHT, cD, cDS, cDT, cA⟩ := hC
  induction hr with
  | fresh usage =>
    refine ⟨Consistent.of_no_flags K _ ?_ ?_ ?_, fun _ => rfl⟩ <;>
      · have : (memory K (setUsage (create K) usage)).syncOp = 0 := hN
        rw [this]
        simp [hasFlag]
  | byMap E fuel s s' mapping offset r _ hs hm ih =>
    have hcls : mapping = K.UNMAP ∨ K.isHostMapping mapping ∨ K.isDeviceMapping mapping ∨
        K.isArrayMapping mapping := by
      unfold supportsMapping at hs
      split_ifs at hs
      simp only [Bool.or_eq_true, beq_iff_eq] at hs
      rcases hs with ((((((e | e) | e) | e) | e) | e) | e) | e
      · exact Or.inl e
      · exact Or.inr (Or.inl (e ▸ cH))
      · exact Or.inr (Or.inl (e ▸ cHS))
      · exact Or.inr (Or.inl (e ▸ cHT))
      · exact Or.inr (Or.inr (Or.inl (e ▸ cD)))
      · exact Or.inr (Or.inr (Or.inl (e ▸ cDS)))
      · exact Or.inr (Or.inr (Or.inl (e ▸ cDT)))
      · exact Or.inr (Or.inr (Or.inr (e ▸ cA)))
    exact mapBody_consistent (unmap K E fuel) K E s s' mapping offset r hK ih.2 hcls
      (fun t t' hu hc hx =>
        (unmap_consistent K E hK cA fuel t t' hu (fun hx' => by rw [hc] at hx'; cases hx')
          hx).1)
      (unmap_frame K E cA.1 fuel) (unmap_step K E hK cA fuel) ih.1 hm
  | byUnmap E fuel s s' _ hu ih =>
    exact unmap_consistent K E hK cA fuel s s' hu ih.2 ih.1
  | byReset E fuel s s' b _ hres ih =>
    exact reset_consistent K E fuel s s' b hK cA hN ih.2 ih.1 hres

end osgCuda.TextureMemory

/-! ### The memories `sync` copies from -/

namespace osgCuda.TextureMemory

/-- Two extensions of the trace whose events have a property. -/
theorem delta_trans {P : Event → Prop} {s1 s2 s3 : TextureMemory}
    (h1 : ∃ t, s2.trace = s1.trace ++ t ∧ ∀ e ∈ t, P e)
    (h2 : ∃ t, s3.trace = s2.trace ++ t ∧ ∀ e ∈ t, P e) :
    ∃ t, s3.trace = s1.trace ++ t ∧ ∀ e ∈ t, P e := by
  obtain ⟨t1, e1, p1⟩ := h1
  obtain ⟨t2, e2, p2⟩ := h2
  refine ⟨t1 ++ t2, by rw [e2, e1, List.append_assoc], fun e he => ?_⟩
  rcases List.mem_append.mp he with he | he
  · exact p1 e he
  · exact p2 e he

theorem delta_refl {P : Event → Prop} (s : TextureMemory) :
    ∃ t, s.trace = s.trace ++ t ∧ ∀ e ∈ t, P e :=
  ⟨[], by simp, fun e he => by cases he⟩

/-- The events of one copy primitive. -/
theorem copyCall_delta {P : Event → Prop} (E : Env) (s s' : TextureMemory) (site : Site)
    (u : TextureObject → TextureObject) (b : Bool) (hP : ∀ ok, P (.call site ok))
    (h : copyCall E s site u = (s', b)) :
    ∃ t, s'.trace = s.trace ++ t ∧ ∀ e ∈ t, P e := by
  refine ⟨[.call site (E.ok s.trace.length site)], ?_, fun e he => ?_⟩
  · unfold copyCall TextureMemory.call at h
    split_ifs at h with hok
    · dsimp only at h
      split at h <;> cases h <;> simp [TextureMemory.emit, TextureMemory.setObject, hok]
    · cases h
      simp [TextureMemory.emit, hok]
  · simp only [List.mem_singleton] at he
    rw [he]
    exact hP _

/-- The events of the registration and mapping of the texture in `sync`. -/
theorem syncMapArray_delta {P : Event → Prop} (E : Env) (s s' : TextureMemory)
    (m : TextureObject) (r1 r2 r3 : Site) (b : Bool)
    (hP : ∀ ok, P (.call r1 ok) ∧ P (.call r2 ok) ∧ P (.call r3 ok))
    (h : syncMapArray E s m r1 r2 r3 = (s', b)) :
    ∃ t, s'.trace = s.trace ++ t ∧ ∀ e ∈ t, P e := by
  have one : ∀ (sx : TextureMemory) (site : Site), (∀ ok, P (.call site ok)) →
      ∃ t, (call E sx site).1.trace = sx.trace ++ t ∧ ∀ e ∈ t, P e := by
    intro sx site hs
    refine ⟨[.call site (E.ok sx.trace.length site)], rfl, fun e he => ?_⟩
    simp only [List.mem_singleton] at he
    rw [he]
    exact hs _
  have keep : ∀ (sx : TextureMemory) (mx : TextureObject),
      ∃ t, (setObject sx mx).trace = sx.trace ++ t ∧ ∀ e ∈ t, P e :=
    fun sx mx => ⟨[], by simp [TextureMemory.setObject], fun e he => by cases he⟩
  unfold syncMapArray at h
  dsimp only at h
  split at h
  · rename_i s1 heq
    cases h
    split_ifs at heq
    · cases heq
      exact delta_refl _
    · split at heq
      · rename_i sa hca
        cases heq
        have := one s r1 (fun ok => (hP ok).1)
        rw [hca] at this
        exact this
      · cases heq
    · cases heq
  · rename_i s1 m1 heq
    have d1 : ∃ t, s1.trace = s.trace ++ t ∧ ∀ e ∈ t, P e := by
      split_ifs at heq
      · cases heq
      · split at heq
        · cases heq
        · rename_i sa ra hca
          cases heq
          have := one s r1 (fun ok => (hP ok).1)
          rw [hca] at this
          exact delta_trans this (keep _ _)
      · cases heq
        exact delta_refl _
    refine delta_trans d1 ?_
    split_ifs at h
    · split at h
      · rename_i sa hca
        cases h
        have := one s1 r2 (fun ok => (hP ok).2.1)
        rw [hca] at this
        exact this
      · rename_i sa ra hca
        have da := one s1 r2 (fun ok => (hP ok).2.1)
        rw [hca] at da
        refine delta_trans da ?_
        split at h
        · rename_i sb hcb
          cases h
          have := one sa r3 (fun ok => (hP ok).2.2)
          rw [hcb] at this
          exact this
        · rename_i sb rb hcb
          cases h
          have := one sa r3 (fun ok => (hP ok).2.2)
          rw [hcb] at this
          exact delta_trans this (keep _ _)
    · cases h
      exact delta_refl _

/-- The copy of the array branch of `sync` is from the host memory when the
device flag is set, else from the device memory. -/
theorem syncArrayCopy_sources {hp dp : Prop} (K : Header) (E : Env) (s s' : TextureMemory)
    (m : TextureObject) (b : Bool)
    (hh : hasFlag m.syncOp K.SYNC_DEVICE = true → hp)
    (hd : hasFlag m.syncOp K.SYNC_DEVICE = false → dp)
    (h : syncArrayCopy K E s m = (s', b)) : Sourced hp dp s s' := by
  unfold syncArrayCopy at h
  dsimp only at h
  by_cases c : hasFlag m.syncOp K.SYNC_DEVICE = true
  · have q : ∀ (site : Site), Site.copiesFrom site = some Representation.host → ∀ ok : Bool,
        (Event.copiesFrom Representation.host (Event.call site ok) = true → hp) ∧
        (Event.copiesFrom Representation.device (Event.call site ok) = true → dp) := by
      intro site hs ok
      refine ⟨fun _ => hh c, fun hx => ?_⟩
      simp [Event.copiesFrom, hs] at hx
    rw [if_pos c] at h
    split at h
    · rename_i s1 heq
      cases h
      split_ifs at heq
      · exact copyCall_delta E s _ _ _ _ (q _ (by rfl)) heq
      · cases heq
    · rename_i s1 heq
      have d1 : Sourced hp dp s s1 := by
        split_ifs at heq
        · exact copyCall_delta E s _ _ _ _ (q _ (by rfl)) heq
        · cases heq
          exact delta_refl _
      refine delta_trans d1 ?_
      split_ifs at h
      · exact copyCall_delta E s1 _ _ _ _ (q _ (by rfl)) h
      · exact copyCall_delta E s1 _ _ _ _ (q _ (by rfl)) h
  · have q : ∀ (site : Site), Site.copiesFrom site = some Representation.device →
        ∀ ok : Bool,
        (Event.copiesFrom Representation.host (Event.call site ok) = true → hp) ∧
        (Event.copiesFrom Representation.device (Event.call site ok) = true → dp) := by
      intro site hs ok
      refine ⟨fun hx => ?_, fun _ => hd (by simpa using c)⟩
      simp [Event.copiesFrom, hs] at hx
    rw [if_neg c] at h
    split_ifs at h
    · exact copyCall_delta E s _ _ _ _ (q _ (by rfl)) h
    · exact copyCall_delta E s _ _ _ _ (q _ (by rfl)) h
    · exact copyCall_delta E s _ _ _ _ (q _ (by rfl)) h

/-- A call of a primitive that copies neither from the host nor from the device
memory. -/
theorem quiet_call {hp dp : Prop} (site : Site)
    (h1 : Site.copiesFrom site ≠ some Representation.host)
    (h2 : Site.copiesFrom site ≠ some Representation.device) (ok : Bool) :
    (Event.copiesFrom Representation.host (Event.call site ok) = true → hp) ∧
    (Event.copiesFrom Representation.device (Event.call site ok) = true → dp) := by
  refine ⟨fun hx => ?_, fun hx => ?_⟩
  · simp only [Event.copiesFrom, beq_iff_eq] at hx
    exact absurd hx h1
  · simp only [Event.copiesFrom, beq_iff_eq] at hx
    exact absurd hx h2

/-- The copy of the device branch of `sync` is from the array when the host
flag is set, else from the host memory. -/
theorem syncDeviceCopy_sources {hp dp : Prop} (K : Header) (E : Env) (s s' : TextureMemory)
    (m : TextureObject) (b : Bool)
    (hh : hasFlag m.syncOp K.SYNC_HOST = false → hp)
    (h : syncDeviceCopy K E s m = (s', b)) : Sourced hp dp s s' := by
  unfold syncDeviceCopy at h
  dsimp only at h
  by_cases c : hasFlag m.syncOp K.SYNC_HOST = true
  · rw [if_pos c] at h
    split at h
    · rename_i s1 heq
      cases h
      exact syncMapArray_delta E s _ m _ _ _ _
        (fun ok => ⟨quiet_call _ (by decide) (by decide) ok,
          quiet_call _ (by decide) (by decide) ok,
          quiet_call _ (by decide) (by decide) ok⟩) heq
    · rename_i s1 heq
      refine delta_trans (syncMapArray_delta E s s1 m _ _ _ _
        (fun ok => ⟨quiet_call _ (by decide) (by decide) ok,
          quiet_call _ (by decide) (by decide) ok,
          quiet_call _ (by decide) (by decide) ok⟩) heq) ?_
      split_ifs at h
      · exact copyCall_delta E s1 _ _ _ _ (quiet_call _ (by decide) (by decide)) h
      · exact copyCall_delta E s1 _ _ _ _ (quiet_call _ (by decide) (by decide)) h
      · exact copyCall_delta E s1 _ _ _ _ (quiet_call _ (by decide) (by decide)) h
  · rw [if_neg c] at h
    have hp' := hh (by simpa using c)
    refine copyCall_delta E s _ _ _ _ (fun ok => ⟨fun _ => hp', fun hx => ?_⟩) h
    simp [Event.copiesFrom, Site.copiesFrom] at hx

/-- The copy of the host branch of `sync` is from the array when the device
flag is set, else from the device memory. -/
theorem syncHostCopy_sources {hp dp : Prop} (K : Header) (E : Env) (s s' : TextureMemory)
    (m : TextureObject) (b : Bool)
    (hd : hasFlag m.syncOp K.SYNC_DEVICE = false → dp)
    (h : syncHostCopy K E s m = (s', b)) : Sourced hp dp s s' := by
  unfold syncHostCopy at h
  dsimp only at h
  by_cases c : hasFlag m.syncOp K.SYNC_DEVICE = true
  · rw [if_pos c] at h
    split at h
    · rename_i s1 heq
      cases h
      exact syncMapArray_delta E s _ m _ _ _ _
        (fun ok => ⟨quiet_call _ (by decide) (by decide) ok,
          quiet_call _ (by decide) (by decide) ok,
          quiet_call _ (by decide) (by decide) ok⟩) heq
    · rename_i s1 heq
      refine delta_trans (syncMapArray_delta E s s1 m _ _ _ _
        (fun ok => ⟨quiet_call _ (by decide) (by decide) ok,
          quiet_call _ (by decide) (by decide) ok,
          quiet_call _ (by decide) (by decide) ok⟩) heq) ?_
      split_ifs at h
      · exact copyCall_delta E s1 _ _ _ _ (quiet_call _ (by decide) (by decide)) h
      · exact copyCall_delta E s1 _ _ _ _ (quiet_call _ (by decide) (by decide)) h
      · exact copyCall_delta E s1 _ _ _ _ (quiet_call _ (by decide) (by decide)) h
  · rw [if_neg c] at h
    have hp' := hd (by simpa using c)
    have q2 : ∀ (site : Site), Site.copiesFrom site = some Representation.device →
        ∀ ok : Bool,
        (Event.copiesFrom Representation.host (Event.call site ok) = true → hp) ∧
        (Event.copiesFrom Representation.device (Event.call site ok) = true → dp) := by
      intro site hs ok
      refine ⟨fun hx => ?_, fun _ => hp'⟩
      simp [Event.copiesFrom, hs] at hx
    split_ifs at h
    · exact copyCall_delta E s _ _ _ _ (q2 _ (by rfl)) h
    · exact copyCall_delta E s _ _ _ _ (q2 _ (by rfl)) h
    · exact copyCall_delta E s _ _ _ _ (q2 _ (by rfl)) h

/-- The method `sync`, in a memory whose sources are allocated, copies from the
host memory only when it works on another representation and the host memory
is allocated, and likewise for the device memory. -/
theorem sync_sources {hp dp : Prop} (K : Header) (E : Env) (s : TextureMemory)
    (mapping : Nat) (hK : K.SyncBits) (hi : SourcesAllocated K s)
    (Th : syncTarget K mapping ≠ some K.SYNC_HOST → (memory K s).hostPtr ≠ none → hp)
    (Td : syncTarget K mapping ≠ some K.SYNC_DEVICE → (memory K s).devPtr ≠ none → dp) :
    Sourced hp dp s (sync K E s mapping).1 := by
  have htr := object_trace K s
  unfold TextureMemory.sync
  rcases ho : TextureMemory.object K s with ⟨s1, _ | m⟩
  · rw [ho] at htr
    exact ⟨[], by simpa using htr, fun e he => by cases he⟩
  · rw [ho] at htr
    have htr' : s1.trace = s.trace := htr
    obtain ⟨v1, -, -, -⟩ := object_version K s s1 m ho
    obtain ⟨p1, p2, -⟩ := object_memory K s s1 m ho
    obtain ⟨j1, j2⟩ := hi
    rw [← v1, ← p2] at j1
    rw [← v1, ← p1] at j2
    rw [← p1] at Th
    rw [← p2] at Td
    obtain ⟨d, hh, a, hD, hH, hA, hdh, hda, hha⟩ := hK
    have fin : ∀ (s2 s3 : TextureMemory), s3.trace = s2.trace →
        Sourced hp dp s1 s2 → Sourced hp dp s s3 := by
      intro s2 s3 e3 h2
      unfold Sourced at h2 ⊢
      rw [e3, ← htr']
      exact h2
    dsimp only
    split_ifs with c1 c2 c3
    · have t1 : syncTarget K mapping ≠ some K.SYNC_HOST := by
        simp only [syncTarget, c1, if_true, hA, hH, ne_eq, Option.some.injEq]
        exact fun hx => hha (Nat.pow_right_injective (le_refl 2) hx).symm
      have t2 : syncTarget K mapping ≠ some K.SYNC_DEVICE := by
        simp only [syncTarget, c1, if_true, hA, hD, ne_eq, Option.some.injEq]
        exact fun hx => hda (Nat.pow_right_injective (le_refl 2) hx).symm
      unfold syncArray
      split_ifs with a1 a2
      · exact fin s1 _ rfl (delta_refl _)
      · exact fin s1 _ rfl (delta_refl _)
      · simp only [Bool.or_eq_true, Bool.and_eq_true, beq_iff_eq, not_or, not_and,
          Bool.not_eq_true] at a2
        have hAs : hasFlag m.syncOp K.SYNC_ARRAY = true := by simpa using a1
        rcases hc : syncArrayCopy K E s1 m with ⟨s2, b2⟩
        have d2 : Sourced hp dp s1 s2 := syncArrayCopy_sources K E s1 s2 m b2
          (fun hx => Th t1 (a2.1.1 hx))
          (fun hx => Td t2 (by
            cases hHs : hasFlag m.syncOp K.SYNC_HOST
            · exact j1 hx (Or.inr hAs)
            · exact a2.1.2 hHs)) hc
        cases b2
        · exact fin s2 _ rfl d2
        · exact fin s2 _ rfl d2
    · have ts : syncTarget K mapping = some K.SYNC_DEVICE := by simp [syncTarget, c1, c2]
      have t1 : syncTarget K mapping ≠ some K.SYNC_HOST := by
        rw [ts, hD, hH]
        exact fun hx => hdh (Nat.pow_right_injective (le_refl 2) (Option.some.inj hx))
      unfold syncDevice
      split_ifs with a1 a2
      · exact fin s1 _ rfl (delta_refl _)
      · exact fin s1 _ rfl (delta_refl _)
      · simp only [Bool.or_eq_true, Bool.and_eq_true, beq_iff_eq, not_or, not_and,
          Bool.not_eq_true] at a2
        have hDs : hasFlag m.syncOp K.SYNC_DEVICE = true := by simpa using a1
        rcases hc : syncDeviceCopy K E s1 m with ⟨s2, b2⟩
        have d2 : Sourced hp dp s1 s2 := syncDeviceCopy_sources K E s1 s2 m b2
          (fun hx => Th t1 (by
            cases hAs : hasFlag m.syncOp K.SYNC_ARRAY
            · exact j2 hx hDs
            · exact a2.1 hAs)) hc
        cases b2
        · exact fin s2 _ rfl d2
        · exact fin s2 _ rfl d2
    · have ts : syncTarget K mapping = some K.SYNC_HOST := by
        simp [syncTarget, c1, c2, c3]
      have t2 : syncTarget K mapping ≠ some K.SYNC_DEVICE := by
        rw [ts, hD, hH]
        exact fun hx => hdh (Nat.pow_right_injective (le_refl 2) (Option.some.inj hx)).symm
      unfold syncHost
      split_ifs with a1 a2
      · exact fin s1 _ rfl (delta_refl _)
      · exact fin s1 _ rfl (delta_refl _)
      · simp only [Bool.or_eq_true, Bool.and_eq_true, beq_iff_eq, not_or, not_and,
          Bool.not_eq_true] at a2
        have hHs : hasFlag m.syncOp K.SYNC_HOST = true := by simpa using a1
        rcases hc : syncHostCopy K E s1 m with ⟨s2, b2⟩
        have d2 : Sourced hp dp s1 s2 := syncHostCopy_sources K E s1 s2 m b2
          (fun hx => Td t2 (by
            cases hAs : hasFlag m.syncOp K.SYNC_ARRAY
            · exact j1 hx (Or.inl hHs)
            · exact a2.1 hAs)) hc
        cases b2
        · exact fin s2 _ rfl d2
        · exact fin s2 _ rfl d2
    · exact fin s1 _ rfl (delta_refl _)

/-- C21: in every state that is reached from a memory that was just created by
calls of `map` with mappings that `supportsMapping` accepts, of `unmap` and of
`reset`, whatever they return, the three sync flags are not all set. -/
theorem reachable_coherent (K : Header) (hK : K.SyncBits) (hC : K.Classified)
    (hN : K.NO_SYNC = 0) (s : TextureMemory) (hr : Reachable K s) :
    ¬(hasFlag (memory K s).syncOp K.SYNC_HOST = true ∧
      hasFlag (memory K s).syncOp K.SYNC_DEVICE = true ∧
      hasFlag (memory K s).syncOp K.SYNC_ARRAY = true) :=
  (reachable_consistent K hK hC hN s hr).1.1

/-- An instance of C21: the memory `hostWritten`, which `map( MAP_HOST_TARGET )`
leaves with the device and the array flag set. -/
theorem reachable_coherent_witness :
    ¬(hasFlag (memory sampleHeader hostWritten).syncOp sampleHeader.SYNC_HOST = true ∧
      hasFlag (memory sampleHeader hostWritten).syncOp sampleHeader.SYNC_DEVICE = true ∧
      hasFlag (memory sampleHeader hostWritten).syncOp sampleHeader.SYNC_ARRAY = true) :=
  reachable_coherent sampleHeader
    ⟨0, 4, 8, rfl, rfl, rfl, by decide, by decide, by decide⟩ (by decide) rfl hostWritten
    (Reachable.byMap sampleEnv 0 (create sampleHeader) hostWritten 0x10 0 (some 1000)
      (Reachable.fresh sampleHeader.GL_SOURCE_COMPUTE_SOURCE) (by decide) (by rfl))

end osgCuda.TextureMemory

/-! ### The sources of the copies inside `map`, `unmap` and `reset` -/

namespace osgCuda.TextureMemory

theorem Sourced.rest {hp dp : Prop} (s : TextureMemory) : Sourced hp dp s s :=
  ⟨[], by simp, fun e he => by cases he⟩

theorem Sourced.next {hp dp : Prop} {s1 s2 s3 : TextureMemory} (h1 : Sourced hp dp s1 s2)
    (h2 : Sourced hp dp s2 s3) : Sourced hp dp s1 s3 :=
  delta_trans h1 h2

theorem Sourced.of_trace {hp dp : Prop} {s s1 s2 : TextureMemory} (h : Sourced hp dp s s1)
    (e : s2.trace = s1.trace) : Sourced hp dp s s2 := by
  unfold Sourced at h ⊢
  rw [e]
  exact h

theorem Sourced.from_trace {hp dp : Prop} {s s1 s2 : TextureMemory} (h : Sourced hp dp s1 s2)
    (e : s1.trace = s.trace) : Sourced hp dp s s2 := by
  unfold Sourced at h ⊢
  rw [← e]
  exact h

/-- An event that is no copy from the host or the device memory. -/
theorem Sourced.event {hp dp : Prop} {s s' : TextureMemory} (e : Event)
    (h : Sourced hp dp s s')
    (hq : Event.copiesFrom Representation.host e = false ∧
      Event.copiesFrom Representation.device e = false) :
    Sourced hp dp s (emit s' e) := by
  obtain ⟨t, ht, p⟩ := h
  refine ⟨t ++ [e], by simp [TextureMemory.emit, ht], fun x hx => ?_⟩
  rcases List.mem_append.mp hx with hx | hx
  · exact p x hx
  · simp only [List.mem_singleton] at hx
    rw [hx, hq.1, hq.2]
    exact ⟨fun c => Bool.noConfusion c, fun c => Bool.noConfusion c⟩

theorem Sourced.of_modify {hp dp : Prop} {s s' : TextureMemory} (K : Header)
    (u : TextureObject → TextureObject) (h : Sourced hp dp s s') :
    Sourced hp dp s (modify K s' u) :=
  h.of_trace rfl

theorem Sourced.of_setObject {hp dp : Prop} {s s' : TextureMemory} (m : TextureObject)
    (h : Sourced hp dp s s') : Sourced hp dp s (setObject s' m) :=
  h.of_trace rfl

theorem Sourced.imp {hp dp hp' dp' : Prop} {s s' : TextureMemory} (h : Sourced hp dp s s')
    (f : hp → hp') (g : dp → dp') : Sourced hp' dp' s s' := by
  obtain ⟨t, ht, p⟩ := h
  exact ⟨t, ht, fun e he => ⟨fun c => f ((p e he).1 c), fun c => g ((p e he).2 c)⟩⟩

/-- The method `alloc` copies nothing. -/
theorem alloc_quiet (K : Header) (E : Env) (s : TextureMemory) (mapping : Nat) :
    Sourced False False s (alloc K E s mapping).1 := by
  have htr := object_trace K s
  unfold alloc
  rcases ho : TextureMemory.object K s with ⟨s1, _ | m⟩
  · rw [ho] at htr
    exact (Sourced.rest s1).from_trace htr
  · rw [ho] at htr
    refine Sourced.from_trace ?_ htr
    simp only [TextureMemory.call, findTextureObject, TextureMemory.callVoid]
    repeat' (first | split_ifs | dsimp only)
    all_goals
      repeat (first
        | with_reducible exact Sourced.rest _
        | with_reducible apply Sourced.of_setObject
        | (with_reducible apply Sourced.event
           rotate_left
           exact ⟨rfl, rfl⟩))

/-- The host branch of `setup` copies from the image. -/
theorem setupHost_quiet (K : Header) (E : Env) (s : TextureMemory) (image : Image) :
    Sourced False False s (setupHost K E s image).1 := by
  unfold setupHost
  split
  · exact Sourced.rest s
  · rename_i data _
    rcases hc : copyCall E s .setupHostMemcpy
      (fun m => { m with hostMem := memcpyFlat m.hostMem data (getByteSize s) })
      with ⟨s1, b1⟩
    have d : Sourced False False s s1 :=
      copyCall_delta E s s1 _ _ b1 (quiet_call _ (by decide) (by decide)) hc
    cases b1
    · exact d
    · refine d.of_trace ?_
      dsimp only
      split_ifs <;> rfl

/-- The device branch of `setup` copies from the image. -/
theorem setupDevice_quiet (K : Header) (E : Env) (s : TextureMemory) (image : Image) :
    Sourced False False s (setupDevice K E s image).1 := by
  unfold setupDevice
  split
  · exact Sourced.rest s
  · rename_i data _
    rcases hc : setupDeviceCopy E s data with ⟨s1, b1⟩
    have d : Sourced False False s s1 := by
      unfold setupDeviceCopy at hc
      split_ifs at hc
      · exact copyCall_delta E s s1 _ _ b1 (quiet_call _ (by decide) (by decide)) hc
      · exact copyCall_delta E s s1 _ _ b1 (quiet_call _ (by decide) (by decide)) hc
    cases b1
    · exact d
    · refine d.of_trace ?_
      dsimp only
      split_ifs <;> rfl

/-- The render-target block of `map` copies nothing. -/
theorem mapRenderTarget_quiet (K : Header) (E : Env) (s : TextureMemory) :
    Sourced False False s (mapRenderTarget K E s).1 := by
  unfold mapRenderTarget
  simp only [TextureMemory.call, findTextureObject, TextureMemory.callVoid]
  repeat' (first | split_ifs | dsimp only)
  all_goals
    repeat (first
      | with_reducible exact Sourced.rest _
      | with_reducible apply Sourced.of_modify
      | (with_reducible apply Sourced.event
         rotate_left
         exact ⟨rfl, rfl⟩))

/-- The end of `map` copies nothing. -/
theorem mapFinish_quiet (K : Header) (s : TextureMemory) (mapping offset ptr : Nat)
    (firstLoad : Bool) : Sourced False False s (mapFinish K s mapping offset ptr firstLoad).1 := by
  unfold mapFinish
  repeat' (first | split_ifs | dsimp only)
  all_goals
    repeat (first
      | with_reducible exact Sourced.rest _
      | with_reducible apply Sourced.of_modify
      | (with_reducible apply Sourced.event
         rotate_left
         exact ⟨rfl, rfl⟩))

/-- The end of `unmap` copies nothing. -/
theorem unmapRelease_quiet (K : Header) (E : Env) (s : TextureMemory) :
    Sourced False False s (unmapRelease K E (unmapMark K E s)) := by
  have hm : (unmapMark K E s).trace = s.trace := by
    unfold unmapMark
    split
    · split_ifs <;> rfl
    · rfl
  refine Sourced.from_trace ?_ hm
  unfold unmapRelease
  simp only [TextureMemory.call]
  repeat' (first | split_ifs | dsimp only)
  all_goals
    repeat (first
      | with_reducible exact Sourced.rest _
      | with_reducible apply Sourced.of_modify
      | (with_reducible apply Sourced.event
         rotate_left
         exact ⟨rfl, rfl⟩))

/-- The block "Reset host memory" of `reset` copies nothing. -/
theorem resetHost_quiet (K : Header) (E : Env) (s : TextureMemory) :
    Sourced False False s (resetHost K E s) := by
  unfold resetHost
  simp only [TextureMemory.callVoid]
  repeat' (first | split_ifs | dsimp only)
  all_goals
    repeat (first
      | with_reducible exact Sourced.rest _
      | with_reducible apply Sourced.of_modify
      | (with_reducible apply Sourced.event
         rotate_left
         exact ⟨rfl, rfl⟩))

end osgCuda.TextureMemory

namespace osgCuda.TextureMemory

/-- The `apply` of the adapter copies from the image, apart from what the
`unmap` it calls does. -/
theorem adapterApply_sourced {hp dp : Prop} (unmap : TextureMemory → Option TextureMemory)
    (s s' : TextureMemory) (image : Image) (hc : s.isClear = false)
    (hU : ∀ t, unmap s = some t → Sourced hp dp s t)
    (h : adapterApply unmap s image = some s') : Sourced hp dp s s' := by
  unfold adapterApply at h
  split at h
  · cases h
  · rename_i s1 heq
    simp only [hc, Bool.not_false, if_true] at heq
    have d1 := hU s1 heq
    dsimp only at h
    split at h
    · cases h
      exact (d1.event (Event.call Site.setupApply true) ⟨rfl, rfl⟩).of_trace rfl
    · cases h
      exact d1.event (Event.call Site.setupApply true) ⟨rfl, rfl⟩

/-- The array branch of `setup` copies from the image, apart from what the
`unmap` it reaches does. -/
theorem setupArray_sourced {hp dp : Prop} (unmap : TextureMemory → Option TextureMemory)
    (K : Header) (E : Env) (s s' : TextureMemory) (image : Image) (m : TextureObject)
    (b : Bool) (hc : s.isClear = false) (hm : s._object = some m) (hi : Consistent K s)
    (Th : m.hostPtr ≠ none → hp) (Td : m.devPtr ≠ none → dp)
    (hU : ∀ t t', unmap t = some t' → t.isClear = false → Consistent K t →
      ((memory K t).hostPtr ≠ none → hp) → ((memory K t).devPtr ≠ none → dp) →
      Sourced hp dp t t')
    (h : setupArray unmap K E s image = some (s', b)) : Sourced hp dp s s' := by
  unfold setupArray at h
  dsimp only at h
  have step : ∀ (sx : TextureMemory) (site : Site) (u : TextureObject → TextureObject)
      (c : Bool) (sy : TextureMemory) (by' : Bool),
      (∀ m, TextureObject.core (u m) = TextureObject.core m) →
      Site.copiesFrom site = none →
      (if c = true then
        (match call E sx site with
          | (s, none) => (s, false)
          | (s, some _) => (modify K s u, true))
        else (sx, true)) = (sy, by') →
      Frame TextureObject.core sx sy ∧ Sourced hp dp sx sy := by
    intro sx site u c sy by' hu hs hh
    have hq : ∀ ok, Event.copiesFrom Representation.host (Event.call site ok) = false ∧
        Event.copiesFrom Representation.device (Event.call site ok) = false := by
      intro ok
      simp [Event.copiesFrom, hs]
    simp only [TextureMemory.call] at hh
    repeat' (first | split_ifs at hh | dsimp only at hh)
    all_goals
      cases hh
      first
      | exact ⟨Frame.refl _ _, Sourced.rest _⟩
      | exact ⟨Frame.emit_right _ (Frame.refl _ _), (Sourced.rest _).event _ (hq _)⟩
      | exact ⟨Frame.modify_keep K _ (Frame.emit_right _ (Frame.refl _ _)) hu,
          ((Sourced.rest _).event _ (hq _)).of_modify K _⟩
  split at h
  · rename_i s1 heq
    cases h
    exact (step _ _ (fun m => { m with graphicsArray := none }) _ _ _ (fun _ => rfl) (by rfl)
      heq).2
  · rename_i s1 heq
    obtain ⟨f1, d1⟩ := step _ _ (fun m => { m with graphicsArray := none }) _ _ _
      (fun _ => rfl) (by rfl) heq
    split at h
    · rename_i s2 heq2
      cases h
      exact d1.next (step _ _ (fun m => { m with graphicsResource := none }) _ _ _
        (fun _ => rfl) (by rfl) heq2).2
    · rename_i s2 heq2
      obtain ⟨f2', d2'⟩ := step _ _ (fun m => { m with graphicsResource := none }) _ _ _
        (fun _ => rfl) (by rfl) heq2
      have f2 := f1.trans f2'
      have d2 := d1.next d2'
      split_ifs at h
      · cases h
        exact d2
      · split at h
        · cases h
        · rename_i s3 heq3
          obtain ⟨m2, hm2, hmem2, e2, c2⟩ := f2.facts K m hc hm
          have e2h : m2.hostPtr = m.hostPtr := by
            have := congrArg TextureObject.hostPtr e2
            exact this
          have e2d : m2.devPtr = m.devPtr := by
            have := congrArg TextureObject.devPtr e2
            exact this
          have d3 := d2.next (adapterApply_sourced unmap s2 s3 image c2
            (fun t hu => hU s2 t hu c2 (hi.of_core m f2 hm)
              (by rw [hmem2, e2h]; exact Th) (by rw [hmem2, e2d]; exact Td)) heq3)
          have hq : ∀ ok,
              Event.copiesFrom Representation.host
                (Event.call Site.setupRegisterImage ok) = false ∧
              Event.copiesFrom Representation.device
                (Event.call Site.setupRegisterImage ok) = false := fun _ => ⟨rfl, rfl⟩
          simp only [TextureMemory.call] at h
          split_ifs at h
          · cases h
            refine (d3.event (Event.call Site.setupRegisterImage
              (E.ok s3.trace.length Site.setupRegisterImage)) (hq _)).of_trace ?_
            dsimp only
            split_ifs <;> rfl
          · cases h
            exact d3.event _ (hq _)

/-- The method `setup` copies from the image, apart from what the `unmap` it
reaches for the array does. -/
theorem setupBody_sourced {hp dp : Prop} (unmap : TextureMemory → Option TextureMemory)
    (K : Header) (E : Env) (s s' : TextureMemory) (mapping : Nat) (b : Bool)
    (m : TextureObject) (hK : K.SyncBits) (hc : s.isClear = false) (hm : s._object = some m)
    (hi : Consistent K s)
    (Th : syncTarget K mapping ≠ some K.SYNC_HOST → m.hostPtr ≠ none → hp)
    (Td : syncTarget K mapping ≠ some K.SYNC_DEVICE → m.devPtr ≠ none → dp)
    (hU : ∀ t t', unmap t = some t' → t.isClear = false → Consistent K t →
      ((memory K t).hostPtr ≠ none → hp) → ((memory K t).devPtr ≠ none → dp) →
      Sourced hp dp t t')
    (h : setupBody unmap K E s mapping = some (s', b)) : Sourced hp dp s s' := by
  unfold setupBody at h
  rw [object_of_some K s m hm hc] at h
  dsimp only at h
  split at h
  · cases h
    exact Sourced.rest s
  · rename_i image _
    split_ifs at h with c1 c2 c3
    · obtain ⟨d, hh, a, hD, hH, hA, hdh, hda, hha⟩ := hK
      have ts : syncTarget K mapping = some K.SYNC_ARRAY := by simp [syncTarget, c1]
      refine setupArray_sourced unmap K E s s' image m b hc hm hi (Th ?_) (Td ?_) hU h
      · rw [ts, hA, hH]
        exact fun hx => hha (Nat.pow_right_injective (le_refl 2) (Option.some.inj hx)).symm
      · rw [ts, hA, hD]
        exact fun hx => hda (Nat.pow_right_injective (le_refl 2) (Option.some.inj hx)).symm
    · simp only [Option.some.injEq] at h
      have := (setupDevice_quiet K E s image).imp (False.elim : False → hp)
        (False.elim : False → dp)
      rw [h] at this
      exact this
    · simp only [Option.some.injEq] at h
      have := (setupHost_quiet K E s image).imp (False.elim : False → hp)
        (False.elim : False → dp)
      rw [h] at this
      exact this
    · cases h
      exact Sourced.rest s

/-- The steps SETUP STREAM and SYNC STREAM copy from the host memory only for
a mapping of another representation and when the host memory is allocated,
and likewise for the device memory. -/
theorem mapSetupSync_sourced {hp dp : Prop} (unmap : TextureMemory → Option TextureMemory)
    (K : Header) (E : Env) (s s' : TextureMemory) (mapping : Nat) (ns : Bool) (flag : Nat)
    (b : Bool) (m : TextureObject) (hK : K.SyncBits) (hc : s.isClear = false)
    (hm : s._object = some m)
    (hh : syncTarget K mapping = some K.SYNC_HOST → m.hostPtr ≠ none)
    (hd : syncTarget K mapping = some K.SYNC_DEVICE → m.devPtr ≠ none)
    (hUc : ∀ t t', unmap t = some t' → t.isClear = false → Consistent K t → Consistent K t')
    (hF : ∀ s s', unmap s = some s' → s.isClear = false →
      Frame (fun m : TextureObject => (m.hostPtr, m.devPtr)) s s')
    (hi : Consistent K s)
    (Th : syncTarget K mapping ≠ some K.SYNC_HOST → m.hostPtr ≠ none → hp)
    (Td : syncTarget K mapping ≠ some K.SYNC_DEVICE → m.devPtr ≠ none → dp)
    (hU : ∀ t t', unmap t = some t' → t.isClear = false → Consistent K t →
      ((memory K t).hostPtr ≠ none → hp) → ((memory K t).devPtr ≠ none → dp) →
      Sourced hp dp t t')
    (h : mapSetupSync unmap K E s mapping ns flag = some (s', b)) : Sourced hp dp s s' := by
  unfold mapSetupSync at h
  split at h
  · cases h
  · rename_i s1 heq
    cases h
    split_ifs at heq
    · exact setupBody_sourced unmap K E s _ mapping false m hK hc hm hi Th Td hU heq
    · cases heq
  · rename_i s1 heq
    have h1 : Sourced hp dp s s1 ∧ Consistent K s1 ∧
        (memory K s1).hostPtr = m.hostPtr ∧ (memory K s1).devPtr = m.devPtr := by
      split_ifs at heq
      · refine ⟨setupBody_sourced unmap K E s s1 mapping true m hK hc hm hi Th Td hU heq,
          setupBody_consistent unmap K E s s1 mapping true m hK hc hm hh hd hUc hi heq, ?_⟩
        obtain ⟨m1, hm1, hmem1, e, -⟩ :=
          (setupBody_frame_handles unmap K E s s1 mapping true hF heq).facts K m hc hm
        simp only [Prod.mk.injEq] at e
        rw [hmem1]
        exact e
      · cases heq
        rw [memory_of_object K s m hm]
        exact ⟨Sourced.rest s, hi, rfl, rfl⟩
    obtain ⟨d1, hi1, e1, e2⟩ := h1
    split_ifs at h
    · simp only [Option.some.injEq] at h
      have := @sync_sources hp dp K E s1 mapping hK hi1.2
        (by rw [e1]; exact Th) (by rw [e2]; exact Td)
      rw [h] at this
      exact d1.next this
    · cases h
      exact d1

/-- The allocation step of a branch of `map` copies nothing. -/
theorem allocated_quiet (K : Header) (E : Env) (s sa : TextureMemory) (mapping : Nat)
    (c : Bool) (o : Option Bool)
    (h : (if c = true then
            match alloc K E s mapping with
            | (s, false) => (s, none)
            | (s, true) => (s, some true)
          else (s, some false)) = (sa, o)) : Sourced False False s sa := by
  have hal := alloc_quiet K E s mapping
  split_ifs at h
  · rcases ha : alloc K E s mapping with ⟨sa', _ | _⟩
    · rw [ha] at h hal
      cases h
      exact hal
    · rw [ha] at h hal
      cases h
      exact hal
  · cases h
    exact Sourced.rest s

/-- The host branch of `map` copies from the device memory only when it is
allocated, and not from the host memory. -/
theorem mapHost_sourced {hp dp : Prop} (unmap : TextureMemory → Option TextureMemory)
    (K : Header) (E : Env) (s s' : TextureMemory) (mapping : Nat) (ns : Bool)
    (r : Option (Option Nat × Bool)) (m : TextureObject) (hK : K.SyncBits)
    (hc : s.isClear = false) (hm : s._object = some m) (hH : K.isHostMapping mapping)
    (hUc : ∀ t t', unmap t = some t' → t.isClear = false → Consistent K t → Consistent K t')
    (hF : ∀ s s', unmap s = some s' → s.isClear = false →
      Frame (fun m : TextureObject => (m.hostPtr, m.devPtr)) s s')
    (hi : Consistent K s) (Td : m.devPtr ≠ none → dp)
    (hU : ∀ t t', unmap t = some t' → t.isClear = false → Consistent K t →
      ((memory K t).hostPtr ≠ none → hp) → ((memory K t).devPtr ≠ none → dp) →
      Sourced hp dp t t')
    (h : mapHost unmap K E s mapping ns = some (s', r)) : Sourced hp dp s s' := by
  have ht := syncTarget_host K mapping hH
  unfold mapHost at h
  dsimp only at h
  have hal : ∀ (sa : TextureMemory) (o : Option Bool),
      (if ((memory K s).hostPtr == none) = true then
        match alloc K E s mapping with
        | (s, false) => (s, none)
        | (s, true) => (s, some true)
      else (s, some false)) = (sa, o) →
      Consistent K sa ∧ ∃ ma, sa._object = some ma ∧ sa.isClear = false ∧
        ma.devPtr = m.devPtr ∧ (o ≠ none → ma.hostPtr ≠ none) := by
    intro sa o hh
    split_ifs at hh with c
    · have c' : (memory K s).hostPtr = none := by simpa using c
      have hf := alloc_host_frame K E s mapping hH.1
      rcases ha : alloc K E s mapping with ⟨sa', b⟩
      rw [ha] at hf hh
      have hsa : sa = sa' := by
        cases b <;> · cases hh; rfl
      subst hsa
      obtain ⟨ma, hma, hmem, e, ca⟩ := hf.facts K m hc hm
      have e1 : ma.syncOp = m.syncOp := by
        have := congrArg TextureObject.syncOp e
        exact this
      have e3 : ma.devPtr = m.devPtr := by
        have := congrArg TextureObject.devPtr e
        exact this
      refine ⟨hi.of_eq ?_ (fun hx => absurd c' hx) ?_, ma, hma, ca, e3, fun ho => ?_⟩
      · rw [hmem, memory_of_object K s m hm]
        exact e1
      · rw [hmem, memory_of_object K s m hm, e3]
        exact id
      · cases b
        · cases hh
          exact absurd rfl ho
        · rw [← hmem]
          exact alloc_host_some K E s sa m mapping hc hm hH.1 ha
    · cases hh
      refine ⟨hi, m, hm, hc, rfl, fun _ => ?_⟩
      rw [← memory_of_object K s m hm]
      simpa using c
  split at h
  · rename_i sa heq
    cases h
    exact (allocated_quiet K E s _ mapping _ _ heq).imp False.elim False.elim
  · rename_i sa firstLoad heq
    have da : Sourced hp dp s sa :=
      (allocated_quiet K E s sa mapping _ _ heq).imp False.elim False.elim
    obtain ⟨hia, ma, hma, ca, eda, hpa⟩ := hal _ _ heq
    have hpa' : ma.hostPtr ≠ none := hpa (by simp)
    have hd : syncTarget K mapping = some K.SYNC_DEVICE → ma.devPtr ≠ none := by
      intro hx
      rw [ht] at hx
      obtain ⟨d, hh, a, hD, hH', hA, hdh, -⟩ := hK
      rw [hD, hH'] at hx
      exact absurd (Nat.pow_right_injective (le_refl 2) (Option.some.inj hx)).symm hdh
    have key : ∀ s1 b1, mapSetupSync unmap K E sa mapping ns K.SYNC_HOST = some (s1, b1) →
        Sourced hp dp s s1 := fun s1 b1 heq1 =>
      da.next (mapSetupSync_sourced unmap K E sa s1 mapping ns _ b1 ma hK ca hma
        (fun _ => hpa') hd hUc hF hia (fun hx => absurd ht hx)
        (fun _ => by rw [eda]; exact Td) hU heq1)
    split at h
    · cases h
    · rename_i s1 heq1
      cases h
      exact key _ _ heq1
    · rename_i s1 heq1
      cases h
      exact key _ _ heq1

/-- The device branch of `map` copies from the host memory only when it is
allocated, and not from the device memory. -/
theorem mapDevice_sourced {hp dp : Prop} (unmap : TextureMemory → Option TextureMemory)
    (K : Header) (E : Env) (s s' : TextureMemory) (mapping : Nat) (ns : Bool)
    (r : Option (Option Nat × Bool)) (m : TextureObject) (hK : K.SyncBits)
    (hc : s.isClear = false) (hm : s._object = some m) (hH : K.isDeviceMapping mapping)
    (hUc : ∀ t t', unmap t = some t' → t.isClear = false → Consistent K t → Consistent K t')
    (hF : ∀ s s', unmap s = some s' → s.isClear = false →
      Frame (fun m : TextureObject => (m.hostPtr, m.devPtr)) s s')
    (hi : Consistent K s) (Th : m.hostPtr ≠ none → hp)
    (hU : ∀ t t', unmap t = some t' → t.isClear = false → Consistent K t →
      ((memory K t).hostPtr ≠ none → hp) → ((memory K t).devPtr ≠ none → dp) →
      Sourced hp dp t t')
    (h : mapDevice unmap K E s mapping ns = some (s', r)) : Sourced hp dp s s' := by
  have ht := syncTarget_device K mapping hH
  unfold mapDevice at h
  dsimp only at h
  have hal : ∀ (sa : TextureMemory) (o : Option Bool),
      (if ((memory K s).devPtr == none) = true then
        match alloc K E s mapping with
        | (s, false) => (s, none)
        | (s, true) => (s, some true)
      else (s, some false)) = (sa, o) →
      Consistent K sa ∧ ∃ ma, sa._object = some ma ∧ sa.isClear = false ∧
        ma.hostPtr = m.hostPtr ∧ (o ≠ none → ma.devPtr ≠ none) := by
    intro sa o hh
    split_ifs at hh with c
    · have c' : (memory K s).devPtr = none := by simpa using c
      have hf := alloc_device_frame K E s mapping hH.1 hH.2.1
      rcases ha : alloc K E s mapping with ⟨sa', b⟩
      rw [ha] at hf hh
      have hsa : sa = sa' := by
        cases b <;> · cases hh; rfl
      subst hsa
      obtain ⟨ma, hma, hmem, e, ca⟩ := hf.facts K m hc hm
      have e1 : ma.syncOp = m.syncOp := by
        have := congrArg TextureObject.syncOp e
        exact this
      have e3 : ma.hostPtr = m.hostPtr := by
        have := congrArg TextureObject.hostPtr e
        exact this
      refine ⟨hi.of_eq ?_ ?_ (fun hx => absurd c' hx), ma, hma, ca, e3, fun ho => ?_⟩
      · rw [hmem, memory_of_object K s m hm]
        exact e1
      · rw [hmem, memory_of_object K s m hm, e3]
        exact id
      · cases b
        · cases hh
          exact absurd rfl ho
        · rw [← hmem]
          exact alloc_device_some K E s sa m mapping hc hm hH.1 hH.2.1 ha
    · cases hh
      refine ⟨hi, m, hm, hc, rfl, fun _ => ?_⟩
      rw [← memory_of_object K s m hm]
      simpa using c
  split at h
  · rename_i sa heq
    cases h
    exact (allocated_quiet K E s _ mapping _ _ heq).imp False.elim False.elim
  · rename_i sa firstLoad heq
    have da : Sourced hp dp s sa :=
      (allocated_quiet K E s sa mapping _ _ heq).imp False.elim False.elim
    obtain ⟨hia, ma, hma, ca, eda, hpa⟩ := hal _ _ heq
    have hpa' : ma.devPtr ≠ none := hpa (by simp)
    have hh : syncTarget K mapping = some K.SYNC_HOST → ma.hostPtr ≠ none := by
      intro hx
      rw [ht] at hx
      obtain ⟨d, hh, a, hD, hH', hA, hdh, -⟩ := hK
      rw [hD, hH'] at hx
      exact absurd (Nat.pow_right_injective (le_refl 2) (Option.some.inj hx)) hdh
    have key : ∀ s1 b1, mapSetupSync unmap K E sa mapping ns K.SYNC_DEVICE = some (s1, b1) →
        Sourced hp dp s s1 := fun s1 b1 heq1 =>
      da.next (mapSetupSync_sourced unmap K E sa s1 mapping ns _ b1 ma hK ca hma
        hh (fun _ => hpa') hUc hF hia (fun _ => by rw [eda]; exact Th)
        (fun hx => absurd ht hx) hU heq1)
    split at h
    · cases h
    · rename_i s1 heq1
      cases h
      exact key _ _ heq1
    · rename_i s1 heq1
      cases h
      exact key _ _ heq1

end osgCuda.TextureMemory

namespace osgCuda.TextureMemory

/-- The array branch of `map` copies from the host and from the device memory
only when they are allocated. -/
theorem mapArray_sourced {hp dp : Prop} (unmap : TextureMemory → Option TextureMemory)
    (K : Header) (E : Env) (s s' : TextureMemory) (mapping : Nat) (ns : Bool)
    (r : Option (Option Nat × Bool)) (m : TextureObject) (hK : K.SyncBits)
    (hc : s.isClear = false) (hm : s._object = some m) (hH : K.isArrayMapping mapping)
    (hUc : ∀ t t', unmap t = some t' → t.isClear = false → Consistent K t → Consistent K t')
    (hF : ∀ s s', unmap s = some s' → s.isClear = false →
      Frame (fun m : TextureObject => (m.hostPtr, m.devPtr)) s s')
    (hi : Consistent K s) (Th : m.hostPtr ≠ none → hp) (Td : m.devPtr ≠ none → dp)
    (hU : ∀ t t', unmap t = some t' → t.isClear = false → Consistent K t →
      ((memory K t).hostPtr ≠ none → hp) → ((memory K t).devPtr ≠ none → dp) →
      Sourced hp dp t t')
    (h : mapArray unmap K E s mapping ns = some (s', r)) : Sourced hp dp s s' := by
  have ht := syncTarget_array K mapping hH
  have hno : ∀ ma : TextureObject,
      (syncTarget K mapping = some K.SYNC_HOST → ma.hostPtr ≠ none) ∧
      (syncTarget K mapping = some K.SYNC_DEVICE → ma.devPtr ≠ none) := by
    intro ma
    obtain ⟨d, hh, a, hD, hH', hA, hdh, hda, hha⟩ := hK
    rw [ht, hD, hH', hA]
    refine ⟨fun hx => ?_, fun hx => ?_⟩
    · exact absurd (Nat.pow_right_injective (le_refl 2) (Option.some.inj hx)).symm hha
    · exact absurd (Nat.pow_right_injective (le_refl 2) (Option.some.inj hx)).symm hda
  unfold mapArray at h
  dsimp only at h
  have hal : ∀ (sa : TextureMemory) (o : Option Bool),
      (if ((memory K s).graphicsResource == none) = true then
        match alloc K E s mapping with
        | (s, false) => (s, none)
        | (s, true) => (s, some true)
      else (s, some false)) = (sa, o) →
      Frame TextureObject.core s sa := by
    intro sa o hh
    split_ifs at hh with c
    · have hf := alloc_array_frame K E s mapping hH.1 hH.2.1
      rcases ha : alloc K E s mapping with ⟨sa', b⟩
      rw [ha] at hf hh
      have hsa : sa = sa' := by
        cases b <;> · cases hh; rfl
      subst hsa
      exact hf.weaken TextureObject.core
    · cases hh
      exact Frame.refl _ _
  have hvbo : ∀ (sa sb : TextureMemory) (b : Bool),
      (if ((memory K sa).graphicsArray == none) = true then
        match call E sa .mapMapResources with
        | (s, none) => (s, false)
        | (s, some _) =>
          match call E s .mapGetMappedArray with
          | (s, none) => (s, false)
          | (s, some a) => (modify K s (fun m => { m with graphicsArray := some a }), true)
      else (sa, true)) = (sb, b) →
      Frame TextureObject.core sa sb ∧ Sourced hp dp sa sb := by
    intro sa sb b hh
    simp only [TextureMemory.call] at hh
    repeat' (first | split_ifs at hh | dsimp only at hh)
    all_goals
      cases hh
      constructor
      · repeat (first
          | with_reducible exact Frame.refl _ _
          | with_reducible apply Frame.emit_right
          | (with_reducible apply Frame.modify_keep
             rotate_left
             (intro _; rfl)))
      · repeat (first
          | with_reducible exact Sourced.rest _
          | with_reducible apply Sourced.of_modify
          | (with_reducible apply Sourced.event
             rotate_left
             exact ⟨rfl, rfl⟩))
  split at h
  · rename_i sa heq
    cases h
    exact (allocated_quiet K E s _ mapping _ _ heq).imp False.elim False.elim
  · rename_i sa firstLoad heq
    have da : Sourced hp dp s sa :=
      (allocated_quiet K E s sa mapping _ _ heq).imp False.elim False.elim
    have fa := hal _ _ heq
    split at h
    · rename_i sb heqb
      cases h
      exact da.next (hvbo _ _ _ heqb).2
    · rename_i sb heqb
      obtain ⟨fb', db'⟩ := hvbo _ _ _ heqb
      have fb := fa.trans fb'
      have db := da.next db'
      obtain ⟨mb, hmb, -, eb, cb⟩ := fb.facts K m hc hm
      have ebh : mb.hostPtr = m.hostPtr := by
        have := congrArg TextureObject.hostPtr eb
        exact this
      have ebd : mb.devPtr = m.devPtr := by
        have := congrArg TextureObject.devPtr eb
        exact this
      have hib := hi.of_core m fb hm
      have key : ∀ s1 b1, mapSetupSync unmap K E sb mapping ns K.SYNC_ARRAY = some (s1, b1) →
          Sourced hp dp s s1 := fun s1 b1 heq1 =>
        db.next (mapSetupSync_sourced unmap K E sb s1 mapping ns _ b1 mb hK cb hmb
          (hno mb).1 (hno mb).2 hUc hF hib (fun _ => by rw [ebh]; exact Th)
          (fun _ => by rw [ebd]; exact Td) hU heq1)
      split at h
      · cases h
      · rename_i s1 heq1
        cases h
        exact key _ _ heq1
      · rename_i s1 heq1
        cases h
        exact key _ _ heq1

/-- The part MAP DATA of `map` copies from the host and from the device memory
only when they were allocated before. -/
theorem mapData_sourced {hp dp : Prop} (unmap : TextureMemory → Option TextureMemory)
    (K : Header) (E : Env) (s s' : TextureMemory) (mapping : Nat)
    (r : Option (Option Nat × Bool)) (m : TextureObject) (hK : K.SyncBits)
    (hc : s.isClear = false) (hm : s._object = some m)
    (hcls : K.isHostMapping mapping ∨ K.isDeviceMapping mapping ∨ K.isArrayMapping mapping)
    (hUc : ∀ t t', unmap t = some t' → t.isClear = false → Consistent K t → Consistent K t')
    (hF : ∀ s s', unmap s = some s' → s.isClear = false →
      Frame (fun m : TextureObject => (m.hostPtr, m.devPtr)) s s')
    (hi : Consistent K s) (Th : m.hostPtr ≠ none → hp) (Td : m.devPtr ≠ none → dp)
    (hU : ∀ t t', unmap t = some t' → t.isClear = false → Consistent K t →
      ((memory K t).hostPtr ≠ none → hp) → ((memory K t).devPtr ≠ none → dp) →
      Sourced hp dp t t')
    (h : mapData unmap K E s mapping = some (s', r)) : Sourced hp dp s s' := by
  unfold mapData at h
  dsimp only at h
  obtain ⟨sw, hsw⟩ : ∃ sw, sw = modify K s (fun m => { m with mapping := mapping }) := ⟨_, rfl⟩
  rw [← hsw] at h
  have hmw : sw._object = some { m with mapping := mapping } := by
    rw [hsw, ← memory_of_object K s m hm]
    rfl
  have hcw : sw.isClear = false := by
    rw [hsw]
    exact hc
  have hiw : Consistent K sw := by
    rw [hsw]
    exact hi.of_eq rfl id id
  have htw : sw.trace = s.trace := by
    rw [hsw]
    rfl
  refine Sourced.from_trace ?_ htw
  rcases hcls with hH | hD | hA
  · rw [if_pos hH.1] at h
    exact mapHost_sourced unmap K E sw s' mapping _ r _ hK hcw hmw hH hUc hF hiw Td hU h
  · rw [if_neg (by rw [hD.1]; exact Bool.false_ne_true),
      if_neg (by rw [hD.2.1]; exact Bool.false_ne_true), if_pos hD.2.2.1] at h
    exact mapDevice_sourced unmap K E sw s' mapping _ r _ hK hcw hmw hD hUc hF hiw Th hU h
  · rw [if_neg (by rw [hA.1]; exact Bool.false_ne_true), if_pos hA.2.1] at h
    exact mapArray_sourced unmap K E sw s' mapping _ r _ hK hcw hmw hA hUc hF hiw Th Td hU h

/-- The part of `map` that follows RECEIVE HANDLE copies from the host and from
the device memory only when they were allocated before. -/
theorem mapMain_sourced {hp dp : Prop} (unmap : TextureMemory → Option TextureMemory)
    (K : Header) (E : Env) (s s' : TextureMemory) (mapping offset : Nat) (r : Option Nat)
    (m : TextureObject) (hK : K.SyncBits) (hc : s.isClear = false) (hm : s._object = some m)
    (hcls : K.isHostMapping mapping ∨ K.isDeviceMapping mapping ∨ K.isArrayMapping mapping)
    (hUc : ∀ t t', unmap t = some t' → t.isClear = false → Consistent K t → Consistent K t')
    (hF : ∀ s s', unmap s = some s' → s.isClear = false →
      Frame (fun m : TextureObject => (m.hostPtr, m.devPtr)) s s')
    (hi : Consistent K s) (Th : m.hostPtr ≠ none → hp) (Td : m.devPtr ≠ none → dp)
    (hU : ∀ t t', unmap t = some t' → t.isClear = false → Consistent K t →
      ((memory K t).hostPtr ≠ none → hp) → ((memory K t).devPtr ≠ none → dp) →
      Sourced hp dp t t')
    (h : mapMain unmap K E s mapping offset = some (s', r)) : Sourced hp dp s s' := by
  unfold mapMain at h
  rcases hr : mapRenderTarget K E s with ⟨s2, b2⟩
  rw [hr] at h
  have hi2 := mapRenderTarget_consistent K E s s2 m b2 hK hm hi hr
  have d2 : Sourced hp dp s s2 := by
    have := (mapRenderTarget_quiet K E s).imp (False.elim : False → hp)
      (False.elim : False → dp)
    rw [hr] at this
    exact this
  cases b2
  · cases h
    exact d2
  · have f2 := mapRenderTarget_frame K E s
    rw [hr] at f2
    obtain ⟨m2, hm2, -, e2, c2⟩ := f2.facts K m hc hm
    have e2h : m2.hostPtr = m.hostPtr := by
      have := congrArg TextureObject.hostPtr e2
      exact this
    have e2d : m2.devPtr = m.devPtr := by
      have := congrArg TextureObject.devPtr e2
      exact this
    dsimp only at h
    rcases hd : mapData unmap K E s2 mapping with _ | ⟨s4, r4⟩
    · rw [hd] at h
      cases h
    · rw [hd] at h
      have d4 := d2.next (mapData_sourced unmap K E s2 s4 mapping r4 m2 hK c2 hm2 hcls hUc hF
        hi2 (by rw [e2h]; exact Th) (by rw [e2d]; exact Td) hU hd)
      rcases r4 with _ | ⟨_ | ptr, fl⟩
      · cases h
        exact d4
      · cases h
        exact d4
      · simp only [Option.some.injEq] at h
        have := (mapFinish_quiet K s4 mapping offset ptr fl).imp (False.elim : False → hp)
          (False.elim : False → dp)
        rw [h] at this
        exact d4.next this

end osgCuda.TextureMemory

namespace osgCuda.TextureMemory

/-- The step `init()` at the start of `map`, `unmap` and `reset` calls no
primitive and leaves the object as it is. -/
theorem entry_trace (K : Header) (E : Env) (s s0 : TextureMemory) (b0 : Bool)
    (hwf : s.isClear = true → s._object = none) (hv : E.texrefValid = true)
    (h : (if s.isClear then init E s else (s, true)) = (s0, b0)) :
    s0.trace = s.trace ∧ memory K s0 = memory K s := by
  cases hc : s.isClear
  · simp only [hc, Bool.false_eq_true, if_false] at h
    cases h
    exact ⟨rfl, rfl⟩
  · simp only [hc, if_true] at h
    obtain ⟨o0, -, t0, -⟩ := init_keeps E s s0 b0 hc (hwf hc) hv h
    exact ⟨t0, by simp [memory, o0, hwf hc]⟩

/-- The method `map` copies from the host and from the device memory only when
they were allocated before the call. -/
theorem mapBody_sourced (unmap : TextureMemory → Option TextureMemory) (K : Header)
    (E : Env) (s s' : TextureMemory) (mapping offset : Nat) (r : Option Nat)
    (hK : K.SyncBits) (hwf : s.isClear = true → s._object = none)
    (hcls : mapping = K.UNMAP ∨ K.isHostMapping mapping ∨ K.isDeviceMapping mapping ∨
      K.isArrayMapping mapping)
    (hUc : ∀ t t', unmap t = some t' → t.isClear = false → Consistent K t → Consistent K t')
    (hF : ∀ s s', unmap s = some s' → s.isClear = false →
      Frame (fun m : TextureObject => (m.hostPtr, m.devPtr)) s s')
    (hU : ∀ t t', unmap t = some t' → t.isClear = false → Consistent K t →
      Sourced ((memory K t).hostPtr ≠ none) ((memory K t).devPtr ≠ none) t t')
    (hi : Consistent K s) (h : mapBody unmap K E s mapping offset = some (s', r)) :
    Sourced ((memory K s).hostPtr ≠ none) ((memory K s).devPtr ≠ none) s s' := by
  by_cases hne : mapping = K.UNMAP
  · unfold mapBody at h
    cases hv : E.texrefValid
    · simp only [hv, Bool.not_false, if_true] at h
      cases h
      exact Sourced.rest s
    · simp only [hv, Bool.not_true, Bool.false_eq_true, if_false] at h
      rcases h0 : (if s.isClear then init E s else (s, true)) with ⟨s0, b0⟩
      obtain ⟨hi0, w0, c0⟩ := entry_consistent K E s s0 b0 hwf hv hi h0
      obtain ⟨t0, m0⟩ := entry_trace K E s s0 b0 hwf hv h0
      rw [h0] at h
      cases b0
      · cases h
        exact (Sourced.rest _).from_trace t0
      · have hu : (mapping == K.UNMAP) = true := by simpa using hne
        simp only [hu, if_true] at h
        split at h
        · cases h
        · rename_i s2 heq
          cases h
          have := hU s0 _ heq (c0 rfl) hi0
          rw [m0] at this
          exact this.from_trace t0
  · have hcls' : K.isHostMapping mapping ∨ K.isDeviceMapping mapping ∨
        K.isArrayMapping mapping := hcls.resolve_left hne
    rcases mapBody_cases unmap K E s s' mapping offset r hne h with
      ⟨-, -, e⟩ | ⟨-, hv, hc, h0⟩ | ⟨s0, s1, m1, hv, h0, ho, hmain⟩
    · rw [e]
      exact Sourced.rest s
    · have h0' : (if s.isClear then init E s else (s, true)) = (s', false) := by
        simp only [hc, if_true]
        exact h0
      exact (Sourced.rest s').from_trace (entry_trace K E s s' false hwf hv h0').1
    · obtain ⟨c1, hm1, t1, -, -, e, -⟩ := enter K E s s0 s1 m1 h0 ho
      have e1 : m1.syncOp = (memory K s).syncOp := by
        have := congrArg TextureObject.syncOp e
        exact this
      have e2 : m1.hostPtr = (memory K s).hostPtr := by
        have := congrArg TextureObject.hostPtr e
        exact this
      have e3 : m1.devPtr = (memory K s).devPtr := by
        have := congrArg TextureObject.devPtr e
        exact this
      have hi1 : Consistent K s1 := by
        refine hi.of_eq ?_ ?_ ?_
        · rw [memory_of_object K s1 m1 hm1]
          exact e1
        · rw [memory_of_object K s1 m1 hm1, e2]
          exact id
        · rw [memory_of_object K s1 m1 hm1, e3]
          exact id
      exact (mapMain_sourced unmap K E s1 s' mapping offset r m1 hK c1 hm1 hcls' hUc hF hi1
        (by rw [e2]; exact id) (by rw [e3]; exact id)
        (fun t t' hu hct hit Th Td => (hU t t' hu hct hit).imp Th Td) hmain).from_trace t1

/-- The method `unmap` copies from the host and from the device memory only
when they were allocated before the call, when the `map` it calls to flush the
array does. -/
theorem unmapBody_sourced
    (map : TextureMemory → Nat → Nat → Option (TextureMemory × Option Nat))
    (K : Header) (E : Env) (s s' : TextureMemory)
    (hwf : s.isClear = true → s._object = none)
    (hM : ∀ t t' r, map t K.MAP_DEVICE_ARRAY 0 = some (t', r) → t.isClear = false →
      Consistent K t →
      Sourced ((memory K t).hostPtr ≠ none) ((memory K t).devPtr ≠ none) t t')
    (hi : Consistent K s) (h : unmapBody map K E s = some s') :
    Sourced ((memory K s).hostPtr ≠ none) ((memory K s).devPtr ≠ none) s s' := by
  unfold unmapBody at h
  cases hv : E.texrefValid
  · simp only [hv, Bool.not_false, if_true] at h
    cases h
    exact Sourced.rest s
  · simp only [hv, Bool.not_true, Bool.false_eq_true, if_false] at h
    rcases h0 : (if s.isClear then init E s else (s, true)) with ⟨s0, b0⟩
    obtain ⟨hi0, w0, c0⟩ := entry_consistent K E s s0 b0 hwf hv hi h0
    obtain ⟨t0, m0⟩ := entry_trace K E s s0 b0 hwf hv h0
    rw [h0] at h
    cases b0
    · cases h
      exact (Sourced.rest _).from_trace t0
    · dsimp only at h
      have htr := object_trace K s0
      rcases ho : TextureMemory.object K s0 with ⟨s1, _ | m1⟩
      · rw [ho] at h htr
        cases h
        exact (Sourced.rest _).from_trace (htr.trans t0)
      · rw [ho] at h htr
        have t1 : s1.trace = s.trace := htr.trans t0
        obtain ⟨hm1, c1⟩ := object_some K s0 s1 m1 ho
        obtain ⟨v1, -, -, -⟩ := object_version K s0 s1 m1 ho
        obtain ⟨p1, p2, -⟩ := object_memory K s0 s1 m1 ho
        have hi1 : Consistent K s1 := by
          refine hi0.of_eq ?_ ?_ ?_
          · rw [memory_of_object K s1 m1 hm1]
            exact v1
          · rw [memory_of_object K s1 m1 hm1, p1]
            exact id
          · rw [memory_of_object K s1 m1 hm1, p2]
            exact id
        have eh : (memory K s1).hostPtr = (memory K s).hostPtr := by
          rw [memory_of_object K s1 m1 hm1, p1, m0]
        have ed : (memory K s1).devPtr = (memory K s).devPtr := by
          rw [memory_of_object K s1 m1 hm1, p2, m0]
        have hrel : ∀ t, Sourced ((memory K s).hostPtr ≠ none) ((memory K s).devPtr ≠ none)
            s1 t →
            Sourced ((memory K s).hostPtr ≠ none) ((memory K s).devPtr ≠ none) s
              (unmapRelease K E (unmapMark K E t)) := fun t ht =>
          (ht.next ((unmapRelease_quiet K E t).imp False.elim False.elim)).from_trace t1
        dsimp only at h
        split_ifs at h with ca
        · rcases hmap : map s1 K.MAP_DEVICE_ARRAY 0 with _ | ⟨s2, _ | p⟩
          · rw [hmap] at h
            cases h
          · rw [hmap] at h
            cases h
            have := hM s1 _ none hmap c1 hi1
            rw [eh, ed] at this
            exact this.from_trace t1
          · rw [hmap] at h
            cases h
            have := hM s1 _ (some p) hmap c1 hi1
            rw [eh, ed] at this
            exact hrel _ this
        · cases h
          exact hrel _ (Sourced.rest s1)

/-- The method `unmap` copies from the host and from the device memory only
when they were allocated before the call, at every depth of recursion. -/
theorem unmap_sourced (K : Header) (E : Env) (hK : K.SyncBits)
    (hA : K.isArrayMapping K.MAP_DEVICE_ARRAY) :
    ∀ (fuel : Nat) (s s' : TextureMemory), unmap K E fuel s = some s' →
      (s.isClear = true → s._object = none) → Consistent K s →
      Sourced ((memory K s).hostPtr ≠ none) ((memory K s).devPtr ≠ none) s s' := by
  intro fuel
  induction fuel with
  | zero =>
    intro s s' h
    cases h
  | succ fuel ih =>
    intro s s' h hwf hi
    unfold unmap at h
    refine unmapBody_sourced _ K E s s' hwf (fun t t' r hm hct hit => ?_) hi h
    exact mapBody_sourced (unmap K E fuel) K E t t' K.MAP_DEVICE_ARRAY 0 r hK
      (fun hx' => by rw [hct] at hx'; cases hx') (Or.inr (Or.inr (Or.inr hA)))
      (fun t t' hu hc hx =>
        (unmap_consistent K E hK hA fuel t t' hu (fun hx' => by rw [hc] at hx'; cases hx')
          hx).1)
      (unmap_frame K E hA.1 fuel)
      (fun t t' hu hc hx => ih t t' hu (fun hx' => by rw [hc] at hx'; cases hx') hx)
      hit hm

end osgCuda.TextureMemory

namespace osgCuda.TextureMemory

/-- The block "clear shadow-copy memory" of `reset` copies from the host and
from the device memory only when they were allocated before, in the `unmap` it
calls when a fill fails. -/
theorem resetDevice_sourced (K : Header) (E : Env) (fuel : Nat) (s s' : TextureMemory)
    (b : Bool) (hK : K.SyncBits) (hA : K.isArrayMapping K.MAP_DEVICE_ARRAY)
    (hc : s.isClear = false) (hi : Consistent K s)
    (h : resetDevice K E fuel s = some (s', b)) :
    Sourced ((memory K s).hostPtr ≠ none) ((memory K s).devPtr ≠ none) s s' := by
  have hun : ∀ t t', unmap K E fuel t = some t' → t.isClear = false →
      memory K t = memory K s →
      Sourced ((memory K s).hostPtr ≠ none) ((memory K s).devPtr ≠ none) t t' := by
    intro t t' hu hct hmt
    have hit : Consistent K t := hi.of_eq (by rw [hmt]) (by rw [hmt]; exact id)
      (by rw [hmt]; exact id)
    have := unmap_sourced K E hK hA fuel t t' hu (fun hx => by rw [hct] at hx; cases hx) hit
    rw [hmt] at this
    exact this
  have hp := getPitch_fst E s
  have hmp : memory K (getPitch E s).1 = memory K s := by
    simp only [memory, hp.2.2.2.2]
  have hcp : (getPitch E s).1.isClear = false := by rw [hp.1, hc]
  have hdp : Sourced ((memory K s).hostPtr ≠ none) ((memory K s).devPtr ≠ none) s
      (getPitch E s).1 := by
    unfold getPitch
    split_ifs
    · exact Sourced.rest s
    · exact ((Sourced.rest s).event Event.computePitch ⟨rfl, rfl⟩).of_trace rfl
    · exact Sourced.rest s
  have hq : ∀ (site : Site) (ok : Bool), Site.copiesFrom site = none →
      Event.copiesFrom Representation.host (Event.call site ok) = false ∧
      Event.copiesFrom Representation.device (Event.call site ok) = false := by
    intro site ok hs
    simp [Event.copiesFrom, hs]
  unfold resetDevice at h
  split_ifs at h with c1 c2 c3
  · rcases hg : getPitch E s with ⟨sp, pitch⟩
    rw [hg] at h hmp hcp hdp
    simp only [TextureMemory.call] at h
    split_ifs at h
    · cases h
      exact (hdp.event _ (hq _ _ (by rfl))).of_modify K _
    · dsimp only at h
      split at h
      · cases h
      · rename_i t' heq
        cases h
        exact (hdp.event _ (hq _ _ (by rfl))).next (hun _ _ heq hcp hmp)
  · simp only [TextureMemory.call] at h
    split_ifs at h
    · cases h
      exact ((Sourced.rest s).event _ (hq _ _ (by rfl))).of_modify K _
    · dsimp only at h
      split at h
      · cases h
      · rename_i t' heq
        cases h
        exact ((Sourced.rest s).event _ (hq _ _ (by rfl))).next (hun _ _ heq hc rfl)
  · simp only [TextureMemory.call] at h
    split_ifs at h
    · cases h
      exact ((Sourced.rest s).event _ (hq _ _ (by rfl))).of_modify K _
    · dsimp only at h
      split at h
      · cases h
      · rename_i t' heq
        cases h
        exact ((Sourced.rest s).event _ (hq _ _ (by rfl))).next (hun _ _ heq hc rfl)
  · cases h
    exact Sourced.rest s

/-- The method `reset` copies from the host and from the device memory only
when they were allocated before the call. -/
theorem reset_sourced (K : Header) (E : Env) (fuel : Nat) (s s' : TextureMemory)
    (b : Bool) (hK : K.SyncBits) (hA : K.isArrayMapping K.MAP_DEVICE_ARRAY)
    (hN : K.NO_SYNC = 0) (hwf : s.isClear = true → s._object = none) (hi : Consistent K s)
    (h : reset K E fuel s = some (s', b)) :
    Sourced ((memory K s).hostPtr ≠ none) ((memory K s).devPtr ≠ none) s s' := by
  unfold reset at h
  cases hv : E.texrefValid
  · simp only [hv, Bool.not_false, if_true] at h
    cases h
    exact Sourced.rest s
  · simp only [hv, Bool.not_true, Bool.false_eq_true, if_false] at h
    rcases h0 : (if s.isClear then init E s else (s, true)) with ⟨s0, b0⟩
    obtain ⟨hi0, w0, c0⟩ := entry_consistent K E s s0 b0 hwf hv hi h0
    obtain ⟨t0, m0⟩ := entry_trace K E s s0 b0 hwf hv h0
    rw [h0] at h
    cases b0
    · cases h
      exact (Sourced.rest _).from_trace t0
    · dsimp only at h
      have htr := object_trace K s0
      rcases ho : TextureMemory.object K s0 with ⟨s1, _ | m1⟩
      · rw [ho] at h htr
        cases h
        exact (Sourced.rest _).from_trace (htr.trans t0)
      · rw [ho] at h htr
        have t1 : s1.trace = s.trace := htr.trans t0
        obtain ⟨hm1, c1⟩ := object_some K s0 s1 m1 ho
        obtain ⟨p1, p2, -⟩ := object_memory K s0 s1 m1 ho
        dsimp only at h
        obtain ⟨sz, hsz⟩ : ∃ sz, sz = modify K
            (modify K s1 (fun m => { m with lastModifiedCount := UINT_MAX }))
            (fun m => { m with syncOp := K.NO_SYNC }) := ⟨_, rfl⟩
        rw [← hsz] at h
        have hz : (memory K sz).syncOp = 0 := by
          rw [hsz]
          exact hN
        have hiz : Consistent K sz :=
          Consistent.of_no_flags K sz (by rw [hz]; simp [hasFlag]) (by rw [hz]; simp [hasFlag])
            (by rw [hz]; simp [hasFlag])
        have hcz : sz.isClear = false := by
          rw [hsz]
          exact c1
        have hzh : (memory K sz).hostPtr = (memory K s).hostPtr := by
          rw [hsz, ← m0, ← p1, ← memory_of_object K s1 m1 hm1]
          rfl
        have hzd : (memory K sz).devPtr = (memory K s).devPtr := by
          rw [hsz, ← m0, ← p2, ← memory_of_object K s1 m1 hm1]
          rfl
        have tz : sz.trace = s.trace := by
          rw [hsz]
          exact t1
        obtain ⟨hih, hch⟩ := resetHost_consistent K E sz hiz
        have hhh : (memory K (resetHost K E sz)).hostPtr = (memory K sz).hostPtr := by
          unfold resetHost
          split_ifs <;> rfl
        have hhd : (memory K (resetHost K E sz)).devPtr = (memory K sz).devPtr := by
          unfold resetHost
          split_ifs <;> rfl
        have dr := resetDevice_sourced K E fuel _ s' b hK hA (by rw [hch, hcz]) hih h
        rw [hhh, hhd, hzh, hzd] at dr
        exact (((resetHost_quiet K E sz).imp False.elim False.elim).next dr).from_trace tz

/-- C26: in every state that is reached from a memory that was just created by
calls of `map` with mappings that `supportsMapping` accepts, of `unmap` and of
`reset`, a call of `sync`, and each `sync` inside a next call of `map`, `unmap`
or `reset`, calls a primitive that copies from the host memory only when the
host memory is allocated in that state, and a primitive that copies from the
device memory only when the device memory is allocated in that state. -/
theorem sync_source_allocated (K : Header) (hK : K.SyncBits) (hC : K.Classified)
    (hN : K.NO_SYNC = 0) (s : TextureMemory) (hr : Reachable K s) :
    (∀ (E : Env) (mapping : Nat),
      Sourced ((memory K s).hostPtr ≠ none) ((memory K s).devPtr ≠ none) s
        (sync K E s mapping).1) ∧
    (∀ (E : Env) (fuel mapping offset : Nat) (s' : TextureMemory) (r : Option Nat),
      supportsMapping K E mapping = true → map K E fuel s mapping offset = some (s', r) →
      Sourced ((memory K s).hostPtr ≠ none) ((memory K s).devPtr ≠ none) s s') ∧
    (∀ (E : Env) (fuel : Nat) (s' : TextureMemory), unmap K E fuel s = some s' →
      Sourced ((memory K s).hostPtr ≠ none) ((memory K s).devPtr ≠ none) s s') ∧
    (∀ (E : Env) (fuel : Nat) (s' : TextureMemory) (b : Bool),
      reset K E fuel s = some (s', b) →
      Sourced ((memory K s).hostPtr ≠ none) ((memory K s).devPtr ≠ none) s s') := by
  obtain ⟨hi, hwf⟩ := reachable_consistent K hK hC hN s hr
  obtain ⟨cH, cHS, cHT, cD, cDS, cDT, cA⟩ := hC
  refine ⟨fun E mapping => sync_sources K E s mapping hK hi.2 (fun _ hx => hx)
    (fun _ hx => hx), fun E fuel mapping offset s' r hs hm => ?_,
    fun E fuel s' hu => unmap_sourced K E hK cA fuel s s' hu hwf hi,
    fun E fuel s' b hres => reset_sourced K E fuel s s' b hK cA hN hwf hi hres⟩
  have hcls : mapping = K.UNMAP ∨ K.isHostMapping mapping ∨ K.isDeviceMapping mapping ∨
      K.isArrayMapping mapping := by
    unfold supportsMapping at hs
    split_ifs at hs
    simp only [Bool.or_eq_true, beq_iff_eq] at hs
    rcases hs with ((((((e | e) | e) | e) | e) | e) | e) | e
    · exact Or.inl e
    · exact Or.inr (Or.inl (e ▸ cH))
    · exact Or.inr (Or.inl (e ▸ cHS))
    · exact Or.inr (Or.inl (e ▸ cHT))
    · exact Or.inr (Or.inr (Or.inl (e ▸ cD)))
    · exact Or.inr (Or.inr (Or.inl (e ▸ cDS)))
    · exact Or.inr (Or.inr (Or.inl (e ▸ cDT)))
    · exact Or.inr (Or.inr (Or.inr (e ▸ cA)))
  exact mapBody_sourced (unmap K E fuel) K E s s' mapping offset r hK hwf hcls
    (fun t t' hu hc hx =>
      (unmap_consistent K E hK cA fuel t t' hu (fun hx' => by rw [hc] at hx'; cases hx')
        hx).1)
    (unmap_frame K E cA.1 fuel)
    (fun t t' hu hc hx =>
      unmap_sourced K E hK cA fuel t t' hu (fun hx' => by rw [hc] at hx'; cases hx') hx)
    hi hm

/-- An instance of C26: on the memory `hostWritten`, whose device flag is set
and whose host flag is clear, `map( MAP_DEVICE_SOURCE )` allocates the device
memory and has `sync` copy from the host memory, which was allocated before. -/
theorem sync_source_allocated_witness :
    (memory sampleHeader hostWritten).hostPtr = some 1000 ∧
    ((map sampleHeader sampleEnv 0 hostWritten 0x100 0).getD (hostWritten, none)).1.trace =
      hostWritten.trace ++ [Event.call Site.allocMallocPitch true,
        Event.call Site.syncDeviceFromHostMemcpy true] ∧
    Sourced ((memory sampleHeader hostWritten).hostPtr ≠ none)
      ((memory sampleHeader hostWritten).devPtr ≠ none) hostWritten
      ((map sampleHeader sampleEnv 0 hostWritten 0x100 0).getD (hostWritten, none)).1 :=
  ⟨by decide, by decide,
    (sync_source_allocated sampleHeader
      ⟨0, 4, 8, rfl, rfl, rfl, by decide, by decide, by decide⟩ (by decide) rfl hostWritten
      (Reachable.byMap sampleEnv 0 (create sampleHeader) hostWritten 0x10 0 (some 1000)
        (Reachable.fresh sampleHeader.GL_SOURCE_COMPUTE_SOURCE) (by decide) (by rfl))).2.1
      sampleEnv 0 0x100 0
      ((map sampleHeader sampleEnv 0 hostWritten 0x100 0).getD (hostWritten, none)).1
      (some 1001) (by decide) (by rfl)⟩

end osgCuda.TextureMemory
